import Mathlib

/-!
# Peridigm: partition maps, bond maps, contact search and rebalance

A shallow embedding of the rebalance engine of `src/src/Peridigm.cpp`
(`rebalance`, `currentConfigurationDecomp`, `createRebalancedBondMap`,
`createRebalancedNeighborGlobalIDList`, `createRebalancedNeighborhoodData`, `contactSearch`,
`createRebalancedContactNeighborhoodData`), of the constructor and the set-up functions
`instantiateMaterials`, `initializeDiscretization`, `initializeDataManager` and
`initializeContact`, of the rebalance test of `executeExplicit`, of `applyKinematicBC` as
`computeResidual` calls it, and of `FieldSpec` from `src/io/mesh_output/vtk/Field.cxx`.
`PeridigmNS::State`, of which the sources hold the unit test `src/src/utPeridigm_State.cpp`
only, is modelled as keyed field storage; the two tests of that file are embedded and shown to
pass on the model.

Conventions of the embedding

* a C++ `int` that holds a GlobalID, a local ID (with the sentinel `-1`) or a value stored in a
  buffer is an `Int`; loop counters, array positions and block sizes, which the code only ever
  counts upwards from `0`, are `Nat`.  No arithmetic of these functions can leave the 32-bit range
  unless the buffers themselves exceed it, so no wrap-around is modelled;
* an `Epetra_Vector` that carries integer data (bond counts, neighbor GlobalIDs) as `double` and is
  read back with an `(int)` cast is the list of the integers it carries;
* a `for(int i=0 ; i<n ; ++i)` loop is a left fold over `List.range n`;
* a buffer that the code fills strictly front to back through a running index
  (`buf[index++] = v`) is the list of the values written so far, the running index being its
  length;
* `TEST_FOR_EXCEPTION(cond, Teuchos::RangeError, msg)` is `Except.error msg`.
-/

namespace Peridigm

/-! ## Epetra_BlockMap -/

/-- Modelled from the spec: `Epetra_BlockMap` (Trilinos) is used by the sources but not defined in
them.  Following the PartitionMap of the spec it is the ordered sequence of the GlobalIDs held by
this process, each with its block size (Epetra admits positive block sizes only). -/
structure BlockMap where
  elements : List (Int × Nat)
deriving DecidableEq, Repr

namespace BlockMap

/-- The GlobalIDs of the map in local order: `MyGlobalElements()`. -/
def MyGlobalElements (m : BlockMap) : List Int := m.elements.map Prod.fst

/-- The block sizes of the map in local order: `ElementSizeList()`. -/
def ElementSizeList (m : BlockMap) : List Nat := m.elements.map Prod.snd

/-- Counts the local elements: `NumMyElements()`. -/
def NumMyElements (m : BlockMap) : Nat := m.elements.length

/-- Counts the local points, the sum of the block sizes: `NumMyPoints()`. -/
def NumMyPoints (m : BlockMap) : Nat := m.ElementSizeList.sum

/-- Local ID of a GlobalID, `-1` when the GlobalID is not in the map: `LID(gid)`. -/
def LID (m : BlockMap) (gid : Int) : Int :=
  if gid ∈ m.MyGlobalElements then (m.MyGlobalElements.indexOf gid : Int) else -1

/-- Tells whether the GlobalID is held by this process: `MyGID(gid)`. -/
def MyGID (m : BlockMap) (gid : Int) : Bool := m.LID gid != -1

/-- GlobalID of a local ID, `-1` when the local ID is out of range: `GID(lid)`. -/
def GID (m : BlockMap) (lid : Int) : Int :=
  if lid < 0 then -1 else m.MyGlobalElements.getD lid.toNat (-1)

/-- Block size of a local element: `ElementSize(lid)`; `0` stands for the unspecified result of an
out-of-range local ID. -/
def ElementSize (m : BlockMap) (lid : Int) : Nat :=
  if lid < 0 then 0 else m.ElementSizeList.getD lid.toNat 0

/-- Offset of the first point of a local element: `FirstPointInElementList()[lid]`. -/
def FirstPointInElementList (m : BlockMap) (lid : Int) : Nat :=
  (m.ElementSizeList.take lid.toNat).sum

/-- The constructor `Epetra_BlockMap(-1, numMyElements, myGlobalElements, elementSize, 0, comm)`
with one block size for all elements: it reads the first `numMyElements` entries of the array. -/
def mkUniform (numMyElements : Nat) (myGlobalElements : List Int) (elementSize : Nat) :
    BlockMap :=
  ⟨(myGlobalElements.take numMyElements).map (fun g => (g, elementSize))⟩

/-- The constructor
`Epetra_BlockMap(-1, numMyElements, myGlobalElements, elementSizeList, 0, comm)` with a block size
per element: it reads the first `numMyElements` entries of both arrays. -/
def mkVariable (numMyElements : Nat) (myGlobalElements : List Int) (elementSizeList : List Int) :
    BlockMap :=
  ⟨(myGlobalElements.take numMyElements).zip
    ((elementSizeList.take numMyElements).map Int.toNat)⟩

end BlockMap

/-! ## std::set<int> and std::map<int, vector<int>> -/

/-- Insertion into a `std::set<int>`, kept as its strictly ascending list of members:
`s.insert(x)`. -/
def setInsert (x : Int) : List Int → List Int
  | [] => [x]
  | y :: ys => if x < y then x :: y :: ys else if x = y then y :: ys else y :: setInsert x ys

/-- The access `m[k]` of a `std::map<int, vector<int> >`, kept as its list of entries in ascending
key order: an absent key is created with an empty vector. -/
def mapTouch (k : Int) : List (Int × List Int) → List (Int × List Int)
  | [] => [(k, [])]
  | (j, v) :: rest =>
    if k < j then (k, []) :: (j, v) :: rest
    else if k = j then (j, v) :: rest
    else (j, v) :: mapTouch k rest

/-- A `push_back(x)` through the reference returned by `m[k]`. -/
def mapPushBack (k : Int) (x : Int) : List (Int × List Int) → List (Int × List Int)
  | [] => []
  | (j, v) :: rest => if k = j then (j, v ++ [x]) :: rest else (j, v) :: mapPushBack k x rest

/-- The member `m.count(k)` of a `std::map`. -/
def mapCount (m : List (Int × List Int)) (k : Int) : Nat :=
  if k ∈ m.map Prod.fst then 1 else 0

/-- The vector stored under a key, read without creating it (empty when the key is absent). -/
def mapGet : List (Int × List Int) → Int → List Int
  | [], _ => []
  | (j, v) :: rest, k => if k = j then v else mapGet rest k

/-! ## createRebalancedBondMap -/

/-- The first loop of `createRebalancedBondMap`: the bond count of every currently owned point,
written into a zero-initialised `Epetra_Vector` over the owned map. -/
def numberOfBonds (oneDimensionalMap bondMap : BlockMap) : List Int :=
  (List.range oneDimensionalMap.NumMyElements).foldl
    (fun (numberOfBonds : List Int) (i : Nat) =>
      let globalID := oneDimensionalMap.GID i
      let bondMapLocalID := bondMap.LID globalID
      if bondMapLocalID != -1 then
        numberOfBonds.set i (bondMap.ElementSize i : Int)
      else numberOfBonds)
    (List.replicate oneDimensionalMap.NumMyElements 0)

/-- The local variables of the second loop of `createRebalancedBondMap`. -/
structure BondMapBuild where
  numMyElements : Nat
  myGlobalElements : List Int
  elementSizeList : List Int
  numPointsWithZeroNeighbors : Nat
deriving DecidableEq, Repr

/-- One pass of the second loop of `createRebalancedBondMap`. -/
def bondMapStep (rebalancedOneDimensionalMap : BlockMap) (rebalancedNumberOfBonds : List Int)
    (s : BondMapBuild) (i : Nat) : BondMapBuild :=
  let numBonds := rebalancedNumberOfBonds.getD i 0
  if numBonds > 0 then
    { s with
      numMyElements := s.numMyElements + 1
      myGlobalElements :=
        s.myGlobalElements.set (i - s.numPointsWithZeroNeighbors)
          (rebalancedOneDimensionalMap.MyGlobalElements.getD i 0)
      elementSizeList := s.elementSizeList.set (i - s.numPointsWithZeroNeighbors) numBonds }
  else
    { s with numPointsWithZeroNeighbors := s.numPointsWithZeroNeighbors + 1 }

/-- The second half of `createRebalancedBondMap`, from the imported bond counts on: the two
arrays of `numMyElementsUpperBound` entries are filled by the loop and handed to the
`Epetra_BlockMap` constructor together with `numMyElements`. -/
def createRebalancedBondMapFromCounts (rebalancedOneDimensionalMap : BlockMap)
    (rebalancedNumberOfBonds : List Int) : BlockMap :=
  let numMyElementsUpperBound := rebalancedOneDimensionalMap.NumMyElements
  let s := (List.range numMyElementsUpperBound).foldl
    (bondMapStep rebalancedOneDimensionalMap rebalancedNumberOfBonds)
    ⟨0, List.replicate numMyElementsUpperBound 0, List.replicate numMyElementsUpperBound 0, 0⟩
  BlockMap.mkVariable s.numMyElements s.myGlobalElements s.elementSizeList

/-- The function `createRebalancedBondMap`: bond counts of the current layout, their import into
the rebalanced owned layout (the `Epetra_Import` is the parameter `importCounts`), and the
construction of the rebalanced bond map. -/
def createRebalancedBondMap (oneDimensionalMap bondMap rebalancedOneDimensionalMap : BlockMap)
    (importCounts : List Int → List Int) : BlockMap :=
  createRebalancedBondMapFromCounts rebalancedOneDimensionalMap
    (importCounts (numberOfBonds oneDimensionalMap bondMap))

/-! ## Errors and NeighborhoodData -/

/-- The exceptions raised through `TEST_FOR_EXCEPTION`, through `TEST_FOR_EXCEPT_MSG` (a
`std::logic_error`), by the typed accessors of `Teuchos::ParameterList` (the subclasses
`InvalidParameterName` and `InvalidParameterType` of `InvalidParameter`) and by
`Teuchos::getValue<T>` on an entry of another type (`bad_any_cast`). -/
inductive TeuchosError where
  | RangeError (msg : String)
  | InvalidParameter (msg : String)
  | InvalidParameterName (msg : String)
  | InvalidParameterType (msg : String)
  | LogicError (msg : String)
  | bad_any_cast (msg : String)
deriving DecidableEq, Repr

/-- Tells whether an exception is a `Teuchos::Exceptions::InvalidParameter`, the class itself or
one of its subclasses `InvalidParameterName` and `InvalidParameterType`. -/
def TeuchosError.isInvalidParameter : TeuchosError → Bool
  | TeuchosError.InvalidParameter _ => true
  | TeuchosError.InvalidParameterName _ => true
  | TeuchosError.InvalidParameterType _ => true
  | _ => false

/-- Modelled from the spec: `PeridigmNS::NeighborhoodData` is declared outside the sources.  It
holds, for the owned points in owned-map order, their local IDs, one flat buffer of records
`numNeighbors, n1LID, n2LID, ...` and the table of the offsets of the records in that buffer.
`neighborhoodListSize` is the length the flat buffer was allocated with. -/
structure NeighborhoodData where
  numOwnedPoints : Nat
  ownedIDs : List Int
  neighborhoodListSize : Nat
  neighborhoodList : List Int
  neighborhoodPtr : List Nat
deriving DecidableEq, Repr

/-! ## contactSearch -/

/-- The fields of `PdGridData` that `contactSearch` reads once `createAndAddNeighborhood` (the
external proximity search) has filled them: the number of points, their GlobalIDs and the flat
search result `numNeighbors, n1GID, n2GID, ...`. -/
structure PdGridData where
  numPoints : Nat
  myGlobalIDs : List Int
  neighborhood : List Int
deriving DecidableEq, Repr

/-- The running variables of `contactSearch`: the read position in the search result and the two
output containers. -/
structure ContactSearchState where
  searchListIndex : Nat
  contactNeighborGlobalIDs : List (Int × List Int)
  offProcessorContactIDs : List Int
deriving DecidableEq, Repr

/-- The `std::list` of the GlobalIDs a point is bonded to, as `contactSearch` builds it for every
point: empty without an entry in the bond map, else the block of the point read from the
neighbor GlobalID vector (a read beyond the vector is given the value `0`). -/
def bondedNeighbors (rebalancedBondMap : BlockMap) (rebalancedNeighborGlobalIDs : List Int)
    (globalID : Int) : List Int :=
  let tempLocalID := rebalancedBondMap.LID globalID
  if tempLocalID != -1 then
    let firstNeighbor := rebalancedBondMap.FirstPointInElementList tempLocalID
    let numNeighbors := rebalancedBondMap.ElementSize tempLocalID
    (List.range numNeighbors).foldl
      (fun (bondedNeighbors : List Int) (i : Nat) =>
        bondedNeighbors ++ [rebalancedNeighborGlobalIDs.getD (firstNeighbor + i) 0])
      []
  else []

/-- One pass of the inner loop of `contactSearch` over the neighbors found by the search: a
neighbor that is not in `bondedNeighbors` is kept, and recorded as off-processor when the owned
map does not hold it. -/
def contactSearchNeighbor (rebalancedOneDimensionalMap : BlockMap) (bondedNeighbors : List Int)
    (globalID : Int) (searchNeighborhood : List Int) (s : ContactSearchState) (_iNeighbor : Nat) :
    ContactSearchState :=
  let globalNeighborID := searchNeighborhood.getD s.searchListIndex 0
  let searchListIndex := s.searchListIndex + 1
  if globalNeighborID ∉ bondedNeighbors then
    { searchListIndex := searchListIndex
      contactNeighborGlobalIDs := mapPushBack globalID globalNeighborID s.contactNeighborGlobalIDs
      offProcessorContactIDs :=
        if rebalancedOneDimensionalMap.LID globalNeighborID = -1 then
          setInsert globalNeighborID s.offProcessorContactIDs
        else s.offProcessorContactIDs }
  else
    { s with searchListIndex := searchListIndex }

/-- One pass of the outer loop of `contactSearch` over the searched points. -/
def contactSearchPoint (rebalancedOneDimensionalMap rebalancedBondMap : BlockMap)
    (rebalancedNeighborGlobalIDs : List Int) (rebalancedDecomp : PdGridData)
    (s : ContactSearchState) (iPt : Nat) : ContactSearchState :=
  let globalID := rebalancedDecomp.myGlobalIDs.getD iPt 0
  let contactNeighborGlobalIDs := mapTouch globalID s.contactNeighborGlobalIDs
  let bonded := bondedNeighbors rebalancedBondMap rebalancedNeighborGlobalIDs globalID
  let searchNumNeighbors := rebalancedDecomp.neighborhood.getD s.searchListIndex 0
  (List.range searchNumNeighbors.toNat).foldl
    (contactSearchNeighbor rebalancedOneDimensionalMap bonded globalID
      rebalancedDecomp.neighborhood)
    { searchListIndex := s.searchListIndex + 1
      contactNeighborGlobalIDs := contactNeighborGlobalIDs
      offProcessorContactIDs := s.offProcessorContactIDs }

/-- The function `contactSearch`, from the result of the proximity search on: `rebalancedDecomp`
is the decomposition as `createAndAddNeighborhood` returned it, the last two arguments are the
containers passed in by the caller. -/
def contactSearch (rebalancedOneDimensionalMap rebalancedBondMap : BlockMap)
    (rebalancedNeighborGlobalIDs : List Int) (rebalancedDecomp : PdGridData)
    (contactNeighborGlobalIDs : List (Int × List Int)) (offProcessorContactIDs : List Int) :
    ContactSearchState :=
  (List.range rebalancedDecomp.numPoints).foldl
    (contactSearchPoint rebalancedOneDimensionalMap rebalancedBondMap
      rebalancedNeighborGlobalIDs rebalancedDecomp)
    { searchListIndex := 0
      contactNeighborGlobalIDs := contactNeighborGlobalIDs
      offProcessorContactIDs := offProcessorContactIDs }

/-- A well-formed search result: the points with their raw neighbor lists, laid out as
`createAndAddNeighborhood` lays them out in `PdGridData`. -/
def PdGridData.ofSearch (search : List (Int × List Int)) : PdGridData :=
  { numPoints := search.length
    myGlobalIDs := search.map Prod.fst
    neighborhood := search.flatMap (fun e => (e.2.length : Int) :: e.2) }

/-- The block of a point in the bond-map layout of the neighbor GlobalID vector: its bonded
neighbors, none when the point has no entry in the bond map. -/
def bondBlock (rebalancedBondMap : BlockMap) (rebalancedNeighborGlobalIDs : List Int)
    (globalID : Int) : List Int :=
  if rebalancedBondMap.LID globalID = -1 then []
  else
    (rebalancedNeighborGlobalIDs.drop
      (rebalancedBondMap.FirstPointInElementList (rebalancedBondMap.LID globalID))).take
      (rebalancedBondMap.ElementSize (rebalancedBondMap.LID globalID))

/-! ## createRebalancedNeighborhoodData -/

/-- The first loop of `createRebalancedNeighborhoodData` and of
`createRebalancedContactNeighborhoodData`: the overlap-map local ID of every owned point. -/
def ownedIDsLoop (rebalancedOneDimensionalMap rebalancedOneDimensionalOverlapMap : BlockMap) :
    Except TeuchosError (List Int) :=
  (List.range rebalancedOneDimensionalMap.NumMyElements).foldlM
    (fun (ownedIDs : List Int) (i : Nat) =>
      let globalID := rebalancedOneDimensionalMap.GID i
      let localID := rebalancedOneDimensionalOverlapMap.LID globalID
      if localID = -1 then
        Except.error
          (TeuchosError.RangeError "Invalid index into rebalancedOneDimensionalOverlapMap")
      else Except.ok (ownedIDs ++ [localID]))
    []

/-- The inner loop of `createRebalancedNeighborhoodData`: the local ID of each neighbor of one
point is appended to the flat buffer. -/
def neighborLoop (rebalancedOneDimensionalOverlapMap : BlockMap)
    (rebalancedNeighborGlobalIDs : List Int) (offset numNeighbors : Nat)
    (neighborhoodList : List Int) : Except TeuchosError (List Int) :=
  (List.range numNeighbors).foldlM
    (fun (neighborhoodList : List Int) (iN : Nat) =>
      let globalNeighborID := rebalancedNeighborGlobalIDs.getD (offset + iN) 0
      let localNeighborID := rebalancedOneDimensionalOverlapMap.LID globalNeighborID
      if localNeighborID = -1 then
        Except.error
          (TeuchosError.RangeError "Invalid index into rebalancedOneDimensionalOverlapMap")
      else Except.ok (neighborhoodList ++ [localNeighborID]))
    neighborhoodList

/-- One pass of the loop over the locally owned points of `createRebalancedNeighborhoodData`; the
state is the flat buffer and the offset table written so far. -/
def neighborhoodStep
    (rebalancedOneDimensionalMap rebalancedOneDimensionalOverlapMap rebalancedBondMap : BlockMap)
    (rebalancedNeighborGlobalIDs : List Int) (s : List Int × List Nat) (iLID : Nat) :
    Except TeuchosError (List Int × List Nat) :=
  let neighborhoodPtr := s.2 ++ [s.1.length]
  let globalID := rebalancedOneDimensionalMap.GID iLID
  let rebalancedBondMapLocalID := rebalancedBondMap.LID globalID
  if rebalancedBondMapLocalID != -1 then
    let numNeighbors := rebalancedBondMap.ElementSize rebalancedBondMapLocalID
    let offset := rebalancedBondMap.FirstPointInElementList rebalancedBondMapLocalID
    (neighborLoop rebalancedOneDimensionalOverlapMap rebalancedNeighborGlobalIDs offset
      numNeighbors (s.1 ++ [(numNeighbors : Int)])).map (fun l => (l, neighborhoodPtr))
  else Except.ok (s.1 ++ [0], neighborhoodPtr)

/-- The function `createRebalancedNeighborhoodData`. -/
def createRebalancedNeighborhoodData
    (rebalancedOneDimensionalMap rebalancedOneDimensionalOverlapMap rebalancedBondMap : BlockMap)
    (rebalancedNeighborGlobalIDs : List Int) : Except TeuchosError NeighborhoodData := do
  let ownedIDs ← ownedIDsLoop rebalancedOneDimensionalMap rebalancedOneDimensionalOverlapMap
  let neighborhoodListSize :=
    rebalancedOneDimensionalMap.NumMyElements + rebalancedBondMap.NumMyPoints
  let s ← (List.range rebalancedOneDimensionalMap.NumMyElements).foldlM
    (neighborhoodStep rebalancedOneDimensionalMap rebalancedOneDimensionalOverlapMap
      rebalancedBondMap rebalancedNeighborGlobalIDs)
    ([], [])
  pure
    { numOwnedPoints := rebalancedOneDimensionalMap.NumMyElements
      ownedIDs := ownedIDs
      neighborhoodListSize := neighborhoodListSize
      neighborhoodList := s.1
      neighborhoodPtr := s.2 }

/-! ## createRebalancedContactNeighborhoodData -/

/-- One pass of the loop over the locally owned points of
`createRebalancedContactNeighborhoodData`. -/
def contactNeighborhoodStep (contactNeighborGlobalIDs : List (Int × List Int))
    (rebalancedOneDimensionalMap rebalancedOneDimensionalOverlapMap : BlockMap)
    (s : List Int × List Nat) (iLID : Nat) : Except TeuchosError (List Int × List Nat) :=
  let neighborhoodPtr := s.2 ++ [s.1.length]
  let globalID := rebalancedOneDimensionalMap.GID iLID
  if mapCount contactNeighborGlobalIDs globalID = 0 then
    Except.error (TeuchosError.RangeError "Invalid index into contactNeighborGlobalIDs")
  else
    let neighborGlobalIDs := mapGet contactNeighborGlobalIDs globalID
    let neighborhoodList := s.1 ++ [(neighborGlobalIDs.length : Int)]
    Except.ok
      ((List.range neighborGlobalIDs.length).foldl
        (fun (neighborhoodList : List Int) (iNeighbor : Nat) =>
          neighborhoodList ++
            [rebalancedOneDimensionalOverlapMap.LID (neighborGlobalIDs.getD iNeighbor 0)])
        neighborhoodList,
       neighborhoodPtr)

/-- The function `createRebalancedContactNeighborhoodData`. -/
def createRebalancedContactNeighborhoodData (contactNeighborGlobalIDs : List (Int × List Int))
    (rebalancedOneDimensionalMap rebalancedOneDimensionalOverlapMap : BlockMap) :
    Except TeuchosError NeighborhoodData := do
  let ownedIDs ← ownedIDsLoop rebalancedOneDimensionalMap rebalancedOneDimensionalOverlapMap
  let neighborhoodListSize :=
    contactNeighborGlobalIDs.foldl (fun (size : Nat) e => size + (e.2.length + 1)) 0
  let s ← (List.range rebalancedOneDimensionalMap.NumMyElements).foldlM
    (contactNeighborhoodStep contactNeighborGlobalIDs rebalancedOneDimensionalMap
      rebalancedOneDimensionalOverlapMap)
    ([], [])
  pure
    { numOwnedPoints := rebalancedOneDimensionalMap.NumMyElements
      ownedIDs := ownedIDs
      neighborhoodListSize := neighborhoodListSize
      neighborhoodList := s.1
      neighborhoodPtr := s.2 }

/-! ## rebalance -/

/-- The loop of `rebalance` that collects, from the rebalanced neighbor GlobalID vector, the
GlobalIDs the rebalanced owned map does not hold. -/
def offProcessorBondIDs (rebalancedOneDimensionalMap : BlockMap)
    (rebalancedNeighborGlobalIDs : List Int) : List Int :=
  (List.range rebalancedNeighborGlobalIDs.length).foldl
    (fun (offProcessorIDs : List Int) (i : Nat) =>
      let globalID := rebalancedNeighborGlobalIDs.getD i 0
      if !rebalancedOneDimensionalMap.MyGID globalID then setInsert globalID offProcessorIDs
      else offProcessorIDs)
    []

/-- The array `myGlobalElements` that `rebalance` hands to the overlap-map constructors: the
owned GlobalIDs copied to the front by `MyGlobalElements(int*)`, then the members of
`offProcessorIDs` written in set order from `offset` on. -/
def overlapGlobalElements (rebalancedOneDimensionalMap : BlockMap) (offProcessorIDs : List Int) :
    List Int :=
  let offset := rebalancedOneDimensionalMap.NumMyElements
  (List.range offProcessorIDs.length).foldl
    (fun (myGlobalElements : List Int) (index : Nat) =>
      myGlobalElements.set (offset + index) (offProcessorIDs.getD index 0))
    (rebalancedOneDimensionalMap.MyGlobalElements ++ List.replicate offProcessorIDs.length 0)

/-- What `rebalance` computes on the way to the new overlap maps. -/
structure RebalancedMaps where
  offProcessorIDs : List Int
  contactNeighborGlobalIDs : List (Int × List Int)
  offProcessorContactIDs : List Int
  rebalancedOneDimensionalOverlapMap : BlockMap
  rebalancedThreeDimensionalOverlapMap : BlockMap
deriving DecidableEq, Repr

/-- The part of `rebalance` from the ghost requirement to the overlap maps.  The rebalanced owned
map, bond map and neighbor GlobalID vector are the results of the partitioner and of the imports;
`rebalancedDecomp` is the decomposition after the proximity search of `contactSearch`. -/
def rebalanceMaps (analysisHasContact : Bool)
    (rebalancedOneDimensionalMap rebalancedBondMap : BlockMap)
    (rebalancedNeighborGlobalIDs : List Int) (rebalancedDecomp : PdGridData) : RebalancedMaps :=
  let offProcessorIDs := offProcessorBondIDs rebalancedOneDimensionalMap rebalancedNeighborGlobalIDs
  let contact :=
    if analysisHasContact then
      contactSearch rebalancedOneDimensionalMap rebalancedBondMap rebalancedNeighborGlobalIDs
        rebalancedDecomp [] []
    else { searchListIndex := 0, contactNeighborGlobalIDs := [], offProcessorContactIDs := [] }
  let offProcessorIDs :=
    contact.offProcessorContactIDs.foldl (fun (ids : List Int) (it : Int) => setInsert it ids)
      offProcessorIDs
  let numMyElements := rebalancedOneDimensionalMap.NumMyElements + offProcessorIDs.length
  let myGlobalElements := overlapGlobalElements rebalancedOneDimensionalMap offProcessorIDs
  { offProcessorIDs := offProcessorIDs
    contactNeighborGlobalIDs := contact.contactNeighborGlobalIDs
    offProcessorContactIDs := contact.offProcessorContactIDs
    rebalancedOneDimensionalOverlapMap := BlockMap.mkUniform numMyElements myGlobalElements 1
    rebalancedThreeDimensionalOverlapMap := BlockMap.mkUniform numMyElements myGlobalElements 3 }

/-- The running variables of the loop of `createRebalancedNeighborGlobalIDList`: the read
position in the neighborhood list, the write position in the GlobalID vector, and that vector. -/
structure NeighborGlobalIDState where
  neighborhoodListIndex : Nat
  neighborGlobalIDIndex : Nat
  neighborGlobalIDs : List Int
deriving DecidableEq, Repr

/-- One pass of the inner loop of `createRebalancedNeighborGlobalIDList`: the next local ID of
the neighborhood list is turned into its GlobalID in the current overlap map and written to the
next position of the vector. -/
def neighborGlobalIDsNeighbor (oneDimensionalOverlapMap : BlockMap)
    (neighborhoodList : List Int) (s : NeighborGlobalIDState) (_j : Nat) :
    NeighborGlobalIDState :=
  let neighborLocalID := neighborhoodList.getD s.neighborhoodListIndex 0
  { neighborhoodListIndex := s.neighborhoodListIndex + 1
    neighborGlobalIDIndex := s.neighborGlobalIDIndex + 1
    neighborGlobalIDs :=
      s.neighborGlobalIDs.set s.neighborGlobalIDIndex
        (oneDimensionalOverlapMap.GID neighborLocalID) }

/-- One pass of the outer loop of `createRebalancedNeighborGlobalIDList` over the owned points
of the current neighborhood data. -/
def neighborGlobalIDsPoint (oneDimensionalOverlapMap : BlockMap) (neighborhoodList : List Int)
    (s : NeighborGlobalIDState) (_i : Nat) : NeighborGlobalIDState :=
  let numNeighbors := neighborhoodList.getD s.neighborhoodListIndex 0
  (List.range numNeighbors.toNat).foldl
    (neighborGlobalIDsNeighbor oneDimensionalOverlapMap neighborhoodList)
    { s with neighborhoodListIndex := s.neighborhoodListIndex + 1 }

/-- The first half of `createRebalancedNeighborGlobalIDList`: the GlobalID neighbor list of the
current decomposition, a zero-initialised `Epetra_Vector` over the current bond map filled from
the current neighborhood data. -/
def neighborGlobalIDs (bondMap oneDimensionalOverlapMap : BlockMap)
    (neighborhoodData : NeighborhoodData) : List Int :=
  ((List.range neighborhoodData.numOwnedPoints).foldl
    (neighborGlobalIDsPoint oneDimensionalOverlapMap neighborhoodData.neighborhoodList)
    { neighborhoodListIndex := 0
      neighborGlobalIDIndex := 0
      neighborGlobalIDs := List.replicate bondMap.NumMyPoints 0 }).neighborGlobalIDs

/-- The function `createRebalancedNeighborGlobalIDList`: the GlobalID neighbor list of the
current decomposition, redistributed to the layout of the rebalanced bond map (the
`Epetra_Import` is the parameter `importIDs`). -/
def createRebalancedNeighborGlobalIDList (bondMap oneDimensionalOverlapMap : BlockMap)
    (neighborhoodData : NeighborhoodData) (importIDs : List Int → List Int) : List Int :=
  importIDs (neighborGlobalIDs bondMap oneDimensionalOverlapMap neighborhoodData)

/-! ## The mothership multivector and the global vectors -/

/-- A non-owning view `Teuchos::rcp((*mothership)(column), false)` of one column of a
multivector; `mothership` names the `Epetra_MultiVector` object the view points into. -/
structure ColumnView where
  mothership : Nat
  column : Nat
deriving DecidableEq, Repr

/-- The members of `Peridigm` that hold the global vectors: the mothership and its named
views. -/
structure GlobalVectors where
  mothership : Nat
  x : ColumnView
  u : ColumnView
  y : ColumnView
  v : ColumnView
  a : ColumnView
  force : ColumnView
  contactForce : ColumnView
  deltaU : ColumnView
  residual : ColumnView
deriving DecidableEq, Repr

/-- The part of `initializeDiscretization` that creates the mothership (the new multivector
object is `mothership`) and sets the nine views. -/
def initializeDiscretizationVectors (mothership : Nat) : GlobalVectors :=
  { mothership := mothership
    x := ⟨mothership, 0⟩
    u := ⟨mothership, 1⟩
    y := ⟨mothership, 2⟩
    v := ⟨mothership, 3⟩
    a := ⟨mothership, 4⟩
    force := ⟨mothership, 5⟩
    contactForce := ⟨mothership, 6⟩
    deltaU := ⟨mothership, 7⟩
    residual := ⟨mothership, 8⟩ }

/-- The part of `rebalance` that replaces the mothership by the rebalanced multivector (the new
object is `rebalancedMothership`) and resets the views it names. -/
def rebalanceVectors (s : GlobalVectors) (rebalancedMothership : Nat) : GlobalVectors :=
  { s with
    mothership := rebalancedMothership
    x := ⟨rebalancedMothership, 0⟩
    u := ⟨rebalancedMothership, 1⟩
    y := ⟨rebalancedMothership, 2⟩
    v := ⟨rebalancedMothership, 3⟩
    a := ⟨rebalancedMothership, 4⟩
    force := ⟨rebalancedMothership, 5⟩
    contactForce := ⟨rebalancedMothership, 6⟩ }

/-! ## Field_NS::FieldSpec and the master list of variable specs -/

/-- The class `Field_NS::FieldSpec` of `Field.cxx`; the enumerations of `Field_ENUM`, declared
outside the sources, are their integer codes. -/
structure FieldSpec where
  type : Nat
  relation : Nat
  length : Nat
  par_top : Nat
  temporal : Nat
  id : Nat
  label : String
deriving DecidableEq, Repr, Inhabited

/-- The constructor of `FieldSpec` with an explicit parallel topology. -/
def FieldSpec.make (t r len p temp : Nat) (label : String) : FieldSpec :=
  { type := t
    relation := r
    length := len
    par_top := p
    temporal := temp
    id := t ||| (r <<< 8) ||| (len <<< (8 + 4)) ||| (p <<< (8 + 4 + 4))
      ||| (temp <<< (8 + 4 + 4 + 4))
    label := label }

/-- The member `FieldSpec::operator==`. -/
def FieldSpec.opEq (left right : FieldSpec) : Bool := left.id == right.id

/-- The member `FieldSpec::operator!=`. -/
def FieldSpec.opNe (left right : FieldSpec) : Bool := !(left.opEq right)

/-- The constants of `Field.h` that `initializeDataManager` names; they are declared outside the
sources. -/
structure PeridigmFieldSpecs where
  VOLUME : FieldSpec
  COORD3D : FieldSpec
  DISPL3D : FieldSpec
  CURCOORD3D : FieldSpec
  VELOC3D : FieldSpec
  FORCE_DENSITY3D : FieldSpec
  CONTACT_FORCE_DENSITY3D : FieldSpec
deriving DecidableEq, Repr

/-- The algorithm `std::adjacent_find` with `operator==`: the position of the first element
equal to its successor, the length of the range when there is none. -/
def adjacentFind : List FieldSpec → Nat
  | a :: b :: rest => if a.opEq b then 0 else adjacentFind (b :: rest) + 1
  | [_] => 1
  | [] => 0

/-- The algorithm `std::unique(first, last)` with `operator==` as libstdc++ implements it: the
elements that start a run of equal neighbors are copied to the front, the range keeps its
length, and the position of the new logical end is returned. -/
def stdUnique (v : List FieldSpec) : List FieldSpec × Nat :=
  let first := adjacentFind v
  if first = v.length then (v, v.length)
  else
    let s := (List.range (v.length - (first + 2))).foldl
      (fun (s : List FieldSpec × Nat) (k : Nat) =>
        let it := first + 2 + k
        if !(s.1.getD s.2 default).opEq (s.1.getD it default) then
          (s.1.set (s.2 + 1) (s.1.getD it default), s.2 + 1)
        else s)
      (v, first)
    (s.1, s.2 + 1)

/-- The master list `variableSpecs` that `initializeDataManager` passes to
`dataManager->allocateData`: the specs of the engine, those of every material model
(`VariableSpecs()`) and those of the compute manager (`getFieldSpecs()`) pushed back in turn,
then `std::unique` applied to the vector, its return value being dropped. -/
def initializeDataManagerVariableSpecs (specs : PeridigmFieldSpecs)
    (matVariableSpecs : List (List FieldSpec)) (computeSpecs : List FieldSpec) :
    List FieldSpec :=
  let variableSpecs :=
    [specs.VOLUME, specs.COORD3D, specs.DISPL3D, specs.CURCOORD3D, specs.VELOC3D,
      specs.FORCE_DENSITY3D, specs.CONTACT_FORCE_DENSITY3D]
  let variableSpecs := matVariableSpecs.foldl
    (fun (variableSpecs : List FieldSpec) (matSpecs : List FieldSpec) =>
      matSpecs.foldl (fun (variableSpecs : List FieldSpec) (spec : FieldSpec) =>
        variableSpecs ++ [spec]) variableSpecs)
    variableSpecs
  let variableSpecs := computeSpecs.foldl
    (fun (variableSpecs : List FieldSpec) (spec : FieldSpec) => variableSpecs ++ [spec])
    variableSpecs
  (stdUnique variableSpecs).1

/-! ## Teuchos::ParameterList -/

/-- The value of an entry of a `Teuchos::ParameterList` (Trilinos, defined outside the sources):
a typed parameter or a sublist.  A `double` is held as a rational number; it is stored and
compared, and the only computation with it is the product with the load increment in
`applyKinematicBC`. -/
inductive ParameterEntry where
  | double (value : Rat)
  | int (value : Int)
  | string (value : String)
  | bool (value : Bool)
  | list (entries : List (String × ParameterEntry))

/-- A `Teuchos::ParameterList`: its named entries in iteration order. -/
abbrev ParameterList := List (String × ParameterEntry)

namespace ParameterList

/-- The entry of a name, if any: `getEntryPtr(name)`. -/
def getEntryPtr (l : ParameterList) (name : String) : Option ParameterEntry :=
  List.lookup name l

/-- The member `isParameter(name)`: an entry of that name exists, of whatever type. -/
def isParameter (l : ParameterList) (name : String) : Bool :=
  (l.getEntryPtr name).isSome

/-- The member `isSublist(name)`: an entry of that name exists and is a list. -/
def isSublist (l : ParameterList) (name : String) : Bool :=
  match l.getEntryPtr name with
  | some (ParameterEntry.list _) => true
  | _ => false

/-- The member `sublist(name)`: the sublist of that name; an absent name yields a new empty
sublist, an entry that is not a list raises `InvalidParameterType`. -/
def sublist (l : ParameterList) (name : String) : Except TeuchosError ParameterList :=
  match l.getEntryPtr name with
  | some (ParameterEntry.list entries) => Except.ok entries
  | some _ => Except.error (TeuchosError.InvalidParameterType name)
  | none => Except.ok []

/-- The function `Teuchos::sublist(paramList, name, true)`: the sublist of that name, which
must already exist. -/
def sublistMustExist (l : ParameterList) (name : String) : Except TeuchosError ParameterList :=
  match l.getEntryPtr name with
  | some (ParameterEntry.list entries) => Except.ok entries
  | some _ => Except.error (TeuchosError.InvalidParameterType name)
  | none => Except.error (TeuchosError.InvalidParameterName name)

/-- The member `get<double>(name)`: an absent name raises `InvalidParameterName`, an entry of
another type `InvalidParameterType`. -/
def getDouble (l : ParameterList) (name : String) : Except TeuchosError Rat :=
  match l.getEntryPtr name with
  | some (ParameterEntry.double value) => Except.ok value
  | some _ => Except.error (TeuchosError.InvalidParameterType name)
  | none => Except.error (TeuchosError.InvalidParameterName name)

/-- The member `get<int>(name)`. -/
def getInt (l : ParameterList) (name : String) : Except TeuchosError Int :=
  match l.getEntryPtr name with
  | some (ParameterEntry.int value) => Except.ok value
  | some _ => Except.error (TeuchosError.InvalidParameterType name)
  | none => Except.error (TeuchosError.InvalidParameterName name)

/-- The member `get(name, defaultValue)` with an `int` default: the default when the name is
absent, `InvalidParameterType` when the entry has another type. -/
def getIntOr (l : ParameterList) (name : String) (defaultValue : Int) :
    Except TeuchosError Int :=
  match l.getEntryPtr name with
  | some (ParameterEntry.int value) => Except.ok value
  | some _ => Except.error (TeuchosError.InvalidParameterType name)
  | none => Except.ok defaultValue

/-- The member `set(name, value)`: the entry of that name is replaced, or added at the end. -/
def set (l : ParameterList) (name : String) (value : ParameterEntry) : ParameterList :=
  if l.isParameter name then l.map (fun e => if e.1 = name then (e.1, value) else e)
  else l ++ [(name, value)]

end ParameterList

/-! ## instantiateMaterials -/

/-- The material models that `instantiateMaterials` creates, each with the parameter list its
constructor is given (the constructors themselves are outside the sources). -/
inductive Material where
  | LinearElasticIsotropicMaterial (matParams : ParameterList)
  | IsotropicElasticPlasticMaterial (matParams : ParameterList)

/-- One pass of the loop of `instantiateMaterials` over the entries of the "Material" sublist. -/
def instantiateMaterialsStep (peridigmParams materialParams : ParameterList)
    (materialModels : List Material) (it : String × ParameterEntry) :
    Except TeuchosError (List Material) := do
  let name := it.1
  let matParams ← materialParams.sublist name
  let _solverParams ← peridigmParams.sublist "Solver"
  if name = "Linear Elastic" ∨ name = "Elastic Plastic" then
    if name = "Linear Elastic" then
      pure (materialModels ++ [Material.LinearElasticIsotropicMaterial matParams])
    else
      pure (materialModels ++ [Material.IsotropicElasticPlasticMaterial matParams])
  else
    Except.error (TeuchosError.LogicError
      ("Unrecognized material model: " ++ name ++ ", must be Linear Elastic or Elastic Plastic"))

/-- The function `instantiateMaterials`: the vector `materialModels` it fills. -/
def instantiateMaterials (peridigmParams : ParameterList) :
    Except TeuchosError (List Material) := do
  let problemParams ← peridigmParams.sublist "Problem"
  if !problemParams.isSublist "Material" then
    Except.error (TeuchosError.LogicError "Material parameters not specified!")
  else
    let materialParams ← problemParams.sublist "Material"
    let materialModels ← materialParams.foldlM
      (instantiateMaterialsStep peridigmParams materialParams) []
    if materialModels.length = 0 then
      Except.error (TeuchosError.LogicError "No material models created!")
    else pure materialModels

/-! ## initializeContact -/

/-- A contact model created by `initializeContact`: a `ShortRangeForceContactModel` with the
parameter list its constructor is given (the constructor itself is outside the sources). -/
structure ContactModel where
  contactModelParams : ParameterList

/-- The members that `initializeContact` sets. -/
structure ContactSetup where
  analysisHasContact : Bool
  contactSearchRadius : Rat
  contactRebalanceFrequency : Int
  contactModels : List ContactModel

/-- The first half of `initializeContact`: no contact is assumed, and the "Contact" sublist, if
present, must give the search radius and the search frequency. -/
def initializeContactSearch (problemParams : ParameterList) :
    Except TeuchosError (Bool × Rat × Int) :=
  if problemParams.isSublist "Contact" then do
    let contactParams ← problemParams.sublist "Contact"
    if !contactParams.isParameter "Search Radius" then
      Except.error (TeuchosError.InvalidParameter
        "Contact parameter \"Search Radius\" not specified.")
    else
      let contactSearchRadius ← contactParams.getDouble "Search Radius"
      if !contactParams.isParameter "Search Frequency" then
        Except.error (TeuchosError.InvalidParameter
          "Contact parameter \"Search Frequency\" not specified.")
      else
        let contactRebalanceFrequency ← contactParams.getInt "Search Frequency"
        pure (true, contactSearchRadius, contactRebalanceFrequency)
  else pure (false, 0, 0)

/-- One pass of the loop of `initializeContact` over the entries of the "Contact" sublist. -/
def initializeContactStep (discParams contactParams : ParameterList)
    (contactModels : List ContactModel) (it : String × ParameterEntry) :
    Except TeuchosError (List ContactModel) :=
  let name := it.1
  if contactParams.isSublist name then do
    let contactModelParams ← contactParams.sublist name
    let contactModelParams ←
      if !contactModelParams.isParameter "Horizon" then do
        let horizon ← discParams.getDouble "Horizon"
        pure (contactModelParams.set "Horizon" (ParameterEntry.double horizon))
      else pure contactModelParams
    if name = "Short Range Force" then
      pure (contactModels ++ [ContactModel.mk contactModelParams])
    else
      Except.error (TeuchosError.LogicError
        ("Unrecognized contact model: " ++ name ++ ", must be Short Range Force"))
  else pure contactModels

/-- The function `initializeContact`. -/
def initializeContact (peridigmParams : ParameterList) : Except TeuchosError ContactSetup := do
  let problemParams ← peridigmParams.sublist "Problem"
  let discParams ← problemParams.sublist "Discretization"
  let search ← initializeContactSearch problemParams
  let contactModels ←
    if search.1 then do
      let contactParams ← problemParams.sublist "Contact"
      contactParams.foldlM (initializeContactStep discParams contactParams) []
    else pure []
  pure
    { analysisHasContact := search.1
      contactSearchRadius := search.2.1
      contactRebalanceFrequency := search.2.2
      contactModels := contactModels }

/-! ## executeExplicit: when the loop rebalances -/

/-- The remainder `a % b` of two `int`s: truncated, and undefined (`none`) for a zero divisor. -/
def intRemainder (a b : Int) : Option Int :=
  if b = 0 then none else some (Int.tmod a b)

/-- The part of `executeExplicit` that reads the "Rebalance" sublist of the solver parameters;
the first two arguments are the members `analysisHasRebalance` and `rebalanceFrequency` on
entry. -/
def executeExplicitRebalanceParams (analysisHasRebalance : Bool) (rebalanceFrequency : Int)
    (solverParams : ParameterList) : Except TeuchosError (Bool × Int) :=
  if solverParams.isSublist "Rebalance" then do
    let rebalanceParams ← solverParams.sublistMustExist "Rebalance"
    let frequency ← rebalanceParams.getIntOr "Rebalance Frequency" 1
    pure (true, frequency)
  else pure (analysisHasRebalance, rebalanceFrequency)

/-- The condition of the `if` that guards `rebalance()` in the loop of `executeExplicit`,
`(analysisHasRebalance && step%rebalanceFrequency == 0) ||
 (analysisHasContact && step%contactRebalanceFrequency == 0)`, with the short-circuit
evaluation of `&&` and `||`; `none` when a remainder by zero is evaluated. -/
def rebalanceRequested (analysisHasRebalance : Bool) (rebalanceFrequency : Int)
    (analysisHasContact : Bool) (contactRebalanceFrequency : Int) (step : Int) : Option Bool := do
  let left ←
    if analysisHasRebalance then (intRemainder step rebalanceFrequency).map (fun r => r == 0)
    else some false
  if left then some true
  else if analysisHasContact then
    (intRemainder step contactRebalanceFrequency).map (fun r => r == 0)
  else some false

/-- The loop `for(int step=1; step<=nsteps ; step++)` of `executeExplicit`, reduced to the steps
at whose start `rebalance()` is invoked (`nsteps` is below the largest `int`, so `step++` does
not overflow); `none` when a remainder by zero is evaluated. -/
def executeExplicitRebalanceSteps (analysisHasRebalance : Bool) (rebalanceFrequency : Int)
    (analysisHasContact : Bool) (contactRebalanceFrequency : Int) (nsteps : Int) :
    Option (List Int) :=
  (List.range nsteps.toNat).foldlM
    (fun (invoked : List Int) (k : Nat) => do
      let step : Int := (k : Int) + 1
      let requested ← rebalanceRequested analysisHasRebalance rebalanceFrequency
        analysisHasContact contactRebalanceFrequency step
      pure (if requested then invoked ++ [step] else invoked))
    []

/-! ## FieldSpec: the constructor for owned fields and get_overlap_spec -/

/-- The constructor of `FieldSpec` that takes no parallel topology and sets it to
`Field_ENUM::OWNED`; `OWNED` is the integer code of that enumerator, which is declared outside
the sources. -/
def FieldSpec.makeOwned (OWNED : Nat) (t r len temp : Nat) (label : String) : FieldSpec :=
  { type := t
    relation := r
    length := len
    par_top := OWNED
    temporal := temp
    id := t ||| (r <<< 8) ||| (len <<< (8 + 4)) ||| (OWNED <<< (8 + 4 + 4))
      ||| (temp <<< (8 + 4 + 4 + 4))
    label := label }

/-- The member `FieldSpec::get_overlap_spec`; `OVERLAP` is the integer code of
`Field_ENUM::OVERLAP`, which is declared outside the sources. -/
def FieldSpec.get_overlap_spec (OVERLAP : Nat) (s : FieldSpec) : FieldSpec :=
  FieldSpec.make s.type s.relation s.length OVERLAP s.temporal s.label

/-! ## The constructor of Peridigm and the rebalance test -/

/-- The members of `Peridigm` that the rebalance test of `executeExplicit` reads. -/
structure RebalanceMembers where
  analysisHasRebalance : Bool
  rebalanceFrequency : Int
  analysisHasContact : Bool
  contactRebalanceFrequency : Int
deriving DecidableEq, Repr

/-- The constructor `Peridigm::Peridigm`, for the members above: the initializer list, then
`instantiateMaterials` and `initializeContact`, which are the checks of the parameters that the
sources hold (the discretization, the managers and the output are built by code outside the
sources).  An error rejects the parameter set. -/
def PeridigmConstructor (peridigmParams : ParameterList) :
    Except TeuchosError RebalanceMembers := do
  let analysisHasRebalance := false
  let rebalanceFrequency : Int := 1
  let _materialModels ← instantiateMaterials peridigmParams
  let contact ← initializeContact peridigmParams
  pure
    { analysisHasRebalance := analysisHasRebalance
      rebalanceFrequency := rebalanceFrequency
      analysisHasContact := contact.analysisHasContact
      contactRebalanceFrequency := contact.contactRebalanceFrequency }

/-- The rebalance test of `executeExplicit` at one step of its loop, for an object the
constructor has built: the "Solver" and "Verlet" sublists must exist, the "Rebalance" sublist is
read, and the guard of `rebalance()` is evaluated; `none` when a remainder by zero is taken. -/
def executeExplicitRebalanceTest (members : RebalanceMembers) (peridigmParams : ParameterList)
    (step : Int) : Except TeuchosError (Option Bool) := do
  let solverParams ← peridigmParams.sublistMustExist "Solver"
  let _verletParams ← solverParams.sublistMustExist "Verlet"
  let rebalanceParams ← executeExplicitRebalanceParams members.analysisHasRebalance
    members.rebalanceFrequency solverParams
  pure (rebalanceRequested rebalanceParams.1 rebalanceParams.2 members.analysisHasContact
    members.contactRebalanceFrequency step)

/-! ## currentConfigurationDecomp -/

/-- The fields of `PdGridData` that `currentConfigurationDecomp` fills before it calls the
partitioner: the global number of points, the GlobalIDs, the coordinates (three per point) and
the cell volumes of the points of this process.  A `double` is only copied here, never computed
with, and is a rational number. -/
structure PdGridDataPoints where
  globalNumPoints : Nat
  myGlobalIDs : List Int
  myX : List Rat
  cellVolume : List Rat
deriving DecidableEq, Repr

/-- The call `memcpy(dest, src, count*sizeof(T))` into a new array of `count` entries: the first
`count` entries of the source (a read beyond the source is given the value `d`). -/
def memcpy {α : Type} (src : List α) (count : Nat) (d : α) : List α :=
  (List.range count).map (fun (k : Nat) => src.getD k d)

/-- The read `ptr[i]` of an array of `double` at an `int` index (a read outside the array is
given the value `0`). -/
def readDouble (ptr : List Rat) (i : Int) : Rat :=
  if i < 0 then 0 else ptr.getD i.toNat 0

/-- The part of `currentConfigurationDecomp` before the call of the partitioner: the record it
builds from the owned map, the overlap map, the vector `y` of current positions and the VOLUME
field of the data manager, which is laid out by the overlap map.  `numGlobalElements` is
`oneDimensionalMap->NumGlobalElements()`, the number of points of all processes. -/
def currentConfigurationDecompRecord (numGlobalElements : Nat)
    (oneDimensionalMap oneDimensionalOverlapMap : BlockMap) (y : List Rat)
    (cellVolumeOverlap : List Rat) : PdGridDataPoints :=
  let myNumElements := oneDimensionalMap.NumMyElements
  let dimension := 3
  let myGlobalIDs := memcpy oneDimensionalMap.MyGlobalElements myNumElements 0
  let myX := memcpy y (myNumElements * dimension) 0
  let cellVolume := (List.range myNumElements).foldl
    (fun (cellVolume : List Rat) (i : Nat) =>
      let oneDimensionalMapGlobalID := oneDimensionalMap.GID i
      let oneDimensionalOverlapMapLocalID :=
        oneDimensionalOverlapMap.LID oneDimensionalMapGlobalID
      cellVolume ++ [readDouble cellVolumeOverlap oneDimensionalOverlapMapLocalID])
    []
  { globalNumPoints := numGlobalElements
    myGlobalIDs := myGlobalIDs
    myX := myX
    cellVolume := cellVolume }

/-- The function `currentConfigurationDecomp`; `getLoadBalancedDiscretization` is the external
partitioner. -/
def currentConfigurationDecomp (getLoadBalancedDiscretization : PdGridDataPoints → PdGridDataPoints)
    (numGlobalElements : Nat) (oneDimensionalMap oneDimensionalOverlapMap : BlockMap)
    (y : List Rat) (cellVolumeOverlap : List Rat) : PdGridDataPoints :=
  getLoadBalancedDiscretization
    (currentConfigurationDecompRecord numGlobalElements oneDimensionalMap
      oneDimensionalOverlapMap y cellVolumeOverlap)

/-! ## applyKinematicBC and computeResidual -/

/-- The test `name.find(pattern) != string::npos` on the characters of the two strings: the
pattern occurs somewhere in the name. -/
def findChars (pattern : List Char) : List Char → Bool
  | [] => pattern.isEmpty
  | c :: cs => pattern.isPrefixOf (c :: cs) || findChars pattern cs

/-- The test `name.find(pattern) != string::npos`. -/
def stringFind (name pattern : String) : Bool := findChars pattern.data name.data

/-- The member `get<string>(name)` of a parameter list. -/
def ParameterList.getString (l : ParameterList) (name : String) : Except TeuchosError String :=
  match l.getEntryPtr name with
  | some (ParameterEntry.string value) => Except.ok value
  | some _ => Except.error (TeuchosError.InvalidParameterType name)
  | none => Except.error (TeuchosError.InvalidParameterName name)

/-- The call `Teuchos::getValue<string>(entry)`. -/
def ParameterEntry.getValueString : ParameterEntry → Except TeuchosError String
  | ParameterEntry.string value => Except.ok value
  | _ => Except.error (TeuchosError.bad_any_cast "string")

/-- The call `Teuchos::getValue<Teuchos::ParameterList>(entry)`. -/
def ParameterEntry.getValueList : ParameterEntry → Except TeuchosError ParameterList
  | ParameterEntry.list entries => Except.ok entries
  | _ => Except.error (TeuchosError.bad_any_cast "ParameterList")

/-- The access `nodeSets[name]` of the `std::map<string, vector<int> >` of `applyKinematicBC`,
which is kept as the list of its assignments, the latest first: an absent name gives the empty
vector. -/
def nodeSetsGet (nodeSets : List (String × List Int)) (name : String) : List Int :=
  (nodeSets.lookup name).getD []

/-- One pass of the first loop of `applyKinematicBC`: an entry whose name contains "Node Set"
must be a string, from which the node list is read and stored under the name of the entry.
`readNodeList` stands for the loop `while(ss.good()){ ss >> nodeID; nodeList.push_back(nodeID); }`
over the `std::stringstream` of the string. -/
def applyKinematicBCNodeSet (readNodeList : String → List Int)
    (nodeSets : List (String × List Int)) (it : String × ParameterEntry) :
    Except TeuchosError (List (String × List Int)) :=
  let name := it.1
  if stringFind name "Node Set" then do
    let ss ← it.2.getValueString
    let nodeList := readNodeList ss
    pure ((name, nodeList) :: nodeSets)
  else pure nodeSets

/-- One pass of the loop of `applyKinematicBC` over the nodes of a node set, for a null matrix:
the entry of the vector for the node is written when the vector is not null and the map holds
the node.  A write beyond the end of the vector changes nothing in this model. -/
def applyKinematicBCNode (threeDimensionalMap : BlockMap) (coord : Int)
    (value loadIncrement : Rat) (vec : Option (List Rat)) (node : Int) : Option (List Rat) :=
  let localNodeID := threeDimensionalMap.LID node
  match vec with
  | some v =>
    if localNodeID != -1 then some (v.set (localNodeID * 3 + coord).toNat (value * loadIncrement))
    else some v
  | none => none

/-- One pass of the second loop of `applyKinematicBC`, for a null matrix: an entry whose name
contains "Prescribed Displacement" must be a sublist with the strings "Node Set", "Type" and
"Coordinate" and the double "Value"; the boundary condition is applied to the nodes of its node
set in turn. -/
def applyKinematicBCStep (threeDimensionalMap : BlockMap) (loadIncrement : Rat)
    (nodeSets : List (String × List Int)) (vec : Option (List Rat))
    (it : String × ParameterEntry) : Except TeuchosError (Option (List Rat)) :=
  let name := it.1
  if stringFind name "Prescribed Displacement" then do
    let boundaryConditionParams ← it.2.getValueList
    let nodeSet ← boundaryConditionParams.getString "Node Set"
    let _type ← boundaryConditionParams.getString "Type"
    let coordinate ← boundaryConditionParams.getString "Coordinate"
    let value ← boundaryConditionParams.getDouble "Value"
    let coord : Int := 0
    let coord : Int := if coordinate = "y" ∨ coordinate = "Y" then 1 else coord
    let coord : Int := if coordinate = "z" ∨ coordinate = "Z" then 2 else coord
    let nodeList := nodeSetsGet nodeSets nodeSet
    pure (nodeList.foldl (applyKinematicBCNode threeDimensionalMap coord value loadIncrement) vec)
  else pure vec

/-- The function `applyKinematicBC` for a null matrix `mat`, in which case every block guarded
by `!mat.is_null()` is skipped; `vec` is `none` for a null vector.  The `double` values are
rational numbers, `value*loadIncrement` is their product. -/
def applyKinematicBC (readNodeList : String → List Int) (peridigmParams : ParameterList)
    (threeDimensionalMap : BlockMap) (loadIncrement : Rat) (vec : Option (List Rat)) :
    Except TeuchosError (Option (List Rat)) := do
  let problemParams ← peridigmParams.sublist "Problem"
  let bcParams ← problemParams.sublist "Boundary Conditions"
  let nodeSets ← bcParams.foldlM (applyKinematicBCNodeSet readNodeList) []
  bcParams.foldlM (applyKinematicBCStep threeDimensionalMap loadIncrement nodeSets) vec

/-- The residual vector of `computeResidual`, of which the function returns the 2-norm: the
internal force (as the model evaluation and the export have left it) is copied to the residual,
and `applyKinematicBC` is called on it with the load increment `0.0` and a null matrix. -/
def computeResidualVector (readNodeList : String → List Int) (peridigmParams : ParameterList)
    (threeDimensionalMap : BlockMap) (force : List Rat) :
    Except TeuchosError (Option (List Rat)) :=
  let residual := force
  applyKinematicBC readNodeList peridigmParams threeDimensionalMap 0 (some residual)

/-! ## PeridigmNS::State -/

/-- Modelled from the spec: `Epetra_MultiVector` (Trilinos) is used by the unit test of `State`
and is not defined in the sources.  It is a block of columns laid out by one map, each column
with one value per local point of the map. -/
structure MultiVector where
  map : BlockMap
  columns : List (List Rat)
deriving DecidableEq, Repr

namespace MultiVector

/-- Modelled from the spec: the constructor `Epetra_MultiVector(map, numVectors)`, which gives
`numVectors` columns of `NumMyPoints` zeros. -/
def create (map : BlockMap) (numVectors : Nat) : MultiVector :=
  { map := map
    columns := List.replicate numVectors (List.replicate map.NumMyPoints 0) }

/-- Modelled from the spec: `NumVectors()` of `Epetra_MultiVector`, the number of columns. -/
def NumVectors (v : MultiVector) : Nat := v.columns.length

/-- Modelled from the spec: `MyLength()` of `Epetra_MultiVector`, the local length of the
columns, which is that of the map. -/
def MyLength (v : MultiVector) : Nat := v.map.NumMyPoints

/-- Modelled from the spec: `Map()` of `Epetra_MultiVector`, the map it is laid out by. -/
def Map (v : MultiVector) : BlockMap := v.map

end MultiVector

/-- Modelled from the spec: the three kinds of field data that a `State` holds, scalar and
vector values per point and values per bond. -/
inductive FieldKind where
  | scalar
  | vector
  | bond
deriving DecidableEq, Repr

/-- Modelled from the spec: `PeridigmNS::State` is declared in `Peridigm_State.hpp`, which is
not in the sources; only its unit test is.  Following the spec it is keyed field storage for
scalar, vector and bond quantities: one multivector per kind, and for every field spec that was
allocated (the key is the id of the spec, which is what `operator==` compares) the kind and the
column that hold its data. -/
structure State where
  scalarData : Option MultiVector
  vectorData : Option MultiVector
  bondData : Option MultiVector
  fieldSpecToData : List (Nat × FieldKind × Nat)
deriving DecidableEq, Repr

namespace State

/-- Modelled from the spec: the default constructor `State()`, which holds no data. -/
def create : State :=
  { scalarData := none, vectorData := none, bondData := none, fieldSpecToData := [] }

/-- Modelled from the spec: the multivector of a kind, which `getScalarMultiVector()`,
`getVectorMultiVector()` and `getBondMultiVector()` return. -/
def multiVector (s : State) : FieldKind → Option MultiVector
  | FieldKind.scalar => s.scalarData
  | FieldKind.vector => s.vectorData
  | FieldKind.bond => s.bondData

/-- Modelled from the spec: the state with the multivector of one kind replaced. -/
def setMultiVector (s : State) (kind : FieldKind) (v : MultiVector) : State :=
  match kind with
  | FieldKind.scalar => { s with scalarData := some v }
  | FieldKind.vector => { s with vectorData := some v }
  | FieldKind.bond => { s with bondData := some v }

/-- Modelled from the spec: the allocation of the data of one kind for a list of field specs and
a map.  A multivector with one column per spec is created over the map, and the spec at
position `i` of the list is keyed to column `i`; a later assignment of a key takes precedence
over an earlier one. -/
def allocate (kind : FieldKind) (s : State) (fieldSpecs : List FieldSpec) (map : BlockMap) :
    State :=
  let s := s.setMultiVector kind (MultiVector.create map fieldSpecs.length)
  { s with
    fieldSpecToData :=
      (fieldSpecs.enum.map (fun e => (e.2.id, kind, e.1))).reverse ++ s.fieldSpecToData }

/-- Modelled from the spec: `State::allocateScalarData(fieldSpecs, map)`. -/
def allocateScalarData (s : State) (fieldSpecs : List FieldSpec) (map : BlockMap) : State :=
  allocate FieldKind.scalar s fieldSpecs map

/-- Modelled from the spec: `State::allocateVectorData(fieldSpecs, map)`. -/
def allocateVectorData (s : State) (fieldSpecs : List FieldSpec) (map : BlockMap) : State :=
  allocate FieldKind.vector s fieldSpecs map

/-- Modelled from the spec: `State::allocateBondData(fieldSpecs, map)`. -/
def allocateBondData (s : State) (fieldSpecs : List FieldSpec) (map : BlockMap) : State :=
  allocate FieldKind.bond s fieldSpecs map

/-- Modelled from the spec: `State::getScalarMultiVector()`. -/
def getScalarMultiVector (s : State) : Option MultiVector := s.multiVector FieldKind.scalar

/-- Modelled from the spec: `State::getVectorMultiVector()`. -/
def getVectorMultiVector (s : State) : Option MultiVector := s.multiVector FieldKind.vector

/-- Modelled from the spec: `State::getBondMultiVector()`. -/
def getBondMultiVector (s : State) : Option MultiVector := s.multiVector FieldKind.bond

/-- Modelled from the spec: `State::getData(fieldSpec)`, read: the values of the column that the
spec is keyed to, `none` when the spec was not allocated. -/
def getData (s : State) (fieldSpec : FieldSpec) : Option (List Rat) := do
  let slot ← s.fieldSpecToData.lookup fieldSpec.id
  let v ← s.multiVector slot.1
  v.columns[slot.2]?

/-- Modelled from the spec: the assignment `(*state.getData(fieldSpec))[i] = value` through the
vector that `getData` returns, which is a view of the column held by the state. -/
def setEntry (s : State) (fieldSpec : FieldSpec) (i : Nat) (value : Rat) : Option State := do
  let slot ← s.fieldSpecToData.lookup fieldSpec.id
  let v ← s.multiVector slot.1
  let column ← v.columns[slot.2]?
  pure (s.setMultiVector slot.1 { v with columns := v.columns.set slot.2 (column.set i value) })

end State

/-! ## The unit tests of State -/

/-- Modelled from the spec: the map of the vector that `State::getData(fieldSpec)` returns,
which is the map of the multivector that holds the column; the test reads it through
`MyLength()` and `Map()`. -/
def State.getDataMap (s : State) (fieldSpec : FieldSpec) : Option BlockMap := do
  let slot ← s.fieldSpecToData.lookup fieldSpec.id
  let v ← s.multiVector slot.1
  pure v.map

/-- Modelled from the spec: `Epetra_BlockMap::SameAs`, on one process: the two maps hold the
same GlobalIDs with the same block sizes in the same order. -/
def BlockMap.SameAs (m other : BlockMap) : Bool := decide (m = other)

/-- The constants of `Field_NS` that the unit tests of `State` name; `Field.h`, which declares
them, is not in the sources. -/
structure StateTestFieldSpecs where
  DEFAULT_FIELDTYPE : FieldSpec
  VOLUME : FieldSpec
  ID : FieldSpec
  PROC_NUM : FieldSpec
  DAMAGE : FieldSpec
  WEIGHTED_VOLUME : FieldSpec
  DILATATION : FieldSpec
  NUM_NEIGHBORS : FieldSpec
  LAMBDA : FieldSpec
  SHEAR_CORRECTION_FACTOR : FieldSpec
  COORD3D : FieldSpec
  DISPL3D : FieldSpec
  CURCOORD3D : FieldSpec
  VELOC3D : FieldSpec
  ACCEL3D : FieldSpec
  FORCE3D : FieldSpec
  FORCE_DENSITY3D : FieldSpec
  CONTACT_FORCE3D : FieldSpec
  CONTACT_FORCE_DENSITY3D : FieldSpec
  BOND_DAMAGE : FieldSpec
  DEVIATORIC_PLASTIC_EXTENSION : FieldSpec
  DEVIATORIC_BACK_EXTENSION : FieldSpec
deriving DecidableEq, Repr

/-- The check `BOOST_CHECK_CLOSE(left, right, tolerance)` with a tolerance in percent: the
difference is within the tolerance relative to both values.  Equal values are close whatever
the tolerance, which is tested first. -/
def boostCheckClose (left right tolerance : Rat) : Bool :=
  decide (left = right)
    || (decide (|left - right| ≤ tolerance / 100 * |left|)
      && decide (|left - right| ≤ tolerance / 100 * |right|))

/-- The part of `twoPointProblem` and of `threePointProblem` from the creation of the state to
the last check of the multivectors: the three allocations, each followed by its three checks.
The result is the state and the outcomes of the nine checks. -/
def stateTestAllocate (F : StateTestFieldSpecs)
    (oneDimensionalOverlapMap threeDimensionalOverlapMap bondMap : BlockMap) :
    Option (State × List Bool) := do
  let state := State.create
  let scalarFieldSpecs := [F.DEFAULT_FIELDTYPE, F.VOLUME, F.ID, F.PROC_NUM, F.DAMAGE,
    F.WEIGHTED_VOLUME, F.DILATATION, F.NUM_NEIGHBORS, F.LAMBDA, F.SHEAR_CORRECTION_FACTOR]
  let state := state.allocateScalarData scalarFieldSpecs oneDimensionalOverlapMap
  let scalarMultiVector ← state.getScalarMultiVector
  let checks := [scalarMultiVector.NumVectors == scalarFieldSpecs.length,
    scalarMultiVector.MyLength == oneDimensionalOverlapMap.NumMyPoints,
    scalarMultiVector.Map.SameAs oneDimensionalOverlapMap]
  let vectorFieldSpecs := [F.COORD3D, F.DISPL3D, F.CURCOORD3D, F.VELOC3D, F.ACCEL3D, F.FORCE3D,
    F.FORCE_DENSITY3D, F.CONTACT_FORCE3D, F.CONTACT_FORCE_DENSITY3D]
  let state := state.allocateVectorData vectorFieldSpecs threeDimensionalOverlapMap
  let vectorMultiVector ← state.getVectorMultiVector
  let checks := checks ++ [vectorMultiVector.NumVectors == vectorFieldSpecs.length,
    vectorMultiVector.MyLength == threeDimensionalOverlapMap.NumMyPoints,
    vectorMultiVector.Map.SameAs threeDimensionalOverlapMap]
  let bondFieldSpecs := [F.BOND_DAMAGE, F.DEVIATORIC_PLASTIC_EXTENSION,
    F.DEVIATORIC_BACK_EXTENSION]
  let state := state.allocateBondData bondFieldSpecs bondMap
  let bondMultiVector ← state.getBondMultiVector
  let checks := checks ++ [bondMultiVector.NumVectors == bondFieldSpecs.length,
    bondMultiVector.MyLength == bondMap.NumMyPoints,
    bondMultiVector.Map.SameAs bondMap]
  pure (state, checks)

/-- The block "check initialization of data to zero" of the two tests. -/
def stateTestInitialization (F : StateTestFieldSpecs) (state : State) : Option (List Bool) := do
  let coordinates ← state.getData F.COORD3D
  let coordinatesMap ← state.getDataMap F.COORD3D
  pure ((List.range coordinatesMap.NumMyPoints).map
    (fun (i : Nat) => decide (coordinates.getD i 0 = 0)))

/-- The block "set some data" of the two tests. -/
def stateTestSetData (F : StateTestFieldSpecs) (state : State) : Option State := do
  let idsMap ← state.getDataMap F.ID
  let state ← (List.range idsMap.NumMyPoints).foldlM
    (fun (state : State) (i : Nat) => state.setEntry F.ID i (i : Rat)) state
  let forceMap ← state.getDataMap F.FORCE3D
  let state ← (List.range forceMap.NumMyElements).foldlM
    (fun (state : State) (i : Nat) => do
      let state ← state.setEntry F.FORCE3D (i * 3) ((i * 3 : Nat) : Rat)
      let state ← state.setEntry F.FORCE3D (i * 3 + 1) ((i * 3 + 1 : Nat) : Rat)
      state.setEntry F.FORCE3D (i * 3 + 2) ((i * 3 + 2 : Nat) : Rat))
    state
  let bondDamageMap ← state.getDataMap F.BOND_DAMAGE
  (List.range bondDamageMap.NumMyElements).foldlM
    (fun (state : State) (i : Nat) =>
      let firstPointInElement := bondDamageMap.FirstPointInElementList i
      (List.range (bondDamageMap.ElementSize i)).foldlM
        (fun (state : State) (j : Nat) =>
          state.setEntry F.BOND_DAMAGE (firstPointInElement + j)
            ((firstPointInElement + j : Nat) : Rat))
        state)
    state

/-- The block "check the data" of the two tests. -/
def stateTestCheckData (F : StateTestFieldSpecs) (state : State) : Option (List Bool) := do
  let ids ← state.getData F.ID
  let idsMap ← state.getDataMap F.ID
  let checks := (List.range idsMap.NumMyPoints).map
    (fun (i : Nat) => boostCheckClose (ids.getD i 0) (i : Rat) (1 / 100000000000000))
  let force ← state.getData F.FORCE3D
  let forceMap ← state.getDataMap F.FORCE3D
  let checks := checks ++ (List.range forceMap.NumMyElements).flatMap
    (fun (i : Nat) =>
      [boostCheckClose (force.getD (i * 3) 0) ((i * 3 : Nat) : Rat) (1 / 100000000000000),
        boostCheckClose (force.getD (i * 3 + 1) 0) ((i * 3 + 1 : Nat) : Rat)
          (1 / 100000000000000),
        boostCheckClose (force.getD (i * 3 + 2) 0) ((i * 3 + 2 : Nat) : Rat)
          (1 / 100000000000000)])
  let bondDamage ← state.getData F.BOND_DAMAGE
  let bondDamageMap ← state.getDataMap F.BOND_DAMAGE
  let checks := checks ++ (List.range bondDamageMap.NumMyElements).flatMap
    (fun (i : Nat) =>
      let firstPointInElement := bondDamageMap.FirstPointInElementList i
      (List.range (bondDamageMap.ElementSize i)).map
        (fun (j : Nat) =>
          boostCheckClose (bondDamage.getD (firstPointInElement + j) 0)
            ((firstPointInElement + j : Nat) : Rat) (1 / 100000000000000)))
  pure checks

/-- The body that the two tests share once their maps are set up: the outcomes of all checks in
order, `none` when an access fails. -/
def stateTestBody (F : StateTestFieldSpecs)
    (oneDimensionalOverlapMap threeDimensionalOverlapMap bondMap : BlockMap) :
    Option (List Bool) := do
  let allocated ← stateTestAllocate F oneDimensionalOverlapMap threeDimensionalOverlapMap bondMap
  let initialization ← stateTestInitialization F allocated.1
  let state ← stateTestSetData F allocated.1
  let data ← stateTestCheckData F state
  pure (allocated.2 ++ initialization ++ data)

/-- The test `twoPointProblem` on one of `numProcs` processes (the test is run on one or two):
the outcomes of its checks. -/
def twoPointProblem (F : StateTestFieldSpecs) (numProcs : Nat) : Option (List Bool) := do
  let numMyElements ← if numProcs = 1 then some 2 else if numProcs = 2 then some 1 else none
  let myGlobalElements := (List.range numMyElements).map (fun (i : Nat) => (i : Int))
  let oneDimensionalOverlapMap := BlockMap.mkUniform numMyElements myGlobalElements 1
  let threeDimensionalOverlapMap := BlockMap.mkUniform numMyElements myGlobalElements 3
  let bondElementSize := List.replicate numMyElements (1 : Int)
  let bondMap := BlockMap.mkVariable numMyElements myGlobalElements bondElementSize
  stateTestBody F oneDimensionalOverlapMap threeDimensionalOverlapMap bondMap

/-- The test `threePointProblem` on the process `myPID` of `numProcs` processes: the outcomes of
its checks. -/
def threePointProblem (F : StateTestFieldSpecs) (numProcs myPID : Nat) :
    Option (List Bool) := do
  let numMyElements ←
    if numProcs = 1 then some 3
    else if numProcs = 2 then (if myPID = 0 then some 1 else if myPID = 1 then some 2 else none)
    else none
  let myGlobalElements := (List.range numMyElements).map (fun (i : Nat) => ((i + myPID : Nat) : Int))
  let oneDimensionalOverlapMap := BlockMap.mkUniform numMyElements myGlobalElements 1
  let threeDimensionalOverlapMap := BlockMap.mkUniform numMyElements myGlobalElements 3
  let bondElementSize : List Int :=
    if numProcs = 1 then [1, 2, 1]
    else if myPID = 0 then [1]
    else [2, 1]
  let bondMap := BlockMap.mkVariable numMyElements myGlobalElements bondElementSize
  stateTestBody F oneDimensionalOverlapMap threeDimensionalOverlapMap bondMap

/-! ## Specification predicates -/

/-- The invariant of the loops of `contactSearch`: every kept neighbor of a point is outside the
bonded list of that point and, when the owned map does not hold it, is in the off-processor set;
the off-processor set has only such members and is strictly ascending. -/
def ContactInv (rebalancedOneDimensionalMap rebalancedBondMap : BlockMap)
    (rebalancedNeighborGlobalIDs : List Int) (s : ContactSearchState) : Prop :=
  (∀ e ∈ s.contactNeighborGlobalIDs, ∀ g ∈ e.2,
      g ∉ bondedNeighbors rebalancedBondMap rebalancedNeighborGlobalIDs e.1
        ∧ (rebalancedOneDimensionalMap.LID g = -1 → g ∈ s.offProcessorContactIDs))
  ∧ (∀ g ∈ s.offProcessorContactIDs,
      rebalancedOneDimensionalMap.LID g = -1 ∧ ∃ e ∈ s.contactNeighborGlobalIDs, g ∈ e.2)
  ∧ s.offProcessorContactIDs.Pairwise (· < ·)

/-- The flat layout of a list of neighbor records: each record preceded by its length. -/
def encodeRecords (recs : List (List Int)) : List Int :=
  recs.flatMap (fun r => (r.length : Int) :: r)

/-- The offsets at which the records of a flat layout start, the first one at `start`. -/
def recordOffsets (start : Nat) : List (List Int) → List Nat
  | [] => []
  | r :: rs => start :: recordOffsets (start + 1 + r.length) rs

/-- The sublist of a name when the entry of that name is a list, the empty list otherwise. -/
def ParameterList.sublistOrEmpty (l : ParameterList) (name : String) : ParameterList :=
  match l.getEntryPtr name with
  | some (ParameterEntry.list entries) => entries
  | _ => []

/-- The material model that `instantiateMaterials` creates for a recognized entry name: a
`LinearElasticIsotropicMaterial` for "Linear Elastic", an `IsotropicElasticPlasticMaterial`
otherwise, built from the sublist of that name. -/
def materialOfEntry (materialParams : ParameterList) (name : String) : Material :=
  if name = "Linear Elastic" then
    Material.LinearElasticIsotropicMaterial (materialParams.sublistOrEmpty name)
  else Material.IsotropicElasticPlasticMaterial (materialParams.sublistOrEmpty name)

/-- The contact model that `initializeContact` creates for a contact-model sublist: its
parameters, with the horizon of the discretization added when they have no "Horizon". -/
def contactModelOfEntry (horizon : Rat) (contactParams : ParameterList) (name : String) :
    ContactModel :=
  if (contactParams.sublistOrEmpty name).isParameter "Horizon" then
    ContactModel.mk (contactParams.sublistOrEmpty name)
  else
    ContactModel.mk
      ((contactParams.sublistOrEmpty name).set "Horizon" (ParameterEntry.double horizon))

/-- The coordinate that the "Coordinate" string of a boundary condition names: 1 for "y" or "Y",
2 for "z" or "Z", 0 for every other string. -/
def coordinateIndex (coordinate : String) : Nat :=
  if coordinate = "z" ∨ coordinate = "Z" then 2
  else if coordinate = "y" ∨ coordinate = "Y" then 1
  else 0

/-- The node set of a name in the boundary-condition parameters: the node list read from the
string entry of that name when the name contains "Node Set", no node otherwise. -/
def nodeSetOf (readNodeList : String → List Int) (bcParams : ParameterList) (name : String) :
    List Int :=
  if stringFind name "Node Set" then
    match bcParams.getEntryPtr name with
    | some (ParameterEntry.string ss) => readNodeList ss
    | _ => []
  else []

/-- The entries of the vector that one entry of the boundary-condition parameters prescribes:
for a "Prescribed Displacement" sublist, the entry `3*LID + coord` of every node of its node set
that the map holds. -/
def prescribedEntriesOf (nodes : String → List Int) (threeDimensionalMap : BlockMap)
    (it : String × ParameterEntry) : List Nat :=
  if stringFind it.1 "Prescribed Displacement" then
    match it.2 with
    | ParameterEntry.list boundaryConditionParams =>
      match ParameterList.getString boundaryConditionParams "Node Set",
        ParameterList.getString boundaryConditionParams "Coordinate" with
      | Except.ok nodeSet, Except.ok coordinate =>
        ((nodes nodeSet).filter (fun node => threeDimensionalMap.LID node != -1)).map
          (fun node => (threeDimensionalMap.LID node).toNat * 3 + coordinateIndex coordinate)
      | _, _ => []
    | _ => []
  else []

/-- The entries of the vector that the boundary-condition parameters prescribe. -/
def prescribedEntries (readNodeList : String → List Int) (bcParams : ParameterList)
    (threeDimensionalMap : BlockMap) : List Nat :=
  bcParams.flatMap (prescribedEntriesOf (nodeSetOf readNodeList bcParams) threeDimensionalMap)

/-- A vector with the listed entries set to zero. -/
def zeroAt (entries : List Nat) (vec : List Rat) : List Rat :=
  entries.foldl (fun (v : List Rat) (k : Nat) => v.set k 0) vec

/-- Boundary-condition parameters that `applyKinematicBC` reads without an exception: the names
are distinct, every entry whose name contains "Node Set" is a string, and every entry whose name
contains "Prescribed Displacement" is a sublist with the strings "Node Set", "Type" and
"Coordinate" and the double "Value". -/
def BoundaryConditionsWellFormed (bcParams : ParameterList) : Prop :=
  (bcParams.map Prod.fst).Nodup
  ∧ ∀ it ∈ bcParams,
      (stringFind it.1 "Node Set" = true → ∃ ss, it.2 = ParameterEntry.string ss)
      ∧ (stringFind it.1 "Prescribed Displacement" = true →
          ∃ bc nodeSet type coordinate value,
            it.2 = ParameterEntry.list bc
            ∧ ParameterList.getString bc "Node Set" = Except.ok nodeSet
            ∧ ParameterList.getString bc "Type" = Except.ok type
            ∧ ParameterList.getString bc "Coordinate" = Except.ok coordinate
            ∧ ParameterList.getDouble bc "Value" = Except.ok value)

/-- A state whose keys are consistent: two keys held in the same column are the same key, and
every key is held in a column that exists. -/
def State.Valid (s : State) : Prop :=
  (∀ e1 ∈ s.fieldSpecToData, ∀ e2 ∈ s.fieldSpecToData, e1.2 = e2.2 → e1.1 = e2.1)
  ∧ ∀ e ∈ s.fieldSpecToData,
      ∃ v, s.multiVector e.2.1 = some v ∧ e.2.2 < v.columns.length

/-- A state whose storage is well shaped: the keys are consistent and every column of every
multivector has the local length of the map of the multivector. -/
def State.Consistent (s : State) : Prop :=
  s.Valid
  ∧ ∀ kind v, s.multiVector kind = some v → ∀ c ∈ v.columns, c.length = v.map.NumMyPoints

/-- Entry `k` of the field of a spec exists and holds the value `k`, which is what the unit
tests write to every entry they set. -/
def State.HoldsIndex (s : State) (fieldSpec : FieldSpec) (k : Nat) : Prop :=
  ∃ data, s.getData fieldSpec = some data ∧ k < data.length ∧ data.getD k 0 = (k : Rat)


/-! # Theorems -/

/-! ## Epetra_BlockMap -/

theorem BlockMap.LID_eq_neg_one_iff (m : BlockMap) (g : Int) :
    m.LID g = -1 ↔ g ∉ m.MyGlobalElements := by
  unfold BlockMap.LID
  by_cases h : g ∈ m.MyGlobalElements
  · simp only [h, if_true, not_true_eq_false, iff_false]
    omega
  · simp [h]

theorem BlockMap.LID_ne_neg_one_iff (m : BlockMap) (g : Int) :
    m.LID g ≠ -1 ↔ g ∈ m.MyGlobalElements := by
  rw [ne_eq, BlockMap.LID_eq_neg_one_iff, not_not]

theorem BlockMap.GID_natCast (m : BlockMap) (i : Nat) :
    m.GID (i : Int) = m.MyGlobalElements.getD i (-1) := by
  simp [BlockMap.GID]

theorem BlockMap.length_MyGlobalElements (m : BlockMap) :
    m.MyGlobalElements.length = m.NumMyElements := by
  simp [BlockMap.MyGlobalElements, BlockMap.NumMyElements]

theorem BlockMap.GID_of_lt (m : BlockMap) (i : Nat) (h : i < m.NumMyElements) :
    m.GID (i : Int) = m.MyGlobalElements.get ⟨i, by rw [m.length_MyGlobalElements]; exact h⟩ := by
  rw [BlockMap.GID_natCast, List.getD_eq_getElem?_getD, List.getElem?_eq_getElem]
  · rfl

theorem BlockMap.map_GID_range (m : BlockMap) :
    (List.range m.NumMyElements).map (fun (i : Nat) => m.GID (i : Int)) = m.MyGlobalElements := by
  apply List.ext_getElem
  · simp [m.length_MyGlobalElements]
  · intro i h1 h2
    simp only [List.length_map, List.length_range] at h1
    simp [BlockMap.GID_of_lt m i h1]

/-! ## std::set -/

theorem mem_setInsert (x a : Int) (s : List Int) : a ∈ setInsert x s ↔ a = x ∨ a ∈ s := by
  induction s with
  | nil => simp [setInsert]
  | cons y ys ih =>
    unfold setInsert
    by_cases h1 : x < y
    · simp [h1]
    · by_cases h2 : x = y
      · subst h2
        simp
      · simp only [h1, h2, if_false, List.mem_cons, ih]
        tauto

theorem setInsert_sorted (x : Int) (s : List Int) (h : s.Pairwise (· < ·)) :
    (setInsert x s).Pairwise (· < ·) := by
  induction s with
  | nil => simp [setInsert]
  | cons y ys ih =>
    unfold setInsert
    rw [List.pairwise_cons] at h
    by_cases h1 : x < y
    · simp only [h1, if_true, List.pairwise_cons]
      refine ⟨?_, h.1, h.2⟩
      intro a ha
      rcases List.mem_cons.mp ha with rfl | ha
      · exact h1
      · exact lt_trans h1 (h.1 a ha)
    · by_cases h2 : x = y
      · subst h2
        simp only [lt_self_iff_false, if_false, if_true, List.pairwise_cons]
        exact h
      · simp only [h1, h2, if_false, List.pairwise_cons]
        refine ⟨?_, ih h.2⟩
        intro a ha
        rcases (mem_setInsert x a ys).mp ha with rfl | ha
        · omega
        · exact h.1 a ha

theorem foldl_setInsert_mem (l s : List Int) (a : Int) :
    a ∈ l.foldl (fun (ids : List Int) (it : Int) => setInsert it ids) s ↔ a ∈ l ∨ a ∈ s := by
  induction l generalizing s with
  | nil => simp
  | cons x xs ih =>
    simp only [List.foldl_cons, ih, mem_setInsert, List.mem_cons]
    tauto

theorem foldl_setInsert_sorted (l s : List Int) (h : s.Pairwise (· < ·)) :
    (l.foldl (fun (ids : List Int) (it : Int) => setInsert it ids) s).Pairwise (· < ·) := by
  induction l generalizing s with
  | nil => simpa using h
  | cons x xs ih =>
    simp only [List.foldl_cons]
    exact ih _ (setInsert_sorted x s h)

theorem nodup_of_sorted_lt (s : List Int) (h : s.Pairwise (· < ·)) : s.Nodup :=
  h.imp (fun hab => ne_of_lt hab)

/-! ## createRebalancedBondMap -/

theorem take_set_succ_eq {α : Type} (l : List α) (k : Nat) (v : α) (hk : k < l.length) :
    (l.set k v).take (k + 1) = l.take k ++ [v] := by
  induction l generalizing k with
  | nil => simp at hk
  | cons a t ih =>
    cases k with
    | zero => simp
    | succ k =>
      simp only [List.length_cons, Nat.add_lt_add_iff_right] at hk
      simp [List.set, List.take, ih k hk]

theorem bondMap_loop_inv (m : BlockMap) (counts : List Int)
    (hc : counts.length = m.NumMyElements) (i : Nat) (hi : i ≤ m.NumMyElements) :
    let s := (List.range i).foldl (bondMapStep m counts)
      ⟨0, List.replicate m.NumMyElements 0, List.replicate m.NumMyElements 0, 0⟩
    let kept := ((m.MyGlobalElements.zip counts).take i).filter (fun p => 0 < p.2)
    s.numMyElements = kept.length ∧ s.numPointsWithZeroNeighbors + s.numMyElements = i ∧
    s.myGlobalElements.length = m.NumMyElements ∧ s.elementSizeList.length = m.NumMyElements ∧
    s.myGlobalElements.take s.numMyElements = kept.map Prod.fst ∧
    s.elementSizeList.take s.numMyElements = kept.map Prod.snd := by
  induction i with
  | zero => simp
  | succ i ih =>
    have hi2 : i < m.NumMyElements := hi
    obtain ⟨h1, h2, h3, h4, h5, h6⟩ := ih (Nat.le_of_lt hi2)
    have hg : m.MyGlobalElements.length = m.NumMyElements := by
      simp [BlockMap.MyGlobalElements, BlockMap.NumMyElements]
    have hz : i < (m.MyGlobalElements.zip counts).length := by
      simp [List.length_zip, hg, hc, hi2]
    have htake : (m.MyGlobalElements.zip counts).take (i + 1)
        = (m.MyGlobalElements.zip counts).take i
          ++ [(m.MyGlobalElements.getD i 0, counts.getD i 0)] := by
      rw [List.take_succ, List.getElem?_eq_getElem hz]
      have h1 : i < m.MyGlobalElements.length := by omega
      have h2 : i < counts.length := by omega
      simp [List.getD_eq_getElem?_getD, List.getElem?_eq_getElem h1, List.getElem?_eq_getElem h2]
    simp only [List.range_succ, List.foldl_append, List.foldl_cons, List.foldl_nil]
    generalize (List.range i).foldl (bondMapStep m counts)
      ⟨0, List.replicate m.NumMyElements 0, List.replicate m.NumMyElements 0, 0⟩ = s at *
    rw [htake, List.filter_append]
    simp only [bondMapStep, gt_iff_lt]
    generalize counts.getD i 0 = c
    generalize m.MyGlobalElements.getD i 0 = g
    by_cases hpos : 0 < c
    · have hk : i - s.numPointsWithZeroNeighbors = s.numMyElements := by omega
      have hlt1 : s.numMyElements < s.myGlobalElements.length := by omega
      have hlt2 : s.numMyElements < s.elementSizeList.length := by omega
      simp only [hpos, if_true, hk, List.length_set]
      refine ⟨?_, ?_, h3, h4, ?_, ?_⟩
      · simp [h1, hpos]
      · omega
      · rw [take_set_succ_eq _ _ _ hlt1, h5]; simp [hpos]
      · rw [take_set_succ_eq _ _ _ hlt2, h6]; simp [hpos]
    · simp only [hpos, if_false]
      refine ⟨?_, ?_, h3, h4, ?_, ?_⟩
      · simp [h1, hpos]
      · omega
      · simp [h5, hpos]
      · simp [h6, hpos]

theorem createRebalancedBondMapFromCounts_elements (m : BlockMap) (counts : List Int)
    (hc : counts.length = m.NumMyElements) :
    (createRebalancedBondMapFromCounts m counts).elements =
      ((m.MyGlobalElements.zip counts).filter (fun p => 0 < p.2)).map
        (fun p => (p.1, p.2.toNat)) := by
  obtain ⟨h1, -, -, -, h5, h6⟩ := bondMap_loop_inv m counts hc m.NumMyElements (le_refl _)
  simp only [createRebalancedBondMapFromCounts, BlockMap.mkVariable]
  rw [h5, h6]
  have hfull : (m.MyGlobalElements.zip counts).take m.NumMyElements
      = m.MyGlobalElements.zip counts := by
    apply List.take_of_length_le
    simp [List.length_zip, hc, BlockMap.MyGlobalElements, BlockMap.NumMyElements]
  rw [hfull]
  generalize (m.MyGlobalElements.zip counts).filter (fun p => 0 < p.2) = l
  induction l with
  | nil => rfl
  | cons a t ih => simp only [List.map_cons, List.zip_cons_cons, ih]


/-- C1: for every rebalanced owned map and every imported bond-count vector (one count per owned
point), the bond map returned by `createRebalancedBondMap` consists exactly of the pairs
(GlobalID, count) of the owned points whose count is strictly positive, in owned-map order, the
block size being the count; and a GlobalID is in the bond map if and only if it is the GlobalID of
an owned point with a positive count. -/
theorem createRebalancedBondMap_omission_law
    (oneDimensionalMap bondMap rebalancedOneDimensionalMap : BlockMap)
    (importCounts : List Int → List Int)
    (hlen : (importCounts (numberOfBonds oneDimensionalMap bondMap)).length
      = rebalancedOneDimensionalMap.NumMyElements) :
    ((createRebalancedBondMap oneDimensionalMap bondMap rebalancedOneDimensionalMap
        importCounts).elements.map (fun e => (e.1, (e.2 : Int)))
      = (rebalancedOneDimensionalMap.MyGlobalElements.zip
          (importCounts (numberOfBonds oneDimensionalMap bondMap))).filter (fun p => 0 < p.2))
    ∧ ∀ g : Int,
        g ∈ (createRebalancedBondMap oneDimensionalMap bondMap rebalancedOneDimensionalMap
          importCounts).MyGlobalElements
        ↔ ∃ i : Nat, i < rebalancedOneDimensionalMap.NumMyElements
            ∧ rebalancedOneDimensionalMap.GID i = g
            ∧ 0 < (importCounts (numberOfBonds oneDimensionalMap bondMap)).getD i 0 := by
  unfold createRebalancedBondMap
  generalize importCounts (numberOfBonds oneDimensionalMap bondMap) = counts at hlen ⊢
  have hel := createRebalancedBondMapFromCounts_elements rebalancedOneDimensionalMap counts hlen
  have hg := rebalancedOneDimensionalMap.length_MyGlobalElements
  constructor
  · rw [hel, List.map_map]
    conv_rhs => rw [← List.map_id (List.filter _ _)]
    apply List.map_congr_left
    intro p hp
    have hpos : 0 < p.2 := by simpa using (List.mem_filter.mp hp).2
    simp only [Function.comp, id]
    rw [Int.toNat_of_nonneg (le_of_lt hpos)]
  · intro g
    simp only [BlockMap.MyGlobalElements, hel, List.map_map]
    simp only [List.mem_map, List.mem_filter, Function.comp]
    constructor
    · rintro ⟨p, ⟨hp, hpos⟩, rfl⟩
      obtain ⟨i, hi, rfl⟩ := List.mem_iff_getElem.mp hp
      have hi1 : i < rebalancedOneDimensionalMap.NumMyElements := by
        simp only [List.length_zip, BlockMap.length_MyGlobalElements, List.length_map] at hi
        omega
      refine ⟨i, hi1, ?_, ?_⟩
      · rw [BlockMap.GID_of_lt _ _ hi1]; simp [BlockMap.MyGlobalElements]
      · have : i < counts.length := by omega
        rw [List.getD_eq_getElem?_getD, List.getElem?_eq_getElem this]
        simpa using hpos
    · rintro ⟨i, hi, rfl, hpos⟩
      have hi2 : i < counts.length := by omega
      have hi3 : i < rebalancedOneDimensionalMap.MyGlobalElements.length := by omega
      refine ⟨(rebalancedOneDimensionalMap.MyGlobalElements.get ⟨i, hi3⟩, counts.get ⟨i, hi2⟩),
        ⟨?_, ?_⟩, ?_⟩
      · apply List.mem_iff_getElem.mpr
        refine ⟨i, by simp [List.length_zip]; exact ⟨by simpa [BlockMap.MyGlobalElements] using hi3, hi2⟩, ?_⟩
        simp [BlockMap.MyGlobalElements]
      · rw [List.getD_eq_getElem?_getD, List.getElem?_eq_getElem hi2] at hpos
        simpa using hpos
      · rw [BlockMap.GID_of_lt _ _ hi]

theorem createRebalancedBondMap_omission_law_witness :
    (createRebalancedBondMap ⟨[(10, 1), (20, 1), (30, 1)]⟩ ⟨[(10, 2), (30, 3)]⟩
        ⟨[(30, 1), (20, 1), (10, 1)]⟩ (fun _ => [3, 0, 2])).elements.map
          (fun e => (e.1, (e.2 : Int)))
      = ((BlockMap.mk [(30, 1), (20, 1), (10, 1)]).MyGlobalElements.zip
          ((fun _ => [3, 0, 2]) (numberOfBonds ⟨[(10, 1), (20, 1), (30, 1)]⟩
            ⟨[(10, 2), (30, 3)]⟩))).filter (fun p => 0 < p.2) :=
  (createRebalancedBondMap_omission_law ⟨[(10, 1), (20, 1), (30, 1)]⟩ ⟨[(10, 2), (30, 3)]⟩
    ⟨[(30, 1), (20, 1), (10, 1)]⟩ (fun _ => [3, 0, 2]) (by decide)).1


/-! ## rebalance: ghost requirement and overlap maps -/

theorem offProcessorBondIDs_inv (owned : BlockMap) (vec : List Int) (k : Nat) (hk : k ≤ vec.length) :
    ((List.range k).foldl
        (fun (offProcessorIDs : List Int) (i : Nat) =>
          let globalID := vec.getD i 0
          if !owned.MyGID globalID then setInsert globalID offProcessorIDs else offProcessorIDs)
        []).Pairwise (· < ·)
    ∧ ∀ g : Int,
        g ∈ (List.range k).foldl
          (fun (offProcessorIDs : List Int) (i : Nat) =>
            let globalID := vec.getD i 0
            if !owned.MyGID globalID then setInsert globalID offProcessorIDs else offProcessorIDs)
          []
        ↔ g ∈ vec.take k ∧ g ∉ owned.MyGlobalElements := by
  induction k with
  | zero => simp
  | succ k ih =>
    have hk2 : k < vec.length := hk
    obtain ⟨hs, hm⟩ := ih (Nat.le_of_lt hk2)
    simp only [List.range_succ, List.foldl_append, List.foldl_cons, List.foldl_nil]
    generalize (List.range k).foldl
        (fun (offProcessorIDs : List Int) (i : Nat) =>
          let globalID := vec.getD i 0
          if !owned.MyGID globalID then setInsert globalID offProcessorIDs else offProcessorIDs)
        [] = acc at hs hm ⊢
    have hget : vec.getD k 0 = vec.get ⟨k, hk2⟩ := by
      rw [List.getD_eq_getElem?_getD, List.getElem?_eq_getElem hk2]; rfl
    have htake : vec.take (k + 1) = vec.take k ++ [vec.get ⟨k, hk2⟩] := by
      rw [List.take_succ, List.getElem?_eq_getElem hk2]; rfl
    rw [htake, hget]
    generalize vec.get ⟨k, hk2⟩ = x
    by_cases hx : x ∈ owned.MyGlobalElements
    · have : owned.MyGID x = true := by
        simp [BlockMap.MyGID, (BlockMap.LID_ne_neg_one_iff owned x).mpr hx]
      simp only [this, Bool.not_true, Bool.false_eq_true, if_false]
      refine ⟨hs, fun g => ?_⟩
      rw [hm g, List.mem_append, List.mem_singleton]
      constructor
      · rintro ⟨h1, h2⟩; exact ⟨Or.inl h1, h2⟩
      · rintro ⟨h1 | h1, h2⟩
        · exact ⟨h1, h2⟩
        · subst h1; exact absurd hx h2
    · have : owned.MyGID x = false := by
        simp [BlockMap.MyGID, (BlockMap.LID_eq_neg_one_iff owned x).mpr hx]
      simp only [this, Bool.not_false, if_true]
      refine ⟨setInsert_sorted x acc hs, fun g => ?_⟩
      rw [mem_setInsert, hm g, List.mem_append, List.mem_singleton]
      constructor
      · rintro (rfl | ⟨h1, h2⟩)
        · exact ⟨Or.inr rfl, hx⟩
        · exact ⟨Or.inl h1, h2⟩
      · rintro ⟨h1 | h1, h2⟩
        · exact Or.inr ⟨h1, h2⟩
        · exact Or.inl h1

theorem offProcessorBondIDs_sorted (owned : BlockMap) (vec : List Int) :
    (offProcessorBondIDs owned vec).Pairwise (· < ·) :=
  (offProcessorBondIDs_inv owned vec vec.length (le_refl _)).1

theorem mem_offProcessorBondIDs (owned : BlockMap) (vec : List Int) (g : Int) :
    g ∈ offProcessorBondIDs owned vec ↔ g ∈ vec ∧ g ∉ owned.MyGlobalElements := by
  have h := (offProcessorBondIDs_inv owned vec vec.length (le_refl _)).2 g
  rw [List.take_length] at h
  exact h

theorem fill_array_tail (a b : List Int) (k : Nat) (hk : k ≤ b.length) :
    (List.range k).foldl
        (fun (myGlobalElements : List Int) (index : Nat) =>
          myGlobalElements.set (a.length + index) (b.getD index 0))
        (a ++ List.replicate b.length 0)
      = a ++ (b.take k ++ List.replicate (b.length - k) 0) := by
  induction k with
  | zero => simp
  | succ k ih =>
    have hk2 : k < b.length := hk
    simp only [List.range_succ, List.foldl_append, List.foldl_cons, List.foldl_nil]
    rw [ih (Nat.le_of_lt hk2)]
    have hget : b.getD k 0 = b.get ⟨k, hk2⟩ := by
      rw [List.getD_eq_getElem?_getD, List.getElem?_eq_getElem hk2]; rfl
    have htake : b.take (k + 1) = b.take k ++ [b.get ⟨k, hk2⟩] := by
      rw [List.take_succ, List.getElem?_eq_getElem hk2]; rfl
    rw [htake, hget]
    generalize b.get ⟨k, hk2⟩ = x
    have hrep : List.replicate (b.length - k) (0 : Int)
        = 0 :: List.replicate (b.length - (k + 1)) 0 := by
      have : b.length - k = (b.length - (k + 1)) + 1 := by omega
      rw [this, List.replicate_succ]
    have hlen : (b.take k).length = k := by
      rw [List.length_take]; omega
    rw [hrep, List.set_append_right _ _ (by omega), Nat.add_sub_cancel_left,
      List.set_append_right _ _ (by omega), hlen, Nat.sub_self]
    simp

theorem overlapGlobalElements_eq (owned : BlockMap) (off : List Int) :
    overlapGlobalElements owned off = owned.MyGlobalElements ++ off := by
  have h := fill_array_tail owned.MyGlobalElements off off.length (le_refl _)
  rw [owned.length_MyGlobalElements] at h
  simp only [overlapGlobalElements]
  rw [h]
  simp

theorem mkUniform_MyGlobalElements (n : Nat) (gids : List Int) (size : Nat)
    (h : gids.length ≤ n) : (BlockMap.mkUniform n gids size).MyGlobalElements = gids := by
  simp only [BlockMap.mkUniform, BlockMap.MyGlobalElements, List.take_of_length_le h,
    List.map_map]
  conv_rhs => rw [← List.map_id gids]
  apply List.map_congr_left
  intro a _
  rfl


/-! ## std::map -/

theorem mem_mapTouch (k : Int) (m : List (Int × List Int)) (e : Int × List Int)
    (h : e ∈ mapTouch k m) : e ∈ m ∨ e = (k, []) := by
  induction m with
  | nil => simp [mapTouch] at h; exact Or.inr h
  | cons a t ih =>
    obtain ⟨j, v⟩ := a
    unfold mapTouch at h
    by_cases h1 : k < j
    · simp only [h1, if_true, List.mem_cons] at h
      rcases h with h | h
      · exact Or.inr h
      · exact Or.inl (List.mem_cons.mpr h)
    · by_cases h2 : k = j
      · subst h2
        simp only [lt_self_iff_false, if_false, if_true] at h
        exact Or.inl h
      · simp only [h1, h2, if_false, List.mem_cons] at h
        rcases h with h | h
        · exact Or.inl (List.mem_cons.mpr (Or.inl h))
        · rcases ih h with h | h
          · exact Or.inl (List.mem_cons.mpr (Or.inr h))
          · exact Or.inr h

theorem mem_mapTouch_of_mem (k : Int) (m : List (Int × List Int)) (e : Int × List Int)
    (h : e ∈ m) : e ∈ mapTouch k m := by
  induction m with
  | nil => simp at h
  | cons a t ih =>
    obtain ⟨j, v⟩ := a
    unfold mapTouch
    by_cases h1 : k < j
    · simp only [h1, if_true]
      exact List.mem_cons_of_mem _ h
    · by_cases h2 : k = j
      · subst h2
        simp only [lt_self_iff_false, if_false, if_true]
        exact h
      · simp only [h1, h2, if_false]
        rcases List.mem_cons.mp h with h | h
        · exact List.mem_cons.mpr (Or.inl h)
        · exact List.mem_cons_of_mem _ (ih h)

theorem mapTouch_has_key (k : Int) (m : List (Int × List Int)) :
    ∃ e ∈ mapTouch k m, e.1 = k := by
  induction m with
  | nil => exact ⟨(k, []), by simp [mapTouch], rfl⟩
  | cons a t ih =>
    obtain ⟨j, v⟩ := a
    unfold mapTouch
    by_cases h1 : k < j
    · simp only [h1, if_true]
      exact ⟨(k, []), List.mem_cons_self _ _, rfl⟩
    · by_cases h2 : k = j
      · subst h2
        simp only [lt_self_iff_false, if_false, if_true]
        exact ⟨(k, v), List.mem_cons_self _ _, rfl⟩
      · simp only [h1, h2, if_false]
        obtain ⟨e, he, hk⟩ := ih
        exact ⟨e, List.mem_cons_of_mem _ he, hk⟩

theorem mem_mapPushBack (k x : Int) (m : List (Int × List Int)) (e : Int × List Int)
    (h : e ∈ mapPushBack k x m) :
    e ∈ m ∨ (e.1 = k ∧ ∃ v, (k, v) ∈ m ∧ e.2 = v ++ [x]) := by
  induction m with
  | nil => simp [mapPushBack] at h
  | cons a t ih =>
    obtain ⟨j, v⟩ := a
    unfold mapPushBack at h
    by_cases h2 : k = j
    · subst h2
      simp only [if_true, List.mem_cons] at h
      rcases h with h | h
      · subst h
        exact Or.inr ⟨rfl, v, List.mem_cons_self _ _, rfl⟩
      · exact Or.inl (List.mem_cons_of_mem _ h)
    · simp only [h2, if_false, List.mem_cons] at h
      rcases h with h | h
      · exact Or.inl (List.mem_cons.mpr (Or.inl h))
      · rcases ih h with h | ⟨h3, w, hw, h4⟩
        · exact Or.inl (List.mem_cons_of_mem _ h)
        · exact Or.inr ⟨h3, w, List.mem_cons_of_mem _ hw, h4⟩

theorem mapPushBack_keeps (k x : Int) (m : List (Int × List Int)) (e : Int × List Int)
    (h : e ∈ m) : ∃ e2 ∈ mapPushBack k x m, e2.1 = e.1 ∧ ∀ g ∈ e.2, g ∈ e2.2 := by
  induction m with
  | nil => simp at h
  | cons a t ih =>
    obtain ⟨j, v⟩ := a
    unfold mapPushBack
    by_cases h2 : k = j
    · simp only [h2, if_true]
      rcases List.mem_cons.mp h with h | h
      · subst h
        exact ⟨(j, v ++ [x]), List.mem_cons_self _ _, rfl,
          fun g hg => List.mem_append.mpr (Or.inl hg)⟩
      · exact ⟨e, List.mem_cons_of_mem _ h, rfl, fun g hg => hg⟩
    · simp only [h2, if_false]
      rcases List.mem_cons.mp h with h | h
      · subst h
        exact ⟨(j, v), List.mem_cons_self _ _, rfl, fun g hg => hg⟩
      · obtain ⟨e2, he2, h3, h4⟩ := ih h
        exact ⟨e2, List.mem_cons_of_mem _ he2, h3, h4⟩

theorem mapPushBack_pushes (k x : Int) (m : List (Int × List Int))
    (h : ∃ e ∈ m, e.1 = k) : ∃ e2 ∈ mapPushBack k x m, e2.1 = k ∧ x ∈ e2.2 := by
  induction m with
  | nil => simp at h
  | cons a t ih =>
    obtain ⟨j, v⟩ := a
    unfold mapPushBack
    by_cases h2 : k = j
    · simp only [h2, if_true]
      exact ⟨(j, v ++ [x]), List.mem_cons_self _ _, rfl, by simp⟩
    · simp only [h2, if_false]
      obtain ⟨e, he, hk⟩ := h
      rcases List.mem_cons.mp he with h3 | h3
      · subst h3
        exact absurd hk.symm h2
      · obtain ⟨e2, he2, h4, h5⟩ := ih ⟨e, h3, hk⟩
        exact ⟨e2, List.mem_cons_of_mem _ he2, h4, h5⟩

/-! ## contactSearch: invariants -/

theorem foldl_preserves {σ ι : Type} (P : σ → Prop) (f : σ → ι → σ)
    (hstep : ∀ s i, P s → P (f s i)) (l : List ι) (s : σ) (h : P s) : P (l.foldl f s) := by
  induction l generalizing s with
  | nil => exact h
  | cons a t ih => exact ih _ (hstep s a h)

theorem contactSearchNeighbor_inv (owned bond : BlockMap) (vec : List Int) (globalID : Int)
    (buf : List Int) (s : ContactSearchState) (i : Nat)
    (h : ContactInv owned bond vec s ∧ ∃ e ∈ s.contactNeighborGlobalIDs, e.1 = globalID) :
    ContactInv owned bond vec
        (contactSearchNeighbor owned (bondedNeighbors bond vec globalID) globalID buf s i)
      ∧ ∃ e ∈ (contactSearchNeighbor owned (bondedNeighbors bond vec globalID) globalID buf s
          i).contactNeighborGlobalIDs, e.1 = globalID := by
  obtain ⟨⟨h1, h2, h3⟩, hkey⟩ := h
  unfold contactSearchNeighbor
  generalize buf.getD s.searchListIndex 0 = x
  by_cases hb : x ∈ bondedNeighbors bond vec globalID
  · simp only [hb, not_true_eq_false, if_false]
    exact ⟨⟨h1, h2, h3⟩, hkey⟩
  · simp only [hb, not_false_eq_true, if_true]
    refine ⟨⟨?_, ?_, ?_⟩, ?_⟩
    · intro e he g hg
      have hmono : ∀ a, a ∈ s.offProcessorContactIDs →
          a ∈ (if owned.LID x = -1 then setInsert x s.offProcessorContactIDs
            else s.offProcessorContactIDs) := by
        intro a ha
        split
        · exact (mem_setInsert x a _).mpr (Or.inr ha)
        · exact ha
      rcases mem_mapPushBack globalID x _ e he with he | ⟨hk, v, hv, hev⟩
      · exact ⟨(h1 e he g hg).1, fun hl => hmono g ((h1 e he g hg).2 hl)⟩
      · rw [hev] at hg
        rcases List.mem_append.mp hg with hg | hg
        · have := h1 (globalID, v) hv g hg
          rw [hk]
          exact ⟨this.1, fun hl => hmono g (this.2 hl)⟩
        · rw [List.mem_singleton] at hg
          subst hg
          rw [hk]
          refine ⟨hb, fun hl => ?_⟩
          simp only [hl, if_true]
          exact (mem_setInsert g g _).mpr (Or.inl rfl)
    · intro g hg
      by_cases hl : owned.LID x = -1
      · simp only [hl, if_true] at hg
        rcases (mem_setInsert x g _).mp hg with hg | hg
        · subst hg
          obtain ⟨e2, he2, -, hx⟩ := mapPushBack_pushes globalID g _ hkey
          exact ⟨hl, e2, he2, hx⟩
        · obtain ⟨hg1, e, he, hge⟩ := h2 g hg
          obtain ⟨e2, he2, -, hsub⟩ := mapPushBack_keeps globalID x _ e he
          exact ⟨hg1, e2, he2, hsub g hge⟩
      · simp only [hl, if_false] at hg
        obtain ⟨hg1, e, he, hge⟩ := h2 g hg
        obtain ⟨e2, he2, -, hsub⟩ := mapPushBack_keeps globalID x _ e he
        exact ⟨hg1, e2, he2, hsub g hge⟩
    · split
      · exact setInsert_sorted x _ h3
      · exact h3
    · obtain ⟨e2, he2, hk, -⟩ := mapPushBack_pushes globalID x _ hkey
      exact ⟨e2, he2, hk⟩

theorem contactSearchPoint_inv (owned bond : BlockMap) (vec : List Int) (decomp : PdGridData)
    (s : ContactSearchState) (iPt : Nat) (h : ContactInv owned bond vec s) :
    ContactInv owned bond vec (contactSearchPoint owned bond vec decomp s iPt) := by
  unfold contactSearchPoint
  refine (foldl_preserves
    (fun t => ContactInv owned bond vec t ∧
      ∃ e ∈ t.contactNeighborGlobalIDs, e.1 = decomp.myGlobalIDs.getD iPt 0)
    _ (fun t i ht => contactSearchNeighbor_inv owned bond vec _ _ t i ht) _ _ ?_).1
  obtain ⟨h1, h2, h3⟩ := h
  refine ⟨⟨?_, ?_, h3⟩, mapTouch_has_key _ _⟩
  · intro e he g hg
    rcases mem_mapTouch _ _ e he with he | he
    · exact h1 e he g hg
    · subst he
      simp at hg
  · intro g hg
    obtain ⟨hg1, e, he, hge⟩ := h2 g hg
    exact ⟨hg1, e, mem_mapTouch_of_mem _ _ e he, hge⟩

theorem contactSearch_inv (owned bond : BlockMap) (vec : List Int) (decomp : PdGridData) :
    ContactInv owned bond vec (contactSearch owned bond vec decomp [] []) := by
  unfold contactSearch
  apply foldl_preserves (ContactInv owned bond vec) _
    (fun s i hs => contactSearchPoint_inv owned bond vec decomp s i hs)
  refine ⟨?_, ?_, ?_⟩ <;> simp


/-! ## The bonded list of a point -/

theorem foldl_append_singleton {α ι : Type} (f : ι → α) (l : List ι) (init : List α) :
    l.foldl (fun (acc : List α) (i : ι) => acc ++ [f i]) init = init ++ l.map f := by
  induction l generalizing init with
  | nil => simp
  | cons a t ih => simp [ih]

theorem bondedNeighbors_eq (bond : BlockMap) (vec : List Int) (globalID : Int) :
    bondedNeighbors bond vec globalID
      = if bond.LID globalID = -1 then []
        else (List.range (bond.ElementSize (bond.LID globalID))).map
          (fun (i : Nat) => vec.getD (bond.FirstPointInElementList (bond.LID globalID) + i) 0) := by
  unfold bondedNeighbors
  by_cases h : bond.LID globalID = -1
  · simp [h]
  · simp only [bne_iff_ne, ne_eq, h, not_false_eq_true, if_true, if_false]
    rw [foldl_append_singleton]
    simp

theorem map_getD_range_eq_take_drop (vec : List Int) (first size : Nat)
    (h : first + size ≤ vec.length) :
    (List.range size).map (fun (i : Nat) => vec.getD (first + i) 0)
      = (vec.drop first).take size := by
  apply List.ext_getElem
  · simp only [List.length_map, List.length_range, List.length_take, List.length_drop]
    omega
  · intro i h1 h2
    simp only [List.length_map, List.length_range] at h1
    have h3 : first + i < vec.length := by omega
    simp [List.getD_eq_getElem?_getD, List.getElem?_eq_getElem h3]

theorem mem_take_drop (vec : List Int) (first size : Nat) (g : Int)
    (h : g ∈ (vec.drop first).take size) :
    g ∈ (List.range size).map (fun (i : Nat) => vec.getD (first + i) 0) := by
  obtain ⟨i, hi, rfl⟩ := List.mem_iff_getElem.mp h
  simp only [List.length_take, List.length_drop] at hi
  have h1 : i < size := by omega
  have h3 : first + i < vec.length := by omega
  apply List.mem_map.mpr
  refine ⟨i, List.mem_range.mpr h1, ?_⟩
  simp [List.getD_eq_getElem?_getD, List.getElem?_eq_getElem h3]

theorem mem_bondedNeighbors_of_mem_bondBlock (bond : BlockMap) (vec : List Int)
    (globalID g : Int) (h : g ∈ bondBlock bond vec globalID) :
    g ∈ bondedNeighbors bond vec globalID := by
  rw [bondedNeighbors_eq]
  unfold bondBlock at h
  by_cases hl : bond.LID globalID = -1
  · simp [hl] at h
  · simp only [hl, if_false] at h ⊢
    exact mem_take_drop _ _ _ _ h

/-! ## rebalance: the overlap maps -/

theorem rebalanceMaps_offProcessorIDs_mem (c : Bool) (owned bond : BlockMap) (vec : List Int)
    (decomp : PdGridData) (g : Int) :
    g ∈ (rebalanceMaps c owned bond vec decomp).offProcessorIDs
      ↔ g ∈ (rebalanceMaps c owned bond vec decomp).offProcessorContactIDs
        ∨ (g ∈ vec ∧ g ∉ owned.MyGlobalElements) := by
  simp only [rebalanceMaps, foldl_setInsert_mem, mem_offProcessorBondIDs]

theorem rebalanceMaps_offProcessorIDs_sorted (c : Bool) (owned bond : BlockMap)
    (vec : List Int) (decomp : PdGridData) :
    (rebalanceMaps c owned bond vec decomp).offProcessorIDs.Pairwise (· < ·) := by
  simp only [rebalanceMaps]
  exact foldl_setInsert_sorted _ _ (offProcessorBondIDs_sorted owned vec)

theorem rebalanceMaps_contact_inv (c : Bool) (owned bond : BlockMap) (vec : List Int)
    (decomp : PdGridData) :
    ContactInv owned bond vec
      { searchListIndex := 0
        contactNeighborGlobalIDs := (rebalanceMaps c owned bond vec decomp).contactNeighborGlobalIDs
        offProcessorContactIDs := (rebalanceMaps c owned bond vec decomp).offProcessorContactIDs } := by
  cases c with
  | false =>
    simp only [rebalanceMaps, Bool.false_eq_true, if_false]
    refine ⟨?_, ?_, ?_⟩ <;> simp
  | true =>
    simp only [rebalanceMaps, if_true]
    exact contactSearch_inv owned bond vec decomp

theorem rebalanceMaps_overlap1_gids (c : Bool) (owned bond : BlockMap) (vec : List Int)
    (decomp : PdGridData) :
    (rebalanceMaps c owned bond vec decomp).rebalancedOneDimensionalOverlapMap.MyGlobalElements
      = owned.MyGlobalElements ++ (rebalanceMaps c owned bond vec decomp).offProcessorIDs := by
  simp only [rebalanceMaps, overlapGlobalElements_eq]
  apply mkUniform_MyGlobalElements
  simp [owned.length_MyGlobalElements]

theorem rebalanceMaps_overlap3_gids (c : Bool) (owned bond : BlockMap) (vec : List Int)
    (decomp : PdGridData) :
    (rebalanceMaps c owned bond vec decomp).rebalancedThreeDimensionalOverlapMap.MyGlobalElements
      = owned.MyGlobalElements ++ (rebalanceMaps c owned bond vec decomp).offProcessorIDs := by
  simp only [rebalanceMaps, overlapGlobalElements_eq]
  apply mkUniform_MyGlobalElements
  simp [owned.length_MyGlobalElements]


/-- C2: in the overlap map that `rebalance` builds, every GlobalID of the rebalanced bonded
neighbor list and every GlobalID of every contact neighbor list produced by `contactSearch` is
present, so each of them resolves to a local index other than `-1`. -/
theorem rebalance_ghost_sufficiency (analysisHasContact : Bool)
    (rebalancedOneDimensionalMap rebalancedBondMap : BlockMap)
    (rebalancedNeighborGlobalIDs : List Int) (rebalancedDecomp : PdGridData) :
    (∀ g ∈ rebalancedNeighborGlobalIDs,
      g ∈ (rebalanceMaps analysisHasContact rebalancedOneDimensionalMap rebalancedBondMap
          rebalancedNeighborGlobalIDs rebalancedDecomp).rebalancedOneDimensionalOverlapMap.MyGlobalElements
      ∧ (rebalanceMaps analysisHasContact rebalancedOneDimensionalMap rebalancedBondMap
          rebalancedNeighborGlobalIDs rebalancedDecomp).rebalancedOneDimensionalOverlapMap.LID g
        ≠ -1)
    ∧ ∀ e ∈ (rebalanceMaps analysisHasContact rebalancedOneDimensionalMap rebalancedBondMap
          rebalancedNeighborGlobalIDs rebalancedDecomp).contactNeighborGlobalIDs,
        ∀ g ∈ e.2,
          g ∈ (rebalanceMaps analysisHasContact rebalancedOneDimensionalMap rebalancedBondMap
              rebalancedNeighborGlobalIDs
              rebalancedDecomp).rebalancedOneDimensionalOverlapMap.MyGlobalElements
          ∧ (rebalanceMaps analysisHasContact rebalancedOneDimensionalMap rebalancedBondMap
              rebalancedNeighborGlobalIDs rebalancedDecomp).rebalancedOneDimensionalOverlapMap.LID
              g ≠ -1 := by
  have hmem := rebalanceMaps_offProcessorIDs_mem analysisHasContact rebalancedOneDimensionalMap
    rebalancedBondMap rebalancedNeighborGlobalIDs rebalancedDecomp
  have hgids := rebalanceMaps_overlap1_gids analysisHasContact rebalancedOneDimensionalMap
    rebalancedBondMap rebalancedNeighborGlobalIDs rebalancedDecomp
  have hinv := rebalanceMaps_contact_inv analysisHasContact rebalancedOneDimensionalMap
    rebalancedBondMap rebalancedNeighborGlobalIDs rebalancedDecomp
  simp only [BlockMap.LID_ne_neg_one_iff, and_self]
  rw [hgids]
  constructor
  · intro g hg
    by_cases ho : g ∈ rebalancedOneDimensionalMap.MyGlobalElements
    · exact List.mem_append.mpr (Or.inl ho)
    · exact List.mem_append.mpr (Or.inr ((hmem g).mpr (Or.inr ⟨hg, ho⟩)))
  · intro e he g hg
    by_cases ho : g ∈ rebalancedOneDimensionalMap.MyGlobalElements
    · exact List.mem_append.mpr (Or.inl ho)
    · have hoff := (hinv.1 e he g hg).2 ((BlockMap.LID_eq_neg_one_iff _ g).mpr ho)
      exact List.mem_append.mpr (Or.inr ((hmem g).mpr (Or.inl hoff)))

/-- C5: for every point processed by `contactSearch`, the contact neighbor list produced for the
point holds no GlobalID of the bonded neighbors of that point, that is of the block of the point
in the bond-map layout of `rebalancedNeighborGlobalIDs`. -/
theorem contactSearch_contact_exclusivity
    (rebalancedOneDimensionalMap rebalancedBondMap : BlockMap)
    (rebalancedNeighborGlobalIDs : List Int) (rebalancedDecomp : PdGridData) :
    ∀ e ∈ (contactSearch rebalancedOneDimensionalMap rebalancedBondMap
        rebalancedNeighborGlobalIDs rebalancedDecomp [] []).contactNeighborGlobalIDs,
      ∀ g ∈ e.2, g ∉ bondBlock rebalancedBondMap rebalancedNeighborGlobalIDs e.1 := by
  intro e he g hg hblock
  have hinv := contactSearch_inv rebalancedOneDimensionalMap rebalancedBondMap
    rebalancedNeighborGlobalIDs rebalancedDecomp
  exact (hinv.1 e he g hg).1
    (mem_bondedNeighbors_of_mem_bondBlock rebalancedBondMap rebalancedNeighborGlobalIDs e.1 g
      hblock)

theorem contactSearch_contact_exclusivity_witness :
    ((1, [5, 0]) : Int × List Int)
        ∈ (contactSearch ⟨[(0, 1), (1, 1)]⟩ ⟨[(0, 1), (1, 1)]⟩ [7, 3]
            (PdGridData.ofSearch [(0, [7, 1]), (1, [5, 3, 0])]) [] []).contactNeighborGlobalIDs
    ∧ (5 : Int) ∈ ((1, [5, 0]) : Int × List Int).2
    ∧ (5 : Int) ∉ bondBlock ⟨[(0, 1), (1, 1)]⟩ [7, 3] ((1, [5, 0]) : Int × List Int).1 :=
  ⟨by decide, by decide,
    contactSearch_contact_exclusivity ⟨[(0, 1), (1, 1)]⟩ ⟨[(0, 1), (1, 1)]⟩ [7, 3]
      (PdGridData.ofSearch [(0, [7, 1]), (1, [5, 3, 0])]) (1, [5, 0]) (by decide) 5
      (by decide)⟩

/-- C7, as the code has it: every member of the set `offProcessorContactIDs` returned by
`contactSearch` is a GlobalID that the owned map does not hold and that is a contact neighbor of
some searched point without being a bonded neighbor of that same point. -/
theorem contactSearch_offProcessorContactIDs
    (rebalancedOneDimensionalMap rebalancedBondMap : BlockMap)
    (rebalancedNeighborGlobalIDs : List Int) (rebalancedDecomp : PdGridData) :
    ∀ g ∈ (contactSearch rebalancedOneDimensionalMap rebalancedBondMap
        rebalancedNeighborGlobalIDs rebalancedDecomp [] []).offProcessorContactIDs,
      rebalancedOneDimensionalMap.LID g = -1
      ∧ g ∉ rebalancedOneDimensionalMap.MyGlobalElements
      ∧ ∃ e ∈ (contactSearch rebalancedOneDimensionalMap rebalancedBondMap
          rebalancedNeighborGlobalIDs rebalancedDecomp [] []).contactNeighborGlobalIDs,
          g ∈ e.2 ∧ g ∉ bondBlock rebalancedBondMap rebalancedNeighborGlobalIDs e.1 := by
  intro g hg
  have hinv := contactSearch_inv rebalancedOneDimensionalMap rebalancedBondMap
    rebalancedNeighborGlobalIDs rebalancedDecomp
  obtain ⟨hl, e, he, hge⟩ := hinv.2.1 g hg
  refine ⟨hl, (BlockMap.LID_eq_neg_one_iff _ g).mp hl, e, he, hge, fun hblock => ?_⟩
  exact (hinv.1 e he g hge).1
    (mem_bondedNeighbors_of_mem_bondBlock rebalancedBondMap rebalancedNeighborGlobalIDs e.1 g
      hblock)

theorem contactSearch_offProcessorContactIDs_witness :
    (5 : Int) ∈ (contactSearch ⟨[(0, 1), (1, 1)]⟩ ⟨[(0, 1), (1, 1)]⟩ [7, 3]
        (PdGridData.ofSearch [(0, [7, 1]), (1, [5, 3, 0])]) [] []).offProcessorContactIDs
    ∧ (BlockMap.mk [(0, 1), (1, 1)]).LID 5 = -1 :=
  ⟨by decide,
    (contactSearch_offProcessorContactIDs ⟨[(0, 1), (1, 1)]⟩ ⟨[(0, 1), (1, 1)]⟩ [7, 3]
      (PdGridData.ofSearch [(0, [7, 1]), (1, [5, 3, 0])]) 5 (by decide)).1⟩

/-- C7, as stated, fails: with owned points 0 and 1, point 0 bonded to the off-process point 5,
and the search finding 5 near point 1, the set `offProcessorContactIDs` holds 5, a bonded neighbor
of the owned point 0. -/
theorem contactSearch_offProcessorContactIDs_counterexample :
    ¬ (∀ g ∈ (contactSearch ⟨[(0, 1), (1, 1)]⟩ ⟨[(0, 1)]⟩ [5]
          (PdGridData.ofSearch [(0, []), (1, [5])]) [] []).offProcessorContactIDs,
        ∀ p ∈ (BlockMap.mk [(0, 1), (1, 1)]).MyGlobalElements,
          g ∉ bondBlock ⟨[(0, 1)]⟩ [5] p) := by
  decide


theorem mkUniform_sizes (n : Nat) (gids : List Int) (size : Nat) :
    ∀ e ∈ (BlockMap.mkUniform n gids size).elements, e.2 = size := by
  intro e he
  simp only [BlockMap.mkUniform, List.mem_map] at he
  obtain ⟨a, -, rfl⟩ := he
  rfl

theorem getD_append_left_of_lt (a b : List Int) (i : Nat) (d : Int) (h : i < a.length) :
    (a ++ b).getD i d = a.getD i d := by
  rw [List.getD_eq_getElem?_getD, List.getD_eq_getElem?_getD, List.getElem?_append_left h]

theorem offProcessorIDs_card (c : Bool) (owned bond : BlockMap) (vec : List Int)
    (decomp : PdGridData) :
    (rebalanceMaps c owned bond vec decomp).offProcessorIDs.length
      = (vec.filter (fun g => g ∉ owned.MyGlobalElements)
          ++ (rebalanceMaps c owned bond vec decomp).offProcessorContactIDs).toFinset.card := by
  rw [← List.toFinset_card_of_nodup
    (nodup_of_sorted_lt _ (rebalanceMaps_offProcessorIDs_sorted c owned bond vec decomp))]
  congr 1
  ext g
  simp only [List.mem_toFinset, rebalanceMaps_offProcessorIDs_mem, List.mem_append,
    List.mem_filter, decide_eq_true_eq]
  tauto

/-- C8: the overlap maps of block size 1 and 3 that `rebalance` builds list the owned GlobalIDs
first, in the order of the rebalanced owned map, and the ghost GlobalIDs after them: the overlap
GlobalID at every position below the owned count is the owned GlobalID at that position, and the
number of entries is the owned count plus the number of distinct off-processor IDs (the neighbor
GlobalIDs that are not owned together with the off-processor contact IDs). -/
theorem rebalance_overlap_layout (analysisHasContact : Bool)
    (rebalancedOneDimensionalMap rebalancedBondMap : BlockMap)
    (rebalancedNeighborGlobalIDs : List Int) (rebalancedDecomp : PdGridData) :
    let r := rebalanceMaps analysisHasContact rebalancedOneDimensionalMap rebalancedBondMap
      rebalancedNeighborGlobalIDs rebalancedDecomp
    r.rebalancedOneDimensionalOverlapMap.MyGlobalElements
        = rebalancedOneDimensionalMap.MyGlobalElements ++ r.offProcessorIDs
    ∧ r.rebalancedThreeDimensionalOverlapMap.MyGlobalElements
        = rebalancedOneDimensionalMap.MyGlobalElements ++ r.offProcessorIDs
    ∧ (∀ e ∈ r.rebalancedOneDimensionalOverlapMap.elements, e.2 = 1)
    ∧ (∀ e ∈ r.rebalancedThreeDimensionalOverlapMap.elements, e.2 = 3)
    ∧ (∀ i : Nat, i < rebalancedOneDimensionalMap.NumMyElements →
        r.rebalancedOneDimensionalOverlapMap.GID i = rebalancedOneDimensionalMap.GID i
        ∧ r.rebalancedThreeDimensionalOverlapMap.GID i = rebalancedOneDimensionalMap.GID i)
    ∧ r.rebalancedOneDimensionalOverlapMap.NumMyElements
        = rebalancedOneDimensionalMap.NumMyElements
          + (rebalancedNeighborGlobalIDs.filter
                (fun g => g ∉ rebalancedOneDimensionalMap.MyGlobalElements)
              ++ r.offProcessorContactIDs).toFinset.card
    ∧ r.rebalancedThreeDimensionalOverlapMap.NumMyElements
        = rebalancedOneDimensionalMap.NumMyElements
          + (rebalancedNeighborGlobalIDs.filter
                (fun g => g ∉ rebalancedOneDimensionalMap.MyGlobalElements)
              ++ r.offProcessorContactIDs).toFinset.card := by
  intro r
  have h1 := rebalanceMaps_overlap1_gids analysisHasContact rebalancedOneDimensionalMap
    rebalancedBondMap rebalancedNeighborGlobalIDs rebalancedDecomp
  have h3 := rebalanceMaps_overlap3_gids analysisHasContact rebalancedOneDimensionalMap
    rebalancedBondMap rebalancedNeighborGlobalIDs rebalancedDecomp
  have hcard := offProcessorIDs_card analysisHasContact rebalancedOneDimensionalMap
    rebalancedBondMap rebalancedNeighborGlobalIDs rebalancedDecomp
  refine ⟨h1, h3, mkUniform_sizes _ _ _, mkUniform_sizes _ _ _, ?_, ?_, ?_⟩
  · intro i hi
    have hi2 : i < rebalancedOneDimensionalMap.MyGlobalElements.length := by
      rw [BlockMap.length_MyGlobalElements]; exact hi
    simp only [BlockMap.GID_natCast]
    rw [h1, h3]
    exact ⟨getD_append_left_of_lt _ _ _ _ hi2, getD_append_left_of_lt _ _ _ _ hi2⟩
  · rw [← BlockMap.length_MyGlobalElements, h1, List.length_append,
      BlockMap.length_MyGlobalElements, hcard]
  · rw [← BlockMap.length_MyGlobalElements, h3, List.length_append,
      BlockMap.length_MyGlobalElements, hcard]

/-- C9: no ghost GlobalID of the overlap map built by `rebalance` equals an owned GlobalID and no
ghost GlobalID occurs twice; hence, if the GlobalIDs of the rebalanced owned map are pairwise
distinct, so are the GlobalIDs of the overlap maps. -/
theorem rebalance_overlap_distinct (analysisHasContact : Bool)
    (rebalancedOneDimensionalMap rebalancedBondMap : BlockMap)
    (rebalancedNeighborGlobalIDs : List Int) (rebalancedDecomp : PdGridData)
    (hdistinct : rebalancedOneDimensionalMap.MyGlobalElements.Nodup) :
    let r := rebalanceMaps analysisHasContact rebalancedOneDimensionalMap rebalancedBondMap
      rebalancedNeighborGlobalIDs rebalancedDecomp
    (∀ g ∈ r.offProcessorIDs, g ∉ rebalancedOneDimensionalMap.MyGlobalElements)
    ∧ r.offProcessorIDs.Nodup
    ∧ r.rebalancedOneDimensionalOverlapMap.MyGlobalElements.Nodup
    ∧ r.rebalancedThreeDimensionalOverlapMap.MyGlobalElements.Nodup := by
  intro r
  have h1 := rebalanceMaps_overlap1_gids analysisHasContact rebalancedOneDimensionalMap
    rebalancedBondMap rebalancedNeighborGlobalIDs rebalancedDecomp
  have h3 := rebalanceMaps_overlap3_gids analysisHasContact rebalancedOneDimensionalMap
    rebalancedBondMap rebalancedNeighborGlobalIDs rebalancedDecomp
  have hinv := rebalanceMaps_contact_inv analysisHasContact rebalancedOneDimensionalMap
    rebalancedBondMap rebalancedNeighborGlobalIDs rebalancedDecomp
  have hoff : ∀ g ∈ r.offProcessorIDs, g ∉ rebalancedOneDimensionalMap.MyGlobalElements := by
    intro g hg
    rcases (rebalanceMaps_offProcessorIDs_mem analysisHasContact rebalancedOneDimensionalMap
      rebalancedBondMap rebalancedNeighborGlobalIDs rebalancedDecomp g).mp hg with hc | hb
    · exact (BlockMap.LID_eq_neg_one_iff _ g).mp (hinv.2.1 g hc).1
    · exact hb.2
  have hnd : r.offProcessorIDs.Nodup :=
    nodup_of_sorted_lt _ (rebalanceMaps_offProcessorIDs_sorted analysisHasContact
      rebalancedOneDimensionalMap rebalancedBondMap rebalancedNeighborGlobalIDs rebalancedDecomp)
  have hall : (rebalancedOneDimensionalMap.MyGlobalElements ++ r.offProcessorIDs).Nodup := by
    apply List.Nodup.append hdistinct hnd
    intro g hg1 hg2
    exact hoff g hg2 hg1
  refine ⟨hoff, hnd, ?_, ?_⟩
  · rw [h1]; exact hall
  · rw [h3]; exact hall

theorem rebalance_overlap_distinct_witness :
    (BlockMap.mk [(1, 1), (2, 1)]).MyGlobalElements.Nodup
    ∧ (rebalanceMaps true ⟨[(1, 1), (2, 1)]⟩ ⟨[(1, 2), (2, 1)]⟩ [0, 2, 1]
        (PdGridData.ofSearch [(1, [2, 7]), (2, [0, 7])])).rebalancedOneDimensionalOverlapMap.MyGlobalElements.Nodup :=
  ⟨by decide,
    (rebalance_overlap_distinct true ⟨[(1, 1), (2, 1)]⟩ ⟨[(1, 2), (2, 1)]⟩ [0, 2, 1]
      (PdGridData.ofSearch [(1, [2, 7]), (2, [0, 7])]) (by decide)).2.2.1⟩


/-! ## contactSearch: the contact lists -/

theorem mapGet_of_not_key (m : List (Int × List Int)) (k : Int)
    (h : k ∉ m.map Prod.fst) : mapGet m k = [] := by
  induction m with
  | nil => rfl
  | cons a t ih =>
    obtain ⟨j, v⟩ := a
    simp only [List.map_cons, List.mem_cons, not_or] at h
    simp only [mapGet, h.1, if_false]
    exact ih h.2

theorem mapGet_mapTouch (k p : Int) (m : List (Int × List Int))
    (hs : (m.map Prod.fst).Pairwise (· < ·)) : mapGet (mapTouch k m) p = mapGet m p := by
  induction m with
  | nil =>
    simp only [mapTouch, mapGet]
    split <;> rfl
  | cons a t ih =>
    obtain ⟨j, v⟩ := a
    simp only [List.map_cons, List.pairwise_cons] at hs
    unfold mapTouch
    by_cases h1 : k < j
    · simp only [h1, if_true]
      by_cases hpk : p = k
      · subst hpk
        have hnk : p ∉ ((j, v) :: t).map Prod.fst := by
          simp only [List.map_cons, List.mem_cons, not_or]
          refine ⟨by omega, fun hm => ?_⟩
          have := hs.1 p hm
          omega
        rw [mapGet_of_not_key _ _ hnk]
        simp [mapGet]
      · rw [mapGet]
        simp only [hpk, if_false]
    · by_cases h2 : k = j
      · subst h2
        simp only [lt_self_iff_false, if_false, if_true]
      · simp only [h1, h2, if_false]
        simp only [mapGet, ih hs.2]

theorem mapTouch_keys_sorted (k : Int) (m : List (Int × List Int))
    (hs : (m.map Prod.fst).Pairwise (· < ·)) :
    ((mapTouch k m).map Prod.fst).Pairwise (· < ·) := by
  induction m with
  | nil => simp [mapTouch]
  | cons a t ih =>
    obtain ⟨j, v⟩ := a
    simp only [List.map_cons, List.pairwise_cons] at hs
    unfold mapTouch
    by_cases h1 : k < j
    · simp only [h1, if_true, List.map_cons, List.pairwise_cons]
      refine ⟨?_, hs.1, hs.2⟩
      intro a ha
      rcases List.mem_cons.mp ha with rfl | ha
      · exact h1
      · exact lt_trans h1 (hs.1 a ha)
    · by_cases h2 : k = j
      · subst h2
        simp only [lt_self_iff_false, if_false, if_true, List.map_cons, List.pairwise_cons]
        exact hs
      · simp only [h1, h2, if_false, List.map_cons, List.pairwise_cons]
        refine ⟨?_, ih hs.2⟩
        intro a ha
        obtain ⟨e, he, rfl⟩ := List.mem_map.mp ha
        rcases mem_mapTouch k t e he with he | he
        · exact hs.1 e.1 (List.mem_map.mpr ⟨e, he, rfl⟩)
        · subst he
          show j < k
          omega

theorem mapTouch_key_mem (k : Int) (m : List (Int × List Int)) :
    k ∈ (mapTouch k m).map Prod.fst := by
  obtain ⟨e, he, hk⟩ := mapTouch_has_key k m
  exact List.mem_map.mpr ⟨e, he, hk⟩

theorem mapTouch_keys_mono (k q : Int) (m : List (Int × List Int))
    (h : q ∈ m.map Prod.fst) : q ∈ (mapTouch k m).map Prod.fst := by
  obtain ⟨e, he, hk⟩ := List.mem_map.mp h
  exact List.mem_map.mpr ⟨e, mem_mapTouch_of_mem k m e he, hk⟩

theorem mapPushBack_keys (k x : Int) (m : List (Int × List Int)) :
    (mapPushBack k x m).map Prod.fst = m.map Prod.fst := by
  induction m with
  | nil => rfl
  | cons a t ih =>
    obtain ⟨j, v⟩ := a
    unfold mapPushBack
    by_cases h2 : k = j
    · simp [h2]
    · simp [h2, ih]

theorem mapGet_mapPushBack (k x p : Int) (m : List (Int × List Int)) :
    mapGet (mapPushBack k x m) p
      = if p = k ∧ k ∈ m.map Prod.fst then mapGet m k ++ [x] else mapGet m p := by
  induction m with
  | nil => simp [mapPushBack, mapGet]
  | cons a t ih =>
    obtain ⟨j, v⟩ := a
    unfold mapPushBack
    by_cases h2 : k = j
    · subst h2
      by_cases hpk : p = k
      · subst hpk
        simp [mapGet]
      · simp [mapGet, hpk]
    · simp only [h2, if_false]
      by_cases hpj : p = j
      · subst hpj
        have : ¬ p = k := fun h => h2 h.symm
        simp [mapGet, this]
      · have hkj : (k ∈ ((j, v) :: t).map Prod.fst) ↔ k ∈ t.map Prod.fst := by
          simp only [List.map_cons, List.mem_cons]
          constructor
          · rintro (h | h)
            · exact absurd h h2
            · exact h
          · exact Or.inr
        simp only [mapGet, hpj, if_false, ih, hkj, h2]


theorem getD_append_middle (A raw B : List Int) (k : Nat) (hk : k < raw.length) :
    (A ++ raw ++ B).getD (A.length + k) 0 = raw.get ⟨k, hk⟩ := by
  rw [List.getD_eq_getElem?_getD, List.append_assoc,
    List.getElem?_append_right (Nat.le_add_right _ _), Nat.add_sub_cancel_left,
    List.getElem?_append_left hk, List.getElem?_eq_getElem hk]
  rfl

theorem contactSearchNeighbor_loop (owned : BlockMap) (bonded : List Int) (gid : Int)
    (A raw B : List Int) (s0 : ContactSearchState) (hidx : s0.searchListIndex = A.length)
    (hkey : gid ∈ s0.contactNeighborGlobalIDs.map Prod.fst) (k : Nat) (hk : k ≤ raw.length) :
    ((List.range k).foldl (contactSearchNeighbor owned bonded gid (A ++ raw ++ B))
        s0).searchListIndex = A.length + k
    ∧ ((List.range k).foldl (contactSearchNeighbor owned bonded gid (A ++ raw ++ B))
        s0).contactNeighborGlobalIDs.map Prod.fst = s0.contactNeighborGlobalIDs.map Prod.fst
    ∧ ∀ p : Int,
        mapGet ((List.range k).foldl (contactSearchNeighbor owned bonded gid (A ++ raw ++ B))
          s0).contactNeighborGlobalIDs p
        = mapGet s0.contactNeighborGlobalIDs p
          ++ (if p = gid then (raw.take k).filter (fun g => decide (g ∉ bonded)) else []) := by
  induction k with
  | zero => simp [hidx]
  | succ k ih =>
    have hk2 : k < raw.length := hk
    obtain ⟨h1, h2, h3⟩ := ih (Nat.le_of_lt hk2)
    simp only [List.range_succ, List.foldl_append, List.foldl_cons, List.foldl_nil]
    generalize (List.range k).foldl (contactSearchNeighbor owned bonded gid (A ++ raw ++ B))
      s0 = s at h1 h2 h3 ⊢
    have htake : raw.take (k + 1) = raw.take k ++ [raw.get ⟨k, hk2⟩] := by
      rw [List.take_succ, List.getElem?_eq_getElem hk2]; rfl
    unfold contactSearchNeighbor
    rw [h1, getD_append_middle A raw B k hk2, htake, List.filter_append]
    generalize raw.get ⟨k, hk2⟩ = x
    by_cases hb : x ∈ bonded
    · simp only [hb, not_true_eq_false, if_false, decide_False, List.filter_cons_of_neg,
        Bool.false_eq_true, not_false_eq_true, List.filter_nil, List.append_nil]
      exact ⟨by omega, h2, h3⟩
    · simp only [hb, not_false_eq_true, if_true, mapPushBack_keys]
      refine ⟨by omega, h2, fun p => ?_⟩
      rw [mapGet_mapPushBack, h2]
      by_cases hp : p = gid
      · subst hp
        simp only [hkey, and_self, if_true, h3, List.append_assoc]
        simp [hb]
      · simp only [hp, false_and, if_false, h3]

theorem flatMap_take_succ {α β : Type} (f : α → List β) (l : List α) (k : Nat)
    (hk : k < l.length) :
    (l.take (k + 1)).flatMap f = (l.take k).flatMap f ++ f (l.get ⟨k, hk⟩) := by
  rw [List.take_succ, List.getElem?_eq_getElem hk, List.flatMap_append]
  simp [List.flatMap]

theorem flatMap_split_at {α β : Type} (f : α → List β) (l : List α) (k : Nat)
    (hk : k < l.length) :
    l.flatMap f = (l.take k).flatMap f ++ f (l.get ⟨k, hk⟩) ++ (l.drop (k + 1)).flatMap f := by
  conv_lhs => rw [← List.take_append_drop (k + 1) l]
  rw [List.flatMap_append, flatMap_take_succ f l k hk]

theorem contactSearch_loop (owned bond : BlockMap) (vec : List Int)
    (search : List (Int × List Int)) (k : Nat) (hk : k ≤ search.length) :
    ((List.range k).foldl (contactSearchPoint owned bond vec (PdGridData.ofSearch search))
        ⟨0, [], []⟩).searchListIndex
      = ((search.take k).flatMap (fun e => (e.2.length : Int) :: e.2)).length
    ∧ (((List.range k).foldl (contactSearchPoint owned bond vec (PdGridData.ofSearch search))
        ⟨0, [], []⟩).contactNeighborGlobalIDs.map Prod.fst).Pairwise (· < ·)
    ∧ (∀ q ∈ (search.take k).map Prod.fst,
        q ∈ ((List.range k).foldl
          (contactSearchPoint owned bond vec (PdGridData.ofSearch search))
          ⟨0, [], []⟩).contactNeighborGlobalIDs.map Prod.fst)
    ∧ ∀ p : Int,
        mapGet ((List.range k).foldl
          (contactSearchPoint owned bond vec (PdGridData.ofSearch search))
          ⟨0, [], []⟩).contactNeighborGlobalIDs p
        = ((search.take k).filter (fun e => decide (e.1 = p))).flatMap
            (fun e => e.2.filter (fun g => decide (g ∉ bondedNeighbors bond vec p))) := by
  induction k with
  | zero => simp [mapGet]
  | succ k ih =>
    have hk2 : k < search.length := hk
    obtain ⟨h1, h2, h3, h4⟩ := ih (Nat.le_of_lt hk2)
    simp only [List.range_succ, List.foldl_append, List.foldl_cons, List.foldl_nil]
    generalize (List.range k).foldl
      (contactSearchPoint owned bond vec (PdGridData.ofSearch search)) ⟨0, [], []⟩ = s
      at h1 h2 h3 h4 ⊢
    have htake : search.take (k + 1) = search.take k ++ [search.get ⟨k, hk2⟩] := by
      rw [List.take_succ, List.getElem?_eq_getElem hk2]; rfl
    have hbuf : (PdGridData.ofSearch search).neighborhood
        = ((search.take k).flatMap (fun e => (e.2.length : Int) :: e.2)
            ++ [((search.get ⟨k, hk2⟩).2.length : Int)])
          ++ (search.get ⟨k, hk2⟩).2
          ++ (search.drop (k + 1)).flatMap (fun e => (e.2.length : Int) :: e.2) := by
      simp only [PdGridData.ofSearch]
      rw [flatMap_split_at _ search k hk2]
      simp
    have hgid : (PdGridData.ofSearch search).myGlobalIDs.getD k 0 = (search.get ⟨k, hk2⟩).1 := by
      have hk3 : k < (search.map Prod.fst).length := by simpa using hk2
      simp only [PdGridData.ofSearch]
      rw [List.getD_eq_getElem?_getD, List.getElem?_eq_getElem hk3]
      simp
    have hnum : (PdGridData.ofSearch search).neighborhood.getD s.searchListIndex 0
        = ((search.get ⟨k, hk2⟩).2.length : Int) := by
      rw [hbuf, h1, List.append_assoc, List.append_assoc, List.getD_eq_getElem?_getD,
        List.getElem?_append_right (le_refl _), Nat.sub_self]
      simp
    unfold contactSearchPoint
    simp only [hgid, hnum, Int.toNat_ofNat]
    rw [htake]
    generalize search.get ⟨k, hk2⟩ = e at hbuf ⊢
    have hloop := contactSearchNeighbor_loop owned (bondedNeighbors bond vec e.1) e.1
      ((search.take k).flatMap (fun e => (e.2.length : Int) :: e.2) ++ [(e.2.length : Int)])
      e.2 ((search.drop (k + 1)).flatMap (fun e => (e.2.length : Int) :: e.2))
      { searchListIndex := s.searchListIndex + 1
        contactNeighborGlobalIDs := mapTouch e.1 s.contactNeighborGlobalIDs
        offProcessorContactIDs := s.offProcessorContactIDs }
      (by simp [h1]) (mapTouch_key_mem _ _) e.2.length (le_refl _)
    rw [← hbuf] at hloop
    obtain ⟨g1, g2, g3⟩ := hloop
    refine ⟨?_, ?_, ?_, ?_⟩
    · rw [g1]
      simp [List.flatMap_append]
      omega
    · rw [g2]
      exact mapTouch_keys_sorted _ _ h2
    · intro q hq
      rw [g2]
      simp only [List.map_append, List.mem_append, List.map_cons, List.map_nil,
        List.mem_singleton] at hq
      rcases hq with hq | hq
      · exact mapTouch_keys_mono _ _ _ (h3 q hq)
      · subst hq
        exact mapTouch_key_mem _ _
    · intro p
      rw [g3 p, mapGet_mapTouch _ _ _ h2, h4 p, List.take_length, List.filter_append,
        List.flatMap_append]
      congr 1
      by_cases hp : p = e.1
      · subst hp
        simp
      · have hp2 : ¬ e.1 = p := fun h => hp h.symm
        simp [hp, hp2]


theorem sum_take_add_getD_le (l : List Nat) (i : Nat) :
    (l.take i).sum + l.getD i 0 ≤ l.sum := by
  induction l generalizing i with
  | nil => simp
  | cons a t ih =>
    cases i with
    | zero => simp
    | succ i =>
      have := ih i
      simp only [List.take_succ_cons, List.sum_cons, List.getD_cons_succ]
      omega

theorem BlockMap.LID_cases (m : BlockMap) (g : Int) :
    m.LID g = -1 ∨ ∃ i : Nat, m.LID g = (i : Int) ∧ i < m.NumMyElements := by
  unfold BlockMap.LID
  by_cases h : g ∈ m.MyGlobalElements
  · right
    refine ⟨m.MyGlobalElements.indexOf g, by simp [h], ?_⟩
    rw [← m.length_MyGlobalElements]
    exact List.indexOf_lt_length.mpr h
  · left
    simp [h]

theorem BlockMap.block_bound (m : BlockMap) (g : Int) (h : m.LID g ≠ -1) :
    m.FirstPointInElementList (m.LID g) + m.ElementSize (m.LID g) ≤ m.NumMyPoints := by
  rcases m.LID_cases g with h1 | ⟨i, hi, -⟩
  · exact absurd h1 h
  · rw [hi]
    simp only [BlockMap.FirstPointInElementList, BlockMap.ElementSize, BlockMap.NumMyPoints,
      Int.toNat_ofNat]
    have : ¬ ((i : Int) < 0) := by omega
    simp only [this, if_false]
    exact sum_take_add_getD_le _ _

theorem bondedNeighbors_eq_bondBlock (bond : BlockMap) (vec : List Int) (globalID : Int)
    (hvec : vec.length = bond.NumMyPoints) :
    bondedNeighbors bond vec globalID = bondBlock bond vec globalID := by
  rw [bondedNeighbors_eq]
  unfold bondBlock
  by_cases hl : bond.LID globalID = -1
  · simp [hl]
  · simp only [hl, if_false]
    apply map_getD_range_eq_take_drop
    rw [hvec]
    exact bond.block_bound globalID hl

theorem filter_key_of_nodup (l : List (Int × List Int)) (e : Int × List Int)
    (hd : (l.map Prod.fst).Nodup) (he : e ∈ l) :
    l.filter (fun a => decide (a.1 = e.1)) = [e] := by
  induction l with
  | nil => simp at he
  | cons a t ih =>
    simp only [List.map_cons, List.nodup_cons] at hd
    rcases List.mem_cons.mp he with h | h
    · subst h
      have : t.filter (fun a => decide (a.1 = e.1)) = [] := by
        apply List.filter_eq_nil_iff.mpr
        intro b hb
        simp only [decide_eq_true_eq]
        intro hbe
        exact hd.1 (List.mem_map.mpr ⟨b, hb, hbe⟩)
      simp [List.filter_cons, this]
    · have hne : ¬ a.1 = e.1 := by
        intro hae
        exact hd.1 (List.mem_map.mpr ⟨e, h, hae.symm⟩)
      simp [List.filter_cons, hne, ih hd.2 h]

theorem mem_of_key (m : List (Int × List Int)) (k : Int) (h : k ∈ m.map Prod.fst) :
    (k, mapGet m k) ∈ m := by
  induction m with
  | nil => simp at h
  | cons a t ih =>
    obtain ⟨j, v⟩ := a
    by_cases hkj : k = j
    · subst hkj
      simp [mapGet]
    · simp only [List.map_cons, List.mem_cons, hkj, false_or] at h
      simp only [mapGet, hkj, if_false]
      exact List.mem_cons_of_mem _ (ih h)

/-- C6: when the searched points are pairwise distinct and the neighbor GlobalID vector has the
length of the bond map, the contact list that `contactSearch` produces for a searched point is
exactly the raw search list of the point with the members of the bonded block of that point
removed, in search order; so a candidate not bonded to the point itself is retained whatever its
bonds to other points, and a point without an entry in the bond map retains every candidate. -/
theorem contactSearch_contact_lists (rebalancedOneDimensionalMap rebalancedBondMap : BlockMap)
    (rebalancedNeighborGlobalIDs : List Int) (search : List (Int × List Int))
    (hvec : rebalancedNeighborGlobalIDs.length = rebalancedBondMap.NumMyPoints)
    (hdistinct : (search.map Prod.fst).Nodup) :
    ∀ e ∈ search,
      (e.1, e.2.filter
          (fun g => decide (g ∉ bondBlock rebalancedBondMap rebalancedNeighborGlobalIDs e.1)))
        ∈ (contactSearch rebalancedOneDimensionalMap rebalancedBondMap
            rebalancedNeighborGlobalIDs (PdGridData.ofSearch search) [] []).contactNeighborGlobalIDs
      ∧ mapGet (contactSearch rebalancedOneDimensionalMap rebalancedBondMap
            rebalancedNeighborGlobalIDs (PdGridData.ofSearch search) [] []).contactNeighborGlobalIDs
          e.1
        = e.2.filter
            (fun g => decide (g ∉ bondBlock rebalancedBondMap rebalancedNeighborGlobalIDs e.1))
      ∧ (∀ g ∈ e.2, g ∉ bondBlock rebalancedBondMap rebalancedNeighborGlobalIDs e.1 →
          g ∈ mapGet (contactSearch rebalancedOneDimensionalMap rebalancedBondMap
            rebalancedNeighborGlobalIDs (PdGridData.ofSearch search) [] []).contactNeighborGlobalIDs
            e.1)
      ∧ (rebalancedBondMap.LID e.1 = -1 →
          mapGet (contactSearch rebalancedOneDimensionalMap rebalancedBondMap
            rebalancedNeighborGlobalIDs (PdGridData.ofSearch search) [] []).contactNeighborGlobalIDs
            e.1 = e.2) := by
  intro e he
  obtain ⟨-, -, hkeys, hget⟩ := contactSearch_loop rebalancedOneDimensionalMap rebalancedBondMap
    rebalancedNeighborGlobalIDs search search.length (le_refl _)
  rw [List.take_length] at hkeys hget
  have hcs : contactSearch rebalancedOneDimensionalMap rebalancedBondMap
      rebalancedNeighborGlobalIDs (PdGridData.ofSearch search) [] []
      = (List.range search.length).foldl
          (contactSearchPoint rebalancedOneDimensionalMap rebalancedBondMap
            rebalancedNeighborGlobalIDs (PdGridData.ofSearch search)) ⟨0, [], []⟩ := rfl
  rw [hcs]
  have hlist := hget e.1
  rw [filter_key_of_nodup search e hdistinct he,
    bondedNeighbors_eq_bondBlock _ _ _ hvec] at hlist
  simp only [List.flatMap_cons, List.flatMap_nil, List.append_nil] at hlist
  have hkey := hkeys e.1 (List.mem_map.mpr ⟨e, he, rfl⟩)
  refine ⟨?_, hlist, ?_, ?_⟩
  · rw [← hlist]
    exact mem_of_key _ _ hkey
  · intro g hg hnb
    rw [hlist]
    exact List.mem_filter.mpr ⟨hg, by simpa using hnb⟩
  · intro hl
    rw [hlist]
    apply List.filter_eq_self.mpr
    intro g _
    simp [bondBlock, hl]

theorem contactSearch_contact_lists_witness :
    ([5, 2, 7] : List Int).length = (BlockMap.mk [(1, 2), (2, 1)]).NumMyPoints
    ∧ (([(1, [2, 7, 9]), (2, [1, 5, 7]), (3, [5])] : List (Int × List Int)).map Prod.fst).Nodup
    ∧ mapGet (contactSearch ⟨[(1, 1), (2, 1), (3, 1)]⟩ ⟨[(1, 2), (2, 1)]⟩ [5, 2, 7]
          (PdGridData.ofSearch [(1, [2, 7, 9]), (2, [1, 5, 7]), (3, [5])]) []
          []).contactNeighborGlobalIDs 2
        = ([1, 5, 7] : List Int).filter
            (fun g => decide (g ∉ bondBlock ⟨[(1, 2), (2, 1)]⟩ [5, 2, 7] 2)) :=
  ⟨by decide, by decide,
    (contactSearch_contact_lists ⟨[(1, 1), (2, 1), (3, 1)]⟩ ⟨[(1, 2), (2, 1)]⟩ [5, 2, 7]
      [(1, [2, 7, 9]), (2, [1, 5, 7]), (3, [5])] (by decide) (by decide)
      (2, [1, 5, 7]) (by decide)).2.1⟩


/-! ## createRebalancedNeighborhoodData -/

theorem foldlM_check {ι α : Type} (bad : ι → Prop) [DecidablePred bad] (g : ι → α)
    (err : TeuchosError) (l : List ι) (init : List α) :
    l.foldlM (fun (acc : List α) (i : ι) =>
        if bad i then (Except.error err : Except TeuchosError (List α))
        else Except.ok (acc ++ [g i])) init
      = if ∃ i ∈ l, bad i then Except.error err else Except.ok (init ++ l.map g) := by
  induction l generalizing init with
  | nil => simp [pure, Except.pure]
  | cons a t ih =>
    rw [List.foldlM_cons]
    by_cases ha : bad a
    · simp [ha, bind, Except.bind]
    · simp only [ha, if_false, bind, Except.bind, ih, List.mem_cons, exists_eq_or_imp, false_or,
        List.map_cons, List.append_assoc, List.singleton_append]

theorem ownedIDsLoop_eq (owned overlap : BlockMap) :
    ownedIDsLoop owned overlap
      = if ∃ i ∈ List.range owned.NumMyElements, overlap.LID (owned.GID (i : Nat)) = -1 then
          Except.error
            (TeuchosError.RangeError "Invalid index into rebalancedOneDimensionalOverlapMap")
        else Except.ok ((List.range owned.NumMyElements).map
          (fun (i : Nat) => overlap.LID (owned.GID i))) := by
  have h := foldlM_check (fun (i : Nat) => overlap.LID (owned.GID i) = -1)
    (fun (i : Nat) => overlap.LID (owned.GID i))
    (TeuchosError.RangeError "Invalid index into rebalancedOneDimensionalOverlapMap")
    (List.range owned.NumMyElements) []
  simp only [List.nil_append] at h
  exact h

theorem neighborLoop_eq (overlap : BlockMap) (vec : List Int) (offset n : Nat)
    (list : List Int) :
    neighborLoop overlap vec offset n list
      = if ∃ i ∈ List.range n, overlap.LID (vec.getD (offset + i) 0) = -1 then
          Except.error
            (TeuchosError.RangeError "Invalid index into rebalancedOneDimensionalOverlapMap")
        else Except.ok (list ++ (List.range n).map
          (fun (i : Nat) => overlap.LID (vec.getD (offset + i) 0))) :=
  foldlM_check (fun (i : Nat) => overlap.LID (vec.getD (offset + i) 0) = -1)
    (fun (i : Nat) => overlap.LID (vec.getD (offset + i) 0))
    (TeuchosError.RangeError "Invalid index into rebalancedOneDimensionalOverlapMap")
    (List.range n) list

theorem neighborhoodStep_eq (owned overlap bond : BlockMap) (vec : List Int)
    (s : List Int × List Nat) (iLID : Nat) :
    neighborhoodStep owned overlap bond vec s iLID
      = if ∃ g ∈ bondedNeighbors bond vec (owned.GID iLID), overlap.LID g = -1 then
          Except.error
            (TeuchosError.RangeError "Invalid index into rebalancedOneDimensionalOverlapMap")
        else Except.ok
          (s.1 ++ (((bondedNeighbors bond vec (owned.GID iLID)).map overlap.LID).length : Int)
              :: (bondedNeighbors bond vec (owned.GID iLID)).map overlap.LID,
            s.2 ++ [s.1.length]) := by
  unfold neighborhoodStep
  rw [bondedNeighbors_eq]
  by_cases hl : bond.LID (owned.GID iLID) = -1
  · simp [hl]
  · simp only [bne_iff_ne, ne_eq, hl, not_false_eq_true, if_true, if_false, neighborLoop_eq]
    by_cases hbad : ∃ i ∈ List.range (bond.ElementSize (bond.LID (owned.GID iLID))),
        overlap.LID (vec.getD (bond.FirstPointInElementList (bond.LID (owned.GID iLID)) + i) 0)
          = -1
    · have hbad2 : ∃ g ∈ (List.range (bond.ElementSize (bond.LID (owned.GID iLID)))).map
          (fun (i : Nat) =>
            vec.getD (bond.FirstPointInElementList (bond.LID (owned.GID iLID)) + i) 0),
          overlap.LID g = -1 := by
        obtain ⟨i, hi, hb⟩ := hbad
        exact ⟨_, List.mem_map.mpr ⟨i, hi, rfl⟩, hb⟩
      simp only [hbad, hbad2, if_true]
      rfl
    · have hbad2 : ¬ ∃ g ∈ (List.range (bond.ElementSize (bond.LID (owned.GID iLID)))).map
          (fun (i : Nat) =>
            vec.getD (bond.FirstPointInElementList (bond.LID (owned.GID iLID)) + i) 0),
          overlap.LID g = -1 := by
        rintro ⟨g, hg, hb⟩
        obtain ⟨i, hi, rfl⟩ := List.mem_map.mp hg
        exact hbad ⟨i, hi, hb⟩
      simp only [hbad, hbad2, if_false]
      simp [Except.map, List.map_map, Function.comp]


theorem records_foldlM (bad : Nat → Prop) [DecidablePred bad] (record : Nat → List Int)
    (err : TeuchosError)
    (step : List Int × List Nat → Nat → Except TeuchosError (List Int × List Nat))
    (hstep : ∀ s i, step s i
      = if bad i then Except.error err
        else Except.ok (s.1 ++ ((record i).length : Int) :: record i, s.2 ++ [s.1.length]))
    (pts : List Nat) (s : List Int × List Nat) :
    pts.foldlM step s
      = if ∃ i ∈ pts, bad i then Except.error err
        else Except.ok (s.1 ++ encodeRecords (pts.map record),
          s.2 ++ recordOffsets s.1.length (pts.map record)) := by
  induction pts generalizing s with
  | nil => simp [pure, Except.pure, encodeRecords, recordOffsets]
  | cons a t ih =>
    rw [List.foldlM_cons, hstep]
    by_cases ha : bad a
    · simp [ha, bind, Except.bind]
    · simp only [ha, if_false, bind, Except.bind, ih, List.mem_cons, exists_eq_or_imp, false_or]
      have hlen : (s.1 ++ ((record a).length : Int) :: record a).length
          = s.1.length + 1 + (record a).length := by
        simp only [List.length_append, List.length_cons]
        omega
      simp only [hlen, List.map_cons, encodeRecords, recordOffsets, List.flatMap_cons,
        List.append_assoc, List.cons_append, List.singleton_append, List.nil_append]

theorem createRebalancedNeighborhoodData_eq (owned overlap bond : BlockMap) (vec : List Int) :
    createRebalancedNeighborhoodData owned overlap bond vec
      = if (∃ i ∈ List.range owned.NumMyElements, overlap.LID (owned.GID (i : Nat)) = -1)
          ∨ (∃ i ∈ List.range owned.NumMyElements,
              ∃ g ∈ bondedNeighbors bond vec (owned.GID (i : Nat)), overlap.LID g = -1) then
          Except.error
            (TeuchosError.RangeError "Invalid index into rebalancedOneDimensionalOverlapMap")
        else Except.ok
          { numOwnedPoints := owned.NumMyElements
            ownedIDs := (List.range owned.NumMyElements).map
              (fun (i : Nat) => overlap.LID (owned.GID i))
            neighborhoodListSize := owned.NumMyElements + bond.NumMyPoints
            neighborhoodList := encodeRecords ((List.range owned.NumMyElements).map
              (fun (i : Nat) => (bondedNeighbors bond vec (owned.GID i)).map overlap.LID))
            neighborhoodPtr := recordOffsets 0 ((List.range owned.NumMyElements).map
              (fun (i : Nat) => (bondedNeighbors bond vec (owned.GID i)).map overlap.LID)) } := by
  unfold createRebalancedNeighborhoodData
  rw [ownedIDsLoop_eq, records_foldlM
    (fun (i : Nat) => ∃ g ∈ bondedNeighbors bond vec (owned.GID i), overlap.LID g = -1)
    (fun (i : Nat) => (bondedNeighbors bond vec (owned.GID i)).map overlap.LID)
    (TeuchosError.RangeError "Invalid index into rebalancedOneDimensionalOverlapMap")
    (neighborhoodStep owned overlap bond vec)
    (fun s i => neighborhoodStep_eq owned overlap bond vec s i)]
  by_cases h1 : ∃ i ∈ List.range owned.NumMyElements, overlap.LID (owned.GID (i : Nat)) = -1
  · simp only [h1, if_true, true_or]
    rfl
  · by_cases h2 : ∃ i ∈ List.range owned.NumMyElements,
        ∃ g ∈ bondedNeighbors bond vec (owned.GID (i : Nat)), overlap.LID g = -1
    · simp only [h1, h2, if_true, if_false, or_true]
      rfl
    · simp only [h1, h2, if_false, or_self]
      rfl


theorem BlockMap.exists_range_GID_iff (m : BlockMap) (P : Int → Prop) :
    (∃ i ∈ List.range m.NumMyElements, P (m.GID (i : Nat)))
      ↔ ∃ p ∈ m.MyGlobalElements, P p := by
  conv_rhs => rw [← m.map_GID_range]
  simp only [List.mem_map, List.mem_range]
  constructor
  · rintro ⟨i, hi, hp⟩
    exact ⟨_, ⟨i, hi, rfl⟩, hp⟩
  · rintro ⟨p, ⟨i, hi, rfl⟩, hp⟩
    exact ⟨i, hi, hp⟩

theorem BlockMap.map_range_GID {α : Type} (m : BlockMap) (f : Int → α) :
    (List.range m.NumMyElements).map (fun (i : Nat) => f (m.GID i))
      = m.MyGlobalElements.map f := by
  conv_rhs => rw [← m.map_GID_range, List.map_map]
  rfl

/-- C3: for a neighbor GlobalID vector of the length of the bond map,
`createRebalancedNeighborhoodData` raises a RangeError if and only if some owned GlobalID, or
some neighbor GlobalID in the block of an owned point that has a bond-map entry, is absent from
the rebalanced overlap map; when it succeeds, the flat list holds, for every owned point in
order, the full block of the point resolved through the overlap map, and no resolved index is
`-1`. -/
theorem createRebalancedNeighborhoodData_RangeError_iff
    (rebalancedOneDimensionalMap rebalancedOneDimensionalOverlapMap rebalancedBondMap : BlockMap)
    (rebalancedNeighborGlobalIDs : List Int)
    (hvec : rebalancedNeighborGlobalIDs.length = rebalancedBondMap.NumMyPoints) :
    ((∃ msg, createRebalancedNeighborhoodData rebalancedOneDimensionalMap
          rebalancedOneDimensionalOverlapMap rebalancedBondMap rebalancedNeighborGlobalIDs
          = Except.error (TeuchosError.RangeError msg))
      ↔ (∃ p ∈ rebalancedOneDimensionalMap.MyGlobalElements,
            p ∉ rebalancedOneDimensionalOverlapMap.MyGlobalElements)
        ∨ (∃ p ∈ rebalancedOneDimensionalMap.MyGlobalElements,
            rebalancedBondMap.LID p ≠ -1
            ∧ ∃ g ∈ bondBlock rebalancedBondMap rebalancedNeighborGlobalIDs p,
                g ∉ rebalancedOneDimensionalOverlapMap.MyGlobalElements))
    ∧ ∀ r, createRebalancedNeighborhoodData rebalancedOneDimensionalMap
          rebalancedOneDimensionalOverlapMap rebalancedBondMap rebalancedNeighborGlobalIDs
          = Except.ok r →
        r.neighborhoodList
          = encodeRecords (rebalancedOneDimensionalMap.MyGlobalElements.map
              (fun p => (bondBlock rebalancedBondMap rebalancedNeighborGlobalIDs p).map
                rebalancedOneDimensionalOverlapMap.LID))
        ∧ ∀ p ∈ rebalancedOneDimensionalMap.MyGlobalElements,
            ∀ g ∈ bondBlock rebalancedBondMap rebalancedNeighborGlobalIDs p,
              rebalancedOneDimensionalOverlapMap.LID g ≠ -1 := by
  have hA : (∃ i ∈ List.range rebalancedOneDimensionalMap.NumMyElements,
        rebalancedOneDimensionalOverlapMap.LID (rebalancedOneDimensionalMap.GID (i : Nat)) = -1)
      ↔ ∃ p ∈ rebalancedOneDimensionalMap.MyGlobalElements,
          p ∉ rebalancedOneDimensionalOverlapMap.MyGlobalElements := by
    rw [BlockMap.exists_range_GID_iff rebalancedOneDimensionalMap
      (fun p => rebalancedOneDimensionalOverlapMap.LID p = -1)]
    simp only [BlockMap.LID_eq_neg_one_iff]
  have hB : (∃ i ∈ List.range rebalancedOneDimensionalMap.NumMyElements,
        ∃ g ∈ bondedNeighbors rebalancedBondMap rebalancedNeighborGlobalIDs
          (rebalancedOneDimensionalMap.GID (i : Nat)),
          rebalancedOneDimensionalOverlapMap.LID g = -1)
      ↔ ∃ p ∈ rebalancedOneDimensionalMap.MyGlobalElements,
          rebalancedBondMap.LID p ≠ -1
          ∧ ∃ g ∈ bondBlock rebalancedBondMap rebalancedNeighborGlobalIDs p,
              g ∉ rebalancedOneDimensionalOverlapMap.MyGlobalElements := by
    rw [BlockMap.exists_range_GID_iff rebalancedOneDimensionalMap
      (fun p => ∃ g ∈ bondedNeighbors rebalancedBondMap rebalancedNeighborGlobalIDs p,
        rebalancedOneDimensionalOverlapMap.LID g = -1)]
    simp only [BlockMap.LID_eq_neg_one_iff, bondedNeighbors_eq_bondBlock _ _ _ hvec]
    constructor
    · rintro ⟨p, hp, g, hg, h⟩
      refine ⟨p, hp, ?_, g, hg, h⟩
      intro hl
      simp [bondBlock, hl] at hg
    · rintro ⟨p, hp, -, h⟩
      exact ⟨p, hp, h⟩
  have hR : (List.range rebalancedOneDimensionalMap.NumMyElements).map
        (fun (i : Nat) => (bondedNeighbors rebalancedBondMap rebalancedNeighborGlobalIDs
          (rebalancedOneDimensionalMap.GID i)).map rebalancedOneDimensionalOverlapMap.LID)
      = rebalancedOneDimensionalMap.MyGlobalElements.map
          (fun p => (bondBlock rebalancedBondMap rebalancedNeighborGlobalIDs p).map
            rebalancedOneDimensionalOverlapMap.LID) := by
    rw [← BlockMap.map_range_GID rebalancedOneDimensionalMap
      (fun p => (bondBlock rebalancedBondMap rebalancedNeighborGlobalIDs p).map
        rebalancedOneDimensionalOverlapMap.LID)]
    simp only [bondedNeighbors_eq_bondBlock _ _ _ hvec]
  rw [createRebalancedNeighborhoodData_eq, ← hA, ← hB]
  by_cases hbad : (∃ i ∈ List.range rebalancedOneDimensionalMap.NumMyElements,
        rebalancedOneDimensionalOverlapMap.LID (rebalancedOneDimensionalMap.GID (i : Nat)) = -1)
      ∨ (∃ i ∈ List.range rebalancedOneDimensionalMap.NumMyElements,
        ∃ g ∈ bondedNeighbors rebalancedBondMap rebalancedNeighborGlobalIDs
          (rebalancedOneDimensionalMap.GID (i : Nat)),
          rebalancedOneDimensionalOverlapMap.LID g = -1)
  · rw [if_pos hbad]
    simp only [hbad, iff_true]
    exact ⟨⟨_, rfl⟩, fun r hr => by cases hr⟩
  · rw [if_neg hbad]
    simp only [hbad, iff_false]
    refine ⟨?_, fun r hr => ?_⟩
    · rintro ⟨msg, h⟩
      cases h
    cases hr
    refine ⟨congrArg encodeRecords hR, fun p hp g hg hl => hbad (Or.inr (hB.mpr ?_))⟩
    refine ⟨p, hp, ?_, g, hg, (BlockMap.LID_eq_neg_one_iff _ g).mp hl⟩
    intro hl2
    simp [bondBlock, hl2] at hg

theorem createRebalancedNeighborhoodData_RangeError_iff_witness :
    ([1, 0, 2, 1] : List Int).length = (BlockMap.mk [(0, 1), (1, 2), (2, 1)]).NumMyPoints
    ∧ ((∃ msg, createRebalancedNeighborhoodData ⟨[(1, 1), (2, 1)]⟩ ⟨[(1, 1), (2, 1)]⟩
          ⟨[(0, 1), (1, 2), (2, 1)]⟩ [1, 0, 2, 1] = Except.error (TeuchosError.RangeError msg))
      ↔ (∃ p ∈ (BlockMap.mk [(1, 1), (2, 1)]).MyGlobalElements,
            p ∉ (BlockMap.mk [(1, 1), (2, 1)]).MyGlobalElements)
        ∨ (∃ p ∈ (BlockMap.mk [(1, 1), (2, 1)]).MyGlobalElements,
            (BlockMap.mk [(0, 1), (1, 2), (2, 1)]).LID p ≠ -1
            ∧ ∃ g ∈ bondBlock ⟨[(0, 1), (1, 2), (2, 1)]⟩ [1, 0, 2, 1] p,
                g ∉ (BlockMap.mk [(1, 1), (2, 1)]).MyGlobalElements)) :=
  ⟨by decide,
    (createRebalancedNeighborhoodData_RangeError_iff ⟨[(1, 1), (2, 1)]⟩ ⟨[(1, 1), (2, 1)]⟩
      ⟨[(0, 1), (1, 2), (2, 1)]⟩ [1, 0, 2, 1] (by decide)).1⟩


theorem records_layout (recs : List (List Int)) (start : Nat) (pre : List Int)
    (hpre : pre.length = start) (i : Nat) (hi : i < recs.length) :
    ∃ p : Nat, (recordOffsets start recs)[i]? = some p
      ∧ (pre ++ encodeRecords recs).drop p
          = ((recs.get ⟨i, hi⟩).length : Int)
            :: (recs.get ⟨i, hi⟩ ++ encodeRecords (recs.drop (i + 1)))
      ∧ (i + 1 < recs.length →
          (recordOffsets start recs)[i + 1]? = some (p + 1 + (recs.get ⟨i, hi⟩).length)) := by
  induction recs generalizing start pre i with
  | nil => simp at hi
  | cons r rs ih =>
    cases i with
    | zero =>
      refine ⟨start, by simp [recordOffsets], ?_, ?_⟩
      · rw [← hpre, List.drop_left]
        simp [encodeRecords]
      · intro h2
        simp only [List.length_cons, Nat.lt_add_left_iff_pos, zero_add] at h2
        cases rs with
        | nil => simp at h2
        | cons q qs => simp [recordOffsets]
    | succ i =>
      have hi2 : i < rs.length := by simpa using hi
      obtain ⟨p, h1, h2, h3⟩ := ih (start + 1 + r.length) (pre ++ (r.length : Int) :: r)
        (by simp only [List.length_append, List.length_cons, hpre]; omega) i hi2
      refine ⟨p, by simpa [recordOffsets] using h1, ?_, ?_⟩
      · have henc : pre ++ encodeRecords (r :: rs)
            = (pre ++ (r.length : Int) :: r) ++ encodeRecords rs := by
          simp [encodeRecords]
        rw [henc, h2]
        simp
      · intro h4
        have h5 : i + 1 < rs.length := by simpa using h4
        simpa [recordOffsets] using h3 h5

theorem getElem?_of_drop_eq_cons (l : List Int) (p : Nat) (a : Int) (t : List Int)
    (h : l.drop p = a :: t) : l[p]? = some a := by
  have h2 : (l.drop p)[0]? = l[p + 0]? := List.getElem?_drop l p 0
  rw [h] at h2
  simpa using h2.symm

theorem take_drop_succ_of_drop_eq (l : List Int) (p : Nat) (a : Int) (rec t : List Int)
    (h : l.drop p = a :: (rec ++ t)) : (l.drop (p + 1)).take rec.length = rec := by
  have h2 : l.drop (p + 1) = rec ++ t := by
    rw [← List.drop_drop, h]
    rfl
  rw [h2, List.take_left]


theorem bondedNeighbors_length (bond : BlockMap) (vec : List Int) (globalID : Int) :
    (bondedNeighbors bond vec globalID).length
      = if bond.LID globalID = -1 then 0 else bond.ElementSize (bond.LID globalID) := by
  rw [bondedNeighbors_eq]
  split <;> simp

/-- C10: when `createRebalancedNeighborhoodData` succeeds (the neighbor GlobalID vector having
the length of the bond map), for every owned point `i` in owned-map order `neighborhoodPtr[i]` is
the position in the flat list of the neighbor count of the point; the count is the block size of
the point in the bond map, `0` without an entry; the next count entries are the overlap-map local
indices of the neighbor GlobalIDs of the point in order; and the record of point `i+1` starts
right after, at `neighborhoodPtr[i] + 1 + count`. -/
theorem createRebalancedNeighborhoodData_layout
    (rebalancedOneDimensionalMap rebalancedOneDimensionalOverlapMap rebalancedBondMap : BlockMap)
    (rebalancedNeighborGlobalIDs : List Int) (r : NeighborhoodData)
    (hvec : rebalancedNeighborGlobalIDs.length = rebalancedBondMap.NumMyPoints)
    (hok : createRebalancedNeighborhoodData rebalancedOneDimensionalMap
      rebalancedOneDimensionalOverlapMap rebalancedBondMap rebalancedNeighborGlobalIDs
      = Except.ok r) :
    ∀ i : Nat, i < rebalancedOneDimensionalMap.NumMyElements →
      ∃ p : Nat, r.neighborhoodPtr[i]? = some p
        ∧ r.neighborhoodList[p]?
            = some (((if rebalancedBondMap.LID (rebalancedOneDimensionalMap.GID i) = -1 then 0
                else rebalancedBondMap.ElementSize
                  (rebalancedBondMap.LID (rebalancedOneDimensionalMap.GID i)) : Nat)) : Int)
        ∧ (r.neighborhoodList.drop (p + 1)).take
              (if rebalancedBondMap.LID (rebalancedOneDimensionalMap.GID i) = -1 then 0
                else rebalancedBondMap.ElementSize
                  (rebalancedBondMap.LID (rebalancedOneDimensionalMap.GID i)))
            = (bondBlock rebalancedBondMap rebalancedNeighborGlobalIDs
                (rebalancedOneDimensionalMap.GID i)).map rebalancedOneDimensionalOverlapMap.LID
        ∧ (i + 1 < rebalancedOneDimensionalMap.NumMyElements →
            r.neighborhoodPtr[i + 1]?
              = some (p + 1
                + (if rebalancedBondMap.LID (rebalancedOneDimensionalMap.GID i) = -1 then 0
                    else rebalancedBondMap.ElementSize
                      (rebalancedBondMap.LID (rebalancedOneDimensionalMap.GID i))))) := by
  intro i hi
  rw [createRebalancedNeighborhoodData_eq] at hok
  split at hok
  · cases hok
  · cases hok
    have hi2 : i < ((List.range rebalancedOneDimensionalMap.NumMyElements).map
        (fun (i : Nat) => (bondedNeighbors rebalancedBondMap rebalancedNeighborGlobalIDs
          (rebalancedOneDimensionalMap.GID i)).map
            rebalancedOneDimensionalOverlapMap.LID)).length := by
      simpa using hi
    obtain ⟨p, h1, h2, h3⟩ := records_layout _ 0 [] rfl i hi2
    have hrec : ((List.range rebalancedOneDimensionalMap.NumMyElements).map
        (fun (i : Nat) => (bondedNeighbors rebalancedBondMap rebalancedNeighborGlobalIDs
          (rebalancedOneDimensionalMap.GID i)).map
            rebalancedOneDimensionalOverlapMap.LID)).get ⟨i, hi2⟩
        = (bondedNeighbors rebalancedBondMap rebalancedNeighborGlobalIDs
          (rebalancedOneDimensionalMap.GID i)).map rebalancedOneDimensionalOverlapMap.LID := by
      simp
    rw [hrec] at h2 h3
    have hlen : ((bondedNeighbors rebalancedBondMap rebalancedNeighborGlobalIDs
          (rebalancedOneDimensionalMap.GID i)).map
            rebalancedOneDimensionalOverlapMap.LID).length
        = if rebalancedBondMap.LID (rebalancedOneDimensionalMap.GID i) = -1 then 0
          else rebalancedBondMap.ElementSize
            (rebalancedBondMap.LID (rebalancedOneDimensionalMap.GID i)) := by
      rw [List.length_map, bondedNeighbors_length]
    rw [List.nil_append] at h2
    refine ⟨p, h1, ?_, ?_, ?_⟩
    · rw [← hlen]
      exact getElem?_of_drop_eq_cons _ _ _ _ h2
    · rw [← hlen, ← bondedNeighbors_eq_bondBlock _ _ _ hvec]
      exact take_drop_succ_of_drop_eq _ _ _ _ _ h2
    · intro hnext
      rw [← hlen]
      apply h3
      simpa using hnext

theorem createRebalancedNeighborhoodData_layout_witness :
    ([1, 0, 2, 1] : List Int).length = (BlockMap.mk [(0, 1), (1, 2), (2, 1)]).NumMyPoints
    ∧ ∃ p : Nat,
        (NeighborhoodData.mk 3 [1, 2, 0] 7 [2, 2, 0, 1, 1, 1, 1] [0, 3, 5]).neighborhoodPtr[1]?
          = some p
        ∧ (NeighborhoodData.mk 3 [1, 2, 0] 7 [2, 2, 0, 1, 1, 1, 1] [0, 3, 5]).neighborhoodList[p]?
          = some (1 : Int) :=
  ⟨by decide,
    by
      obtain ⟨p, h1, h2, -, -⟩ := createRebalancedNeighborhoodData_layout
        ⟨[(1, 1), (0, 1), (2, 1)]⟩ ⟨[(2, 1), (1, 1), (0, 1)]⟩ ⟨[(0, 1), (1, 2), (2, 1)]⟩
        [1, 0, 2, 1] ⟨3, [1, 2, 0], 7, [2, 2, 0, 1, 1, 1, 1], [0, 3, 5]⟩ (by decide) (by rfl)
        1 (by decide)
      exact ⟨p, h1, h2⟩⟩


/-! ## createRebalancedContactNeighborhoodData -/

/-- Taken by itself, `createRebalancedContactNeighborhoodData` holds no test on the local index
of a neighbor: with the owned point 0, an overlap map holding only 0 and the contact list `[5]`
for point 0, arguments that `rebalance` never passes, it raises no error and stores the local
index `-1`, whereas `createRebalancedNeighborhoodData` raises a RangeError on the same
neighbor. -/
theorem createRebalancedContactNeighborhoodData_stores_unresolved :
    createRebalancedContactNeighborhoodData [(0, [5])] ⟨[(0, 1)]⟩ ⟨[(0, 1)]⟩
        = Except.ok ⟨1, [0], 2, [1, -1], [0]⟩
    ∧ (BlockMap.mk [(0, 1)]).LID 5 = -1
    ∧ createRebalancedNeighborhoodData ⟨[(0, 1)]⟩ ⟨[(0, 1)]⟩ ⟨[(0, 1)]⟩ [5]
        = Except.error
          (TeuchosError.RangeError "Invalid index into rebalancedOneDimensionalOverlapMap") :=
  ⟨rfl, rfl, rfl⟩


/-! ## createRebalancedBondMap: the bond counts before the import -/

/-- C11, evaluated on the code: with owned points 10, 20, 30 and a bond map that omits the
neighborless point 10 (entries 20 with 2 bonds, 30 with 5 bonds), the count recorded for the owned
point 20 (owned index 1, bond-map local ID 0) is `ElementSize(1) = 5`, the block size of point 30,
not its own block size 2; and with owned points 10, 20 and the bond map listing 20 (2 bonds)
before 10 (5 bonds), where every read is in range, the recorded counts are swapped. -/
theorem numberOfBonds_reads_owned_index :
    (BlockMap.mk [(10, 1), (20, 1), (30, 1)]).GID 1 = 20
    ∧ (BlockMap.mk [(20, 2), (30, 5)]).LID 20 = 0
    ∧ (BlockMap.mk [(20, 2), (30, 5)]).ElementSize ((BlockMap.mk [(20, 2), (30, 5)]).LID 20) = 2
    ∧ (numberOfBonds ⟨[(10, 1), (20, 1), (30, 1)]⟩ ⟨[(20, 2), (30, 5)]⟩).getD 1 0 = 5
    ∧ numberOfBonds ⟨[(10, 1), (20, 1)]⟩ ⟨[(20, 2), (10, 5)]⟩ = [2, 5]
    ∧ (BlockMap.mk [(20, 2), (10, 5)]).ElementSize ((BlockMap.mk [(20, 2), (10, 5)]).LID 10) = 5
    ∧ (BlockMap.mk [(20, 2), (10, 5)]).ElementSize ((BlockMap.mk [(20, 2), (10, 5)]).LID 20)
        = 2 := by
  decide

/-- C12, evaluated on the code: with owned points 10, 20, 30, the bond map with entries 20
(2 bonds) and 30 (5 bonds), the rebalanced owned map equal to the owned map and the identity
import, `createRebalancedBondMap` returns a bond map that gives point 20 the block size 5 instead
of 2, so it differs from the current bond map. -/
theorem createRebalancedBondMap_identity_changes_sizes :
    (20, 5) ∈ (createRebalancedBondMap ⟨[(10, 1), (20, 1), (30, 1)]⟩ ⟨[(20, 2), (30, 5)]⟩
        ⟨[(10, 1), (20, 1), (30, 1)]⟩ id).elements
    ∧ (20, 2) ∉ (createRebalancedBondMap ⟨[(10, 1), (20, 1), (30, 1)]⟩ ⟨[(20, 2), (30, 5)]⟩
        ⟨[(10, 1), (20, 1), (30, 1)]⟩ id).elements
    ∧ createRebalancedBondMap ⟨[(10, 1), (20, 1), (30, 1)]⟩ ⟨[(20, 2), (30, 5)]⟩
        ⟨[(10, 1), (20, 1), (30, 1)]⟩ id ≠ ⟨[(20, 2), (30, 5)]⟩ := by
  decide


/-! ## rebalance and contactSearch: the scenarios of the specification -/

theorem rebalanceMaps_no_contact_offProcessorIDs (owned bond : BlockMap) (vec : List Int)
    (decomp : PdGridData) :
    (rebalanceMaps false owned bond vec decomp).offProcessorIDs
      = offProcessorBondIDs owned vec := by
  simp [rebalanceMaps]

/-- C14: the bonded ghost set computed by `rebalance` is exactly the set of the neighbor
GlobalIDs that the rebalanced owned map does not hold (it is the whole ghost set when the analysis
has no contact); for the three points with bonds 0-1 and 1-2 migrated to the owned sets {0} and
{1,2} it is {1} on the process owning {0} and {0} on the process owning {1,2}, which gives the
overlap maps [0,1] and [1,2,0]. -/
theorem rebalance_bonded_ghost_set (rebalancedOneDimensionalMap rebalancedBondMap : BlockMap)
    (rebalancedNeighborGlobalIDs : List Int) (rebalancedDecomp : PdGridData) :
    (∀ g : Int, g ∈ offProcessorBondIDs rebalancedOneDimensionalMap rebalancedNeighborGlobalIDs
        ↔ g ∈ rebalancedNeighborGlobalIDs ∧ g ∉ rebalancedOneDimensionalMap.MyGlobalElements)
    ∧ (offProcessorBondIDs rebalancedOneDimensionalMap rebalancedNeighborGlobalIDs).Nodup
    ∧ (rebalanceMaps false rebalancedOneDimensionalMap rebalancedBondMap
          rebalancedNeighborGlobalIDs rebalancedDecomp).offProcessorIDs
        = offProcessorBondIDs rebalancedOneDimensionalMap rebalancedNeighborGlobalIDs
    ∧ (rebalanceMaps false ⟨[(0, 1)]⟩ ⟨[(0, 1)]⟩ [1] rebalancedDecomp).offProcessorIDs = [1]
    ∧ (rebalanceMaps false ⟨[(0, 1)]⟩ ⟨[(0, 1)]⟩ [1]
          rebalancedDecomp).rebalancedOneDimensionalOverlapMap.MyGlobalElements = [0, 1]
    ∧ (rebalanceMaps false ⟨[(1, 1), (2, 1)]⟩ ⟨[(1, 2), (2, 1)]⟩ [0, 2, 1]
          rebalancedDecomp).offProcessorIDs = [0]
    ∧ (rebalanceMaps false ⟨[(1, 1), (2, 1)]⟩ ⟨[(1, 2), (2, 1)]⟩ [0, 2, 1]
          rebalancedDecomp).rebalancedOneDimensionalOverlapMap.MyGlobalElements = [1, 2, 0] := by
  refine ⟨fun g => mem_offProcessorBondIDs _ _ g,
    nodup_of_sorted_lt _ (offProcessorBondIDs_sorted _ _),
    rebalanceMaps_no_contact_offProcessorIDs _ _ _ _, ?_, ?_, ?_, ?_⟩
  · rw [rebalanceMaps_no_contact_offProcessorIDs]; decide
  · rw [rebalanceMaps_overlap1_gids, rebalanceMaps_no_contact_offProcessorIDs]; decide
  · rw [rebalanceMaps_no_contact_offProcessorIDs]; decide
  · rw [rebalanceMaps_overlap1_gids, rebalanceMaps_no_contact_offProcessorIDs]; decide

/-- C15: for the two owned points 0 and 1 bonded to each other, when the proximity search
returns each point as the only neighbor of the other, `contactSearch` produces an empty contact
list for both points, each present as a key, and an empty set of off-processor contact IDs. -/
theorem contactSearch_two_bonded_points :
    (contactSearch ⟨[(0, 1), (1, 1)]⟩ ⟨[(0, 1), (1, 1)]⟩ [1, 0]
        (PdGridData.ofSearch [(0, [1]), (1, [0])]) [] []).contactNeighborGlobalIDs
      = [(0, []), (1, [])]
    ∧ mapCount (contactSearch ⟨[(0, 1), (1, 1)]⟩ ⟨[(0, 1), (1, 1)]⟩ [1, 0]
        (PdGridData.ofSearch [(0, [1]), (1, [0])]) [] []).contactNeighborGlobalIDs 0 = 1
    ∧ mapCount (contactSearch ⟨[(0, 1), (1, 1)]⟩ ⟨[(0, 1), (1, 1)]⟩ [1, 0]
        (PdGridData.ofSearch [(0, [1]), (1, [0])]) [] []).contactNeighborGlobalIDs 1 = 1
    ∧ (contactSearch ⟨[(0, 1), (1, 1)]⟩ ⟨[(0, 1), (1, 1)]⟩ [1, 0]
        (PdGridData.ofSearch [(0, [1]), (1, [0])]) [] []).offProcessorContactIDs = [] := by
  decide


/-! ## createRebalancedNeighborGlobalIDList -/

theorem set_append_replicate (V : List Int) (m : Nat) (x : Int) (hm : 0 < m) :
    (V ++ List.replicate m 0).set V.length x = (V ++ [x]) ++ List.replicate (m - 1) 0 := by
  have hrep : List.replicate m (0 : Int) = 0 :: List.replicate (m - 1) 0 := by
    have : m = (m - 1) + 1 := by omega
    conv_lhs => rw [this, List.replicate_succ]
  rw [hrep, List.set_append_right _ _ (le_refl _), Nat.sub_self]
  simp

theorem neighborGlobalIDsNeighbor_loop (overlap : BlockMap) (A raw B V : List Int) (m : Nat)
    (s0 : NeighborGlobalIDState) (hidx : s0.neighborhoodListIndex = A.length)
    (hg : s0.neighborGlobalIDIndex = V.length)
    (hvec : s0.neighborGlobalIDs = V ++ List.replicate m 0) (k : Nat) (hk : k ≤ raw.length)
    (hm : raw.length ≤ m) :
    (List.range k).foldl (neighborGlobalIDsNeighbor overlap (A ++ raw ++ B)) s0
      = { neighborhoodListIndex := A.length + k
          neighborGlobalIDIndex := V.length + k
          neighborGlobalIDs := (V ++ (raw.take k).map overlap.GID) ++ List.replicate (m - k) 0 } := by
  induction k with
  | zero =>
    cases s0
    simp only [] at hidx hg hvec
    simp [hidx, hg, hvec]
  | succ k ih =>
    have hk2 : k < raw.length := hk
    simp only [List.range_succ, List.foldl_append, List.foldl_cons, List.foldl_nil]
    rw [ih (Nat.le_of_lt hk2)]
    have htake : raw.take (k + 1) = raw.take k ++ [raw.get ⟨k, hk2⟩] := by
      rw [List.take_succ, List.getElem?_eq_getElem hk2]; rfl
    unfold neighborGlobalIDsNeighbor
    simp only [getD_append_middle A raw B k hk2]
    have hlen : (V ++ (raw.take k).map overlap.GID).length = V.length + k := by
      simp only [List.length_append, List.length_map, List.length_take]
      omega
    simp only [NeighborGlobalIDState.mk.injEq]
    refine ⟨by omega, by omega, ?_⟩
    conv_lhs => rw [← hlen]
    rw [set_append_replicate _ _ _ (by omega), htake]
    simp only [List.map_append, List.map_cons, List.map_nil, List.append_assoc]
    rfl


theorem length_flatMap_map (f : Int → Int) (recs : List (List Int)) :
    (recs.flatMap (fun r => r.map f)).length = (recs.map List.length).sum := by
  induction recs with
  | nil => rfl
  | cons r rs ih => simp [List.flatMap_cons, ih]

theorem neighborGlobalIDs_loop (overlap : BlockMap) (recs : List (List Int)) (N : Nat)
    (hN : (recs.map List.length).sum ≤ N) (k : Nat) (hk : k ≤ recs.length) :
    (List.range k).foldl (neighborGlobalIDsPoint overlap (encodeRecords recs))
        { neighborhoodListIndex := 0
          neighborGlobalIDIndex := 0
          neighborGlobalIDs := List.replicate N 0 }
      = { neighborhoodListIndex := (encodeRecords (recs.take k)).length
          neighborGlobalIDIndex := ((recs.take k).map List.length).sum
          neighborGlobalIDs :=
            (recs.take k).flatMap (fun r => r.map overlap.GID)
              ++ List.replicate (N - ((recs.take k).map List.length).sum) 0 } := by
  induction k with
  | zero => simp [encodeRecords]
  | succ k ih =>
    have hk2 : k < recs.length := hk
    simp only [List.range_succ, List.foldl_append, List.foldl_cons, List.foldl_nil]
    rw [ih (Nat.le_of_lt hk2)]
    have htake : recs.take (k + 1) = recs.take k ++ [recs.get ⟨k, hk2⟩] := by
      rw [List.take_succ, List.getElem?_eq_getElem hk2]; rfl
    have hbuf : encodeRecords recs
        = (encodeRecords (recs.take k) ++ [((recs.get ⟨k, hk2⟩).length : Int)])
          ++ recs.get ⟨k, hk2⟩ ++ encodeRecords (recs.drop (k + 1)) := by
      simp only [encodeRecords]
      rw [flatMap_split_at _ recs k hk2]
      simp
    have hnum : (encodeRecords recs).getD (encodeRecords (recs.take k)).length 0
        = ((recs.get ⟨k, hk2⟩).length : Int) := by
      rw [hbuf, List.append_assoc, List.append_assoc, List.getD_eq_getElem?_getD,
        List.getElem?_append_right (le_refl _), Nat.sub_self]
      simp
    have hsum : ((recs.take k).map List.length).sum + (recs.get ⟨k, hk2⟩).length ≤ N := by
      have h1 := sum_take_add_getD_le (recs.map List.length) k
      have h2 : (recs.map List.length).getD k 0 = (recs.get ⟨k, hk2⟩).length := by
        have hk3 : k < (recs.map List.length).length := by simpa using hk2
        rw [List.getD_eq_getElem?_getD, List.getElem?_eq_getElem hk3]
        simp
      rw [h2, ← List.map_take] at h1
      omega
    unfold neighborGlobalIDsPoint
    simp only [hnum, Int.toNat_ofNat]
    generalize recs.get ⟨k, hk2⟩ = rec at hbuf hsum htake
    have hloop := neighborGlobalIDsNeighbor_loop overlap
      (encodeRecords (recs.take k) ++ [(rec.length : Int)]) rec
      (encodeRecords (recs.drop (k + 1)))
      ((recs.take k).flatMap (fun r => r.map overlap.GID))
      (N - ((recs.take k).map List.length).sum)
      { neighborhoodListIndex := (encodeRecords (recs.take k)).length + 1
        neighborGlobalIDIndex := ((recs.take k).map List.length).sum
        neighborGlobalIDs :=
          (recs.take k).flatMap (fun r => r.map overlap.GID)
            ++ List.replicate (N - ((recs.take k).map List.length).sum) 0 }
      (by simp) (length_flatMap_map _ _).symm rfl rec.length (le_refl _) (by omega)
    rw [← hbuf] at hloop
    rw [hloop, htake]
    simp only [NeighborGlobalIDState.mk.injEq, length_flatMap_map, List.take_length,
      List.map_append, List.sum_append, List.map_cons, List.map_nil, List.sum_cons,
      List.sum_nil, List.flatMap_append, List.flatMap_cons, List.flatMap_nil, List.append_nil,
      encodeRecords, List.length_append, List.length_cons, List.length_nil, add_zero]
    refine ⟨by omega, trivial, ?_⟩
    rw [Nat.sub_sub]

theorem neighborGlobalIDs_eq (bond overlap : BlockMap) (nd : NeighborhoodData)
    (recs : List (List Int)) (hnum : nd.numOwnedPoints = recs.length)
    (hlist : nd.neighborhoodList = encodeRecords recs)
    (hN : (recs.map List.length).sum = bond.NumMyPoints) :
    neighborGlobalIDs bond overlap nd = recs.flatMap (fun r => r.map overlap.GID) := by
  unfold neighborGlobalIDs
  rw [hnum, hlist, neighborGlobalIDs_loop overlap recs bond.NumMyPoints (le_of_eq hN)
    recs.length (le_refl _)]
  simp [hN]


/-! ## The bond-map layout of a neighbor list -/

theorem BlockMap.LID_cons (g0 : Int) (s0 : Nat) (t : List (Int × Nat)) (g : Int) :
    (BlockMap.mk ((g0, s0) :: t)).LID g
      = if g = g0 then 0
        else if (BlockMap.mk t).LID g = -1 then -1 else (BlockMap.mk t).LID g + 1 := by
  by_cases h0 : g = g0
  · subst h0
    simp [BlockMap.LID, BlockMap.MyGlobalElements]
  · by_cases hm : g ∈ (BlockMap.mk t).MyGlobalElements
    · have hne : (BlockMap.mk t).LID g ≠ -1 := (BlockMap.LID_ne_neg_one_iff _ g).mpr hm
      have hm2 : g ∈ List.map Prod.fst t := hm
      have h0b : ¬ (g0 = g) := fun h => h0 h.symm
      simp only [h0, hne, if_false]
      simp only [BlockMap.LID, BlockMap.MyGlobalElements, List.map_cons, List.mem_cons, h0, hm2,
        or_true, if_true, false_or]
      rw [List.indexOf_cons_ne _ h0b]
      simp
    · have he : (BlockMap.mk t).LID g = -1 := (BlockMap.LID_eq_neg_one_iff _ g).mpr hm
      have hm2 : g ∉ List.map Prod.fst t := hm
      simp only [h0, he, if_false, if_true]
      simp [BlockMap.LID, BlockMap.MyGlobalElements, h0, hm2]

theorem bondBlock_cons_self (g0 : Int) (s0 : Nat) (t : List (Int × Nat)) (blk vec : List Int)
    (hlen : blk.length = s0) : bondBlock ⟨(g0, s0) :: t⟩ (blk ++ vec) g0 = blk := by
  have hl : (BlockMap.mk ((g0, s0) :: t)).LID g0 = 0 := by
    rw [BlockMap.LID_cons]; simp
  simp only [bondBlock, hl]
  simp [BlockMap.FirstPointInElementList, BlockMap.ElementSize, BlockMap.ElementSizeList, ← hlen]

theorem bondBlock_cons_ne (g0 : Int) (s0 : Nat) (t : List (Int × Nat)) (blk vec : List Int)
    (g : Int) (hne : g ≠ g0) (hlen : blk.length = s0) :
    bondBlock ⟨(g0, s0) :: t⟩ (blk ++ vec) g = bondBlock ⟨t⟩ vec g := by
  rcases (BlockMap.mk t).LID_cases g with h1 | ⟨k, hk, -⟩
  · have hl : (BlockMap.mk ((g0, s0) :: t)).LID g = -1 := by
      rw [BlockMap.LID_cons]; simp [hne, h1]
    simp [bondBlock, hl, h1]
  · have hk1 : ¬ ((k : Int) = -1) := by omega
    have hl : (BlockMap.mk ((g0, s0) :: t)).LID g = ((k + 1 : Nat) : Int) := by
      rw [BlockMap.LID_cons]; simp [hne, hk, hk1]
    have hk2 : ¬ (((k + 1 : Nat) : Int) = -1) := by omega
    have hk3 : ¬ (((k + 1 : Nat) : Int) < 0) := by omega
    have hk4 : ¬ ((k : Int) < 0) := by omega
    simp only [bondBlock, hl, hk, hk1, hk2, if_false, BlockMap.FirstPointInElementList,
      BlockMap.ElementSize, BlockMap.ElementSizeList, hk3, hk4, Int.toNat_ofNat, List.map_cons,
      List.take_succ_cons, List.sum_cons, List.getD_cons_succ]
    rw [← hlen, ← List.drop_drop, List.drop_left]

theorem bondBlock_of_pairs (ps : List (Int × List Int)) (f : Int → Int)
    (hd : (ps.map Prod.fst).Nodup) :
    ∀ e ∈ ps,
      bondBlock
          ⟨(ps.filter (fun p => decide (0 < p.2.length))).map (fun p => (p.1, p.2.length))⟩
          (ps.flatMap (fun p => p.2.map f)) e.1
        = e.2.map f := by
  induction ps with
  | nil => intro e he; simp at he
  | cons a t ih =>
    intro e he
    simp only [List.map_cons, List.nodup_cons] at hd
    by_cases hpos : 0 < a.2.length
    · have hfil : ((a :: t).filter (fun p => decide (0 < p.2.length))).map
            (fun p => (p.1, p.2.length))
          = (a.1, a.2.length)
            :: (t.filter (fun p => decide (0 < p.2.length))).map (fun p => (p.1, p.2.length)) := by
        simp [List.filter_cons, hpos]
      rw [hfil, List.flatMap_cons]
      rcases List.mem_cons.mp he with h | h
      · subst h
        exact bondBlock_cons_self _ _ _ _ _ (by simp)
      · have hne : e.1 ≠ a.1 := by
          intro heq
          exact hd.1 (List.mem_map.mpr ⟨e, h, heq⟩)
        rw [bondBlock_cons_ne _ _ _ _ _ _ hne (by simp)]
        exact ih hd.2 e h
    · have hfil : ((a :: t).filter (fun p => decide (0 < p.2.length))).map
            (fun p => (p.1, p.2.length))
          = (t.filter (fun p => decide (0 < p.2.length))).map (fun p => (p.1, p.2.length)) := by
        simp [List.filter_cons, hpos]
      have hnil : a.2 = [] := by
        cases h2 : a.2 with
        | nil => rfl
        | cons x xs => rw [h2] at hpos; simp at hpos
      rw [hfil, List.flatMap_cons, hnil, List.map_nil, List.nil_append]
      rcases List.mem_cons.mp he with h | h
      · subst h
        rw [hnil, List.map_nil]
        have hnot : e.1 ∉ (BlockMap.mk ((t.filter (fun p => decide (0 < p.2.length))).map
            (fun p => (p.1, p.2.length)))).MyGlobalElements := by
          intro hm
          simp only [BlockMap.MyGlobalElements, List.map_map, List.mem_map, List.mem_filter]
            at hm
          obtain ⟨q, ⟨hq, -⟩, hqe⟩ := hm
          exact hd.1 (List.mem_map.mpr ⟨q, hq, hqe⟩)
        simp [bondBlock, (BlockMap.LID_eq_neg_one_iff _ _).mpr hnot]
      · exact ih hd.2 e h


theorem BlockMap.GID_LID (m : BlockMap) (g : Int) (h : g ∈ m.MyGlobalElements) :
    m.GID (m.LID g) = g := by
  have hlt : m.MyGlobalElements.indexOf g < m.MyGlobalElements.length :=
    List.indexOf_lt_length.mpr h
  simp only [BlockMap.LID, h, if_true, BlockMap.GID_natCast]
  rw [List.getD_eq_getElem?_getD, List.getElem?_eq_getElem hlt]
  exact List.getElem_indexOf hlt

theorem sum_length_filter_pos (ps : List (Int × List Int)) :
    (((ps.filter (fun p => decide (0 < p.2.length))).map
        (fun p => ((p.1, p.2.length) : Int × Nat))).map Prod.snd).sum
      = ((ps.map Prod.snd).map List.length).sum := by
  induction ps with
  | nil => rfl
  | cons a t ih =>
    by_cases hpos : 0 < a.2.length
    · simp only [List.filter_cons, hpos, decide_True, if_true, List.map_cons, List.sum_cons, ih]
    · have h0 : a.2.length = 0 := by omega
      rw [List.filter_cons_of_neg (by simpa using hpos), ih]
      simp [h0]

theorem flatMap_zip_snd (gids : List Int) (recs : List (List Int)) (f : Int → Int)
    (hlen : recs.length = gids.length) :
    (gids.zip recs).flatMap (fun p => p.2.map f) = recs.flatMap (fun r => r.map f) := by
  induction gids generalizing recs with
  | nil =>
    cases recs with
    | nil => rfl
    | cons r rs => simp at hlen
  | cons g gs ih =>
    cases recs with
    | nil => simp at hlen
    | cons r rs =>
      simp only [List.length_cons, Nat.add_right_cancel_iff] at hlen
      simp only [List.zip_cons_cons, List.flatMap_cons, ih rs hlen]


/-- C13: let the current neighborhood data hold, for the owned points in order, the records
`recs` of local IDs in the current overlap map, and let the current bond map be consistent with
it (its entries are the owned points with at least one neighbor, in owned order, with the number
of neighbors as block size).  When the neighbor GlobalID list is redistributed unchanged and the
new overlap map holds the owned and the neighbor GlobalIDs, `createRebalancedNeighborhoodData`
applied to the result of `createRebalancedNeighborGlobalIDList` succeeds, and for every owned
point the rebuilt record has the same number of neighbors and, read through the new overlap map,
the same sequence of neighbor GlobalIDs as before. -/
theorem rebalance_reshuffles_bonded_neighborhoods
    (oneDimensionalMap oneDimensionalOverlapMap rebalancedOneDimensionalOverlapMap
      bondMap : BlockMap)
    (neighborhoodData : NeighborhoodData) (recs : List (List Int))
    (hrecs : recs.length = oneDimensionalMap.NumMyElements)
    (hnum : neighborhoodData.numOwnedPoints = oneDimensionalMap.NumMyElements)
    (hlist : neighborhoodData.neighborhoodList = encodeRecords recs)
    (hbond : bondMap.elements
      = ((oneDimensionalMap.MyGlobalElements.zip recs).filter
          (fun p => decide (0 < p.2.length))).map (fun p => (p.1, p.2.length)))
    (hdistinct : oneDimensionalMap.MyGlobalElements.Nodup)
    (howned : ∀ g ∈ oneDimensionalMap.MyGlobalElements,
      g ∈ rebalancedOneDimensionalOverlapMap.MyGlobalElements)
    (hghost : ∀ r ∈ recs, ∀ l ∈ r,
      oneDimensionalOverlapMap.GID l ∈ rebalancedOneDimensionalOverlapMap.MyGlobalElements) :
    ∃ r, createRebalancedNeighborhoodData oneDimensionalMap rebalancedOneDimensionalOverlapMap
          bondMap
          (createRebalancedNeighborGlobalIDList bondMap oneDimensionalOverlapMap
            neighborhoodData id)
        = Except.ok r
      ∧ ∀ (i : Nat) (hi : i < recs.length),
          ∃ p : Nat, r.neighborhoodPtr[i]? = some p
            ∧ r.neighborhoodList[p]? = some ((recs.get ⟨i, hi⟩).length : Int)
            ∧ ((r.neighborhoodList.drop (p + 1)).take (recs.get ⟨i, hi⟩).length).map
                rebalancedOneDimensionalOverlapMap.GID
              = (recs.get ⟨i, hi⟩).map oneDimensionalOverlapMap.GID := by
  have hg := oneDimensionalMap.length_MyGlobalElements
  have hbm : bondMap
      = ⟨((oneDimensionalMap.MyGlobalElements.zip recs).filter
          (fun p => decide (0 < p.2.length))).map (fun p => (p.1, p.2.length))⟩ := by
    cases bondMap
    simp only [BlockMap.mk.injEq]
    exact hbond
  have hfst : (oneDimensionalMap.MyGlobalElements.zip recs).map Prod.fst
      = oneDimensionalMap.MyGlobalElements := by
    rw [← List.unzip_fst, List.unzip_zip (by omega)]
  have hsnd : (oneDimensionalMap.MyGlobalElements.zip recs).map Prod.snd = recs := by
    rw [← List.unzip_snd, List.unzip_zip (by omega)]
  have hN : (recs.map List.length).sum = bondMap.NumMyPoints := by
    have h := sum_length_filter_pos (oneDimensionalMap.MyGlobalElements.zip recs)
    rw [hsnd] at h
    rw [← h, hbm]
    rfl
  have hvecEq : createRebalancedNeighborGlobalIDList bondMap oneDimensionalOverlapMap
      neighborhoodData id
      = (oneDimensionalMap.MyGlobalElements.zip recs).flatMap
          (fun p => p.2.map oneDimensionalOverlapMap.GID) := by
    simp only [createRebalancedNeighborGlobalIDList, id]
    rw [neighborGlobalIDs_eq bondMap oneDimensionalOverlapMap neighborhoodData recs
      (by omega) hlist hN, flatMap_zip_snd _ _ _ (by omega)]
  have hvecLen : (createRebalancedNeighborGlobalIDList bondMap oneDimensionalOverlapMap
      neighborhoodData id).length = bondMap.NumMyPoints := by
    rw [hvecEq, flatMap_zip_snd _ _ _ (by omega), length_flatMap_map, hN]
  have hblock : ∀ (i : Nat) (hi : i < recs.length),
      bondedNeighbors bondMap
          (createRebalancedNeighborGlobalIDList bondMap oneDimensionalOverlapMap
            neighborhoodData id) (oneDimensionalMap.GID (i : Nat))
        = (recs.get ⟨i, hi⟩).map oneDimensionalOverlapMap.GID := by
    intro i hi
    rw [bondedNeighbors_eq_bondBlock _ _ _ hvecLen, hvecEq]
    have hi2 : i < oneDimensionalMap.NumMyElements := by omega
    have hi3 : i < (oneDimensionalMap.MyGlobalElements.zip recs).length := by
      simp only [List.length_zip]; omega
    have hmem : (oneDimensionalMap.MyGlobalElements.zip recs).get ⟨i, hi3⟩
        ∈ oneDimensionalMap.MyGlobalElements.zip recs := List.get_mem _ _ _
    have hpair : (oneDimensionalMap.MyGlobalElements.zip recs).get ⟨i, hi3⟩
        = (oneDimensionalMap.GID (i : Nat), recs.get ⟨i, hi⟩) := by
      rw [BlockMap.GID_of_lt _ _ hi2]
      simp
    have h := bondBlock_of_pairs (oneDimensionalMap.MyGlobalElements.zip recs)
      oneDimensionalOverlapMap.GID (by rw [hfst]; exact hdistinct) _ hmem
    rw [hpair] at h
    conv_lhs => rw [hbm]
    exact h
  rw [createRebalancedNeighborhoodData_eq]
  have hgood : ¬ ((∃ i ∈ List.range oneDimensionalMap.NumMyElements,
        rebalancedOneDimensionalOverlapMap.LID (oneDimensionalMap.GID (i : Nat)) = -1)
      ∨ (∃ i ∈ List.range oneDimensionalMap.NumMyElements,
        ∃ g ∈ bondedNeighbors bondMap
          (createRebalancedNeighborGlobalIDList bondMap oneDimensionalOverlapMap
            neighborhoodData id) (oneDimensionalMap.GID (i : Nat)),
          rebalancedOneDimensionalOverlapMap.LID g = -1)) := by
    rintro (⟨i, hi, hl⟩ | ⟨i, hi, g, hg2, hl⟩)
    · have hi2 : i < oneDimensionalMap.NumMyElements := List.mem_range.mp hi
      refine (BlockMap.LID_eq_neg_one_iff _ _).mp hl (howned _ ?_)
      rw [BlockMap.GID_of_lt _ _ hi2]
      exact List.get_mem _ _ _
    · have hi2 : i < recs.length := by
        have := List.mem_range.mp hi
        omega
      rw [hblock i hi2] at hg2
      obtain ⟨l, hl2, rfl⟩ := List.mem_map.mp hg2
      exact (BlockMap.LID_eq_neg_one_iff _ _).mp hl
        (hghost _ (List.get_mem _ _ _) l hl2)
  rw [if_neg hgood]
  refine ⟨_, rfl, fun i hi => ?_⟩
  have hi2 : i < ((List.range oneDimensionalMap.NumMyElements).map
      (fun (i : Nat) => (bondedNeighbors bondMap
        (createRebalancedNeighborGlobalIDList bondMap oneDimensionalOverlapMap
          neighborhoodData id) (oneDimensionalMap.GID i)).map
          rebalancedOneDimensionalOverlapMap.LID)).length := by
    simp only [List.length_map, List.length_range]; omega
  obtain ⟨p, h1, h2, -⟩ := records_layout _ 0 [] rfl i hi2
  have hrec : ((List.range oneDimensionalMap.NumMyElements).map
      (fun (i : Nat) => (bondedNeighbors bondMap
        (createRebalancedNeighborGlobalIDList bondMap oneDimensionalOverlapMap
          neighborhoodData id) (oneDimensionalMap.GID i)).map
          rebalancedOneDimensionalOverlapMap.LID)).get ⟨i, hi2⟩
      = ((recs.get ⟨i, hi⟩).map oneDimensionalOverlapMap.GID).map
          rebalancedOneDimensionalOverlapMap.LID := by
    simp only [List.get_eq_getElem, List.getElem_map, List.getElem_range]
    rw [hblock i hi]
    rfl
  rw [hrec, List.nil_append] at h2
  have hlen : (((recs.get ⟨i, hi⟩).map oneDimensionalOverlapMap.GID).map
      rebalancedOneDimensionalOverlapMap.LID).length = (recs.get ⟨i, hi⟩).length := by
    simp
  refine ⟨p, h1, ?_, ?_⟩
  · rw [← hlen]
    exact getElem?_of_drop_eq_cons _ _ _ _ h2
  · have h3 := take_drop_succ_of_drop_eq _ _ _ _ _ h2
    rw [hlen] at h3
    rw [h3, List.map_map, List.map_map]
    apply List.map_congr_left
    intro l hl
    simp only [Function.comp]
    exact BlockMap.GID_LID _ _ (hghost _ (List.get_mem _ _ _) l hl)


theorem rebalance_reshuffles_bonded_neighborhoods_witness :
    (BlockMap.mk [(10, 1), (20, 1), (30, 1)]).MyGlobalElements.Nodup
    ∧ (BlockMap.mk [(10, 2), (30, 1)]).elements
        = (((BlockMap.mk [(10, 1), (20, 1), (30, 1)]).MyGlobalElements.zip
            [[1, 4], [], [0]]).filter (fun p => decide (0 < p.2.length))).map
              (fun p => (p.1, p.2.length))
    ∧ ∃ r, createRebalancedNeighborhoodData ⟨[(10, 1), (20, 1), (30, 1)]⟩
          ⟨[(10, 1), (20, 1), (30, 1), (5, 1)]⟩ ⟨[(10, 2), (30, 1)]⟩
          (createRebalancedNeighborGlobalIDList ⟨[(10, 2), (30, 1)]⟩
            ⟨[(10, 1), (20, 1), (30, 1), (7, 1), (5, 1)]⟩
            ⟨3, [0, 1, 2], 6, [2, 1, 4, 0, 1, 0], [0, 3, 4]⟩ id)
        = Except.ok r :=
  ⟨by decide, by decide,
    by
      obtain ⟨r, hr, -⟩ := rebalance_reshuffles_bonded_neighborhoods
        ⟨[(10, 1), (20, 1), (30, 1)]⟩ ⟨[(10, 1), (20, 1), (30, 1), (7, 1), (5, 1)]⟩
        ⟨[(10, 1), (20, 1), (30, 1), (5, 1)]⟩ ⟨[(10, 2), (30, 1)]⟩
        ⟨3, [0, 1, 2], 6, [2, 1, 4, 0, 1, 0], [0, 3, 4]⟩ [[1, 4], [], [0]]
        (by decide) (by decide) (by decide) (by decide) (by decide) (by decide) (by decide)
      exact ⟨r, hr⟩⟩


/-! ## rebalance: the global vectors -/

/-- C16, evaluated on the code: after `initializeDiscretization` has set the nine views on the
mothership `old` and `rebalance` has replaced the mothership by `new`, the views `x`, `u`, `y`,
`v`, `a`, `force` and `contactForce` are columns 0 to 6 of `new`, but `deltaU` and `residual` are
still columns 7 and 8 of `old`: `rebalance` does not reset them. -/
theorem rebalanceVectors_keeps_deltaU_residual (old new : Nat) :
    (rebalanceVectors (initializeDiscretizationVectors old) new).mothership = new
    ∧ (rebalanceVectors (initializeDiscretizationVectors old) new).x = ⟨new, 0⟩
    ∧ (rebalanceVectors (initializeDiscretizationVectors old) new).u = ⟨new, 1⟩
    ∧ (rebalanceVectors (initializeDiscretizationVectors old) new).y = ⟨new, 2⟩
    ∧ (rebalanceVectors (initializeDiscretizationVectors old) new).v = ⟨new, 3⟩
    ∧ (rebalanceVectors (initializeDiscretizationVectors old) new).a = ⟨new, 4⟩
    ∧ (rebalanceVectors (initializeDiscretizationVectors old) new).force = ⟨new, 5⟩
    ∧ (rebalanceVectors (initializeDiscretizationVectors old) new).contactForce = ⟨new, 6⟩
    ∧ (rebalanceVectors (initializeDiscretizationVectors old) new).deltaU = ⟨old, 7⟩
    ∧ (rebalanceVectors (initializeDiscretizationVectors old) new).residual = ⟨old, 8⟩
    ∧ (rebalanceVectors (initializeDiscretizationVectors 0) 1).deltaU.mothership
        ≠ (rebalanceVectors (initializeDiscretizationVectors 0) 1).mothership
    ∧ (rebalanceVectors (initializeDiscretizationVectors 0) 1).residual.mothership
        ≠ (rebalanceVectors (initializeDiscretizationVectors 0) 1).mothership := by
  refine ⟨rfl, rfl, rfl, rfl, rfl, rfl, rfl, rfl, rfl, rfl, ?_, ?_⟩ <;> decide

/-! ## initializeDataManager: the master list of variable specs -/

/-- C17, evaluated on the code: when the only material model requests the spec VOLUME, which the
engine has pushed first, the master list passed to `allocateData` holds VOLUME twice, at
positions 0 and 7 (`std::unique` finds no equal neighbors); and when the compute manager requests
one spec twice in a row, the vector still has both entries, since the logical end returned by
`std::unique` is dropped and nothing is erased. -/
theorem initializeDataManagerVariableSpecs_keeps_duplicates :
    initializeDataManagerVariableSpecs
        ⟨FieldSpec.make 1 0 1 0 0 "Volume", FieldSpec.make 2 0 3 0 0 "Coordinates",
          FieldSpec.make 3 0 3 0 1 "Displacement", FieldSpec.make 4 0 3 0 1 "Current_Coordinates",
          FieldSpec.make 5 0 3 0 1 "Velocity", FieldSpec.make 6 0 3 0 1 "Force_Density",
          FieldSpec.make 7 0 3 0 1 "Contact_Force_Density"⟩
        [[FieldSpec.make 1 0 1 0 0 "Volume"]] []
      = [FieldSpec.make 1 0 1 0 0 "Volume", FieldSpec.make 2 0 3 0 0 "Coordinates",
          FieldSpec.make 3 0 3 0 1 "Displacement", FieldSpec.make 4 0 3 0 1 "Current_Coordinates",
          FieldSpec.make 5 0 3 0 1 "Velocity", FieldSpec.make 6 0 3 0 1 "Force_Density",
          FieldSpec.make 7 0 3 0 1 "Contact_Force_Density", FieldSpec.make 1 0 1 0 0 "Volume"]
    ∧ ¬ (initializeDataManagerVariableSpecs
        ⟨FieldSpec.make 1 0 1 0 0 "Volume", FieldSpec.make 2 0 3 0 0 "Coordinates",
          FieldSpec.make 3 0 3 0 1 "Displacement", FieldSpec.make 4 0 3 0 1 "Current_Coordinates",
          FieldSpec.make 5 0 3 0 1 "Velocity", FieldSpec.make 6 0 3 0 1 "Force_Density",
          FieldSpec.make 7 0 3 0 1 "Contact_Force_Density"⟩
        [[FieldSpec.make 1 0 1 0 0 "Volume"]] []).Pairwise (fun a b => a.opEq b = false)
    ∧ (initializeDataManagerVariableSpecs
        ⟨FieldSpec.make 1 0 1 0 0 "Volume", FieldSpec.make 2 0 3 0 0 "Coordinates",
          FieldSpec.make 3 0 3 0 1 "Displacement", FieldSpec.make 4 0 3 0 1 "Current_Coordinates",
          FieldSpec.make 5 0 3 0 1 "Velocity", FieldSpec.make 6 0 3 0 1 "Force_Density",
          FieldSpec.make 7 0 3 0 1 "Contact_Force_Density"⟩
        [] [FieldSpec.make 9 0 1 0 0 "Damage", FieldSpec.make 9 0 1 0 0 "Damage"]).drop 7
      = [FieldSpec.make 9 0 1 0 0 "Damage", FieldSpec.make 9 0 1 0 0 "Damage"] := by
  refine ⟨by decide, by decide, by decide⟩


/-! ## executeExplicit: when the loop rebalances -/

theorem intRemainder_pos (s n : Int) (hs : 1 ≤ s) (hn : 1 ≤ n) :
    (intRemainder s n).map (fun r => r == 0) = some (decide (n ∣ s)) := by
  have hn0 : ¬ n = 0 := by omega
  simp only [intRemainder, hn0, if_false, Option.map_some']
  rw [Int.tmod_eq_emod (by omega) (by omega)]
  congr 1
  by_cases hd : n ∣ s
  · simp [hd, Int.emod_eq_zero_of_dvd hd]
  · have : ¬ s % n = 0 := fun h => hd (Int.dvd_of_emod_eq_zero h)
    simp [hd, this]

theorem rebalanceRequested_eq (reb : Bool) (n : Int) (contact : Bool) (m s : Int)
    (hn : reb = true → 1 ≤ n) (hm : contact = true → 1 ≤ m) (hs : 1 ≤ s) :
    rebalanceRequested reb n contact m s
      = some (decide ((reb = true ∧ n ∣ s) ∨ (contact = true ∧ m ∣ s))) := by
  unfold rebalanceRequested
  cases reb with
  | false =>
    cases contact with
    | false => simp
    | true =>
      simp only [Bool.false_eq_true, if_false, if_true, false_and, false_or, true_and,
        Option.bind_eq_bind, Option.some_bind]
      exact intRemainder_pos s m hs (hm rfl)
  | true =>
    simp only [if_true, true_and, Option.bind_eq_bind]
    rw [intRemainder_pos s n hs (hn rfl), Option.some_bind]
    by_cases hd : n ∣ s
    · simp [hd]
    · cases contact with
      | false => simp [hd]
      | true =>
        simp only [hd, decide_False, Bool.false_eq_true, if_false, if_true, false_or, true_and]
        exact intRemainder_pos s m hs (hm rfl)

theorem foldlM_option_filter (test : Nat → Option Bool) (b : Nat → Bool) (v : Nat → Int)
    (l : List Nat) (init : List Int) (h : ∀ k ∈ l, test k = some (b k)) :
    l.foldlM (fun (invoked : List Int) (k : Nat) => do
        let requested ← test k
        pure (if requested then invoked ++ [v k] else invoked)) init
      = some (init ++ (l.filter b).map v) := by
  induction l generalizing init with
  | nil => simp
  | cons a t ih =>
    have ih2 := ih (if b a = true then init ++ [v a] else init)
      (fun k hk => h k (List.mem_cons_of_mem _ hk))
    rw [List.foldlM_cons, h a (List.mem_cons_self _ _)]
    simp only [Option.bind_eq_bind, Option.some_bind, Option.pure_def] at ih2 ⊢
    rw [ih2]
    cases hb : b a <;> simp [List.filter_cons, hb]


theorem executeExplicitRebalanceSteps_eq (reb : Bool) (n : Int) (contact : Bool) (m nsteps : Int)
    (hn : reb = true → 1 ≤ n) (hm : contact = true → 1 ≤ m) :
    executeExplicitRebalanceSteps reb n contact m nsteps
      = some (((List.range nsteps.toNat).filter
          (fun (k : Nat) =>
            decide ((reb = true ∧ n ∣ ((k : Int) + 1)) ∨ (contact = true ∧ m ∣ ((k : Int) + 1))))).map
          (fun (k : Nat) => (k : Int) + 1)) := by
  have h := foldlM_option_filter
    (fun (k : Nat) => rebalanceRequested reb n contact m ((k : Int) + 1))
    (fun (k : Nat) =>
      decide ((reb = true ∧ n ∣ ((k : Int) + 1)) ∨ (contact = true ∧ m ∣ ((k : Int) + 1))))
    (fun (k : Nat) => (k : Int) + 1) (List.range nsteps.toNat) []
    (fun k _ => rebalanceRequested_eq reb n contact m _ hn hm (by omega))
  rw [List.nil_append] at h
  exact h

theorem executeExplicitRebalanceParams_flag (solverParams : ParameterList) (reb : Bool)
    (n : Int) (h : executeExplicitRebalanceParams false 1 solverParams = Except.ok (reb, n)) :
    reb = solverParams.isSublist "Rebalance" := by
  unfold executeExplicitRebalanceParams at h
  cases hs : solverParams.isSublist "Rebalance" with
  | false =>
    simp only [hs, Bool.false_eq_true, if_false, pure, Except.pure] at h
    injection h with h
    exact (Prod.mk.inj h).1.symm
  | true =>
    simp only [hs, if_true] at h
    cases h1 : solverParams.sublistMustExist "Rebalance" with
    | error e => simp [h1, bind, Except.bind] at h
    | ok rebalanceParams =>
      cases h2 : rebalanceParams.getIntOr "Rebalance Frequency" 1 with
      | error e => simp [h1, h2, bind, Except.bind] at h
      | ok f =>
        simp only [h1, h2, bind, Except.bind, pure, Except.pure] at h
        injection h with h
        exact (Prod.mk.inj h).1.symm

/-- C20: let the members `analysisHasRebalance` and `rebalanceFrequency` be what `executeExplicit`
reads from the solver parameters (starting from the constructor values `false` and `1`), with a
rebalance frequency of at least 1 when a "Rebalance" sublist is present and a contact search
frequency of at least 1 when contact is enabled.  Then `analysisHasRebalance` tells whether the
"Rebalance" sublist is present, no remainder by zero is taken, and `rebalance()` is invoked at
the start of step `s` of the loop (1 ≤ s ≤ nsteps) if and only if the sublist is present and `s`
is a multiple of the rebalance frequency, or contact is enabled and `s` is a multiple of the
contact search frequency; with neither, it is never invoked. -/
theorem executeExplicit_rebalance_steps (solverParams : ParameterList)
    (analysisHasRebalance : Bool) (rebalanceFrequency : Int) (analysisHasContact : Bool)
    (contactRebalanceFrequency nsteps : Int)
    (hparams : executeExplicitRebalanceParams false 1 solverParams
      = Except.ok (analysisHasRebalance, rebalanceFrequency))
    (hN : analysisHasRebalance = true → 1 ≤ rebalanceFrequency)
    (hM : analysisHasContact = true → 1 ≤ contactRebalanceFrequency) :
    analysisHasRebalance = solverParams.isSublist "Rebalance"
    ∧ (∀ s : Int, 1 ≤ s → s ≤ nsteps →
        rebalanceRequested analysisHasRebalance rebalanceFrequency analysisHasContact
            contactRebalanceFrequency s
          = some (decide ((analysisHasRebalance = true ∧ rebalanceFrequency ∣ s)
              ∨ (analysisHasContact = true ∧ contactRebalanceFrequency ∣ s))))
    ∧ (∃ invoked : List Int,
        executeExplicitRebalanceSteps analysisHasRebalance rebalanceFrequency
            analysisHasContact contactRebalanceFrequency nsteps = some invoked
        ∧ ∀ s : Int, s ∈ invoked
            ↔ 1 ≤ s ∧ s ≤ nsteps
              ∧ ((analysisHasRebalance = true ∧ rebalanceFrequency ∣ s)
                ∨ (analysisHasContact = true ∧ contactRebalanceFrequency ∣ s)))
    ∧ (analysisHasRebalance = false → analysisHasContact = false →
        executeExplicitRebalanceSteps analysisHasRebalance rebalanceFrequency
          analysisHasContact contactRebalanceFrequency nsteps = some []) := by
  have heq := executeExplicitRebalanceSteps_eq analysisHasRebalance rebalanceFrequency
    analysisHasContact contactRebalanceFrequency nsteps hN hM
  refine ⟨executeExplicitRebalanceParams_flag solverParams _ _ hparams,
    fun s hs _ => rebalanceRequested_eq _ _ _ _ s hN hM hs, ⟨_, heq, fun s => ?_⟩, ?_⟩
  · simp only [List.mem_map, List.mem_filter, List.mem_range, decide_eq_true_eq]
    constructor
    · rintro ⟨k, ⟨hk, hc⟩, rfl⟩
      exact ⟨by omega, by omega, hc⟩
    · rintro ⟨h1, h2, hc⟩
      refine ⟨(s - 1).toNat, ⟨by omega, ?_⟩, by omega⟩
      have : (((s - 1).toNat : Nat) : Int) + 1 = s := by omega
      rw [this]
      exact hc
  · intro hr hc
    rw [heq, hr, hc]
    simp

theorem executeExplicit_rebalance_steps_witness :
    executeExplicitRebalanceParams false 1
        [("Verlet", ParameterEntry.list []),
          ("Rebalance", ParameterEntry.list [("Rebalance Frequency", ParameterEntry.int 3)])]
      = Except.ok (true, 3)
    ∧ executeExplicitRebalanceSteps true 3 true 4 12 = some [3, 4, 6, 8, 9, 12]
    ∧ ∃ invoked : List Int,
        executeExplicitRebalanceSteps true 3 true 4 12 = some invoked
        ∧ ∀ s : Int, s ∈ invoked
            ↔ 1 ≤ s ∧ s ≤ 12
              ∧ (((true : Bool) = true ∧ (3 : Int) ∣ s) ∨ ((true : Bool) = true ∧ (4 : Int) ∣ s)) :=
  ⟨rfl, by decide,
    (executeExplicit_rebalance_steps
      [("Verlet", ParameterEntry.list []),
        ("Rebalance", ParameterEntry.list [("Rebalance Frequency", ParameterEntry.int 3)])]
      true 3 true 4 12 rfl (by decide) (by decide)).2.2.1⟩


/-! ## Teuchos::ParameterList -/

theorem foldlM_first_bad {α β : Type} (step : List β → α → Except TeuchosError (List β))
    (bad : α → Bool) (err : α → TeuchosError) (g : α → List β) (l : List α) (init : List β)
    (hstep : ∀ acc x, x ∈ l →
      step acc x = if bad x = true then Except.error (err x) else Except.ok (acc ++ g x)) :
    l.foldlM step init
      = match l.find? bad with
        | some x => Except.error (err x)
        | none => Except.ok (init ++ l.flatMap g) := by
  induction l generalizing init with
  | nil => simp [pure, Except.pure]
  | cons a t ih =>
    rw [List.foldlM_cons, hstep init a (List.mem_cons_self _ _)]
    cases hb : bad a with
    | true => simp [hb, bind, Except.bind, List.find?_cons]
    | false =>
      simp only [Bool.false_eq_true, if_false, bind, Except.bind, List.find?_cons, hb]
      rw [ih _ (fun acc x hx => hstep acc x (List.mem_cons_of_mem _ hx))]
      simp [List.flatMap_cons]

theorem lookup_isSome_of_mem (l : ParameterList) (x : String × ParameterEntry) (h : x ∈ l) :
    ∃ e, l.getEntryPtr x.1 = some e := by
  induction l with
  | nil => simp at h
  | cons a t ih =>
    obtain ⟨n, v⟩ := a
    by_cases hn : x.1 = n
    · exact ⟨v, by simp [ParameterList.getEntryPtr, List.lookup, hn]⟩
    · rcases List.mem_cons.mp h with h | h
      · subst h
        exact absurd rfl hn
      · obtain ⟨e, he⟩ := ih h
        refine ⟨e, ?_⟩
        have hb : (x.1 == n) = false := by simpa using hn
        simp only [ParameterList.getEntryPtr] at he ⊢
        rw [List.lookup_cons, hb]
        exact he

theorem sublist_of_mem (l : ParameterList) (x : String × ParameterEntry) (h : x ∈ l) :
    l.sublist x.1
      = if l.isSublist x.1 = true then Except.ok (l.sublistOrEmpty x.1)
        else Except.error (TeuchosError.InvalidParameterType x.1) := by
  obtain ⟨e, he⟩ := lookup_isSome_of_mem l x h
  simp only [ParameterList.sublist, ParameterList.isSublist, ParameterList.sublistOrEmpty, he]
  cases e <;> simp


theorem flatMap_singleton {α β : Type} (f : α → β) (l : List α) :
    l.flatMap (fun x => [f x]) = l.map f := by
  induction l with
  | nil => rfl
  | cons a t ih => simp [List.flatMap_cons, ih]

/-! ## instantiateMaterials -/

theorem instantiateMaterialsStep_eq (peridigmParams materialParams solverParams : ParameterList)
    (hsolver : peridigmParams.sublist "Solver" = Except.ok solverParams)
    (acc : List Material) (x : String × ParameterEntry) (hx : x ∈ materialParams) :
    instantiateMaterialsStep peridigmParams materialParams acc x
      = if (!(materialParams.isSublist x.1)
            || !(decide (x.1 = "Linear Elastic") || decide (x.1 = "Elastic Plastic"))) = true then
          Except.error
            (if materialParams.isSublist x.1 = true then
              TeuchosError.LogicError
                ("Unrecognized material model: " ++ x.1
                  ++ ", must be Linear Elastic or Elastic Plastic")
            else TeuchosError.InvalidParameterType x.1)
        else Except.ok (acc ++ [materialOfEntry materialParams x.1]) := by
  dsimp only [instantiateMaterialsStep]
  rw [sublist_of_mem materialParams x hx, hsolver]
  cases hsub : materialParams.isSublist x.1 with
  | false => simp [bind, Except.bind]
  | true =>
    by_cases h1 : x.1 = "Linear Elastic"
    · simp [bind, Except.bind, h1, materialOfEntry, pure, Except.pure]
    · by_cases h2 : x.1 = "Elastic Plastic"
      · simp [bind, Except.bind, h2, materialOfEntry, pure, Except.pure]
      · simp [bind, Except.bind, h1, h2, hsub]

theorem instantiateMaterials_eq (peridigmParams problemParams materialParams
      solverParams : ParameterList)
    (hproblem : peridigmParams.sublist "Problem" = Except.ok problemParams)
    (hsolver : peridigmParams.sublist "Solver" = Except.ok solverParams)
    (hmaterial : problemParams.getEntryPtr "Material"
      = some (ParameterEntry.list materialParams)) :
    instantiateMaterials peridigmParams
      = match materialParams.find?
            (fun x => !(materialParams.isSublist x.1)
              || !(decide (x.1 = "Linear Elastic") || decide (x.1 = "Elastic Plastic"))) with
        | some x =>
          Except.error
            (if materialParams.isSublist x.1 = true then
              TeuchosError.LogicError
                ("Unrecognized material model: " ++ x.1
                  ++ ", must be Linear Elastic or Elastic Plastic")
            else TeuchosError.InvalidParameterType x.1)
        | none =>
          if materialParams.length = 0 then
            Except.error (TeuchosError.LogicError "No material models created!")
          else Except.ok (materialParams.map (fun x => materialOfEntry materialParams x.1)) := by
  have hsub : problemParams.isSublist "Material" = true := by
    simp [ParameterList.isSublist, hmaterial]
  have hsl : problemParams.sublist "Material" = Except.ok materialParams := by
    simp [ParameterList.sublist, hmaterial]
  unfold instantiateMaterials
  rw [hproblem]
  simp only [bind, Except.bind, hsub, Bool.not_true, Bool.false_eq_true, if_false, hsl]
  rw [foldlM_first_bad (instantiateMaterialsStep peridigmParams materialParams)
    (fun x => !(materialParams.isSublist x.1)
      || !(decide (x.1 = "Linear Elastic") || decide (x.1 = "Elastic Plastic")))
    (fun x => if materialParams.isSublist x.1 = true then
        TeuchosError.LogicError
          ("Unrecognized material model: " ++ x.1
            ++ ", must be Linear Elastic or Elastic Plastic")
      else TeuchosError.InvalidParameterType x.1)
    (fun x => [materialOfEntry materialParams x.1]) materialParams []
    (fun acc x hx => instantiateMaterialsStep_eq peridigmParams materialParams solverParams
      hsolver acc x hx)]
  cases hfind : materialParams.find?
      (fun x => !(materialParams.isSublist x.1)
        || !(decide (x.1 = "Linear Elastic") || decide (x.1 = "Elastic Plastic"))) with
  | some x => rfl
  | none =>
    rw [flatMap_singleton]
    simp only [List.nil_append, List.length_map]
    cases materialParams with
    | nil => simp
    | cons a t => simp [pure, Except.pure]


/-- C19, as the code has it: when "Problem" and "Solver" are sublists (or absent),
`instantiateMaterials` fails without a "Material" sublist; with a "Material" sublist it fails if
and only if some entry of the sublist is named anything other than "Linear Elastic" or "Elastic
Plastic", or some entry is not itself a sublist, or the sublist has no entries; otherwise it
creates exactly one material model per entry, in entry order. -/
theorem instantiateMaterials_fails_iff
    (peridigmParams problemParams solverParams : ParameterList)
    (hproblem : peridigmParams.sublist "Problem" = Except.ok problemParams)
    (hsolver : peridigmParams.sublist "Solver" = Except.ok solverParams) :
    (problemParams.isSublist "Material" = false →
        ∃ msg, instantiateMaterials peridigmParams = Except.error (TeuchosError.LogicError msg))
    ∧ ∀ materialParams : ParameterList,
        problemParams.getEntryPtr "Material" = some (ParameterEntry.list materialParams) →
        ((∃ e, instantiateMaterials peridigmParams = Except.error e)
          ↔ (∃ x ∈ materialParams,
                (x.1 ≠ "Linear Elastic" ∧ x.1 ≠ "Elastic Plastic")
                ∨ materialParams.isSublist x.1 = false)
            ∨ materialParams.length = 0)
        ∧ (¬ ((∃ x ∈ materialParams,
                (x.1 ≠ "Linear Elastic" ∧ x.1 ≠ "Elastic Plastic")
                ∨ materialParams.isSublist x.1 = false)
              ∨ materialParams.length = 0) →
            instantiateMaterials peridigmParams
              = Except.ok (materialParams.map (fun x => materialOfEntry materialParams x.1))) := by
  constructor
  · intro hno
    refine ⟨"Material parameters not specified!", ?_⟩
    unfold instantiateMaterials
    rw [hproblem]
    simp [bind, Except.bind, hno]
  · intro materialParams hmaterial
    have heq := instantiateMaterials_eq peridigmParams problemParams materialParams solverParams
      hproblem hsolver hmaterial
    cases hfind : materialParams.find?
        (fun x => !(materialParams.isSublist x.1)
          || !(decide (x.1 = "Linear Elastic") || decide (x.1 = "Elastic Plastic"))) with
    | some x =>
      rw [hfind] at heq
      have hmem : x ∈ materialParams := List.mem_of_find?_eq_some hfind
      have hbad := List.find?_some hfind
      have hcond : (∃ x ∈ materialParams,
            (x.1 ≠ "Linear Elastic" ∧ x.1 ≠ "Elastic Plastic")
            ∨ materialParams.isSublist x.1 = false)
          ∨ materialParams.length = 0 := by
        left
        refine ⟨x, hmem, ?_⟩
        simp only [Bool.or_eq_true, Bool.not_eq_true', decide_eq_false_iff_not,
          Bool.or_eq_false_iff] at hbad
        rcases hbad with h | h
        · exact Or.inr h
        · exact Or.inl h
      exact ⟨⟨fun _ => hcond, fun _ => ⟨_, heq⟩⟩, fun hn => absurd hcond hn⟩
    | none =>
      rw [hfind] at heq
      have hall := List.find?_eq_none.mp hfind
      have hnox : ¬ ∃ x ∈ materialParams,
          (x.1 ≠ "Linear Elastic" ∧ x.1 ≠ "Elastic Plastic")
          ∨ materialParams.isSublist x.1 = false := by
        rintro ⟨x, hx, hc⟩
        have h := hall x hx
        simp only [Bool.or_eq_true, Bool.not_eq_true', decide_eq_false_iff_not,
          Bool.or_eq_false_iff, not_or, not_and, not_not, Bool.not_eq_false,
          decide_eq_true_eq] at h
        rcases hc with ⟨h1, h2⟩ | h3
        · exact h2 (h.2 h1)
        · rw [h.1] at h3
          exact Bool.noConfusion h3
      by_cases hlen : materialParams.length = 0
      · simp only [hlen, if_true] at heq
        exact ⟨⟨fun _ => Or.inr hlen, fun _ => ⟨_, heq⟩⟩, fun hn => absurd (Or.inr hlen) hn⟩
      · simp only [hlen, if_false] at heq
        refine ⟨⟨fun ⟨e, he⟩ => ?_, fun hc => ?_⟩, fun _ => heq⟩
        · rw [heq] at he
          cases he
        · rcases hc with hc | hc
          · exact absurd hc hnox
          · exact absurd hc hlen

theorem instantiateMaterials_fails_iff_witness :
    (∃ e, instantiateMaterials
          [("Problem", ParameterEntry.list
            [("Material", ParameterEntry.list
              [("Elastic Plastic", ParameterEntry.list []),
                ("Linear Elastic", ParameterEntry.list [("Density", ParameterEntry.double 1)]),
                ("Viscoelastic", ParameterEntry.list [])])])]
        = Except.error e)
      ↔ (∃ x ∈ ([("Elastic Plastic", ParameterEntry.list []),
              ("Linear Elastic", ParameterEntry.list [("Density", ParameterEntry.double 1)]),
              ("Viscoelastic", ParameterEntry.list [])] : ParameterList),
            (x.1 ≠ "Linear Elastic" ∧ x.1 ≠ "Elastic Plastic")
            ∨ ParameterList.isSublist
                [("Elastic Plastic", ParameterEntry.list []),
                  ("Linear Elastic", ParameterEntry.list [("Density", ParameterEntry.double 1)]),
                  ("Viscoelastic", ParameterEntry.list [])] x.1 = false)
        ∨ ([("Elastic Plastic", ParameterEntry.list []),
              ("Linear Elastic", ParameterEntry.list [("Density", ParameterEntry.double 1)]),
              ("Viscoelastic", ParameterEntry.list [])] : ParameterList).length = 0 :=
  ((instantiateMaterials_fails_iff
    [("Problem", ParameterEntry.list
      [("Material", ParameterEntry.list
        [("Elastic Plastic", ParameterEntry.list []),
          ("Linear Elastic", ParameterEntry.list [("Density", ParameterEntry.double 1)]),
          ("Viscoelastic", ParameterEntry.list [])])])]
    [("Material", ParameterEntry.list
      [("Elastic Plastic", ParameterEntry.list []),
        ("Linear Elastic", ParameterEntry.list [("Density", ParameterEntry.double 1)]),
        ("Viscoelastic", ParameterEntry.list [])])]
    [] rfl rfl).2 _ rfl).1

/-- C19, as stated, fails: with a "Material" sublist whose only entry is named "Linear Elastic"
but is a plain parameter and not a sublist, `instantiateMaterials` fails, although the sublist
exists, is not empty and has no entry of another name. -/
theorem instantiateMaterials_fails_iff_counterexample :
    ¬ ((∃ e, instantiateMaterials
            [("Problem", ParameterEntry.list
              [("Material", ParameterEntry.list
                [("Linear Elastic", ParameterEntry.double 1)])])]
          = Except.error e)
        ↔ (ParameterList.isSublist
              [("Material", ParameterEntry.list [("Linear Elastic", ParameterEntry.double 1)])]
              "Material" = false
            ∨ (∃ x ∈ ([("Linear Elastic", ParameterEntry.double 1)] : ParameterList),
                x.1 ≠ "Linear Elastic" ∧ x.1 ≠ "Elastic Plastic")
            ∨ ([("Linear Elastic", ParameterEntry.double 1)] : ParameterList).length = 0)) := by
  intro h
  have h2 := h.mp ⟨TeuchosError.InvalidParameterType "Linear Elastic", rfl⟩
  revert h2
  decide


/-! ## initializeContact -/

theorem initializeContactSearch_ok (problemParams contactParams : ParameterList) (r : Rat)
    (f : Int) (hcontact : problemParams.getEntryPtr "Contact"
      = some (ParameterEntry.list contactParams))
    (hr : contactParams.getEntryPtr "Search Radius" = some (ParameterEntry.double r))
    (hf : contactParams.getEntryPtr "Search Frequency" = some (ParameterEntry.int f)) :
    initializeContactSearch problemParams = Except.ok (true, r, f) := by
  simp [initializeContactSearch, ParameterList.isSublist, ParameterList.sublist,
    ParameterList.isParameter, ParameterList.getDouble, ParameterList.getInt, hcontact, hr, hf,
    bind, Except.bind, pure, Except.pure]

theorem initializeContactSearch_error (problemParams contactParams : ParameterList)
    (hcontact : problemParams.getEntryPtr "Contact"
      = some (ParameterEntry.list contactParams))
    (hbad : (¬ ∃ r, contactParams.getEntryPtr "Search Radius" = some (ParameterEntry.double r))
      ∨ (¬ ∃ f, contactParams.getEntryPtr "Search Frequency" = some (ParameterEntry.int f))) :
    ∃ e, initializeContactSearch problemParams = Except.error e
      ∧ e.isInvalidParameter = true := by
  have hsub : problemParams.isSublist "Contact" = true := by
    simp [ParameterList.isSublist, hcontact]
  have hsl : problemParams.sublist "Contact" = Except.ok contactParams := by
    simp [ParameterList.sublist, hcontact]
  unfold initializeContactSearch
  simp only [hsub, if_true, hsl, bind, Except.bind]
  cases hr : contactParams.getEntryPtr "Search Radius" with
  | none =>
    refine ⟨TeuchosError.InvalidParameter
      "Contact parameter \"Search Radius\" not specified.", ?_, rfl⟩
    simp [ParameterList.isParameter, hr]
  | some er =>
    cases hf : contactParams.getEntryPtr "Search Frequency" with
    | none =>
      cases er <;>
        simp [ParameterList.isParameter, ParameterList.getDouble, hr, hf,
          TeuchosError.isInvalidParameter]
    | some ef =>
      cases er <;> cases ef <;>
        simp [ParameterList.isParameter, ParameterList.getDouble, ParameterList.getInt, hr, hf,
          TeuchosError.isInvalidParameter, pure, Except.pure] at hbad ⊢

theorem initializeContactSearch_exact (problemParams contactParams : ParameterList)
    (hcontact : problemParams.getEntryPtr "Contact"
      = some (ParameterEntry.list contactParams)) :
    (∃ msg, initializeContactSearch problemParams
        = Except.error (TeuchosError.InvalidParameter msg))
      ↔ (contactParams.isParameter "Search Radius" = false
          ∨ ((∃ r, contactParams.getEntryPtr "Search Radius" = some (ParameterEntry.double r))
            ∧ contactParams.isParameter "Search Frequency" = false)) := by
  have hsub : problemParams.isSublist "Contact" = true := by
    simp [ParameterList.isSublist, hcontact]
  have hsl : problemParams.sublist "Contact" = Except.ok contactParams := by
    simp [ParameterList.sublist, hcontact]
  unfold initializeContactSearch
  simp only [hsub, if_true, hsl, bind, Except.bind]
  cases hr : contactParams.getEntryPtr "Search Radius" with
  | none => simp [ParameterList.isParameter, hr]
  | some er =>
    cases hf : contactParams.getEntryPtr "Search Frequency" with
    | none =>
      cases er <;> simp [ParameterList.isParameter, ParameterList.getDouble, hr, hf]
    | some ef =>
      cases er <;> cases ef <;>
        simp [ParameterList.isParameter, ParameterList.getDouble, ParameterList.getInt, hr, hf,
          pure, Except.pure]

theorem initializeContactStep_eq (discParams contactParams : ParameterList) (horizon : Rat)
    (hhorizon : discParams.getDouble "Horizon" = Except.ok horizon)
    (acc : List ContactModel) (x : String × ParameterEntry) (hx : x ∈ contactParams) :
    initializeContactStep discParams contactParams acc x
      = if (contactParams.isSublist x.1 && !decide (x.1 = "Short Range Force")) = true then
          Except.error (TeuchosError.LogicError
            ("Unrecognized contact model: " ++ x.1 ++ ", must be Short Range Force"))
        else Except.ok (acc ++
          (if contactParams.isSublist x.1 = true then
            [contactModelOfEntry horizon contactParams x.1]
          else [])) := by
  obtain ⟨n, v⟩ := x
  dsimp only [initializeContactStep]
  cases hsub : contactParams.isSublist n with
  | false => simp [pure, Except.pure]
  | true =>
    have hsl := sublist_of_mem contactParams (n, v) hx
    simp only [hsub, if_true] at hsl
    rw [hsl, hhorizon]
    by_cases hn : n = "Short Range Force"
    · subst hn
      cases hh : (contactParams.sublistOrEmpty "Short Range Force").isParameter "Horizon" <;>
        simp [bind, Except.bind, pure, Except.pure, hh, contactModelOfEntry]
    · cases hh : (contactParams.sublistOrEmpty n).isParameter "Horizon" <;>
        simp [bind, Except.bind, pure, Except.pure, hn, hh]


theorem flatMap_if_singleton {α β : Type} (p : α → Bool) (f : α → β) (l : List α) :
    l.flatMap (fun x => if p x = true then [f x] else []) = (l.filter p).map f := by
  induction l with
  | nil => rfl
  | cons a t ih =>
    cases hp : p a <;> simp [List.flatMap_cons, List.filter_cons, hp, ih]

theorem initializeContact_of_search_error (peridigmParams problemParams discParams : ParameterList)
    (e : TeuchosError)
    (hproblem : peridigmParams.sublist "Problem" = Except.ok problemParams)
    (hdisc : problemParams.sublist "Discretization" = Except.ok discParams)
    (hsearch : initializeContactSearch problemParams = Except.error e) :
    initializeContact peridigmParams = Except.error e := by
  unfold initializeContact
  rw [hproblem]
  simp only [bind, Except.bind, hdisc, hsearch]

theorem initializeContact_of_search_ok
    (peridigmParams problemParams discParams contactParams : ParameterList)
    (horizon r : Rat) (f : Int)
    (hproblem : peridigmParams.sublist "Problem" = Except.ok problemParams)
    (hdisc : problemParams.sublist "Discretization" = Except.ok discParams)
    (hhorizon : discParams.getDouble "Horizon" = Except.ok horizon)
    (hcontact : problemParams.getEntryPtr "Contact"
      = some (ParameterEntry.list contactParams))
    (hr : contactParams.getEntryPtr "Search Radius" = some (ParameterEntry.double r))
    (hf : contactParams.getEntryPtr "Search Frequency" = some (ParameterEntry.int f)) :
    initializeContact peridigmParams
      = match contactParams.find?
            (fun x => contactParams.isSublist x.1 && !decide (x.1 = "Short Range Force")) with
        | some x =>
          Except.error (TeuchosError.LogicError
            ("Unrecognized contact model: " ++ x.1 ++ ", must be Short Range Force"))
        | none =>
          Except.ok
            { analysisHasContact := true
              contactSearchRadius := r
              contactRebalanceFrequency := f
              contactModels :=
                (contactParams.filter (fun x => contactParams.isSublist x.1)).map
                  (fun x => contactModelOfEntry horizon contactParams x.1) } := by
  have hsl : problemParams.sublist "Contact" = Except.ok contactParams := by
    simp [ParameterList.sublist, hcontact]
  unfold initializeContact
  rw [hproblem]
  simp only [bind, Except.bind, hdisc,
    initializeContactSearch_ok problemParams contactParams r f hcontact hr hf, if_true, hsl]
  rw [foldlM_first_bad (initializeContactStep discParams contactParams)
    (fun x => contactParams.isSublist x.1 && !decide (x.1 = "Short Range Force"))
    (fun x => TeuchosError.LogicError
      ("Unrecognized contact model: " ++ x.1 ++ ", must be Short Range Force"))
    (fun x => if contactParams.isSublist x.1 = true then
        [contactModelOfEntry horizon contactParams x.1]
      else [])
    contactParams []
    (fun acc x hx => initializeContactStep_eq discParams contactParams horizon hhorizon acc x hx)]
  cases hfind : contactParams.find?
      (fun x => contactParams.isSublist x.1 && !decide (x.1 = "Short Range Force")) with
  | some x => rfl
  | none =>
    simp only [List.nil_append, pure, Except.pure]
    rw [flatMap_if_singleton
      (fun (x : String × ParameterEntry) => contactParams.isSublist x.1)
      (fun (x : String × ParameterEntry) => contactModelOfEntry horizon contactParams x.1)]


/-- C18, as the code has it: let "Problem" and "Discretization" be sublists (or absent).
Without a "Contact" sublist `initializeContact` succeeds with `analysisHasContact = false`,
search radius 0, search frequency 0 and no contact models.  With a "Contact" sublist, and a
`double` "Horizon" in the discretization parameters, it raises an InvalidParameter error (the
class or one of its subclasses) if and only if "Search Radius" is missing or is not a `double`,
or "Search Frequency" is missing or is not an `int`; the error is of the class InvalidParameter
itself exactly when "Search Radius" is missing, or is a `double` while "Search Frequency" is
missing.  When both are given, a contact-model sublist of a name other than "Short Range Force"
is fatal with a logic error, and otherwise contact is enabled with the given radius and
frequency and one contact model per sublist. -/
theorem initializeContact_InvalidParameter_iff
    (peridigmParams problemParams discParams : ParameterList)
    (hproblem : peridigmParams.sublist "Problem" = Except.ok problemParams)
    (hdisc : problemParams.sublist "Discretization" = Except.ok discParams) :
    (problemParams.isSublist "Contact" = false →
        initializeContact peridigmParams
          = Except.ok
            { analysisHasContact := false
              contactSearchRadius := 0
              contactRebalanceFrequency := 0
              contactModels := [] })
    ∧ ∀ (contactParams : ParameterList) (horizon : Rat),
        problemParams.getEntryPtr "Contact" = some (ParameterEntry.list contactParams) →
        discParams.getDouble "Horizon" = Except.ok horizon →
        ((∃ e, initializeContact peridigmParams = Except.error e
            ∧ e.isInvalidParameter = true)
          ↔ (¬ ∃ r, contactParams.getEntryPtr "Search Radius" = some (ParameterEntry.double r))
            ∨ (¬ ∃ f, contactParams.getEntryPtr "Search Frequency"
                = some (ParameterEntry.int f)))
        ∧ ((contactParams.isParameter "Search Radius" = false
              ∨ contactParams.isParameter "Search Frequency" = false) →
            ∃ e, initializeContact peridigmParams = Except.error e
              ∧ e.isInvalidParameter = true)
        ∧ ((∃ msg, initializeContact peridigmParams
              = Except.error (TeuchosError.InvalidParameter msg))
          ↔ (contactParams.isParameter "Search Radius" = false
              ∨ ((∃ r, contactParams.getEntryPtr "Search Radius"
                    = some (ParameterEntry.double r))
                ∧ contactParams.isParameter "Search Frequency" = false)))
        ∧ ∀ (r : Rat) (f : Int),
            contactParams.getEntryPtr "Search Radius" = some (ParameterEntry.double r) →
            contactParams.getEntryPtr "Search Frequency" = some (ParameterEntry.int f) →
            ((∃ x ∈ contactParams,
                  contactParams.isSublist x.1 = true ∧ x.1 ≠ "Short Range Force") →
                ∃ msg, initializeContact peridigmParams
                  = Except.error (TeuchosError.LogicError msg))
            ∧ ((∀ x ∈ contactParams,
                  contactParams.isSublist x.1 = true → x.1 = "Short Range Force") →
                initializeContact peridigmParams
                  = Except.ok
                    { analysisHasContact := true
                      contactSearchRadius := r
                      contactRebalanceFrequency := f
                      contactModels :=
                        (contactParams.filter (fun x => contactParams.isSublist x.1)).map
                          (fun x => contactModelOfEntry horizon contactParams x.1) }) := by
  constructor
  · intro hno
    unfold initializeContact
    rw [hproblem]
    simp [bind, Except.bind, hdisc, initializeContactSearch, hno, pure, Except.pure]
  · intro contactParams horizon hcontact hhorizon
    have herr : ((¬ ∃ r, contactParams.getEntryPtr "Search Radius"
            = some (ParameterEntry.double r))
          ∨ (¬ ∃ f, contactParams.getEntryPtr "Search Frequency"
            = some (ParameterEntry.int f))) →
        ∃ e, initializeContact peridigmParams = Except.error e
          ∧ e.isInvalidParameter = true := by
      intro hbad
      obtain ⟨e, he, hinv⟩ := initializeContactSearch_error problemParams contactParams
        hcontact hbad
      exact ⟨e, initializeContact_of_search_error peridigmParams problemParams discParams e
        hproblem hdisc he, hinv⟩
    have hok : ∀ (r : Rat) (f : Int),
        contactParams.getEntryPtr "Search Radius" = some (ParameterEntry.double r) →
        contactParams.getEntryPtr "Search Frequency" = some (ParameterEntry.int f) →
        ((∃ x ∈ contactParams,
              contactParams.isSublist x.1 = true ∧ x.1 ≠ "Short Range Force") →
            ∃ msg, initializeContact peridigmParams
              = Except.error (TeuchosError.LogicError msg))
        ∧ ((∀ x ∈ contactParams,
              contactParams.isSublist x.1 = true → x.1 = "Short Range Force") →
            initializeContact peridigmParams
              = Except.ok
                { analysisHasContact := true
                  contactSearchRadius := r
                  contactRebalanceFrequency := f
                  contactModels :=
                    (contactParams.filter (fun x => contactParams.isSublist x.1)).map
                      (fun x => contactModelOfEntry horizon contactParams x.1) }) := by
      intro r f hr hf
      have heq := initializeContact_of_search_ok peridigmParams problemParams discParams
        contactParams horizon r f hproblem hdisc hhorizon hcontact hr hf
      cases hfind : contactParams.find?
          (fun x => contactParams.isSublist x.1 && !decide (x.1 = "Short Range Force")) with
      | some x =>
        rw [hfind] at heq
        refine ⟨fun _ => ⟨_, heq⟩, fun hall => ?_⟩
        have hmem : x ∈ contactParams := List.mem_of_find?_eq_some hfind
        have hbad := List.find?_some hfind
        simp only [Bool.and_eq_true, Bool.not_eq_true', decide_eq_false_iff_not] at hbad
        exact absurd (hall x hmem hbad.1) hbad.2
      | none =>
        rw [hfind] at heq
        refine ⟨fun ⟨x, hx, hs, hn⟩ => ?_, fun _ => heq⟩
        have h := List.find?_eq_none.mp hfind x hx
        simp only [Bool.and_eq_true, Bool.not_eq_true', decide_eq_false_iff_not, not_and,
          not_not] at h
        exact absurd (h hs) hn
    refine ⟨⟨?_, herr⟩, ?_, ?_, hok⟩
    · rintro ⟨e, he, hinv⟩
      by_contra hboth
      simp only [not_or, not_not] at hboth
      obtain ⟨⟨r, hr⟩, ⟨f, hf⟩⟩ := hboth
      have heq := initializeContact_of_search_ok peridigmParams problemParams discParams
        contactParams horizon r f hproblem hdisc hhorizon hcontact hr hf
      rw [heq] at he
      cases hfind : contactParams.find?
          (fun x => contactParams.isSublist x.1 && !decide (x.1 = "Short Range Force")) with
      | some x =>
        rw [hfind] at he
        injection he with he
        rw [← he] at hinv
        exact Bool.noConfusion hinv
      | none =>
        rw [hfind] at he
        cases he
    · intro hmiss
      apply herr
      rcases hmiss with h | h
      · left
        rintro ⟨r, hr⟩
        simp [ParameterList.isParameter, hr] at h
      · right
        rintro ⟨f, hf⟩
        simp [ParameterList.isParameter, hf] at h
    · by_cases hboth : (∃ r, contactParams.getEntryPtr "Search Radius"
            = some (ParameterEntry.double r))
          ∧ (∃ f, contactParams.getEntryPtr "Search Frequency" = some (ParameterEntry.int f))
      · obtain ⟨⟨r, hr⟩, ⟨f, hf⟩⟩ := hboth
        have heq := initializeContact_of_search_ok peridigmParams problemParams discParams
          contactParams horizon r f hproblem hdisc hhorizon hcontact hr hf
        constructor
        · rintro ⟨msg, he⟩
          rw [heq] at he
          cases hfind : contactParams.find?
              (fun x => contactParams.isSublist x.1 && !decide (x.1 = "Short Range Force")) with
          | some x =>
            rw [hfind] at he
            injection he with he
            cases he
          | none =>
            rw [hfind] at he
            cases he
        · rintro (h | ⟨-, h⟩)
          · simp [ParameterList.isParameter, hr] at h
          · simp [ParameterList.isParameter, hf] at h
      · have hbad : (¬ ∃ r, contactParams.getEntryPtr "Search Radius"
              = some (ParameterEntry.double r))
            ∨ (¬ ∃ f, contactParams.getEntryPtr "Search Frequency"
              = some (ParameterEntry.int f)) := by
          by_cases h1 : ∃ r, contactParams.getEntryPtr "Search Radius"
              = some (ParameterEntry.double r)
          · exact Or.inr (fun h2 => hboth ⟨h1, h2⟩)
          · exact Or.inl h1
        obtain ⟨e, he, -⟩ := initializeContactSearch_error problemParams contactParams
          hcontact hbad
        have hinit := initializeContact_of_search_error peridigmParams problemParams discParams
          e hproblem hdisc he
        rw [← initializeContactSearch_exact problemParams contactParams hcontact, hinit, he]
        constructor
        · rintro ⟨msg, h⟩
          injection h with h
          exact ⟨msg, by rw [h]⟩
        · rintro ⟨msg, h⟩
          injection h with h
          exact ⟨msg, by rw [h]⟩


theorem initializeContact_InvalidParameter_iff_witness :
    initializeContact
        [("Problem", ParameterEntry.list
          [("Contact", ParameterEntry.list
            [("Search Frequency", ParameterEntry.int 5),
              ("Search Radius", ParameterEntry.double 2),
              ("Short Range Force", ParameterEntry.list
                [("Friction Coefficient", ParameterEntry.double 0)])]),
            ("Discretization", ParameterEntry.list [("Horizon", ParameterEntry.double 3)])])]
      = Except.ok
        { analysisHasContact := true
          contactSearchRadius := 2
          contactRebalanceFrequency := 5
          contactModels :=
            (([("Search Frequency", ParameterEntry.int 5),
                ("Search Radius", ParameterEntry.double 2),
                ("Short Range Force", ParameterEntry.list
                  [("Friction Coefficient", ParameterEntry.double 0)])] : ParameterList).filter
              (fun x => ParameterList.isSublist
                [("Search Frequency", ParameterEntry.int 5),
                  ("Search Radius", ParameterEntry.double 2),
                  ("Short Range Force", ParameterEntry.list
                    [("Friction Coefficient", ParameterEntry.double 0)])] x.1)).map
              (fun x => contactModelOfEntry 3
                [("Search Frequency", ParameterEntry.int 5),
                  ("Search Radius", ParameterEntry.double 2),
                  ("Short Range Force", ParameterEntry.list
                    [("Friction Coefficient", ParameterEntry.double 0)])] x.1) } :=
  ((((initializeContact_InvalidParameter_iff
    [("Problem", ParameterEntry.list
      [("Contact", ParameterEntry.list
        [("Search Frequency", ParameterEntry.int 5),
          ("Search Radius", ParameterEntry.double 2),
          ("Short Range Force", ParameterEntry.list
            [("Friction Coefficient", ParameterEntry.double 0)])]),
        ("Discretization", ParameterEntry.list [("Horizon", ParameterEntry.double 3)])])]
    [("Contact", ParameterEntry.list
      [("Search Frequency", ParameterEntry.int 5),
        ("Search Radius", ParameterEntry.double 2),
        ("Short Range Force", ParameterEntry.list
          [("Friction Coefficient", ParameterEntry.double 0)])]),
      ("Discretization", ParameterEntry.list [("Horizon", ParameterEntry.double 3)])]
    [("Horizon", ParameterEntry.double 3)] rfl rfl).2 _ 3 rfl rfl).2.2.2 2 5 rfl rfl).2
    (by decide))

/-- C18, as stated, fails: with a "Contact" sublist that has both "Search Radius" and "Search
Frequency", the radius being given as the `int` 1, `initializeContact` raises an InvalidParameter
error (`get<double>` rejects the type) although neither parameter is lacking. -/
theorem initializeContact_InvalidParameter_iff_counterexample :
    ¬ ((∃ e, initializeContact
            [("Problem", ParameterEntry.list
              [("Contact", ParameterEntry.list
                [("Search Frequency", ParameterEntry.int 1),
                  ("Search Radius", ParameterEntry.int 1)]),
                ("Discretization", ParameterEntry.list
                  [("Horizon", ParameterEntry.double 1)])])]
          = Except.error e ∧ e.isInvalidParameter = true)
        ↔ (ParameterList.isSublist
              [("Contact", ParameterEntry.list
                [("Search Frequency", ParameterEntry.int 1),
                  ("Search Radius", ParameterEntry.int 1)]),
                ("Discretization", ParameterEntry.list [("Horizon", ParameterEntry.double 1)])]
              "Contact" = true
            ∧ (ParameterList.isParameter
                  [("Search Frequency", ParameterEntry.int 1),
                    ("Search Radius", ParameterEntry.int 1)] "Search Radius" = false
                ∨ ParameterList.isParameter
                  [("Search Frequency", ParameterEntry.int 1),
                    ("Search Radius", ParameterEntry.int 1)] "Search Frequency" = false))) := by
  intro h
  have h2 := h.mp ⟨TeuchosError.InvalidParameterType "Search Radius", rfl, rfl⟩
  revert h2
  decide

/-! ## FieldSpec: identity of a field spec -/

theorem or_shiftLeft_eq_add (a b k : Nat) (h : a < 2 ^ k) :
    a ||| (b <<< k) = a + b * 2 ^ k := by
  rw [Nat.shiftLeft_eq, Nat.mul_comm b, Nat.or_comm, ← Nat.mul_add_lt_is_or h, Nat.add_comm]

theorem FieldSpec.id_make (t r len p temp : Nat) (label : String)
    (ht : t < 256) (hr : r < 16) (hl : len < 16) (hp : p < 16) :
    (FieldSpec.make t r len p temp label).id
      = t + r * 256 + len * 4096 + p * 65536 + temp * 1048576 := by
  have h1 : t ||| (r <<< 8) = t + r * 2 ^ 8 := or_shiftLeft_eq_add t r 8 (by norm_num; exact ht)
  have h2 : (t + r * 2 ^ 8) ||| (len <<< (8 + 4)) = t + r * 2 ^ 8 + len * 2 ^ (8 + 4) :=
    or_shiftLeft_eq_add _ len (8 + 4) (by norm_num; omega)
  have h3 : (t + r * 2 ^ 8 + len * 2 ^ (8 + 4)) ||| (p <<< (8 + 4 + 4))
      = t + r * 2 ^ 8 + len * 2 ^ (8 + 4) + p * 2 ^ (8 + 4 + 4) :=
    or_shiftLeft_eq_add _ p (8 + 4 + 4) (by norm_num; omega)
  have h4 : (t + r * 2 ^ 8 + len * 2 ^ (8 + 4) + p * 2 ^ (8 + 4 + 4))
        ||| (temp <<< (8 + 4 + 4 + 4))
      = t + r * 2 ^ 8 + len * 2 ^ (8 + 4) + p * 2 ^ (8 + 4 + 4) + temp * 2 ^ (8 + 4 + 4 + 4) :=
    or_shiftLeft_eq_add _ temp (8 + 4 + 4 + 4) (by norm_num; omega)
  show t ||| (r <<< 8) ||| (len <<< (8 + 4)) ||| (p <<< (8 + 4 + 4))
    ||| (temp <<< (8 + 4 + 4 + 4)) = _
  rw [h1, h2, h3, h4]
  norm_num

theorem FieldSpec.makeOwned_eq_make (OWNED t r len temp : Nat) (label : String) :
    FieldSpec.makeOwned OWNED t r len temp label = FieldSpec.make t r len OWNED temp label := rfl

theorem FieldSpec.opEq_make_iff (t r len p temp t' r' len' p' temp' : Nat)
    (label label' : String)
    (ht : t < 256) (hr : r < 16) (hl : len < 16) (hp : p < 16)
    (ht' : t' < 256) (hr' : r' < 16) (hl' : len' < 16) (hp' : p' < 16) :
    (FieldSpec.make t r len p temp label).opEq (FieldSpec.make t' r' len' p' temp' label') = true
      ↔ t = t' ∧ r = r' ∧ len = len' ∧ p = p' ∧ temp = temp' := by
  unfold FieldSpec.opEq
  rw [beq_iff_eq, FieldSpec.id_make t r len p temp label ht hr hl hp,
    FieldSpec.id_make t' r' len' p' temp' label' ht' hr' hl' hp']
  omega

/-- C26: two field specs built by the constructors of `FieldSpec` (the one that takes a parallel
topology, and the one that sets it to `OWNED`) from a type below 256 and a relation, length,
parallel topology and temporal below 16 are equal under `operator==` exactly when their five
attributes are equal, whatever their labels; `operator!=` is the negation of `operator==`, the
id is the sum of the attributes shifted to their bit fields, and it fits in 24 bits. -/
theorem FieldSpec.opEq_iff_attributes (OWNED t r len p temp t' r' len' p' temp' : Nat)
    (label label' : String)
    (ht : t < 256) (hr : r < 16) (hl : len < 16) (hp : p < 16) (htemp : temp < 16)
    (ht' : t' < 256) (hr' : r' < 16) (hl' : len' < 16) (hp' : p' < 16) (htemp' : temp' < 16)
    (hOWNED : OWNED < 16) :
    ((FieldSpec.make t r len p temp label).opEq (FieldSpec.make t' r' len' p' temp' label')
        = true
      ↔ (FieldSpec.make t r len p temp label).type
          = (FieldSpec.make t' r' len' p' temp' label').type
        ∧ (FieldSpec.make t r len p temp label).relation
          = (FieldSpec.make t' r' len' p' temp' label').relation
        ∧ (FieldSpec.make t r len p temp label).length
          = (FieldSpec.make t' r' len' p' temp' label').length
        ∧ (FieldSpec.make t r len p temp label).par_top
          = (FieldSpec.make t' r' len' p' temp' label').par_top
        ∧ (FieldSpec.make t r len p temp label).temporal
          = (FieldSpec.make t' r' len' p' temp' label').temporal)
    ∧ ((FieldSpec.makeOwned OWNED t r len temp label).opEq
          (FieldSpec.makeOwned OWNED t' r' len' temp' label') = true
      ↔ (FieldSpec.makeOwned OWNED t r len temp label).type
          = (FieldSpec.makeOwned OWNED t' r' len' temp' label').type
        ∧ (FieldSpec.makeOwned OWNED t r len temp label).relation
          = (FieldSpec.makeOwned OWNED t' r' len' temp' label').relation
        ∧ (FieldSpec.makeOwned OWNED t r len temp label).length
          = (FieldSpec.makeOwned OWNED t' r' len' temp' label').length
        ∧ (FieldSpec.makeOwned OWNED t r len temp label).par_top
          = (FieldSpec.makeOwned OWNED t' r' len' temp' label').par_top
        ∧ (FieldSpec.makeOwned OWNED t r len temp label).temporal
          = (FieldSpec.makeOwned OWNED t' r' len' temp' label').temporal)
    ∧ ((FieldSpec.makeOwned OWNED t r len temp label).opEq
          (FieldSpec.make t' r' len' p' temp' label') = true
      ↔ (FieldSpec.makeOwned OWNED t r len temp label).type
          = (FieldSpec.make t' r' len' p' temp' label').type
        ∧ (FieldSpec.makeOwned OWNED t r len temp label).relation
          = (FieldSpec.make t' r' len' p' temp' label').relation
        ∧ (FieldSpec.makeOwned OWNED t r len temp label).length
          = (FieldSpec.make t' r' len' p' temp' label').length
        ∧ (FieldSpec.makeOwned OWNED t r len temp label).par_top
          = (FieldSpec.make t' r' len' p' temp' label').par_top
        ∧ (FieldSpec.makeOwned OWNED t r len temp label).temporal
          = (FieldSpec.make t' r' len' p' temp' label').temporal)
    ∧ (FieldSpec.make t r len p temp label).opNe (FieldSpec.make t' r' len' p' temp' label')
        = !(FieldSpec.make t r len p temp label).opEq
            (FieldSpec.make t' r' len' p' temp' label')
    ∧ (FieldSpec.makeOwned OWNED t r len temp label).opNe
          (FieldSpec.makeOwned OWNED t' r' len' temp' label')
        = !(FieldSpec.makeOwned OWNED t r len temp label).opEq
            (FieldSpec.makeOwned OWNED t' r' len' temp' label')
    ∧ (FieldSpec.make t r len p temp label).id
        = t + r * 2 ^ 8 + len * 2 ^ 12 + p * 2 ^ 16 + temp * 2 ^ 20
    ∧ (FieldSpec.makeOwned OWNED t r len temp label).id
        = t + r * 2 ^ 8 + len * 2 ^ 12 + OWNED * 2 ^ 16 + temp * 2 ^ 20
    ∧ (FieldSpec.make t r len p temp label).id < 2 ^ 24
    ∧ (FieldSpec.make t' r' len' p' temp' label').id < 2 ^ 24
    ∧ (FieldSpec.makeOwned OWNED t r len temp label).id < 2 ^ 24 := by
  refine ⟨?_, ?_, ?_, rfl, rfl, ?_, ?_, ?_, ?_, ?_⟩
  · exact FieldSpec.opEq_make_iff t r len p temp t' r' len' p' temp' label label'
      ht hr hl hp ht' hr' hl' hp'
  · exact FieldSpec.opEq_make_iff t r len OWNED temp t' r' len' OWNED temp' label label'
      ht hr hl hOWNED ht' hr' hl' hOWNED
  · exact FieldSpec.opEq_make_iff t r len OWNED temp t' r' len' p' temp' label label'
      ht hr hl hOWNED ht' hr' hl' hp'
  · rw [FieldSpec.id_make t r len p temp label ht hr hl hp]; norm_num
  · show (FieldSpec.make t r len OWNED temp label).id = _
    rw [FieldSpec.id_make t r len OWNED temp label ht hr hl hOWNED]; norm_num
  · rw [FieldSpec.id_make t r len p temp label ht hr hl hp]; norm_num; omega
  · rw [FieldSpec.id_make t' r' len' p' temp' label' ht' hr' hl' hp']; norm_num; omega
  · show (FieldSpec.make t r len OWNED temp label).id < _
    rw [FieldSpec.id_make t r len OWNED temp label ht hr hl hOWNED]; norm_num; omega

/-- C26, at an instance: a vector-valued and a scalar-valued spec that differ in the length
attribute only are unequal, and two specs that differ in the label only are equal. -/
theorem FieldSpec.opEq_iff_attributes_witness :
    (FieldSpec.make 7 1 3 0 2 "Force").opEq (FieldSpec.make 7 1 1 0 2 "Force") = false
    ∧ (FieldSpec.make 7 1 3 0 2 "Force").opEq (FieldSpec.make 7 1 3 0 2 "Other") = true
    ∧ ((FieldSpec.make 7 1 3 0 2 "Force").opEq (FieldSpec.make 7 1 3 0 2 "Other") = true
        ↔ (7 : Nat) = 7 ∧ (1 : Nat) = 1 ∧ (3 : Nat) = 3 ∧ (0 : Nat) = 0 ∧ (2 : Nat) = 2) :=
  ⟨by decide, by decide,
    (FieldSpec.opEq_iff_attributes 0 7 1 3 0 2 7 1 3 0 2 "Force" "Other"
      (by decide) (by decide) (by decide) (by decide) (by decide)
      (by decide) (by decide) (by decide) (by decide) (by decide) (by decide)).1⟩

/-- C27: for every field spec, `get_overlap_spec` returns a spec with the parallel topology
`OVERLAP` and the type, relation, length, temporal and label of the original, whose id is
computed anew from these attributes; applying it twice gives the same spec as applying it
once, also under `operator==`. -/
theorem FieldSpec.get_overlap_spec_attributes (OVERLAP : Nat) (s : FieldSpec) :
    let o := s.get_overlap_spec OVERLAP
    o.par_top = OVERLAP ∧ o.type = s.type ∧ o.relation = s.relation ∧ o.length = s.length
    ∧ o.temporal = s.temporal ∧ o.label = s.label
    ∧ o.id = s.type ||| (s.relation <<< 8) ||| (s.length <<< (8 + 4))
        ||| (OVERLAP <<< (8 + 4 + 4)) ||| (s.temporal <<< (8 + 4 + 4 + 4))
    ∧ o.get_overlap_spec OVERLAP = o
    ∧ (o.get_overlap_spec OVERLAP).opEq o = true := by
  intro o
  refine ⟨rfl, rfl, rfl, rfl, rfl, rfl, rfl, rfl, ?_⟩
  show (o.id == o.id) = true
  exact beq_self_eq_true _

/-! ## The rebalance test and zero frequencies -/

/-- The rebalance test takes a remainder by zero exactly when rebalancing is enabled with the
frequency zero, or when its first half is false and contact is enabled with the search
frequency zero. -/
theorem rebalanceRequested_eq_none_iff (analysisHasRebalance : Bool) (rebalanceFrequency : Int)
    (analysisHasContact : Bool) (contactRebalanceFrequency : Int) (step : Int) :
    rebalanceRequested analysisHasRebalance rebalanceFrequency analysisHasContact
        contactRebalanceFrequency step = none
      ↔ (analysisHasRebalance = true ∧ rebalanceFrequency = 0)
        ∨ ((analysisHasRebalance = false ∨ Int.tmod step rebalanceFrequency ≠ 0)
            ∧ analysisHasContact = true ∧ contactRebalanceFrequency = 0) := by
  unfold rebalanceRequested intRemainder
  cases analysisHasRebalance <;> cases analysisHasContact <;>
    by_cases hN : rebalanceFrequency = 0 <;> by_cases hM : contactRebalanceFrequency = 0 <;>
    by_cases hs : Int.tmod step rebalanceFrequency = 0 <;>
    simp [hN, hM, hs, Option.bind_eq_bind, Option.bind]

/-- C30, at a failing input: the constructor accepts a parameter set whose "Contact" sublist
gives the search frequency 0, and one whose "Rebalance" sublist gives the rebalance frequency 0;
with either, the rebalance test of step 1, the first step of the loop of `executeExplicit`,
takes a remainder by zero. -/
theorem executeExplicit_remainder_by_zero :
    PeridigmConstructor
        [("Problem", ParameterEntry.list
            [("Contact", ParameterEntry.list
                [("Search Frequency", ParameterEntry.int 0),
                  ("Search Radius", ParameterEntry.double 1),
                  ("Short Range Force", ParameterEntry.list
                    [("Contact Radius", ParameterEntry.double 1),
                      ("Spring Constant", ParameterEntry.double 1000)])]),
              ("Discretization", ParameterEntry.list
                [("Horizon", ParameterEntry.double 2),
                  ("Type", ParameterEntry.string "PdQuickGrid")]),
              ("Material", ParameterEntry.list
                [("Linear Elastic", ParameterEntry.list
                  [("Bulk Modulus", ParameterEntry.double 130),
                    ("Density", ParameterEntry.double 7800),
                    ("Shear Modulus", ParameterEntry.double 78)])])]),
          ("Solver", ParameterEntry.list
            [("Final Time", ParameterEntry.double 1),
              ("Initial Time", ParameterEntry.double 0),
              ("Verlet", ParameterEntry.list [("Fixed dt", ParameterEntry.double 1)])])]
      = Except.ok ⟨false, 1, true, 0⟩
    ∧ executeExplicitRebalanceTest ⟨false, 1, true, 0⟩
        [("Problem", ParameterEntry.list
            [("Contact", ParameterEntry.list
                [("Search Frequency", ParameterEntry.int 0),
                  ("Search Radius", ParameterEntry.double 1),
                  ("Short Range Force", ParameterEntry.list
                    [("Contact Radius", ParameterEntry.double 1),
                      ("Spring Constant", ParameterEntry.double 1000)])]),
              ("Discretization", ParameterEntry.list
                [("Horizon", ParameterEntry.double 2),
                  ("Type", ParameterEntry.string "PdQuickGrid")]),
              ("Material", ParameterEntry.list
                [("Linear Elastic", ParameterEntry.list
                  [("Bulk Modulus", ParameterEntry.double 130),
                    ("Density", ParameterEntry.double 7800),
                    ("Shear Modulus", ParameterEntry.double 78)])])]),
          ("Solver", ParameterEntry.list
            [("Final Time", ParameterEntry.double 1),
              ("Initial Time", ParameterEntry.double 0),
              ("Verlet", ParameterEntry.list [("Fixed dt", ParameterEntry.double 1)])])] 1
      = Except.ok none
    ∧ PeridigmConstructor
        [("Problem", ParameterEntry.list
            [("Discretization", ParameterEntry.list
                [("Horizon", ParameterEntry.double 2),
                  ("Type", ParameterEntry.string "PdQuickGrid")]),
              ("Material", ParameterEntry.list
                [("Linear Elastic", ParameterEntry.list
                  [("Bulk Modulus", ParameterEntry.double 130),
                    ("Density", ParameterEntry.double 7800),
                    ("Shear Modulus", ParameterEntry.double 78)])])]),
          ("Solver", ParameterEntry.list
            [("Final Time", ParameterEntry.double 1),
              ("Initial Time", ParameterEntry.double 0),
              ("Rebalance", ParameterEntry.list
                [("Rebalance Frequency", ParameterEntry.int 0)]),
              ("Verlet", ParameterEntry.list [("Fixed dt", ParameterEntry.double 1)])])]
      = Except.ok ⟨false, 1, false, 0⟩
    ∧ executeExplicitRebalanceTest ⟨false, 1, false, 0⟩
        [("Problem", ParameterEntry.list
            [("Discretization", ParameterEntry.list
                [("Horizon", ParameterEntry.double 2),
                  ("Type", ParameterEntry.string "PdQuickGrid")]),
              ("Material", ParameterEntry.list
                [("Linear Elastic", ParameterEntry.list
                  [("Bulk Modulus", ParameterEntry.double 130),
                    ("Density", ParameterEntry.double 7800),
                    ("Shear Modulus", ParameterEntry.double 78)])])]),
          ("Solver", ParameterEntry.list
            [("Final Time", ParameterEntry.double 1),
              ("Initial Time", ParameterEntry.double 0),
              ("Rebalance", ParameterEntry.list
                [("Rebalance Frequency", ParameterEntry.int 0)]),
              ("Verlet", ParameterEntry.list [("Fixed dt", ParameterEntry.double 1)])])] 1
      = Except.ok none :=
  ⟨rfl, rfl, rfl, rfl⟩

/-! ## createRebalancedNeighborhoodData: the writes stay within the allocation -/

theorem length_encodeRecords (recs : List (List Int)) :
    (encodeRecords recs).length = recs.length + (recs.map List.length).sum := by
  induction recs with
  | nil => rfl
  | cons r rs ih =>
    have : encodeRecords (r :: rs) = ((r.length : Int) :: r) ++ encodeRecords rs := by
      simp [encodeRecords]
    rw [this, List.length_append, ih]
    simp only [List.length_cons, List.map_cons, List.sum_cons]
    omega

theorem BlockMap.blockSize_cons (g0 : Int) (s0 : Nat) (t : List (Int × Nat)) (g : Int) :
    (if (BlockMap.mk ((g0, s0) :: t)).LID g = -1 then 0
      else (BlockMap.mk ((g0, s0) :: t)).ElementSize ((BlockMap.mk ((g0, s0) :: t)).LID g))
      = if g = g0 then s0
        else if (BlockMap.mk t).LID g = -1 then 0
          else (BlockMap.mk t).ElementSize ((BlockMap.mk t).LID g) := by
  by_cases hg : g = g0
  · subst hg
    have hl : (BlockMap.mk ((g, s0) :: t)).LID g = 0 := by
      rw [BlockMap.LID_cons]; simp
    simp [hl, BlockMap.ElementSize, BlockMap.ElementSizeList]
  · rcases (BlockMap.mk t).LID_cases g with h1 | ⟨k, hk, -⟩
    · have hl : (BlockMap.mk ((g0, s0) :: t)).LID g = -1 := by
        rw [BlockMap.LID_cons]; simp [hg, h1]
      simp [hl, h1, hg]
    · have hk1 : ¬ ((k : Int) = -1) := by omega
      have hl : (BlockMap.mk ((g0, s0) :: t)).LID g = ((k + 1 : Nat) : Int) := by
        rw [BlockMap.LID_cons]; simp [hg, hk, hk1]
      have hk2 : ¬ (((k + 1 : Nat) : Int) = -1) := by omega
      have hk3 : ¬ (((k + 1 : Nat) : Int) < 0) := by omega
      have hk4 : ¬ ((k : Int) < 0) := by omega
      simp only [hl, hk, hk1, hk2, hg, if_false, BlockMap.ElementSize, BlockMap.ElementSizeList,
        hk3, hk4, Int.toNat_ofNat, List.map_cons, List.getD_cons_succ]

theorem sum_map_ite_nodup (g0 : Int) (s0 : Nat) (f : Int → Nat) (gs : List Int)
    (hd : gs.Nodup) :
    (gs.map (fun g => if g = g0 then s0 else f g)).sum
      = (if g0 ∈ gs then s0 else 0) + ((gs.filter (fun g => decide (g ≠ g0))).map f).sum := by
  induction gs with
  | nil => simp
  | cons a as ih =>
    rw [List.nodup_cons] at hd
    have ih2 := ih hd.2
    by_cases ha : a = g0
    · subst ha
      have hnot : ¬ (a ∈ as) := hd.1
      simp only [hnot, if_false] at ih2
      simp [ih2]
    · have hne : g0 ≠ a := fun h => ha h.symm
      simp only [List.map_cons, List.sum_cons, ha, if_false, ih2, List.mem_cons, hne, false_or,
        List.filter_cons, ne_eq, not_false_eq_true, decide_True, if_true]
      omega

theorem BlockMap.blockSize_sum_le (l : List (Int × Nat)) :
    ∀ gs : List Int, gs.Nodup →
      (gs.map (fun g => if (BlockMap.mk l).LID g = -1 then 0
        else (BlockMap.mk l).ElementSize ((BlockMap.mk l).LID g))).sum
        ≤ (BlockMap.mk l).NumMyPoints := by
  induction l with
  | nil =>
    intro gs _
    have : ∀ g, (BlockMap.mk []).LID g = -1 := fun g => by simp [BlockMap.LID, BlockMap.MyGlobalElements]
    simp [this]
  | cons e t ih =>
    intro gs hd
    obtain ⟨g0, s0⟩ := e
    simp only [BlockMap.blockSize_cons]
    rw [sum_map_ite_nodup g0 s0 _ gs hd]
    have h2 := ih (gs.filter (fun g => decide (g ≠ g0))) (hd.filter _)
    have h3 : (BlockMap.mk ((g0, s0) :: t)).NumMyPoints = s0 + (BlockMap.mk t).NumMyPoints := by
      simp [BlockMap.NumMyPoints, BlockMap.ElementSizeList]
    rw [h3]
    split_ifs <;> omega

theorem BlockMap.blockSize_sum_eq (l : List (Int × Nat)) :
    ∀ gs : List Int, gs.Nodup → (l.map Prod.fst).Nodup → (∀ g ∈ l.map Prod.fst, g ∈ gs) →
      (gs.map (fun g => if (BlockMap.mk l).LID g = -1 then 0
        else (BlockMap.mk l).ElementSize ((BlockMap.mk l).LID g))).sum
        = (BlockMap.mk l).NumMyPoints := by
  induction l with
  | nil =>
    intro gs _ _ _
    have : ∀ g, (BlockMap.mk []).LID g = -1 := fun g => by simp [BlockMap.LID, BlockMap.MyGlobalElements]
    simp [this, BlockMap.NumMyPoints, BlockMap.ElementSizeList]
  | cons e t ih =>
    intro gs hd hl hsub
    obtain ⟨g0, s0⟩ := e
    simp only [List.map_cons, List.nodup_cons] at hl
    simp only [BlockMap.blockSize_cons]
    rw [sum_map_ite_nodup g0 s0 _ gs hd]
    have hg0 : g0 ∈ gs := hsub g0 (by simp)
    have h2 := ih (gs.filter (fun g => decide (g ≠ g0))) (hd.filter _) hl.2 (by
      intro g hg
      rw [List.mem_filter]
      refine ⟨hsub g (by simp only [List.map_cons, List.mem_cons]; exact Or.inr hg), ?_⟩
      have : g ≠ g0 := fun h => hl.1 (h ▸ hg)
      simpa using this)
    have h3 : (BlockMap.mk ((g0, s0) :: t)).NumMyPoints = s0 + (BlockMap.mk t).NumMyPoints := by
      simp [BlockMap.NumMyPoints, BlockMap.ElementSizeList]
    rw [h3, h2, if_pos hg0]

theorem BlockMap.map_GID_range_take (m : BlockMap) (k : Nat) (hk : k ≤ m.NumMyElements) :
    (List.range k).map (fun (i : Nat) => m.GID (i : Int)) = m.MyGlobalElements.take k := by
  rw [← m.map_GID_range, ← List.map_take, List.take_range, Nat.min_eq_left hk]

theorem BlockMap.blockSize_sum_le_points (m : BlockMap) (gs : List Int) (hd : gs.Nodup) :
    (gs.map (fun g => if m.LID g = -1 then 0 else m.ElementSize (m.LID g))).sum
      ≤ m.NumMyPoints := by
  obtain ⟨l⟩ := m
  exact BlockMap.blockSize_sum_le l gs hd

theorem BlockMap.blockSize_sum_eq_points (m : BlockMap) (gs : List Int) (hd : gs.Nodup)
    (hm : m.MyGlobalElements.Nodup) (hsub : ∀ g ∈ m.MyGlobalElements, g ∈ gs) :
    (gs.map (fun g => if m.LID g = -1 then 0 else m.ElementSize (m.LID g))).sum
      = m.NumMyPoints := by
  obtain ⟨l⟩ := m
  exact BlockMap.blockSize_sum_eq l gs hd hm hsub

theorem neighborhoodStep_prefix_length (owned overlap bond : BlockMap) (vec : List Int) (k : Nat)
    (s : List Int × List Nat)
    (h : (List.range k).foldlM (neighborhoodStep owned overlap bond vec) ([], [])
      = Except.ok s) :
    s.1.length = k + (((List.range k).map (fun (i : Nat) => owned.GID (i : Int))).map
      (fun g => if bond.LID g = -1 then 0 else bond.ElementSize (bond.LID g))).sum := by
  rw [records_foldlM
    (fun (i : Nat) => ∃ g ∈ bondedNeighbors bond vec (owned.GID i), overlap.LID g = -1)
    (fun (i : Nat) => (bondedNeighbors bond vec (owned.GID i)).map overlap.LID)
    (TeuchosError.RangeError "Invalid index into rebalancedOneDimensionalOverlapMap")
    (neighborhoodStep owned overlap bond vec)
    (fun s i => neighborhoodStep_eq owned overlap bond vec s i)] at h
  split_ifs at h with hbad
  injection h with h
  rw [← h]
  simp only [List.nil_append, length_encodeRecords, List.length_map, List.length_range,
    List.map_map]
  congr 2
  apply List.map_congr_left
  intro i _
  simp only [Function.comp, List.length_map, bondedNeighbors_length]

theorem bondedNeighbors_congr (bond : BlockMap) (vec vec' : List Int)
    (h : ∀ j, j < bond.NumMyPoints → vec'.getD j 0 = vec.getD j 0) (g : Int) :
    bondedNeighbors bond vec' g = bondedNeighbors bond vec g := by
  rw [bondedNeighbors_eq, bondedNeighbors_eq]
  by_cases hl : bond.LID g = -1
  · simp [hl]
  · simp only [hl, if_false]
    apply List.map_congr_left
    intro i hi
    have hb := bond.block_bound g hl
    rw [List.mem_range] at hi
    exact h _ (by omega)

/-- C28: with distinct owned GlobalIDs, `createRebalancedNeighborhoodData` stays within the
list it allocates.  Before the record of any owned point `k` is written, the entries written so
far, the count and the whole bond block of `k` together fit in the
`NumMyElements(owned) + NumMyPoints(bondMap)` allocated entries, so every write of every run,
also of a run that ends in a RangeError, is inside the list; a result that is returned has at
most that many entries, and exactly that many when the bond map holds each of its GlobalIDs
once and each of them is an owned GlobalID.  Every index at which the neighbor GlobalID vector
is read is below `NumMyPoints(bondMap)`, and the result does not depend on what the vector holds
from that index on. -/
theorem createRebalancedNeighborhoodData_within_allocation (owned overlap bond : BlockMap)
    (vec : List Int) (hd : owned.MyGlobalElements.Nodup) :
    (∀ k, k < owned.NumMyElements → ∀ s,
        (List.range k).foldlM (neighborhoodStep owned overlap bond vec) ([], []) = Except.ok s →
        s.1.length + 1
            + (if bond.LID (owned.GID k) = -1 then 0
                else bond.ElementSize (bond.LID (owned.GID k)))
          ≤ owned.NumMyElements + bond.NumMyPoints)
    ∧ (∀ nd, createRebalancedNeighborhoodData owned overlap bond vec = Except.ok nd →
        nd.neighborhoodListSize = owned.NumMyElements + bond.NumMyPoints
        ∧ nd.neighborhoodList.length ≤ nd.neighborhoodListSize
        ∧ (bond.MyGlobalElements.Nodup →
            (∀ g ∈ bond.MyGlobalElements, g ∈ owned.MyGlobalElements) →
            nd.neighborhoodList.length = nd.neighborhoodListSize))
    ∧ (∀ i, i < owned.NumMyElements → bond.LID (owned.GID i) ≠ -1 →
        ∀ iN, iN < bond.ElementSize (bond.LID (owned.GID i)) →
          bond.FirstPointInElementList (bond.LID (owned.GID i)) + iN < bond.NumMyPoints)
    ∧ (∀ vec' : List Int, (∀ j, j < bond.NumMyPoints → vec'.getD j 0 = vec.getD j 0) →
        createRebalancedNeighborhoodData owned overlap bond vec'
          = createRebalancedNeighborhoodData owned overlap bond vec) := by
  refine ⟨?_, ?_, ?_, ?_⟩
  · intro k hk s hs
    rw [neighborhoodStep_prefix_length owned overlap bond vec k s hs]
    have hsum := BlockMap.blockSize_sum_le_points bond (owned.MyGlobalElements.take (k + 1))
      (hd.sublist (List.take_sublist _ _))
    rw [← owned.map_GID_range_take (k + 1) (by omega), List.range_succ, List.map_append,
      List.map_append, List.sum_append] at hsum
    simp only [List.map_cons, List.map_nil, List.sum_cons, List.sum_nil, add_zero] at hsum
    omega
  · intro nd hnd
    rw [createRebalancedNeighborhoodData_eq] at hnd
    split_ifs at hnd with hbad
    injection hnd with hnd
    subst hnd
    have hlen : (encodeRecords ((List.range owned.NumMyElements).map
          (fun (i : Nat) => (bondedNeighbors bond vec (owned.GID i)).map overlap.LID))).length
        = owned.NumMyElements + (owned.MyGlobalElements.map
          (fun g => if bond.LID g = -1 then 0 else bond.ElementSize (bond.LID g))).sum := by
      rw [owned.map_range_GID (fun g => (bondedNeighbors bond vec g).map overlap.LID),
        length_encodeRecords, List.length_map, owned.length_MyGlobalElements, List.map_map]
      congr 2
      apply List.map_congr_left
      intro g _
      simp only [Function.comp, List.length_map, bondedNeighbors_length]
    refine ⟨rfl, ?_, ?_⟩
    · show (encodeRecords _).length ≤ owned.NumMyElements + bond.NumMyPoints
      rw [hlen]
      have := BlockMap.blockSize_sum_le_points bond owned.MyGlobalElements hd
      omega
    · intro hb hsub
      show (encodeRecords _).length = owned.NumMyElements + bond.NumMyPoints
      rw [hlen]
      have := BlockMap.blockSize_sum_eq_points bond owned.MyGlobalElements hd hb hsub
      omega
  · intro i _ hl iN hiN
    have := bond.block_bound (owned.GID i) hl
    omega
  · intro vec' hv
    rw [createRebalancedNeighborhoodData_eq, createRebalancedNeighborhoodData_eq]
    simp only [bondedNeighbors_congr bond vec vec' hv]

/-- C28, at an instance: three owned points, of which the second has no bonds; the six entries
written fill the allocated list exactly. -/
theorem createRebalancedNeighborhoodData_within_allocation_witness :
    (BlockMap.mk [(10, 1), (20, 1), (30, 1)]).MyGlobalElements.Nodup
    ∧ createRebalancedNeighborhoodData ⟨[(10, 1), (20, 1), (30, 1)]⟩
        ⟨[(10, 1), (20, 1), (30, 1), (40, 1)]⟩ ⟨[(10, 2), (30, 1)]⟩ [20, 40, 10]
      = Except.ok ⟨3, [0, 1, 2], 6, [2, 1, 3, 0, 1, 0], [0, 3, 4]⟩
    ∧ ([2, 1, 3, 0, 1, 0] : List Int).length = 6 :=
  ⟨by decide, rfl,
    ((createRebalancedNeighborhoodData_within_allocation ⟨[(10, 1), (20, 1), (30, 1)]⟩
      ⟨[(10, 1), (20, 1), (30, 1), (40, 1)]⟩ ⟨[(10, 2), (30, 1)]⟩ [20, 40, 10]
      (by decide)).2.1 ⟨3, [0, 1, 2], 6, [2, 1, 3, 0, 1, 0], [0, 3, 4]⟩ rfl).2.2
      (by decide) (by decide)⟩

/-! ## createRebalancedContactNeighborhoodData: the writes stay within the allocation -/

theorem foldl_size_eq_sum (m : List (Int × List Int)) (init : Nat) :
    m.foldl (fun (size : Nat) e => size + (e.2.length + 1)) init
      = init + (m.map (fun e => e.2.length + 1)).sum := by
  induction m generalizing init with
  | nil => simp
  | cons e rest ih =>
    simp only [List.foldl_cons, ih, List.map_cons, List.sum_cons]
    omega

theorem map_getD_range_self {α : Type} (f : Int → α) (l : List Int) :
    (List.range l.length).map (fun (i : Nat) => f (l.getD i 0)) = l.map f := by
  have h := map_getD_range_eq_take_drop l 0 l.length (by omega)
  simp only [zero_add, List.drop_zero, List.take_length] at h
  have h2 : (List.range l.length).map (fun (i : Nat) => f (l.getD i 0))
      = ((List.range l.length).map (fun (i : Nat) => l.getD i 0)).map f := by
    rw [List.map_map]; rfl
  rw [h2, h]

theorem mapCount_eq_zero_iff (m : List (Int × List Int)) (k : Int) :
    mapCount m k = 0 ↔ k ∉ m.map Prod.fst := by
  unfold mapCount
  split_ifs with h <;> simp [h]

theorem contactNeighborhoodStep_eq (m : List (Int × List Int)) (owned overlap : BlockMap)
    (s : List Int × List Nat) (iLID : Nat) :
    contactNeighborhoodStep m owned overlap s iLID
      = if mapCount m (owned.GID iLID) = 0 then
          Except.error (TeuchosError.RangeError "Invalid index into contactNeighborGlobalIDs")
        else Except.ok
          (s.1 ++ (((mapGet m (owned.GID iLID)).map overlap.LID).length : Int)
              :: (mapGet m (owned.GID iLID)).map overlap.LID,
            s.2 ++ [s.1.length]) := by
  unfold contactNeighborhoodStep
  by_cases h : mapCount m (owned.GID iLID) = 0
  · simp only [h, if_true]
  · simp only [h, if_false]
    rw [foldl_append_singleton
      (fun (iNeighbor : Nat) => overlap.LID ((mapGet m (owned.GID iLID)).getD iNeighbor 0)),
      map_getD_range_self overlap.LID]
    simp

theorem createRebalancedContactNeighborhoodData_eq (m : List (Int × List Int))
    (owned overlap : BlockMap) :
    createRebalancedContactNeighborhoodData m owned overlap
      = if ∃ i ∈ List.range owned.NumMyElements, overlap.LID (owned.GID (i : Nat)) = -1 then
          Except.error
            (TeuchosError.RangeError "Invalid index into rebalancedOneDimensionalOverlapMap")
        else if ∃ i ∈ List.range owned.NumMyElements, mapCount m (owned.GID (i : Nat)) = 0 then
          Except.error (TeuchosError.RangeError "Invalid index into contactNeighborGlobalIDs")
        else Except.ok
          { numOwnedPoints := owned.NumMyElements
            ownedIDs := (List.range owned.NumMyElements).map
              (fun (i : Nat) => overlap.LID (owned.GID i))
            neighborhoodListSize := (m.map (fun e => e.2.length + 1)).sum
            neighborhoodList := encodeRecords ((List.range owned.NumMyElements).map
              (fun (i : Nat) => (mapGet m (owned.GID i)).map overlap.LID))
            neighborhoodPtr := recordOffsets 0 ((List.range owned.NumMyElements).map
              (fun (i : Nat) => (mapGet m (owned.GID i)).map overlap.LID)) } := by
  unfold createRebalancedContactNeighborhoodData
  rw [ownedIDsLoop_eq, records_foldlM
    (fun (i : Nat) => mapCount m (owned.GID i) = 0)
    (fun (i : Nat) => (mapGet m (owned.GID i)).map overlap.LID)
    (TeuchosError.RangeError "Invalid index into contactNeighborGlobalIDs")
    (contactNeighborhoodStep m owned overlap)
    (fun s i => contactNeighborhoodStep_eq m owned overlap s i), foldl_size_eq_sum]
  by_cases h1 : ∃ i ∈ List.range owned.NumMyElements, overlap.LID (owned.GID (i : Nat)) = -1
  · simp only [h1, if_true]
    rfl
  · by_cases h2 : ∃ i ∈ List.range owned.NumMyElements, mapCount m (owned.GID (i : Nat)) = 0
    · simp only [h1, h2, if_true, if_false]
      rfl
    · simp only [h1, h2, if_false, zero_add]
      rfl

theorem mapGet_sum_le_iff (m : List (Int × List Int)) :
    (m.map Prod.fst).Nodup → ∀ gs : List Int, gs.Nodup → (∀ g ∈ gs, g ∈ m.map Prod.fst) →
      (gs.map (fun g => (mapGet m g).length + 1)).sum ≤ (m.map (fun e => e.2.length + 1)).sum
      ∧ ((gs.map (fun g => (mapGet m g).length + 1)).sum
            = (m.map (fun e => e.2.length + 1)).sum
          ↔ ∀ e ∈ m, e.1 ∈ gs) := by
  induction m with
  | nil =>
    intro _ gs _ hsub
    have : gs = [] := by
      cases gs with
      | nil => rfl
      | cons a as => exact absurd (hsub a (by simp)) (by simp)
    subst this
    simp
  | cons e rest ih =>
    intro hm gs hd hsub
    obtain ⟨j, v⟩ := e
    simp only [List.map_cons, List.nodup_cons] at hm
    have hget : ∀ g, (mapGet ((j, v) :: rest) g).length + 1
        = if g = j then v.length + 1 else (mapGet rest g).length + 1 := by
      intro g
      simp only [mapGet]
      split_ifs <;> rfl
    simp only [hget]
    rw [sum_map_ite_nodup j (v.length + 1) (fun g => (mapGet rest g).length + 1) gs hd]
    have hsub2 : ∀ g ∈ gs.filter (fun g => decide (g ≠ j)), g ∈ rest.map Prod.fst := by
      intro g hg
      rw [List.mem_filter] at hg
      have hne : g ≠ j := by simpa using hg.2
      have := hsub g hg.1
      simp only [List.map_cons, List.mem_cons] at this
      rcases this with h | h
      · exact absurd h hne
      · exact h
    obtain ⟨hle, hiff⟩ := ih hm.2 (gs.filter (fun g => decide (g ≠ j))) (hd.filter _) hsub2
    simp only [List.map_cons, List.sum_cons, List.mem_cons, forall_eq_or_imp]
    constructor
    · split_ifs <;> omega
    · constructor
      · intro heq
        have hj : j ∈ gs := by
          by_contra hj
          rw [if_neg hj] at heq
          omega
        rw [if_pos hj] at heq
        refine ⟨hj, fun e he => ?_⟩
        have := hiff.mp (by omega) e he
        exact (List.mem_filter.mp this).1
      · rintro ⟨hj, hall⟩
        rw [if_pos hj]
        have : ∀ e ∈ rest, e.1 ∈ gs.filter (fun g => decide (g ≠ j)) := by
          intro e he
          rw [List.mem_filter]
          refine ⟨hall e he, ?_⟩
          have hne : e.1 ≠ j := fun h => hm.1 (h ▸ List.mem_map_of_mem Prod.fst he)
          simpa using hne
        have := hiff.mpr this
        omega

theorem contactSearchNeighbor_keys (owned : BlockMap) (bonded : List Int) (gid : Int)
    (nbh : List Int) (s : ContactSearchState) (i : Nat) :
    (contactSearchNeighbor owned bonded gid nbh s i).contactNeighborGlobalIDs.map Prod.fst
      = s.contactNeighborGlobalIDs.map Prod.fst := by
  unfold contactSearchNeighbor
  dsimp only
  by_cases h : nbh.getD s.searchListIndex 0 ∉ bonded
  · rw [if_pos h]
    exact mapPushBack_keys _ _ _
  · rw [if_neg h]

theorem contactSearchPoint_keys (owned bond : BlockMap) (vec : List Int) (decomp : PdGridData)
    (s : ContactSearchState) (iPt : Nat) :
    (contactSearchPoint owned bond vec decomp s iPt).contactNeighborGlobalIDs.map Prod.fst
      = (mapTouch (decomp.myGlobalIDs.getD iPt 0) s.contactNeighborGlobalIDs).map Prod.fst := by
  unfold contactSearchPoint
  dsimp only
  exact foldl_preserves
    (fun (st : ContactSearchState) => st.contactNeighborGlobalIDs.map Prod.fst
      = (mapTouch (decomp.myGlobalIDs.getD iPt 0) s.contactNeighborGlobalIDs).map Prod.fst)
    _ (fun st i h => by
      show (contactSearchNeighbor _ _ _ _ st i).contactNeighborGlobalIDs.map Prod.fst = _
      rw [contactSearchNeighbor_keys]; exact h) _ _ rfl

theorem contactSearch_keys (owned bond : BlockMap) (vec : List Int) (decomp : PdGridData)
    (s0 : ContactSearchState) (k : Nat) :
    (∀ q ∈ s0.contactNeighborGlobalIDs.map Prod.fst,
      q ∈ ((List.range k).foldl (contactSearchPoint owned bond vec decomp)
        s0).contactNeighborGlobalIDs.map Prod.fst)
    ∧ ∀ iPt, iPt < k →
      decomp.myGlobalIDs.getD iPt 0
        ∈ ((List.range k).foldl (contactSearchPoint owned bond vec decomp)
          s0).contactNeighborGlobalIDs.map Prod.fst := by
  induction k with
  | zero => exact ⟨fun q hq => by simpa using hq, fun i hi => absurd hi (by omega)⟩
  | succ k ih =>
    rw [List.range_succ, List.foldl_append, List.foldl_cons, List.foldl_nil,
      contactSearchPoint_keys]
    refine ⟨fun q hq => mapTouch_keys_mono _ _ _ (ih.1 q hq), fun i hi => ?_⟩
    by_cases hik : i = k
    · subst hik
      exact mapTouch_key_mem _ _
    · exact mapTouch_keys_mono _ _ _ (ih.2 i (by omega))

theorem contactNeighborhoodStep_prefix (m : List (Int × List Int)) (owned overlap : BlockMap)
    (k : Nat) (s : List Int × List Nat)
    (h : (List.range k).foldlM (contactNeighborhoodStep m owned overlap) ([], [])
      = Except.ok s) :
    (∀ i, i < k → owned.GID (i : Nat) ∈ m.map Prod.fst)
    ∧ s.1.length = (((List.range k).map (fun (i : Nat) => owned.GID (i : Int))).map
        (fun g => (mapGet m g).length + 1)).sum := by
  rw [records_foldlM
    (fun (i : Nat) => mapCount m (owned.GID i) = 0)
    (fun (i : Nat) => (mapGet m (owned.GID i)).map overlap.LID)
    (TeuchosError.RangeError "Invalid index into contactNeighborGlobalIDs")
    (contactNeighborhoodStep m owned overlap)
    (fun s i => contactNeighborhoodStep_eq m owned overlap s i)] at h
  split_ifs at h with hbad
  injection h with h
  rw [← h]
  constructor
  · intro i hi
    by_contra hne
    exact hbad ⟨i, List.mem_range.mpr hi, (mapCount_eq_zero_iff m _).mpr hne⟩
  · simp only [List.nil_append, length_encodeRecords, List.length_map, List.length_range,
      List.map_map]
    have : ∀ (l : List Nat) (f : Nat → Nat), (l.map (fun i => f i + 1)).sum
        = l.length + (l.map f).sum := by
      intro l f
      induction l with
      | nil => rfl
      | cons a as ih => simp only [List.map_cons, List.sum_cons, List.length_cons, ih]; omega
    have h2 := this (List.range k) (fun i => (mapGet m (owned.GID (i : Nat))).length)
    simp only [List.length_range] at h2
    have h3 : (List.map ((fun g => (mapGet m g).length + 1) ∘ fun (i : Nat) => owned.GID (i : Int))
        (List.range k)) = (List.range k).map
          (fun i => (mapGet m (owned.GID (i : Nat))).length + 1) := rfl
    have h4 : (List.map (List.length ∘ fun (i : Nat) => List.map overlap.LID (mapGet m (owned.GID ↑i)))
        (List.range k)) = (List.range k).map
          (fun i => (mapGet m (owned.GID (i : Nat))).length) := by
      apply List.map_congr_left
      intro i _
      simp
    rw [h3, h4, h2]

theorem sum_map_succ (l : List Int) (f : Int → Nat) :
    (l.map (fun g => f g + 1)).sum = l.length + (l.map f).sum := by
  induction l with
  | nil => rfl
  | cons a as ih => simp only [List.map_cons, List.sum_cons, List.length_cons, ih]; omega

/-- C29: `createRebalancedContactNeighborhoodData` stays within the list it allocates, whose
size is the sum over the entries of the contact map of the length of the list plus one.  It
raises a RangeError when some owned GlobalID is not a key of the map.  With distinct owned
GlobalIDs (and the keys of the map in ascending order, as in every `std::map`), before the
record of an owned point `k` is written the entries written so far, the count and the whole
list of `k` fit in the allocated size, so every write of every run is inside the list; a result
that is returned has at most that many entries, and exactly that many if and only if the keys
of the map are the owned GlobalIDs.  `contactSearch` leaves a key in the map for every point it
searches, whatever it was given. -/
theorem createRebalancedContactNeighborhoodData_within_allocation
    (m : List (Int × List Int)) (owned overlap : BlockMap)
    (hd : owned.MyGlobalElements.Nodup) (hm : (m.map Prod.fst).Pairwise (· < ·)) :
    ((∃ i, i < owned.NumMyElements ∧ mapCount m (owned.GID (i : Nat)) = 0) →
        ∃ msg, createRebalancedContactNeighborhoodData m owned overlap
          = Except.error (TeuchosError.RangeError msg))
    ∧ (∀ k, k < owned.NumMyElements → ∀ s,
        (List.range k).foldlM (contactNeighborhoodStep m owned overlap) ([], [])
          = Except.ok s →
        mapCount m (owned.GID (k : Nat)) ≠ 0 →
        s.1.length + 1 + (mapGet m (owned.GID (k : Nat))).length
          ≤ m.foldl (fun (size : Nat) e => size + (e.2.length + 1)) 0)
    ∧ (∀ nd, createRebalancedContactNeighborhoodData m owned overlap = Except.ok nd →
        nd.neighborhoodListSize = m.foldl (fun (size : Nat) e => size + (e.2.length + 1)) 0
        ∧ nd.neighborhoodList.length ≤ nd.neighborhoodListSize
        ∧ (nd.neighborhoodList.length = nd.neighborhoodListSize
            ↔ ∀ g, g ∈ m.map Prod.fst ↔ g ∈ owned.MyGlobalElements))
    ∧ (∀ (searched bond : BlockMap) (vec : List Int) (decomp : PdGridData)
        (initMap : List (Int × List Int)) (initSet : List Int) (iPt : Nat),
        iPt < decomp.numPoints →
        mapCount (contactSearch searched bond vec decomp initMap initSet).contactNeighborGlobalIDs
          (decomp.myGlobalIDs.getD iPt 0) = 1) := by
  have hmd : (m.map Prod.fst).Nodup := nodup_of_sorted_lt _ hm
  refine ⟨?_, ?_, ?_, ?_⟩
  · rintro ⟨i, hi, hc⟩
    rw [createRebalancedContactNeighborhoodData_eq]
    by_cases h1 : ∃ i ∈ List.range owned.NumMyElements, overlap.LID (owned.GID (i : Nat)) = -1
    · exact ⟨_, by rw [if_pos h1]⟩
    · have h2 : ∃ i ∈ List.range owned.NumMyElements, mapCount m (owned.GID (i : Nat)) = 0 :=
        ⟨i, List.mem_range.mpr hi, hc⟩
      exact ⟨_, by rw [if_neg h1, if_pos h2]⟩
  · intro k hk s hs hkey
    obtain ⟨hkeys, hlen⟩ := contactNeighborhoodStep_prefix m owned overlap k s hs
    have hk1 : owned.GID (k : Nat) ∈ m.map Prod.fst := by
      by_contra hne
      exact hkey ((mapCount_eq_zero_iff m _).mpr hne)
    have hsub : ∀ g ∈ owned.MyGlobalElements.take (k + 1), g ∈ m.map Prod.fst := by
      intro g hg
      rw [← owned.map_GID_range_take (k + 1) (by omega), List.mem_map] at hg
      obtain ⟨i, hi, rfl⟩ := hg
      rw [List.mem_range] at hi
      by_cases hik : i = k
      · subst hik; exact hk1
      · exact hkeys i (by omega)
    have hsum := (mapGet_sum_le_iff m hmd (owned.MyGlobalElements.take (k + 1))
      (hd.sublist (List.take_sublist _ _)) hsub).1
    rw [← owned.map_GID_range_take (k + 1) (by omega), List.range_succ, List.map_append,
      List.map_append, List.sum_append] at hsum
    simp only [List.map_cons, List.map_nil, List.sum_cons, List.sum_nil, add_zero] at hsum
    rw [foldl_size_eq_sum, hlen]
    omega
  · intro nd hnd
    rw [createRebalancedContactNeighborhoodData_eq] at hnd
    split_ifs at hnd with h1 h2
    injection hnd with hnd
    subst hnd
    have hsub : ∀ g ∈ owned.MyGlobalElements, g ∈ m.map Prod.fst := by
      intro g hg
      by_contra hne
      exact h2 ((owned.exists_range_GID_iff (fun p => mapCount m p = 0)).mpr
        ⟨g, hg, (mapCount_eq_zero_iff m g).mpr hne⟩)
    have hlen : (encodeRecords ((List.range owned.NumMyElements).map
          (fun (i : Nat) => (mapGet m (owned.GID i)).map overlap.LID))).length
        = (owned.MyGlobalElements.map (fun g => (mapGet m g).length + 1)).sum := by
      rw [owned.map_range_GID (fun g => (mapGet m g).map overlap.LID),
        length_encodeRecords, List.length_map, sum_map_succ, List.map_map]
      congr 2
      apply List.map_congr_left
      intro g _
      simp only [Function.comp, List.length_map]
    obtain ⟨hle, hiff⟩ := mapGet_sum_le_iff m hmd owned.MyGlobalElements hd hsub
    rw [foldl_size_eq_sum, zero_add]
    refine ⟨rfl, ?_, ?_⟩
    · show (encodeRecords _).length ≤ _
      rw [hlen]; exact hle
    · show (encodeRecords _).length = _ ↔ _
      rw [hlen, hiff]
      constructor
      · intro hall g
        constructor
        · intro hg
          rw [List.mem_map] at hg
          obtain ⟨e, he, rfl⟩ := hg
          exact hall e he
        · exact hsub g
      · intro hall e he
        exact (hall e.1).mp (List.mem_map_of_mem Prod.fst he)
  · intro searched bond vec decomp initMap initSet iPt hi
    have h := (contactSearch_keys searched bond vec decomp ⟨0, initMap, initSet⟩
      decomp.numPoints).2 iPt hi
    unfold mapCount contactSearch
    rw [if_pos h]

/-- C29, at an instance: two owned points that are both keys of the contact map, one with an
empty list; the three entries written fill the allocated list exactly. -/
theorem createRebalancedContactNeighborhoodData_within_allocation_witness :
    (BlockMap.mk [(10, 1), (20, 1)]).MyGlobalElements.Nodup
    ∧ createRebalancedContactNeighborhoodData [(10, [20]), (20, [])] ⟨[(10, 1), (20, 1)]⟩
        ⟨[(10, 1), (20, 1)]⟩
      = Except.ok ⟨2, [0, 1], 3, [1, 1, 0], [0, 2]⟩
    ∧ ([1, 1, 0] : List Int).length ≤ 3 :=
  ⟨by decide, rfl,
    ((createRebalancedContactNeighborhoodData_within_allocation [(10, [20]), (20, [])]
      ⟨[(10, 1), (20, 1)]⟩ ⟨[(10, 1), (20, 1)]⟩ (by decide) (by decide)).2.2.1
      ⟨2, [0, 1], 3, [1, 1, 0], [0, 2]⟩ rfl).2.1⟩

/-! ## currentConfigurationDecomp: the record given to the partitioner -/

theorem memcpy_length {α : Type} (src : List α) (count : Nat) (d : α) :
    (memcpy src count d).length = count := by
  simp [memcpy]

theorem memcpy_getD {α : Type} (src : List α) (count : Nat) (d : α) (k : Nat) (hk : k < count) :
    (memcpy src count d).getD k d = src.getD k d := by
  simp [memcpy, List.getD_eq_getElem?_getD, List.getElem?_map, List.getElem?_range hk]

theorem memcpy_self {α : Type} (src : List α) (d : α) : memcpy src src.length d = src := by
  apply List.ext_getElem
  · simp [memcpy]
  · intro i h1 h2
    simp [memcpy, List.getD_eq_getElem?_getD, List.getElem?_eq_getElem h2]

/-- C21: the record that `currentConfigurationDecomp` hands to the partitioner has one entry per
owned point, in the order of the owned map: the GlobalIDs are those of the owned map, the three
coordinates of entry `i` are the entries `3i`, `3i+1`, `3i+2` of the vector `y` of current
positions, and the weight of entry `i` is the entry of the overlap-layout VOLUME field at the
overlap local ID of the GlobalID of owned point `i`, whenever the overlap map holds that
GlobalID. -/
theorem currentConfigurationDecomp_record
    (getLoadBalancedDiscretization : PdGridDataPoints → PdGridDataPoints)
    (numGlobalElements : Nat) (owned overlap : BlockMap) (y cellVolumeOverlap : List Rat) :
    let d := currentConfigurationDecompRecord numGlobalElements owned overlap y cellVolumeOverlap
    currentConfigurationDecomp getLoadBalancedDiscretization numGlobalElements owned overlap y
        cellVolumeOverlap = getLoadBalancedDiscretization d
    ∧ d.globalNumPoints = numGlobalElements
    ∧ d.myGlobalIDs = owned.MyGlobalElements
    ∧ d.myGlobalIDs.length = owned.NumMyElements
    ∧ d.myX.length = 3 * owned.NumMyElements
    ∧ d.cellVolume.length = owned.NumMyElements
    ∧ ∀ i, i < owned.NumMyElements →
        d.myGlobalIDs.getD i 0 = owned.GID (i : Nat)
        ∧ (∀ c, c < 3 → d.myX.getD (3 * i + c) 0 = y.getD (3 * i + c) 0)
        ∧ (overlap.LID (owned.GID (i : Nat)) ≠ -1 →
            d.cellVolume.getD i 0
              = cellVolumeOverlap.getD (overlap.LID (owned.GID (i : Nat))).toNat 0) := by
  intro d
  have hids : d.myGlobalIDs = owned.MyGlobalElements := by
    show memcpy owned.MyGlobalElements owned.NumMyElements 0 = _
    rw [← owned.length_MyGlobalElements, memcpy_self]
  have hvol : d.cellVolume = (List.range owned.NumMyElements).map
      (fun (i : Nat) => readDouble cellVolumeOverlap (overlap.LID (owned.GID (i : Nat)))) := by
    show (List.range owned.NumMyElements).foldl _ [] = _
    rw [foldl_append_singleton
      (fun (i : Nat) => readDouble cellVolumeOverlap (overlap.LID (owned.GID (i : Nat))))]
    rfl
  refine ⟨rfl, rfl, hids, ?_, ?_, ?_, ?_⟩
  · rw [hids, owned.length_MyGlobalElements]
  · show (memcpy y (owned.NumMyElements * 3) 0).length = _
    rw [memcpy_length]; omega
  · rw [hvol]; simp
  · intro i hi
    refine ⟨?_, ?_, ?_⟩
    · rw [hids, owned.GID_natCast]
      have hlt : i < owned.MyGlobalElements.length := by
        rw [owned.length_MyGlobalElements]; exact hi
      simp [List.getD_eq_getElem?_getD, List.getElem?_eq_getElem hlt]
    · intro c hc
      show (memcpy y (owned.NumMyElements * 3) 0).getD (3 * i + c) 0 = _
      exact memcpy_getD y _ 0 _ (by omega)
    · intro hl
      rw [hvol]
      rcases overlap.LID_cases (owned.GID (i : Nat)) with h1 | ⟨k, hk, -⟩
      · exact absurd h1 hl
      · have hnn : ¬ ((k : Int) < 0) := by omega
        simp [List.getD_eq_getElem?_getD, List.getElem?_map, List.getElem?_range hi, readDouble,
          hk, hnn]

/-- C21, at an instance: two owned points with GlobalIDs 5 and 7 that the overlap map holds at
the local IDs 1 and 0; the weights are read at these local IDs and the coordinates come from
`y`. -/
theorem currentConfigurationDecomp_record_witness :
    currentConfigurationDecompRecord 3 ⟨[(5, 1), (7, 1)]⟩ ⟨[(7, 1), (5, 1), (9, 1)]⟩
        [1, 2, 3, 4, 5, 6] [10, 20, 30]
      = ⟨3, [5, 7], [1, 2, 3, 4, 5, 6], [20, 10]⟩
    ∧ (currentConfigurationDecompRecord 3 ⟨[(5, 1), (7, 1)]⟩ ⟨[(7, 1), (5, 1), (9, 1)]⟩
        [1, 2, 3, 4, 5, 6] [10, 20, 30]).myGlobalIDs
      = (BlockMap.mk [(5, 1), (7, 1)]).MyGlobalElements :=
  ⟨by decide,
    (currentConfigurationDecomp_record id 3 ⟨[(5, 1), (7, 1)]⟩ ⟨[(7, 1), (5, 1), (9, 1)]⟩
      [1, 2, 3, 4, 5, 6] [10, 20, 30]).2.2.1⟩

/-! ## applyKinematicBC with a zero load increment -/

theorem zeroAt_length (entries : List Nat) (vec : List Rat) :
    (zeroAt entries vec).length = vec.length := by
  induction entries generalizing vec with
  | nil => rfl
  | cons a t ih =>
    show (zeroAt t (vec.set a 0)).length = _
    rw [ih, List.length_set]

theorem zeroAt_getD (entries : List Nat) (vec : List Rat) (k : Nat) :
    (zeroAt entries vec).getD k 0 = if k ∈ entries then 0 else vec.getD k 0 := by
  induction entries generalizing vec with
  | nil => simp [zeroAt]
  | cons a t ih =>
    show (zeroAt t (vec.set a 0)).getD k 0 = _
    rw [ih]
    by_cases hk : k ∈ t
    · simp [hk]
    · simp only [hk, if_false, List.mem_cons, or_false]
      by_cases hka : k = a
      · subst hka
        simp only [if_true, List.getD_eq_getElem?_getD, List.getElem?_set]
        split_ifs <;> rfl
      · have hak : ¬ (a = k) := fun h => hka h.symm
        simp only [hka, if_false, List.getD_eq_getElem?_getD, List.getElem?_set, hak]

theorem zeroAt_append (a b : List Nat) (vec : List Rat) :
    zeroAt (a ++ b) vec = zeroAt b (zeroAt a vec) := by
  simp [zeroAt, List.foldl_append]

theorem applyKinematicBCNode_foldl (map : BlockMap) (c : Nat) (value : Rat) (nodes : List Int)
    (v : List Rat) :
    nodes.foldl (applyKinematicBCNode map (c : Int) value 0) (some v)
      = some (zeroAt ((nodes.filter (fun node => map.LID node != -1)).map
          (fun node => (map.LID node).toNat * 3 + c)) v) := by
  induction nodes generalizing v with
  | nil => rfl
  | cons node t ih =>
    rw [List.foldl_cons]
    rcases map.LID_cases node with h1 | ⟨k, hk, -⟩
    · have : applyKinematicBCNode map (c : Int) value 0 (some v) node = some v := by
        simp [applyKinematicBCNode, h1]
      rw [this, ih]
      simp [h1]
    · have hk1 : ¬ ((k : Int) = -1) := by omega
      have hidx : ((k : Int) * 3 + (c : Int)).toNat = k * 3 + c := by omega
      have : applyKinematicBCNode map (c : Int) value 0 (some v) node
          = some (v.set (k * 3 + c) 0) := by
        simp [applyKinematicBCNode, hk, hk1, hidx]
      rw [this, ih]
      simp [hk, hk1, zeroAt]

theorem coord_eq_coordinateIndex (coordinate : String) :
    (if coordinate = "z" ∨ coordinate = "Z" then (2 : Int)
      else if coordinate = "y" ∨ coordinate = "Y" then 1 else 0)
      = ((coordinateIndex coordinate : Nat) : Int) := by
  unfold coordinateIndex
  split_ifs <;> rfl

theorem applyKinematicBCStep_eq (map : BlockMap) (nodeSets : List (String × List Int))
    (v : List Rat) (it : String × ParameterEntry)
    (hwf : stringFind it.1 "Prescribed Displacement" = true →
      ∃ bc nodeSet type coordinate value,
        it.2 = ParameterEntry.list bc
        ∧ ParameterList.getString bc "Node Set" = Except.ok nodeSet
        ∧ ParameterList.getString bc "Type" = Except.ok type
        ∧ ParameterList.getString bc "Coordinate" = Except.ok coordinate
        ∧ ParameterList.getDouble bc "Value" = Except.ok value) :
    applyKinematicBCStep map 0 nodeSets (some v) it
      = Except.ok (some (zeroAt (prescribedEntriesOf (nodeSetsGet nodeSets) map it) v)) := by
  unfold applyKinematicBCStep prescribedEntriesOf
  by_cases hf : stringFind it.1 "Prescribed Displacement" = true
  · obtain ⟨bc, nodeSet, type, coordinate, value, h2, hns, hty, hco, hva⟩ := hwf hf
    simp only [hf, if_true, h2, ParameterEntry.getValueList, hns, hty, hco, hva, bind,
      Except.bind, pure, Except.pure]
    rw [coord_eq_coordinateIndex, applyKinematicBCNode_foldl]
  · simp only [hf, if_false, Bool.false_eq_true]
    rfl

theorem applyKinematicBCStep_foldlM (map : BlockMap) (nodeSets : List (String × List Int))
    (l : ParameterList) (v : List Rat)
    (hwf : ∀ it ∈ l, stringFind it.1 "Prescribed Displacement" = true →
      ∃ bc nodeSet type coordinate value,
        it.2 = ParameterEntry.list bc
        ∧ ParameterList.getString bc "Node Set" = Except.ok nodeSet
        ∧ ParameterList.getString bc "Type" = Except.ok type
        ∧ ParameterList.getString bc "Coordinate" = Except.ok coordinate
        ∧ ParameterList.getDouble bc "Value" = Except.ok value) :
    l.foldlM (applyKinematicBCStep map 0 nodeSets) (some v)
      = Except.ok (some (zeroAt (l.flatMap (prescribedEntriesOf (nodeSetsGet nodeSets) map)) v)) := by
  induction l generalizing v with
  | nil => rfl
  | cons it t ih =>
    rw [List.foldlM_cons, applyKinematicBCStep_eq map nodeSets v it
      (hwf it (List.mem_cons_self _ _))]
    show t.foldlM _ _ = _
    rw [ih _ (fun x hx => hwf x (List.mem_cons_of_mem _ hx)), List.flatMap_cons, zeroAt_append]

theorem nodeSetOf_append_singleton (rd : String → List Int) (pre : ParameterList)
    (it : String × ParameterEntry) (hnot : it.1 ∉ pre.map Prod.fst) (name : String) :
    nodeSetOf rd (pre ++ [it]) name
      = if name = it.1 then
          (if stringFind name "Node Set" then
            match it.2 with
            | ParameterEntry.string ss => rd ss
            | _ => []
          else [])
        else nodeSetOf rd pre name := by
  unfold nodeSetOf ParameterList.getEntryPtr
  rw [List.lookup_append]
  by_cases hn : name = it.1
  · subst hn
    have hnone : List.lookup it.1 pre = none := by
      rw [List.lookup_eq_none_iff]
      intro p hp
      simp only [bne_iff_ne, ne_eq]
      intro h
      exact hnot (h ▸ List.mem_map_of_mem Prod.fst hp)
    obtain ⟨n, e⟩ := it
    simp only [hnone, Option.none_or, List.lookup_cons_self, if_true]
    cases e <;> rfl
  · have hnone : List.lookup name [it] = none := by
      rw [List.lookup_eq_none_iff]
      intro p hp
      simp only [List.mem_singleton] at hp
      subst hp
      simpa using hn
    simp only [hnone, Option.or_none, hn, if_false]

theorem applyKinematicBCNodeSet_foldlM (rd : String → List Int) (rest : ParameterList) :
    ∀ (pre : ParameterList) (ns : List (String × List Int)),
      ((pre ++ rest).map Prod.fst).Nodup →
      (∀ it ∈ rest, stringFind it.1 "Node Set" = true → ∃ ss, it.2 = ParameterEntry.string ss) →
      (∀ name, nodeSetsGet ns name = nodeSetOf rd pre name) →
      ∃ ns2, rest.foldlM (applyKinematicBCNodeSet rd) ns = Except.ok ns2
        ∧ ∀ name, nodeSetsGet ns2 name = nodeSetOf rd (pre ++ rest) name := by
  induction rest with
  | nil =>
    intro pre ns _ _ hns
    exact ⟨ns, rfl, by simpa using hns⟩
  | cons it t ih =>
    intro pre ns hd hwf hns
    have hd2 : (((pre ++ [it]) ++ t).map Prod.fst).Nodup := by
      simpa [List.append_assoc] using hd
    have hnot : it.1 ∉ pre.map Prod.fst := by
      have h3 : ((pre ++ [it]).map Prod.fst).Nodup := by
        rw [List.map_append] at hd2
        exact (List.nodup_append.mp hd2).1
      rw [List.map_append, List.nodup_append] at h3
      intro h
      exact h3.2.2 h (by simp)
    rw [List.foldlM_cons]
    by_cases hf : stringFind it.1 "Node Set" = true
    · obtain ⟨ss, hss⟩ := hwf it (List.mem_cons_self _ _) hf
      have hstep : applyKinematicBCNodeSet rd ns it = Except.ok ((it.1, rd ss) :: ns) := by
        simp only [applyKinematicBCNodeSet, hf, if_true, hss, ParameterEntry.getValueString,
          bind, Except.bind, pure, Except.pure]
      rw [hstep]
      obtain ⟨ns2, h1, h2⟩ := ih (pre ++ [it]) ((it.1, rd ss) :: ns) hd2
        (fun x hx => hwf x (List.mem_cons_of_mem _ hx)) (by
          intro name
          rw [nodeSetOf_append_singleton rd pre it hnot name]
          by_cases hn : name = it.1
          · subst hn
            simp [nodeSetsGet, hf, hss]
          · have hne : (name == it.1) = false := by simpa using hn
            simp only [nodeSetsGet, List.lookup_cons, hne, hn, if_false]
            exact hns name)
      exact ⟨ns2, h1, by simpa [List.append_assoc] using h2⟩
    · have hstep : applyKinematicBCNodeSet rd ns it = Except.ok ns := by
        simp only [applyKinematicBCNodeSet, hf, if_false, Bool.false_eq_true]
        rfl
      rw [hstep]
      obtain ⟨ns2, h1, h2⟩ := ih (pre ++ [it]) ns hd2
        (fun x hx => hwf x (List.mem_cons_of_mem _ hx)) (by
          intro name
          rw [nodeSetOf_append_singleton rd pre it hnot name]
          by_cases hn : name = it.1
          · subst hn
            simp only [if_true, hf, if_false, Bool.false_eq_true]
            rw [hns]
            simp [nodeSetOf, hf]
          · simp only [hn, if_false]
            exact hns name)
      exact ⟨ns2, h1, by simpa [List.append_assoc] using h2⟩

theorem mem_prescribedEntries_iff (rd : String → List Int) (bcParams : ParameterList)
    (map : BlockMap) (k : Nat) :
    k ∈ prescribedEntries rd bcParams map
      ↔ ∃ it ∈ bcParams, ∃ bc nodeSet coordinate,
          stringFind it.1 "Prescribed Displacement" = true
          ∧ it.2 = ParameterEntry.list bc
          ∧ ParameterList.getString bc "Node Set" = Except.ok nodeSet
          ∧ ParameterList.getString bc "Coordinate" = Except.ok coordinate
          ∧ ∃ node ∈ nodeSetOf rd bcParams nodeSet,
              map.LID node ≠ -1 ∧ k = (map.LID node).toNat * 3 + coordinateIndex coordinate := by
  unfold prescribedEntries
  rw [List.mem_flatMap]
  constructor
  · rintro ⟨it, hit, hk⟩
    refine ⟨it, hit, ?_⟩
    unfold prescribedEntriesOf at hk
    by_cases hf : stringFind it.1 "Prescribed Displacement" = true
    · rw [if_pos hf] at hk
      obtain ⟨n, e⟩ := it
      cases e with
      | list bc =>
        simp only at hk
        cases hns : ParameterList.getString bc "Node Set" with
        | error err => simp [hns] at hk
        | ok nodeSet =>
          cases hco : ParameterList.getString bc "Coordinate" with
          | error err => simp [hns, hco] at hk
          | ok coordinate =>
            simp only [hns, hco, List.mem_map, List.mem_filter, bne_iff_ne, ne_eq] at hk
            obtain ⟨node, ⟨hnode, hl⟩, rfl⟩ := hk
            exact ⟨bc, nodeSet, coordinate, hf, rfl, hns, hco, node, hnode, hl, rfl⟩
      | double _ => simp at hk
      | int _ => simp at hk
      | string _ => simp at hk
      | bool _ => simp at hk
    · rw [if_neg hf] at hk
      simp at hk
  · rintro ⟨it, hit, bc, nodeSet, coordinate, hf, h2, hns, hco, node, hnode, hl, rfl⟩
    refine ⟨it, hit, ?_⟩
    unfold prescribedEntriesOf
    rw [if_pos hf, h2]
    simp only [hns, hco, List.mem_map, List.mem_filter, bne_iff_ne, ne_eq]
    exact ⟨node, ⟨hnode, hl⟩, rfl⟩

theorem coordinateIndex_le (coordinate : String) : coordinateIndex coordinate ≤ 2 := by
  unfold coordinateIndex
  split_ifs <;> omega

/-- C25: for boundary-condition parameters that are read without an exception,
`applyKinematicBC` with the load increment 0 and a null matrix, as `computeResidual` calls it on
the copy of the force vector, returns the vector in which exactly the prescribed entries are
zero and every other entry is unchanged.  An entry is prescribed when it is `3*LID + coord` for
a node, held by the map at the local ID `LID`, of the node set of an entry whose name contains
"Prescribed Displacement", with `coord` 1 for the coordinate "y" or "Y", 2 for "z" or "Z" and 0
for every other string; a node that the map does not hold (`LID = -1`) prescribes nothing.  All
prescribed entries lie within the vector. -/
theorem applyKinematicBC_zero_increment (readNodeList : String → List Int)
    (peridigmParams problemParams bcParams : ParameterList) (threeDimensionalMap : BlockMap)
    (force : List Rat)
    (hproblem : peridigmParams.sublist "Problem" = Except.ok problemParams)
    (hbc : problemParams.sublist "Boundary Conditions" = Except.ok bcParams)
    (hwf : BoundaryConditionsWellFormed bcParams)
    (hlen : force.length = 3 * threeDimensionalMap.NumMyElements) :
    ∃ residual,
      applyKinematicBC readNodeList peridigmParams threeDimensionalMap 0 (some force)
        = Except.ok (some residual)
      ∧ computeResidualVector readNodeList peridigmParams threeDimensionalMap force
        = Except.ok (some residual)
      ∧ residual.length = force.length
      ∧ (∀ k, residual.getD k 0
          = if k ∈ prescribedEntries readNodeList bcParams threeDimensionalMap then 0
            else force.getD k 0)
      ∧ (∀ k ∈ prescribedEntries readNodeList bcParams threeDimensionalMap, k < force.length)
      ∧ (∀ k, k ∈ prescribedEntries readNodeList bcParams threeDimensionalMap
          ↔ ∃ it ∈ bcParams, ∃ bc nodeSet coordinate,
              stringFind it.1 "Prescribed Displacement" = true
              ∧ it.2 = ParameterEntry.list bc
              ∧ ParameterList.getString bc "Node Set" = Except.ok nodeSet
              ∧ ParameterList.getString bc "Coordinate" = Except.ok coordinate
              ∧ ∃ node ∈ nodeSetOf readNodeList bcParams nodeSet,
                  threeDimensionalMap.LID node ≠ -1
                  ∧ k = (threeDimensionalMap.LID node).toNat * 3
                      + coordinateIndex coordinate) := by
  obtain ⟨hnodup, hentries⟩ := hwf
  obtain ⟨ns, hns1, hns2⟩ := applyKinematicBCNodeSet_foldlM readNodeList bcParams [] []
    (by simpa using hnodup) (fun it hit => (hentries it hit).1)
    (fun name => by simp [nodeSetsGet, nodeSetOf, ParameterList.getEntryPtr])
  have hfun : nodeSetsGet ns = nodeSetOf readNodeList bcParams := by
    funext name
    simpa using hns2 name
  have hrun : applyKinematicBC readNodeList peridigmParams threeDimensionalMap 0 (some force)
      = Except.ok (some (zeroAt
          (prescribedEntries readNodeList bcParams threeDimensionalMap) force)) := by
    unfold applyKinematicBC
    simp only [hproblem, hbc, hns1, bind, Except.bind]
    rw [applyKinematicBCStep_foldlM threeDimensionalMap ns bcParams force
      (fun it hit => (hentries it hit).2), hfun]
    rfl
  refine ⟨_, hrun, hrun, zeroAt_length _ _, fun k => zeroAt_getD _ _ k, ?_,
    fun k => mem_prescribedEntries_iff readNodeList bcParams threeDimensionalMap k⟩
  intro k hk
  rw [mem_prescribedEntries_iff] at hk
  obtain ⟨it, -, bc, nodeSet, coordinate, -, -, -, -, node, -, hl, rfl⟩ := hk
  have hc := coordinateIndex_le coordinate
  rcases threeDimensionalMap.LID_cases node with h1 | ⟨i, hi, hin⟩
  · exact absurd h1 hl
  · rw [hi, hlen]
    simp only [Int.toNat_ofNat]
    omega

/-- C25, at an instance: a boundary condition on the coordinate "y" of the node set "0 2", of
which the map holds node 0 only, on a process with two nodes; entry 1 is set to zero and the
other five entries keep their values. -/
theorem applyKinematicBC_zero_increment_witness :
    prescribedEntries (fun ss => if ss = "0 2" then [0, 2] else [])
        [("Min X Node Set", ParameterEntry.string "0 2"),
          ("Prescribed Displacement Min X", ParameterEntry.list
            [("Coordinate", ParameterEntry.string "y"),
              ("Node Set", ParameterEntry.string "Min X Node Set"),
              ("Type", ParameterEntry.string "Prescribed Displacement"),
              ("Value", ParameterEntry.double 5)])]
        ⟨[(0, 3), (1, 3)]⟩ = [1]
    ∧ ∃ residual,
        applyKinematicBC (fun ss => if ss = "0 2" then [0, 2] else [])
            [("Problem", ParameterEntry.list
              [("Boundary Conditions", ParameterEntry.list
                [("Min X Node Set", ParameterEntry.string "0 2"),
                  ("Prescribed Displacement Min X", ParameterEntry.list
                    [("Coordinate", ParameterEntry.string "y"),
                      ("Node Set", ParameterEntry.string "Min X Node Set"),
                      ("Type", ParameterEntry.string "Prescribed Displacement"),
                      ("Value", ParameterEntry.double 5)])])])]
            ⟨[(0, 3), (1, 3)]⟩ 0 (some [1, 2, 3, 4, 5, 6])
          = Except.ok (some residual)
        ∧ residual.length = 6 ∧ residual.getD 1 0 = 0 ∧ residual.getD 3 0 = 4 := by
  have hpe : prescribedEntries (fun ss => if ss = "0 2" then [0, 2] else [])
      [("Min X Node Set", ParameterEntry.string "0 2"),
        ("Prescribed Displacement Min X", ParameterEntry.list
          [("Coordinate", ParameterEntry.string "y"),
            ("Node Set", ParameterEntry.string "Min X Node Set"),
            ("Type", ParameterEntry.string "Prescribed Displacement"),
            ("Value", ParameterEntry.double 5)])]
      ⟨[(0, 3), (1, 3)]⟩ = [1] := by decide
  refine ⟨hpe, ?_⟩
  obtain ⟨residual, h1, -, h3, h4, -⟩ := applyKinematicBC_zero_increment
    (fun ss => if ss = "0 2" then [0, 2] else [])
    [("Problem", ParameterEntry.list
      [("Boundary Conditions", ParameterEntry.list
        [("Min X Node Set", ParameterEntry.string "0 2"),
          ("Prescribed Displacement Min X", ParameterEntry.list
            [("Coordinate", ParameterEntry.string "y"),
              ("Node Set", ParameterEntry.string "Min X Node Set"),
              ("Type", ParameterEntry.string "Prescribed Displacement"),
              ("Value", ParameterEntry.double 5)])])])]
    [("Boundary Conditions", ParameterEntry.list
      [("Min X Node Set", ParameterEntry.string "0 2"),
        ("Prescribed Displacement Min X", ParameterEntry.list
          [("Coordinate", ParameterEntry.string "y"),
            ("Node Set", ParameterEntry.string "Min X Node Set"),
            ("Type", ParameterEntry.string "Prescribed Displacement"),
            ("Value", ParameterEntry.double 5)])])]
    [("Min X Node Set", ParameterEntry.string "0 2"),
      ("Prescribed Displacement Min X", ParameterEntry.list
        [("Coordinate", ParameterEntry.string "y"),
          ("Node Set", ParameterEntry.string "Min X Node Set"),
          ("Type", ParameterEntry.string "Prescribed Displacement"),
          ("Value", ParameterEntry.double 5)])]
    ⟨[(0, 3), (1, 3)]⟩ [1, 2, 3, 4, 5, 6] rfl rfl
    ⟨by decide, by
      intro it hit
      simp only [List.mem_cons, List.mem_singleton, List.not_mem_nil, or_false] at hit
      rcases hit with rfl | rfl
      · exact ⟨fun _ => ⟨"0 2", rfl⟩, fun h => absurd h (by decide)⟩
      · exact ⟨fun h => absurd h (by decide),
          fun _ => ⟨_, "Min X Node Set", "Prescribed Displacement", "y", 5, rfl, rfl, rfl, rfl,
            rfl⟩⟩⟩
    rfl
  rw [hpe] at h4
  exact ⟨residual, h1, h3, by simpa using h4 1, by simpa using h4 3⟩

/-! ## State: allocation, initial values and access to the data -/

theorem mem_of_lookup_eq_some {β : Type} (l : List (Nat × β)) (k : Nat) (v : β)
    (h : l.lookup k = some v) : (k, v) ∈ l := by
  rw [List.lookup_eq_some_iff] at h
  obtain ⟨l1, l2, rfl, -⟩ := h
  simp

theorem lookup_isSome_of_key {β : Type} (l : List (Nat × β)) (k : Nat)
    (h : k ∈ l.map Prod.fst) : ∃ v, l.lookup k = some v := by
  have : (l.lookup k).isSome := by
    rw [List.lookup_isSome_iff]
    rw [List.mem_map] at h
    obtain ⟨p, hp, rfl⟩ := h
    exact ⟨p, hp, by simp⟩
  exact Option.isSome_iff_exists.mp this

theorem lookup_eq_none_of_not_key {β : Type} (l : List (Nat × β)) (k : Nat)
    (h : k ∉ l.map Prod.fst) : l.lookup k = none := by
  rw [List.lookup_eq_none_iff]
  intro p hp
  simp only [bne_iff_ne, ne_eq]
  intro hk
  exact h (hk ▸ List.mem_map_of_mem Prod.fst hp)

theorem State.mem_keys_iff (kind : FieldKind) (fieldSpecs : List FieldSpec)
    (e : Nat × FieldKind × Nat) :
    e ∈ (fieldSpecs.enum.map (fun e => (e.2.id, kind, e.1))).reverse
      ↔ e.2.1 = kind ∧ ∃ fieldSpec, fieldSpecs[e.2.2]? = some fieldSpec ∧ fieldSpec.id = e.1 := by
  rw [List.mem_reverse, List.mem_map]
  constructor
  · rintro ⟨⟨i, x⟩, hx, rfl⟩
    exact ⟨rfl, x, List.mk_mem_enum_iff_getElem?.mp hx, rfl⟩
  · rintro ⟨hk, x, hx, hid⟩
    obtain ⟨id, kind', i⟩ := e
    simp only at hk hx hid
    subst hk hid
    exact ⟨(i, x), List.mk_mem_enum_iff_getElem?.mpr hx, rfl⟩

theorem State.keys_of_specs (kind : FieldKind) (fieldSpecs : List FieldSpec) :
    ((fieldSpecs.enum.map (fun e => (e.2.id, kind, e.1))).reverse).map Prod.fst
      = (fieldSpecs.map (fun x => x.id)).reverse := by
  rw [List.map_reverse, List.map_map]
  congr 1
  have : ((Prod.fst : Nat × FieldKind × Nat → Nat) ∘ fun (e : Nat × FieldSpec) => (e.2.id, kind, e.1))
      = (fun x => x.id) ∘ Prod.snd := rfl
  rw [this, ← List.map_map, List.enum_map_snd]

theorem State.multiVector_setMultiVector (s : State) (kind kind2 : FieldKind) (v : MultiVector) :
    (s.setMultiVector kind v).multiVector kind2
      = if kind2 = kind then some v else s.multiVector kind2 := by
  cases kind <;> cases kind2 <;> rfl

theorem State.fieldSpecToData_setMultiVector (s : State) (kind : FieldKind) (v : MultiVector) :
    (s.setMultiVector kind v).fieldSpecToData = s.fieldSpecToData := by
  cases kind <;> rfl

theorem State.multiVector_allocate (kind kind2 : FieldKind) (s : State)
    (fieldSpecs : List FieldSpec) (map : BlockMap) :
    (State.allocate kind s fieldSpecs map).multiVector kind2
      = if kind2 = kind then some (MultiVector.create map fieldSpecs.length)
        else s.multiVector kind2 := by
  cases kind <;> cases kind2 <;> rfl

theorem State.fieldSpecToData_allocate (kind : FieldKind) (s : State)
    (fieldSpecs : List FieldSpec) (map : BlockMap) :
    (State.allocate kind s fieldSpecs map).fieldSpecToData
      = (fieldSpecs.enum.map (fun e => (e.2.id, kind, e.1))).reverse ++ s.fieldSpecToData := by
  cases kind <;> rfl

theorem State.getData_allocate_mem (kind : FieldKind) (s : State) (fieldSpecs : List FieldSpec)
    (map : BlockMap) (fieldSpec : FieldSpec)
    (h : fieldSpec.id ∈ fieldSpecs.map (fun x => x.id)) :
    (State.allocate kind s fieldSpecs map).getData fieldSpec
      = some (List.replicate map.NumMyPoints 0) := by
  have hkey : fieldSpec.id
      ∈ ((fieldSpecs.enum.map (fun e => (e.2.id, kind, e.1))).reverse).map Prod.fst := by
    rw [State.keys_of_specs, List.mem_reverse]; exact h
  obtain ⟨slot, hslot⟩ := lookup_isSome_of_key _ _ hkey
  have hmem := (State.mem_keys_iff kind fieldSpecs (fieldSpec.id, slot)).mp
    (mem_of_lookup_eq_some _ _ _ hslot)
  obtain ⟨hk, x, hx, -⟩ := hmem
  simp only at hk hx
  have hlt : slot.2 < fieldSpecs.length := by
    by_contra hge
    rw [List.getElem?_eq_none (by omega)] at hx
    exact absurd hx (by simp)
  unfold State.getData
  rw [State.fieldSpecToData_allocate, List.lookup_append, hslot]
  simp only [Option.or, Option.bind_eq_bind, Option.some_bind,
    State.multiVector_allocate, hk, if_true, MultiVector.create]
  rw [List.getElem?_replicate]
  simp [hlt]

theorem State.getData_allocate_not_mem (kind : FieldKind) (s : State)
    (fieldSpecs : List FieldSpec) (map : BlockMap) (fieldSpec : FieldSpec)
    (h : fieldSpec.id ∉ fieldSpecs.map (fun x => x.id))
    (hk : ∀ e ∈ s.fieldSpecToData, e.2.1 ≠ kind) :
    (State.allocate kind s fieldSpecs map).getData fieldSpec = s.getData fieldSpec := by
  have hkey : fieldSpec.id
      ∉ ((fieldSpecs.enum.map (fun e => (e.2.id, kind, e.1))).reverse).map Prod.fst := by
    rw [State.keys_of_specs, List.mem_reverse]; exact h
  unfold State.getData
  rw [State.fieldSpecToData_allocate, List.lookup_append, lookup_eq_none_of_not_key _ _ hkey]
  simp only [Option.none_or, Option.bind_eq_bind]
  cases hl : s.fieldSpecToData.lookup fieldSpec.id with
  | none => rfl
  | some slot =>
    have hne := hk _ (mem_of_lookup_eq_some _ _ _ hl)
    simp only at hne
    simp only [Option.some_bind, State.multiVector_allocate, hne, if_false]

theorem State.kinds_allocate (kind : FieldKind) (s : State) (fieldSpecs : List FieldSpec)
    (map : BlockMap) (P : FieldKind → Prop) (hP : P kind)
    (hs : ∀ e ∈ s.fieldSpecToData, P e.2.1) :
    ∀ e ∈ (State.allocate kind s fieldSpecs map).fieldSpecToData, P e.2.1 := by
  intro e he
  rw [State.fieldSpecToData_allocate, List.mem_append] at he
  rcases he with he | he
  · rw [((State.mem_keys_iff kind fieldSpecs e).mp he).1]; exact hP
  · exact hs e he

theorem State.getData_zero_after_allocation :
    ∀ (scalarFieldSpecs vectorFieldSpecs bondFieldSpecs : List FieldSpec)
        (oneDimensionalOverlapMap threeDimensionalOverlapMap bondMap : BlockMap)
        (fieldSpec : FieldSpec),
        fieldSpec ∈ scalarFieldSpecs ++ vectorFieldSpecs ++ bondFieldSpecs →
        ∃ data,
          (((State.create.allocateScalarData scalarFieldSpecs
              oneDimensionalOverlapMap).allocateVectorData vectorFieldSpecs
              threeDimensionalOverlapMap).allocateBondData bondFieldSpecs bondMap).getData
              fieldSpec = some data
          ∧ (∀ x ∈ data, x = 0)
          ∧ data.length
              = if fieldSpec.id ∈ bondFieldSpecs.map (fun x => x.id) then bondMap.NumMyPoints
                else if fieldSpec.id ∈ vectorFieldSpecs.map (fun x => x.id) then
                  threeDimensionalOverlapMap.NumMyPoints
                else oneDimensionalOverlapMap.NumMyPoints := by
  intro ss vs bs m1 m3 mb fieldSpec hmem
  have hzero : ∀ n : Nat, ∀ x ∈ List.replicate n (0 : Rat), x = 0 :=
    fun n x hx => List.eq_of_mem_replicate hx
  have hk1 : ∀ e ∈ (State.create.allocateScalarData ss m1).fieldSpecToData,
      e.2.1 = FieldKind.scalar :=
    State.kinds_allocate FieldKind.scalar State.create ss m1 (fun k => k = FieldKind.scalar) rfl
      (fun e he => absurd he (by simp [State.create]))
  have hk2 : ∀ e ∈ ((State.create.allocateScalarData ss m1).allocateVectorData vs
      m3).fieldSpecToData, e.2.1 = FieldKind.scalar ∨ e.2.1 = FieldKind.vector :=
    State.kinds_allocate FieldKind.vector _ vs m3
      (fun k => k = FieldKind.scalar ∨ k = FieldKind.vector) (Or.inr rfl)
      (fun e he => Or.inl (hk1 e he))
  unfold State.allocateBondData
  by_cases hb : fieldSpec.id ∈ bs.map (fun x => x.id)
  · rw [State.getData_allocate_mem FieldKind.bond _ bs mb fieldSpec hb, if_pos hb]
    exact ⟨_, rfl, hzero _, List.length_replicate _ _⟩
  · rw [State.getData_allocate_not_mem FieldKind.bond _ bs mb fieldSpec hb
      (fun e he => by rcases hk2 e he with h | h <;> rw [h] <;> decide), if_neg hb]
    unfold State.allocateVectorData
    by_cases hv : fieldSpec.id ∈ vs.map (fun x => x.id)
    · rw [State.getData_allocate_mem FieldKind.vector _ vs m3 fieldSpec hv, if_pos hv]
      exact ⟨_, rfl, hzero _, List.length_replicate _ _⟩
    · rw [State.getData_allocate_not_mem FieldKind.vector _ vs m3 fieldSpec hv
        (fun e he => by rw [hk1 e he]; decide), if_neg hv]
      have hs : fieldSpec.id ∈ ss.map (fun x => x.id) := by
        simp only [List.mem_append] at hmem
        rcases hmem with (h | h) | h
        · exact List.mem_map_of_mem (fun x => x.id) h
        · exact absurd (List.mem_map_of_mem (fun x => x.id) h) hv
        · exact absurd (List.mem_map_of_mem (fun x => x.id) h) hb
      unfold State.allocateScalarData
      rw [State.getData_allocate_mem FieldKind.scalar _ ss m1 fieldSpec hs]
      exact ⟨_, rfl, hzero _, List.length_replicate _ _⟩

theorem State.valid_create : State.create.Valid :=
  ⟨fun e1 h => absurd h (by simp [State.create]), fun e h => absurd h (by simp [State.create])⟩

theorem State.valid_allocate (kind : FieldKind) (s : State) (fieldSpecs : List FieldSpec)
    (map : BlockMap) (hv : s.Valid) (hk : ∀ e ∈ s.fieldSpecToData, e.2.1 ≠ kind) :
    (State.allocate kind s fieldSpecs map).Valid := by
  obtain ⟨hinj, hex⟩ := hv
  constructor
  · intro e1 h1 e2 h2 heq
    rw [State.fieldSpecToData_allocate, List.mem_append] at h1 h2
    rcases h1 with h1 | h1 <;> rcases h2 with h2 | h2
    · obtain ⟨-, x1, hx1, hid1⟩ := (State.mem_keys_iff kind fieldSpecs e1).mp h1
      obtain ⟨-, x2, hx2, hid2⟩ := (State.mem_keys_iff kind fieldSpecs e2).mp h2
      rw [heq, hx2] at hx1
      injection hx1 with hx1
      rw [← hid1, ← hid2, hx1]
    · have := ((State.mem_keys_iff kind fieldSpecs e1).mp h1).1
      exact absurd (by rw [← heq]; exact this) (hk e2 h2)
    · have := ((State.mem_keys_iff kind fieldSpecs e2).mp h2).1
      exact absurd (by rw [heq]; exact this) (hk e1 h1)
    · exact hinj e1 h1 e2 h2 heq
  · intro e he
    rw [State.fieldSpecToData_allocate, List.mem_append] at he
    rw [State.multiVector_allocate]
    rcases he with he | he
    · obtain ⟨hkind, x, hx, -⟩ := (State.mem_keys_iff kind fieldSpecs e).mp he
      refine ⟨_, by rw [if_pos hkind], ?_⟩
      simp only [MultiVector.create, List.length_replicate]
      by_contra hge
      rw [List.getElem?_eq_none (by omega)] at hx
      exact absurd hx (by simp)
    · rw [if_neg (hk e he)]
      exact hex e he

theorem State.valid_after_allocation (scalarFieldSpecs vectorFieldSpecs bondFieldSpecs : List FieldSpec)
    (oneDimensionalOverlapMap threeDimensionalOverlapMap bondMap : BlockMap) :
    (((State.create.allocateScalarData scalarFieldSpecs
      oneDimensionalOverlapMap).allocateVectorData vectorFieldSpecs
      threeDimensionalOverlapMap).allocateBondData bondFieldSpecs bondMap).Valid := by
  have hk1 : ∀ e ∈ (State.create.allocateScalarData scalarFieldSpecs
      oneDimensionalOverlapMap).fieldSpecToData, e.2.1 = FieldKind.scalar :=
    State.kinds_allocate FieldKind.scalar State.create _ _ (fun k => k = FieldKind.scalar) rfl
      (fun e he => absurd he (by simp [State.create]))
  have hk2 : ∀ e ∈ ((State.create.allocateScalarData scalarFieldSpecs
      oneDimensionalOverlapMap).allocateVectorData vectorFieldSpecs
      threeDimensionalOverlapMap).fieldSpecToData,
      e.2.1 = FieldKind.scalar ∨ e.2.1 = FieldKind.vector :=
    State.kinds_allocate FieldKind.vector _ _ _
      (fun k => k = FieldKind.scalar ∨ k = FieldKind.vector) (Or.inr rfl)
      (fun e he => Or.inl (hk1 e he))
  refine State.valid_allocate FieldKind.bond _ _ _
    (State.valid_allocate FieldKind.vector _ _ _
      (State.valid_allocate FieldKind.scalar _ _ _ State.valid_create
        (fun e he => absurd he (by simp [State.create])))
      (fun e he => by rw [hk1 e he]; decide))
    (fun e he => by rcases hk2 e he with h | h <;> rw [h] <;> decide)

theorem State.setEntry_spec (s : State) (fieldSpec : FieldSpec) (data : List Rat) (i : Nat)
    (value : Rat) (hv : s.Valid) (hdata : s.getData fieldSpec = some data) :
    ∃ s2, s.setEntry fieldSpec i value = some s2
      ∧ s2.Valid
      ∧ s2.getData fieldSpec = some (data.set i value)
      ∧ (i < data.length → (data.set i value).getD i 0 = value)
      ∧ (∀ j, j ≠ i → (data.set i value).getD j 0 = data.getD j 0)
      ∧ (∀ other : FieldSpec, other.opEq fieldSpec = false → s2.getData other = s.getData other)
      ∧ (∀ kind, (s2.multiVector kind).map (fun v => (v.map, v.NumVectors))
          = (s.multiVector kind).map (fun v => (v.map, v.NumVectors)))
      ∧ s2.fieldSpecToData = s.fieldSpecToData
      ∧ (∀ kind v2, s2.multiVector kind = some v2 →
          ∃ v, s.multiVector kind = some v ∧ v2.map = v.map
            ∧ ∀ c2 ∈ v2.columns, ∃ c ∈ v.columns, c2.length = c.length) := by
  obtain ⟨hinj, hex⟩ := hv
  unfold State.getData at hdata
  cases hl : s.fieldSpecToData.lookup fieldSpec.id with
  | none => simp [hl] at hdata
  | some slot =>
    cases hm : s.multiVector slot.1 with
    | none => simp [hl, hm] at hdata
    | some v =>
      simp only [hl, hm, Option.bind_eq_bind, Option.some_bind] at hdata
      have hlt : slot.2 < v.columns.length := by
        by_contra hge
        rw [List.getElem?_eq_none (by omega)] at hdata
        exact absurd hdata (by simp)
      have hset : s.setEntry fieldSpec i value
          = some (s.setMultiVector slot.1
              { v with columns := v.columns.set slot.2 (data.set i value) }) := by
        simp only [State.setEntry, hl, hm, hdata, Option.bind_eq_bind, Option.some_bind, pure]
      refine ⟨_, hset, ⟨?_, ?_⟩, ?_, ?_, ?_, ?_, ?_, ?_, ?_⟩
      · intro e1 h1 e2 h2
        rw [State.fieldSpecToData_setMultiVector] at h1 h2
        exact hinj e1 h1 e2 h2
      · intro e he
        rw [State.fieldSpecToData_setMultiVector] at he
        rw [State.multiVector_setMultiVector]
        obtain ⟨w, hw, hwlt⟩ := hex e he
        by_cases hk : e.2.1 = slot.1
        · rw [if_pos hk]
          rw [hk, hm] at hw
          injection hw with hw
          subst hw
          exact ⟨_, rfl, by simpa using hwlt⟩
        · rw [if_neg hk]
          exact ⟨w, hw, hwlt⟩
      · unfold State.getData
        rw [State.fieldSpecToData_setMultiVector, hl]
        simp only [Option.bind_eq_bind, Option.some_bind, State.multiVector_setMultiVector,
          if_true]
        rw [List.getElem?_set_self hlt]
      · intro hi
        simp [List.getD_eq_getElem?_getD, List.getElem?_set, hi]
      · intro j hj
        have hij : ¬ (i = j) := fun h => hj h.symm
        simp [List.getD_eq_getElem?_getD, List.getElem?_set, hij]
      · intro other hother
        have hne : other.id ≠ fieldSpec.id := by
          intro h
          simp [FieldSpec.opEq, h] at hother
        unfold State.getData
        rw [State.fieldSpecToData_setMultiVector]
        cases hl2 : s.fieldSpecToData.lookup other.id with
        | none => rfl
        | some slot2 =>
          simp only [Option.bind_eq_bind, Option.some_bind, State.multiVector_setMultiVector]
          have hslot : slot2 ≠ slot := by
            intro h
            exact hne (hinj _ (mem_of_lookup_eq_some _ _ _ hl2) _
              (mem_of_lookup_eq_some _ _ _ hl) h)
          by_cases hk : slot2.1 = slot.1
          · rw [if_pos hk, hk, hm]
            simp only [Option.some_bind]
            have h2 : slot.2 ≠ slot2.2 := by
              intro h
              exact hslot (Prod.ext hk h.symm)
            rw [List.getElem?_set_ne h2]
          · rw [if_neg hk]
      · intro kind
        rw [State.multiVector_setMultiVector]
        by_cases hk : kind = slot.1
        · rw [if_pos hk, hk, hm]
          simp [MultiVector.NumVectors]
        · rw [if_neg hk]
      · exact State.fieldSpecToData_setMultiVector _ _ _
      · intro kind v2 hv2
        rw [State.multiVector_setMultiVector] at hv2
        by_cases hk : kind = slot.1
        · rw [if_pos hk] at hv2
          injection hv2 with hv2
          subst hv2
          refine ⟨v, by rw [hk]; exact hm, rfl, ?_⟩
          intro c2 hc2
          simp only at hc2
          rcases List.mem_or_eq_of_mem_set hc2 with h | h
          · exact ⟨c2, h, rfl⟩
          · refine ⟨data, List.getElem?_mem hdata, ?_⟩
            rw [h, List.length_set]
        · rw [if_neg hk] at hv2
          exact ⟨v2, hv2, rfl, fun c2 hc2 => ⟨c2, hc2, rfl⟩⟩



/-! ## The unit tests of State on the model -/

theorem stateTestAllocate_checks (F : StateTestFieldSpecs)
    (oneDimensionalOverlapMap threeDimensionalOverlapMap bondMap : BlockMap) :
    stateTestAllocate F oneDimensionalOverlapMap threeDimensionalOverlapMap bondMap
      = some
        (((State.create.allocateScalarData
            [F.DEFAULT_FIELDTYPE, F.VOLUME, F.ID, F.PROC_NUM, F.DAMAGE, F.WEIGHTED_VOLUME,
              F.DILATATION, F.NUM_NEIGHBORS, F.LAMBDA, F.SHEAR_CORRECTION_FACTOR]
            oneDimensionalOverlapMap).allocateVectorData
            [F.COORD3D, F.DISPL3D, F.CURCOORD3D, F.VELOC3D, F.ACCEL3D, F.FORCE3D,
              F.FORCE_DENSITY3D, F.CONTACT_FORCE3D, F.CONTACT_FORCE_DENSITY3D]
            threeDimensionalOverlapMap).allocateBondData
            [F.BOND_DAMAGE, F.DEVIATORIC_PLASTIC_EXTENSION, F.DEVIATORIC_BACK_EXTENSION]
            bondMap,
          [true, true, true, true, true, true, true, true, true]) := by
  simp [stateTestAllocate, State.getScalarMultiVector, State.getVectorMultiVector,
    State.getBondMultiVector, State.allocateScalarData, State.allocateVectorData,
    State.allocateBondData, State.multiVector_allocate, MultiVector.NumVectors,
    MultiVector.MyLength, MultiVector.Map, MultiVector.create, BlockMap.SameAs]

theorem State.getDataMap_eq (s : State) (fieldSpec : FieldSpec) :
    s.getDataMap fieldSpec
      = (s.fieldSpecToData.lookup fieldSpec.id).bind
          (fun slot => (s.multiVector slot.1).map (fun v => v.map)) := by
  unfold State.getDataMap
  cases s.fieldSpecToData.lookup fieldSpec.id with
  | none => rfl
  | some slot =>
    cases hv : s.multiVector slot.1 <;> simp [hv]

theorem State.getData_of_getDataMap (s : State) (hs : s.Consistent) (fieldSpec : FieldSpec)
    (m : BlockMap) (hm : s.getDataMap fieldSpec = some m) :
    ∃ data, s.getData fieldSpec = some data ∧ data.length = m.NumMyPoints := by
  obtain ⟨⟨-, hex⟩, hshape⟩ := hs
  rw [State.getDataMap_eq] at hm
  cases hl : s.fieldSpecToData.lookup fieldSpec.id with
  | none => simp [hl] at hm
  | some slot =>
    obtain ⟨v, hv, hlt⟩ := hex _ (mem_of_lookup_eq_some _ _ _ hl)
    simp only at hv hlt
    simp only [hl, Option.some_bind, hv, Option.map_some', Option.some.injEq] at hm
    refine ⟨v.columns[slot.2], ?_, ?_⟩
    · simp only [State.getData, hl, hv, Option.bind_eq_bind, Option.some_bind]
      exact List.getElem?_eq_getElem hlt
    · rw [← hm]
      exact hshape slot.1 v hv _ (List.getElem_mem _)

theorem State.getDataMap_of_getData (s : State) (fieldSpec : FieldSpec) (data : List Rat)
    (hd : s.getData fieldSpec = some data) : ∃ m, s.getDataMap fieldSpec = some m := by
  rw [State.getDataMap_eq]
  unfold State.getData at hd
  cases hl : s.fieldSpecToData.lookup fieldSpec.id with
  | none => simp [hl] at hd
  | some slot =>
    cases hv : s.multiVector slot.1 with
    | none => simp [hl, hv] at hd
    | some v => exact ⟨v.map, by simp [hv]⟩

theorem State.consistent_after_allocation
    (scalarFieldSpecs vectorFieldSpecs bondFieldSpecs : List FieldSpec)
    (oneDimensionalOverlapMap threeDimensionalOverlapMap bondMap : BlockMap) :
    (((State.create.allocateScalarData scalarFieldSpecs
      oneDimensionalOverlapMap).allocateVectorData vectorFieldSpecs
      threeDimensionalOverlapMap).allocateBondData bondFieldSpecs bondMap).Consistent := by
  refine ⟨State.valid_after_allocation _ _ _ _ _ _, ?_⟩
  intro kind v hv c hc
  have hcreate : ∀ (m : BlockMap) (n : Nat), ∀ c ∈ (MultiVector.create m n).columns,
      c.length = (MultiVector.create m n).map.NumMyPoints := by
    intro m n c hc
    simp only [MultiVector.create] at hc ⊢
    rw [List.eq_of_mem_replicate hc, List.length_replicate]
  cases kind with
  | scalar =>
    have : v = MultiVector.create oneDimensionalOverlapMap scalarFieldSpecs.length := by
      have h2 : some v = some (MultiVector.create oneDimensionalOverlapMap
        scalarFieldSpecs.length) := by rw [← hv]; rfl
      exact Option.some.inj h2
    subst this
    exact hcreate _ _ c hc
  | vector =>
    have : v = MultiVector.create threeDimensionalOverlapMap vectorFieldSpecs.length := by
      have h2 : some v = some (MultiVector.create threeDimensionalOverlapMap
        vectorFieldSpecs.length) := by rw [← hv]; rfl
      exact Option.some.inj h2
    subst this
    exact hcreate _ _ c hc
  | bond =>
    have : v = MultiVector.create bondMap bondFieldSpecs.length := by
      have h2 : some v = some (MultiVector.create bondMap bondFieldSpecs.length) := by
        rw [← hv]; rfl
      exact Option.some.inj h2
    subst this
    exact hcreate _ _ c hc

theorem State.getData_congr_id (s : State) (a b : FieldSpec) (h : a.id = b.id) :
    s.getData a = s.getData b := by
  unfold State.getData
  rw [h]

theorem State.setEntry_index (s : State) (hs : s.Consistent) (fieldSpec : FieldSpec)
    (m : BlockMap) (k : Nat) (hm : s.getDataMap fieldSpec = some m) (hk : k < m.NumMyPoints) :
    ∃ s2, s.setEntry fieldSpec k (k : Rat) = some s2 ∧ s2.Consistent
      ∧ (∀ other, s2.getDataMap other = s.getDataMap other)
      ∧ s2.HoldsIndex fieldSpec k
      ∧ ∀ other j, s.HoldsIndex other j → s2.HoldsIndex other j := by
  obtain ⟨data, hdata, hlen⟩ := State.getData_of_getDataMap s hs fieldSpec m hm
  obtain ⟨s2, h1, h2, h3, h4, h5, h6, h7, h8, h9⟩ :=
    State.setEntry_spec s fieldSpec data k (k : Rat) hs.1 hdata
  have hkd : k < data.length := by omega
  refine ⟨s2, h1, ⟨h2, ?_⟩, ?_, ⟨_, h3, by rw [List.length_set]; exact hkd, h4 hkd⟩, ?_⟩
  · intro kind v2 hv2 c2 hc2
    obtain ⟨v, hv, hmap, hcols⟩ := h9 kind v2 hv2
    obtain ⟨c, hc, hcl⟩ := hcols c2 hc2
    rw [hcl, hmap]
    exact hs.2 kind v hv c hc
  · intro other
    rw [State.getDataMap_eq, State.getDataMap_eq, h8]
    cases s.fieldSpecToData.lookup other.id with
    | none => rfl
    | some slot =>
      simp only [Option.some_bind]
      have := congrArg (Option.map Prod.fst) (h7 slot.1)
      simpa [Option.map_map, Function.comp] using this
  · intro other j ⟨d, hd, hj, hval⟩
    by_cases hid : other.id = fieldSpec.id
    · rw [State.getData_congr_id s other fieldSpec hid, hdata] at hd
      injection hd with hd
      subst hd
      refine ⟨_, by rw [State.getData_congr_id s2 other fieldSpec hid]; exact h3,
        by rw [List.length_set]; exact hj, ?_⟩
      by_cases hjk : j = k
      · subst hjk; exact h4 hkd
      · rw [h5 j hjk]; exact hval
    · have hne : other.opEq fieldSpec = false := by
        simp [FieldSpec.opEq, hid]
      exact ⟨d, by rw [h6 other hne]; exact hd, hj, hval⟩

theorem State.setEntries_index (fieldSpec : FieldSpec) (m : BlockMap) (ks : List Nat) :
    ∀ s : State, s.Consistent → s.getDataMap fieldSpec = some m →
      (∀ k ∈ ks, k < m.NumMyPoints) →
      ∃ s2, ks.foldlM (fun (st : State) (k : Nat) => st.setEntry fieldSpec k (k : Rat)) s
          = some s2
        ∧ s2.Consistent
        ∧ (∀ other, s2.getDataMap other = s.getDataMap other)
        ∧ (∀ k ∈ ks, s2.HoldsIndex fieldSpec k)
        ∧ ∀ other j, s.HoldsIndex other j → s2.HoldsIndex other j := by
  induction ks with
  | nil =>
    intro s hs _ _
    exact ⟨s, rfl, hs, fun _ => rfl, fun k hk => absurd hk (by simp), fun _ _ h => h⟩
  | cons k t ih =>
    intro s hs hm hks
    obtain ⟨s1, h1, hc1, hmap1, hold1, hpres1⟩ :=
      State.setEntry_index s hs fieldSpec m k hm (hks k (List.mem_cons_self _ _))
    obtain ⟨s2, h2, hc2, hmap2, hold2, hpres2⟩ := ih s1 hc1 (by rw [hmap1]; exact hm)
      (fun x hx => hks x (List.mem_cons_of_mem _ hx))
    refine ⟨s2, ?_, hc2, fun other => by rw [hmap2, hmap1], ?_,
      fun other j h => hpres2 other j (hpres1 other j h)⟩
    · rw [List.foldlM_cons, h1]
      exact h2
    · intro x hx
      rcases List.mem_cons.mp hx with rfl | hx
      · exact hpres2 fieldSpec x hold1
      · exact hold2 x hx

theorem foldlM_flatMap_option {σ ι κ : Type} (f : σ → κ → Option σ) (g : ι → List κ)
    (l : List ι) (s : σ) :
    (l.flatMap g).foldlM f s = l.foldlM (fun (st : σ) (i : ι) => (g i).foldlM f st) s := by
  induction l generalizing s with
  | nil => rfl
  | cons a t ih =>
    rw [List.flatMap_cons, List.foldlM_append, List.foldlM_cons]
    cases (g a).foldlM f s with
    | none => rfl
    | some s1 => exact ih s1

theorem State.getDataMap_allocate_mem (kind : FieldKind) (s : State)
    (fieldSpecs : List FieldSpec) (map : BlockMap) (fieldSpec : FieldSpec)
    (h : fieldSpec.id ∈ fieldSpecs.map (fun x => x.id)) :
    (State.allocate kind s fieldSpecs map).getDataMap fieldSpec = some map := by
  have hkey : fieldSpec.id
      ∈ ((fieldSpecs.enum.map (fun e => (e.2.id, kind, e.1))).reverse).map Prod.fst := by
    rw [State.keys_of_specs, List.mem_reverse]; exact h
  obtain ⟨slot, hslot⟩ := lookup_isSome_of_key _ _ hkey
  have hk := ((State.mem_keys_iff kind fieldSpecs (fieldSpec.id, slot)).mp
    (mem_of_lookup_eq_some _ _ _ hslot)).1
  simp only at hk
  rw [State.getDataMap_eq, State.fieldSpecToData_allocate, List.lookup_append, hslot]
  simp only [Option.or, Option.some_bind, State.multiVector_allocate, hk, if_true,
    Option.map_some', MultiVector.create]

theorem State.getDataMap_allocate_not_mem (kind : FieldKind) (s : State)
    (fieldSpecs : List FieldSpec) (map : BlockMap) (fieldSpec : FieldSpec)
    (h : fieldSpec.id ∉ fieldSpecs.map (fun x => x.id))
    (hk : ∀ e ∈ s.fieldSpecToData, e.2.1 ≠ kind) :
    (State.allocate kind s fieldSpecs map).getDataMap fieldSpec = s.getDataMap fieldSpec := by
  have hkey : fieldSpec.id
      ∉ ((fieldSpecs.enum.map (fun e => (e.2.id, kind, e.1))).reverse).map Prod.fst := by
    rw [State.keys_of_specs, List.mem_reverse]; exact h
  rw [State.getDataMap_eq, State.getDataMap_eq, State.fieldSpecToData_allocate,
    List.lookup_append, lookup_eq_none_of_not_key _ _ hkey]
  simp only [Option.none_or]
  cases hl : s.fieldSpecToData.lookup fieldSpec.id with
  | none => rfl
  | some slot =>
    have hne := hk _ (mem_of_lookup_eq_some _ _ _ hl)
    simp only at hne
    simp only [Option.some_bind, State.multiVector_allocate, hne, if_false]

theorem boostCheckClose_self (x tolerance : Rat) : boostCheckClose x x tolerance = true := by
  simp [boostCheckClose]

theorem State.holdsIndex_getD (s : State) (fieldSpec : FieldSpec) (k : Nat) (data : List Rat)
    (h : s.HoldsIndex fieldSpec k) (hd : s.getData fieldSpec = some data) :
    data.getD k 0 = (k : Rat) := by
  obtain ⟨d, hd2, -, hval⟩ := h
  rw [hd] at hd2
  injection hd2 with hd2
  rw [hd2]; exact hval

theorem stateTest_force_loop (fieldSpec : FieldSpec) (n : Nat) (s : State) :
    (List.range n).foldlM
        (fun (state : State) (i : Nat) => do
          let state ← state.setEntry fieldSpec (i * 3) ((i * 3 : Nat) : Rat)
          let state ← state.setEntry fieldSpec (i * 3 + 1) ((i * 3 + 1 : Nat) : Rat)
          state.setEntry fieldSpec (i * 3 + 2) ((i * 3 + 2 : Nat) : Rat))
        s
      = ((List.range n).flatMap (fun (i : Nat) => [i * 3, i * 3 + 1, i * 3 + 2])).foldlM
          (fun (st : State) (k : Nat) => st.setEntry fieldSpec k (k : Rat)) s := by
  rw [foldlM_flatMap_option]
  congr 1
  funext state i
  simp only [List.foldlM_cons, List.foldlM_nil, bind_pure]

theorem stateTest_bond_loop (fieldSpec : FieldSpec) (m : BlockMap) (s : State) :
    (List.range m.NumMyElements).foldlM
        (fun (state : State) (i : Nat) =>
          let firstPointInElement := m.FirstPointInElementList i
          (List.range (m.ElementSize i)).foldlM
            (fun (state : State) (j : Nat) =>
              state.setEntry fieldSpec (firstPointInElement + j)
                ((firstPointInElement + j : Nat) : Rat))
            state)
        s
      = ((List.range m.NumMyElements).flatMap
            (fun (i : Nat) => (List.range (m.ElementSize i)).map
              (fun (j : Nat) => m.FirstPointInElementList i + j))).foldlM
          (fun (st : State) (k : Nat) => st.setEntry fieldSpec k (k : Rat)) s := by
  rw [foldlM_flatMap_option]
  congr 1
  funext state i
  simp only [List.foldlM_map]

theorem BlockMap.point_lt (m : BlockMap) (i j : Nat) (hj : j < m.ElementSize (i : Nat)) :
    m.FirstPointInElementList (i : Nat) + j < m.NumMyPoints := by
  have h := sum_take_add_getD_le m.ElementSizeList i
  have hn : ¬ ((i : Int) < 0) := by omega
  simp only [BlockMap.ElementSize, hn, if_false, Int.toNat_ofNat] at hj
  simp only [BlockMap.FirstPointInElementList, Int.toNat_ofNat, BlockMap.NumMyPoints]
  omega

theorem stateTestInitialization_checks (F : StateTestFieldSpecs) (s : State)
    (data : List Rat) (hd : s.getData F.COORD3D = some data)
    (hz : ∀ x ∈ data, x = 0) :
    ∃ checks, stateTestInitialization F s = some checks ∧ ∀ c ∈ checks, c = true := by
  obtain ⟨m, hm⟩ := State.getDataMap_of_getData s F.COORD3D data hd
  refine ⟨_, by simp only [stateTestInitialization, hd, hm, Option.bind_eq_bind,
    Option.some_bind]; rfl, ?_⟩
  intro c hc
  rw [List.mem_map] at hc
  obtain ⟨i, -, rfl⟩ := hc
  have : data[i]?.getD 0 = 0 := by
    cases hi : data[i]? with
    | none => rfl
    | some x => exact hz x (List.getElem?_mem hi)
  simp [List.getD_eq_getElem?_getD, this]

theorem stateTestSetData_holds (F : StateTestFieldSpecs) (s : State) (hs : s.Consistent)
    (idsMap forceMap bondDamageMap : BlockMap)
    (hI : s.getDataMap F.ID = some idsMap) (hF : s.getDataMap F.FORCE3D = some forceMap)
    (hB : s.getDataMap F.BOND_DAMAGE = some bondDamageMap)
    (h3 : ∀ i, i < forceMap.NumMyElements → i * 3 + 2 < forceMap.NumMyPoints) :
    ∃ s2, stateTestSetData F s = some s2 ∧ s2.Consistent
      ∧ (∀ other, s2.getDataMap other = s.getDataMap other)
      ∧ (∀ i, i < idsMap.NumMyPoints → s2.HoldsIndex F.ID i)
      ∧ (∀ i, i < forceMap.NumMyElements →
          s2.HoldsIndex F.FORCE3D (i * 3) ∧ s2.HoldsIndex F.FORCE3D (i * 3 + 1)
          ∧ s2.HoldsIndex F.FORCE3D (i * 3 + 2))
      ∧ (∀ i, i < bondDamageMap.NumMyElements → ∀ j, j < bondDamageMap.ElementSize (i : Nat) →
          s2.HoldsIndex F.BOND_DAMAGE (bondDamageMap.FirstPointInElementList (i : Nat) + j)) := by
  obtain ⟨s1, h1, hc1, hm1, hold1, hp1⟩ := State.setEntries_index F.ID idsMap
    (List.range idsMap.NumMyPoints) s hs hI (fun k hk => List.mem_range.mp hk)
  obtain ⟨s2, h2, hc2, hm2, hold2, hp2⟩ := State.setEntries_index F.FORCE3D forceMap
    ((List.range forceMap.NumMyElements).flatMap (fun (i : Nat) => [i * 3, i * 3 + 1, i * 3 + 2]))
    s1 hc1 (by rw [hm1]; exact hF) (by
      intro k hk
      rw [List.mem_flatMap] at hk
      obtain ⟨i, hi, hk⟩ := hk
      have := h3 i (List.mem_range.mp hi)
      simp only [List.mem_cons, List.mem_singleton, List.not_mem_nil, or_false] at hk
      rcases hk with rfl | rfl | rfl <;> omega)
  obtain ⟨s3, h3', hc3, hm3, hold3, hp3⟩ := State.setEntries_index F.BOND_DAMAGE bondDamageMap
    ((List.range bondDamageMap.NumMyElements).flatMap
      (fun (i : Nat) => (List.range (bondDamageMap.ElementSize i)).map
        (fun (j : Nat) => bondDamageMap.FirstPointInElementList i + j)))
    s2 hc2 (by rw [hm2, hm1]; exact hB) (by
      intro k hk
      rw [List.mem_flatMap] at hk
      obtain ⟨i, -, hk⟩ := hk
      rw [List.mem_map] at hk
      obtain ⟨j, hj, rfl⟩ := hk
      exact bondDamageMap.point_lt i j (List.mem_range.mp hj))
  refine ⟨s3, ?_, hc3, fun other => by rw [hm3, hm2, hm1], ?_, ?_, ?_⟩
  · have hF1 : s1.getDataMap F.FORCE3D = some forceMap := by rw [hm1]; exact hF
    have hB2 : s2.getDataMap F.BOND_DAMAGE = some bondDamageMap := by rw [hm2, hm1]; exact hB
    unfold stateTestSetData
    simp only [stateTest_force_loop, stateTest_bond_loop]
    simp only [hI, Option.bind_eq_bind, Option.some_bind, h1, hF1, h2, hB2, h3']
  · intro i hi
    exact hp3 _ _ (hp2 _ _ (hold1 i (List.mem_range.mpr hi)))
  · intro i hi
    have hmem : ∀ k ∈ [i * 3, i * 3 + 1, i * 3 + 2],
        k ∈ (List.range forceMap.NumMyElements).flatMap
          (fun (i : Nat) => [i * 3, i * 3 + 1, i * 3 + 2]) := by
      intro k hk
      rw [List.mem_flatMap]
      exact ⟨i, List.mem_range.mpr hi, hk⟩
    exact ⟨hp3 _ _ (hold2 _ (hmem _ (by simp))), hp3 _ _ (hold2 _ (hmem _ (by simp))),
      hp3 _ _ (hold2 _ (hmem _ (by simp)))⟩
  · intro i hi j hj
    apply hold3
    rw [List.mem_flatMap]
    exact ⟨i, List.mem_range.mpr hi, List.mem_map.mpr ⟨j, List.mem_range.mpr hj, rfl⟩⟩

theorem stateTestCheckData_checks (F : StateTestFieldSpecs) (s : State) (hs : s.Consistent)
    (idsMap forceMap bondDamageMap : BlockMap)
    (hI : s.getDataMap F.ID = some idsMap) (hF : s.getDataMap F.FORCE3D = some forceMap)
    (hB : s.getDataMap F.BOND_DAMAGE = some bondDamageMap)
    (hids : ∀ i, i < idsMap.NumMyPoints → s.HoldsIndex F.ID i)
    (hforce : ∀ i, i < forceMap.NumMyElements →
      s.HoldsIndex F.FORCE3D (i * 3) ∧ s.HoldsIndex F.FORCE3D (i * 3 + 1)
      ∧ s.HoldsIndex F.FORCE3D (i * 3 + 2))
    (hbond : ∀ i, i < bondDamageMap.NumMyElements → ∀ j, j < bondDamageMap.ElementSize (i : Nat) →
      s.HoldsIndex F.BOND_DAMAGE (bondDamageMap.FirstPointInElementList (i : Nat) + j)) :
    ∃ checks, stateTestCheckData F s = some checks ∧ ∀ c ∈ checks, c = true := by
  obtain ⟨ids, hdI, -⟩ := State.getData_of_getDataMap s hs F.ID idsMap hI
  obtain ⟨force, hdF, -⟩ := State.getData_of_getDataMap s hs F.FORCE3D forceMap hF
  obtain ⟨bondDamage, hdB, -⟩ := State.getData_of_getDataMap s hs F.BOND_DAMAGE bondDamageMap hB
  refine ⟨_, by simp only [stateTestCheckData, hdI, hI, hdF, hF, hdB, hB, Option.bind_eq_bind,
    Option.some_bind]; rfl, ?_⟩
  intro c hc
  simp only [List.mem_append, List.mem_map, List.mem_flatMap, List.mem_range, List.mem_cons,
    List.mem_singleton, List.not_mem_nil, or_false] at hc
  rcases hc with (⟨i, hi, rfl⟩ | ⟨i, hi, hc⟩) | ⟨i, hi, j, hj, rfl⟩
  · rw [State.holdsIndex_getD s F.ID i ids (hids i hi) hdI]
    exact boostCheckClose_self _ _
  · obtain ⟨h0, h1, h2⟩ := hforce i hi
    rcases hc with rfl | rfl | rfl
    · rw [State.holdsIndex_getD s F.FORCE3D _ force h0 hdF]
      exact boostCheckClose_self _ _
    · rw [State.holdsIndex_getD s F.FORCE3D _ force h1 hdF]
      exact boostCheckClose_self _ _
    · rw [State.holdsIndex_getD s F.FORCE3D _ force h2 hdF]
      exact boostCheckClose_self _ _
  · rw [State.holdsIndex_getD s F.BOND_DAMAGE _ bondDamage (hbond i hi j hj) hdB]
    exact boostCheckClose_self _ _

theorem State.kinds_scalar_vector (scalarFieldSpecs vectorFieldSpecs : List FieldSpec)
    (oneDimensionalOverlapMap threeDimensionalOverlapMap : BlockMap) :
    ∀ e ∈ ((State.create.allocateScalarData scalarFieldSpecs
        oneDimensionalOverlapMap).allocateVectorData vectorFieldSpecs
        threeDimensionalOverlapMap).fieldSpecToData, e.2.1 ≠ FieldKind.bond :=
  State.kinds_allocate FieldKind.vector
    (State.create.allocateScalarData scalarFieldSpecs oneDimensionalOverlapMap)
    vectorFieldSpecs threeDimensionalOverlapMap (fun k => k ≠ FieldKind.bond) (by decide)
    (State.kinds_allocate FieldKind.scalar State.create scalarFieldSpecs
      oneDimensionalOverlapMap (fun k => k ≠ FieldKind.bond) (by decide)
      (fun e he => absurd he (by simp [State.create])))

/-- The unit tests of `State` pass on the model: for all values of the constants of `Field.h`
of which FORCE3D is none of the three bond specs, and all maps of which the vector map has
three points per element, every check of the body that `twoPointProblem` and
`threePointProblem` share is true. -/
theorem stateTestBody_passes (F : StateTestFieldSpecs)
    (oneDimensionalOverlapMap threeDimensionalOverlapMap bondMap : BlockMap)
    (hforce : F.FORCE3D.id ∉ [F.BOND_DAMAGE.id, F.DEVIATORIC_PLASTIC_EXTENSION.id,
      F.DEVIATORIC_BACK_EXTENSION.id])
    (h3 : ∀ i, i < threeDimensionalOverlapMap.NumMyElements →
      i * 3 + 2 < threeDimensionalOverlapMap.NumMyPoints) :
    ∃ checks,
      stateTestBody F oneDimensionalOverlapMap threeDimensionalOverlapMap bondMap = some checks
      ∧ ∀ c ∈ checks, c = true := by
  have hcons := State.consistent_after_allocation
    [F.DEFAULT_FIELDTYPE, F.VOLUME, F.ID, F.PROC_NUM, F.DAMAGE, F.WEIGHTED_VOLUME,
      F.DILATATION, F.NUM_NEIGHBORS, F.LAMBDA, F.SHEAR_CORRECTION_FACTOR]
    [F.COORD3D, F.DISPL3D, F.CURCOORD3D, F.VELOC3D, F.ACCEL3D, F.FORCE3D,
      F.FORCE_DENSITY3D, F.CONTACT_FORCE3D, F.CONTACT_FORCE_DENSITY3D]
    [F.BOND_DAMAGE, F.DEVIATORIC_PLASTIC_EXTENSION, F.DEVIATORIC_BACK_EXTENSION]
    oneDimensionalOverlapMap threeDimensionalOverlapMap bondMap
  have hzero := State.getData_zero_after_allocation
    [F.DEFAULT_FIELDTYPE, F.VOLUME, F.ID, F.PROC_NUM, F.DAMAGE, F.WEIGHTED_VOLUME,
      F.DILATATION, F.NUM_NEIGHBORS, F.LAMBDA, F.SHEAR_CORRECTION_FACTOR]
    [F.COORD3D, F.DISPL3D, F.CURCOORD3D, F.VELOC3D, F.ACCEL3D, F.FORCE3D,
      F.FORCE_DENSITY3D, F.CONTACT_FORCE3D, F.CONTACT_FORCE_DENSITY3D]
    [F.BOND_DAMAGE, F.DEVIATORIC_PLASTIC_EXTENSION, F.DEVIATORIC_BACK_EXTENSION]
    oneDimensionalOverlapMap threeDimensionalOverlapMap bondMap
  generalize hst : ((State.create.allocateScalarData
      [F.DEFAULT_FIELDTYPE, F.VOLUME, F.ID, F.PROC_NUM, F.DAMAGE, F.WEIGHTED_VOLUME,
        F.DILATATION, F.NUM_NEIGHBORS, F.LAMBDA, F.SHEAR_CORRECTION_FACTOR]
      oneDimensionalOverlapMap).allocateVectorData
      [F.COORD3D, F.DISPL3D, F.CURCOORD3D, F.VELOC3D, F.ACCEL3D, F.FORCE3D,
        F.FORCE_DENSITY3D, F.CONTACT_FORCE3D, F.CONTACT_FORCE_DENSITY3D]
      threeDimensionalOverlapMap).allocateBondData
      [F.BOND_DAMAGE, F.DEVIATORIC_PLASTIC_EXTENSION, F.DEVIATORIC_BACK_EXTENSION]
      bondMap = st at hcons hzero
  have hF : st.getDataMap F.FORCE3D = some threeDimensionalOverlapMap := by
    rw [← hst]
    unfold State.allocateBondData
    rw [State.getDataMap_allocate_not_mem FieldKind.bond _ _ _ _ (by simpa using hforce)
      (State.kinds_scalar_vector _ _ _ _)]
    unfold State.allocateVectorData
    exact State.getDataMap_allocate_mem FieldKind.vector _ _ _ _ (by simp)
  have hB : st.getDataMap F.BOND_DAMAGE = some bondMap := by
    rw [← hst]
    unfold State.allocateBondData
    exact State.getDataMap_allocate_mem FieldKind.bond _ _ _ _ (by simp)
  obtain ⟨dI, hdI, -⟩ := hzero F.ID (by simp)
  obtain ⟨idsMap, hI⟩ := State.getDataMap_of_getData st F.ID dI hdI
  obtain ⟨dC, hdC, hzC, -⟩ := hzero F.COORD3D (by simp)
  obtain ⟨init, hinit, hinitTrue⟩ := stateTestInitialization_checks F st dC hdC hzC
  obtain ⟨s2, hset, hc2, hmap2, hids, hfor, hbon⟩ := stateTestSetData_holds F st hcons
    idsMap threeDimensionalOverlapMap bondMap hI hF hB h3
  obtain ⟨data, hdata, hdataTrue⟩ := stateTestCheckData_checks F s2 hc2 idsMap
    threeDimensionalOverlapMap bondMap (by rw [hmap2]; exact hI) (by rw [hmap2]; exact hF)
    (by rw [hmap2]; exact hB) hids hfor hbon
  refine ⟨[true, true, true, true, true, true, true, true, true] ++ init ++ data, ?_, ?_⟩
  · unfold stateTestBody
    rw [stateTestAllocate_checks, hst]
    simp only [Option.bind_eq_bind, Option.some_bind, hinit, hset, hdata]
    rfl
  · intro c hc
    simp only [List.mem_append] at hc
    rcases hc with (hc | hc) | hc
    · simp only [List.mem_cons, List.mem_singleton, List.not_mem_nil, or_false, or_self] at hc
      exact hc
    · exact hinitTrue c hc
    · exact hdataTrue c hc

/-- The test `twoPointProblem` passes on the model, on one process and on each of two
processes: every check is true. -/
theorem twoPointProblem_passes (F : StateTestFieldSpecs) (numProcs : Nat)
    (hprocs : numProcs = 1 ∨ numProcs = 2)
    (hforce : F.FORCE3D.id ∉ [F.BOND_DAMAGE.id, F.DEVIATORIC_PLASTIC_EXTENSION.id,
      F.DEVIATORIC_BACK_EXTENSION.id]) :
    ∃ checks, twoPointProblem F numProcs = some checks ∧ ∀ c ∈ checks, c = true := by
  rcases hprocs with rfl | rfl
  · exact stateTestBody_passes F _ _ _ hforce (by decide)
  · exact stateTestBody_passes F _ _ _ hforce (by decide)

/-- The test `threePointProblem` passes on the model, on one process and on each of two
processes: every check is true. -/
theorem threePointProblem_passes (F : StateTestFieldSpecs) (numProcs myPID : Nat)
    (hprocs : (numProcs = 1 ∧ myPID = 0) ∨ (numProcs = 2 ∧ (myPID = 0 ∨ myPID = 1)))
    (hforce : F.FORCE3D.id ∉ [F.BOND_DAMAGE.id, F.DEVIATORIC_PLASTIC_EXTENSION.id,
      F.DEVIATORIC_BACK_EXTENSION.id]) :
    ∃ checks, threePointProblem F numProcs myPID = some checks ∧ ∀ c ∈ checks, c = true := by
  rcases hprocs with ⟨rfl, rfl⟩ | ⟨rfl, rfl | rfl⟩
  · exact stateTestBody_passes F _ _ _ hforce (by decide)
  · exact stateTestBody_passes F _ _ _ hforce (by decide)
  · exact stateTestBody_passes F _ _ _ hforce (by decide)

/-! ## State: the claims -/

/-- C22: after `allocateScalarData`, `allocateVectorData` or `allocateBondData` with a list of
field specs and a map, whatever the state held before, the multivector of that kind exists, has
as many vectors as the list has specs, has the local length `NumMyPoints` of the map, which for
a bond map is the sum of its block sizes, has columns of exactly that length, and its map is the
map that was passed in.  The nine checks of these properties in the unit tests, made right after
each of the three allocations, succeed for all values of the constants of `Field.h` and all
maps. -/
theorem State.allocate_multiVector (s : State) (fieldSpecs : List FieldSpec) (map : BlockMap) :
    (∃ v, (s.allocateScalarData fieldSpecs map).getScalarMultiVector = some v
        ∧ v.NumVectors = fieldSpecs.length ∧ v.MyLength = map.NumMyPoints ∧ v.Map = map
        ∧ ∀ c ∈ v.columns, c.length = map.NumMyPoints)
    ∧ (∃ v, (s.allocateVectorData fieldSpecs map).getVectorMultiVector = some v
        ∧ v.NumVectors = fieldSpecs.length ∧ v.MyLength = map.NumMyPoints ∧ v.Map = map
        ∧ ∀ c ∈ v.columns, c.length = map.NumMyPoints)
    ∧ (∃ v, (s.allocateBondData fieldSpecs map).getBondMultiVector = some v
        ∧ v.NumVectors = fieldSpecs.length ∧ v.MyLength = map.ElementSizeList.sum
        ∧ v.Map = map ∧ ∀ c ∈ v.columns, c.length = map.ElementSizeList.sum)
    ∧ ∀ (F : StateTestFieldSpecs)
        (oneDimensionalOverlapMap threeDimensionalOverlapMap bondMap : BlockMap),
        ∃ state,
          stateTestAllocate F oneDimensionalOverlapMap threeDimensionalOverlapMap bondMap
            = some (state, [true, true, true, true, true, true, true, true, true]) := by
  have hcols : ∀ c ∈ (MultiVector.create map fieldSpecs.length).columns,
      c.length = map.NumMyPoints := by
    intro c hc
    simp only [MultiVector.create] at hc
    rw [List.eq_of_mem_replicate hc, List.length_replicate]
  have hnum : (MultiVector.create map fieldSpecs.length).NumVectors = fieldSpecs.length := by
    simp [MultiVector.NumVectors, MultiVector.create]
  exact ⟨⟨_, rfl, hnum, rfl, rfl, hcols⟩, ⟨_, rfl, hnum, rfl, rfl, hcols⟩,
    ⟨_, rfl, hnum, rfl, rfl, hcols⟩,
    fun F m1 m3 mb => ⟨_, stateTestAllocate_checks F m1 m3 mb⟩⟩

/-- C24: immediately after an allocation, `getData` returns, for every spec of the allocated
list, a column of `NumMyPoints` zeros, whatever the state held before; and after the three
allocations of the unit tests on a new state, `getData` returns a column of zeros for every spec
of the three lists (a spec whose id is in several lists is keyed to the list allocated last).
The check of the unit tests that every entry of the coordinates is zero after the allocations
succeeds for all values of the constants of `Field.h` and all maps. -/
theorem State.getData_after_allocation :
    (∀ (kind : FieldKind) (s : State) (fieldSpecs : List FieldSpec) (map : BlockMap)
        (fieldSpec : FieldSpec), fieldSpec ∈ fieldSpecs →
        (State.allocate kind s fieldSpecs map).getData fieldSpec
          = some (List.replicate map.NumMyPoints 0))
    ∧ (∀ (scalarFieldSpecs vectorFieldSpecs bondFieldSpecs : List FieldSpec)
        (oneDimensionalOverlapMap threeDimensionalOverlapMap bondMap : BlockMap)
        (fieldSpec : FieldSpec),
        fieldSpec ∈ scalarFieldSpecs ++ vectorFieldSpecs ++ bondFieldSpecs →
        ∃ data,
          (((State.create.allocateScalarData scalarFieldSpecs
              oneDimensionalOverlapMap).allocateVectorData vectorFieldSpecs
              threeDimensionalOverlapMap).allocateBondData bondFieldSpecs bondMap).getData
              fieldSpec = some data
          ∧ (∀ x ∈ data, x = 0)
          ∧ data.length
              = if fieldSpec.id ∈ bondFieldSpecs.map (fun x => x.id) then bondMap.NumMyPoints
                else if fieldSpec.id ∈ vectorFieldSpecs.map (fun x => x.id) then
                  threeDimensionalOverlapMap.NumMyPoints
                else oneDimensionalOverlapMap.NumMyPoints)
    ∧ ∀ (F : StateTestFieldSpecs)
        (oneDimensionalOverlapMap threeDimensionalOverlapMap bondMap : BlockMap),
        ∃ state nine checks,
          stateTestAllocate F oneDimensionalOverlapMap threeDimensionalOverlapMap bondMap
            = some (state, nine)
          ∧ stateTestInitialization F state = some checks
          ∧ ∀ c ∈ checks, c = true := by
  refine ⟨fun kind s fieldSpecs map fieldSpec h =>
    State.getData_allocate_mem kind s fieldSpecs map fieldSpec
      (List.mem_map_of_mem (fun x => x.id) h),
    State.getData_zero_after_allocation, ?_⟩
  intro F m1 m3 mb
  obtain ⟨data, hdata, hzero, -⟩ := State.getData_zero_after_allocation
    [F.DEFAULT_FIELDTYPE, F.VOLUME, F.ID, F.PROC_NUM, F.DAMAGE, F.WEIGHTED_VOLUME,
      F.DILATATION, F.NUM_NEIGHBORS, F.LAMBDA, F.SHEAR_CORRECTION_FACTOR]
    [F.COORD3D, F.DISPL3D, F.CURCOORD3D, F.VELOC3D, F.ACCEL3D, F.FORCE3D,
      F.FORCE_DENSITY3D, F.CONTACT_FORCE3D, F.CONTACT_FORCE_DENSITY3D]
    [F.BOND_DAMAGE, F.DEVIATORIC_PLASTIC_EXTENSION, F.DEVIATORIC_BACK_EXTENSION]
    m1 m3 mb F.COORD3D (by simp)
  obtain ⟨checks, hchecks, htrue⟩ := stateTestInitialization_checks F _ data hdata hzero
  exact ⟨_, _, checks, stateTestAllocate_checks F m1 m3 mb, hchecks, htrue⟩

/-- C24, at an instance: the maps of the three-point unit test on one process, with two scalar
specs, two vector specs and one bond spec; the coordinates read back as nine zeros. -/
theorem State.getData_after_allocation_witness :
    (((State.create.allocateScalarData
          [FieldSpec.make 1 0 1 0 0 "Volume", FieldSpec.make 2 0 1 0 0 "ID"]
          (BlockMap.mkUniform 3 [0, 1, 2] 1)).allocateVectorData
          [FieldSpec.make 3 0 3 0 0 "Coordinates", FieldSpec.make 4 0 3 0 0 "Force"]
          (BlockMap.mkUniform 3 [0, 1, 2] 3)).allocateBondData
          [FieldSpec.make 5 1 1 0 0 "Bond_Damage"]
          (BlockMap.mkVariable 3 [0, 1, 2] [1, 2, 1])).getData
        (FieldSpec.make 3 0 3 0 0 "Coordinates")
      = some [0, 0, 0, 0, 0, 0, 0, 0, 0]
    ∧ ∃ data,
        (((State.create.allocateScalarData
            [FieldSpec.make 1 0 1 0 0 "Volume", FieldSpec.make 2 0 1 0 0 "ID"]
            (BlockMap.mkUniform 3 [0, 1, 2] 1)).allocateVectorData
            [FieldSpec.make 3 0 3 0 0 "Coordinates", FieldSpec.make 4 0 3 0 0 "Force"]
            (BlockMap.mkUniform 3 [0, 1, 2] 3)).allocateBondData
            [FieldSpec.make 5 1 1 0 0 "Bond_Damage"]
            (BlockMap.mkVariable 3 [0, 1, 2] [1, 2, 1])).getData
          (FieldSpec.make 3 0 3 0 0 "Coordinates") = some data
        ∧ ∀ x ∈ data, x = 0 := by
  refine ⟨by decide, ?_⟩
  obtain ⟨data, h1, h2, -⟩ := State.getData_after_allocation.2.1
    [FieldSpec.make 1 0 1 0 0 "Volume", FieldSpec.make 2 0 1 0 0 "ID"]
    [FieldSpec.make 3 0 3 0 0 "Coordinates", FieldSpec.make 4 0 3 0 0 "Force"]
    [FieldSpec.make 5 1 1 0 0 "Bond_Damage"]
    (BlockMap.mkUniform 3 [0, 1, 2] 1) (BlockMap.mkUniform 3 [0, 1, 2] 3)
    (BlockMap.mkVariable 3 [0, 1, 2] [1, 2, 1])
    (FieldSpec.make 3 0 3 0 0 "Coordinates") (by decide)
  exact ⟨data, h1, h2⟩

/-- C23: in a state with consistent keys, as the three allocations of the unit tests on a new
state give, a value written through `getData(spec)` at an entry of an allocated field is what a
later `getData(spec)` returns at that entry, the other entries of that field keep their values,
every field whose spec differs from it under `operator==` reads back exactly as before the
write, and the keys stay consistent, so the same holds for every further write.  The unit
tests `twoPointProblem` and `threePointProblem`, which write the ID, the force and the bond
damage and then read them back, pass on one process and on each of two processes, for all
values of the constants of `Field.h` of which FORCE3D is none of the three bond specs. -/
theorem State.setEntry_getData (s : State) (fieldSpec : FieldSpec) (data : List Rat) (i : Nat)
    (value : Rat) (hv : s.Valid) (hdata : s.getData fieldSpec = some data) :
    (∃ s2, s.setEntry fieldSpec i value = some s2
      ∧ s2.Valid
      ∧ s2.getData fieldSpec = some (data.set i value)
      ∧ (i < data.length → (data.set i value).getD i 0 = value)
      ∧ (∀ j, j ≠ i → (data.set i value).getD j 0 = data.getD j 0)
      ∧ (∀ other : FieldSpec, other.opEq fieldSpec = false → s2.getData other = s.getData other)
      ∧ (∀ kind, (s2.multiVector kind).map (fun v => (v.map, v.NumVectors))
          = (s.multiVector kind).map (fun v => (v.map, v.NumVectors))))
    ∧ (∀ (scalarFieldSpecs vectorFieldSpecs bondFieldSpecs : List FieldSpec)
        (oneDimensionalOverlapMap threeDimensionalOverlapMap bondMap : BlockMap),
        (((State.create.allocateScalarData scalarFieldSpecs
          oneDimensionalOverlapMap).allocateVectorData vectorFieldSpecs
          threeDimensionalOverlapMap).allocateBondData bondFieldSpecs bondMap).Valid)
    ∧ (∀ (F : StateTestFieldSpecs) (numProcs : Nat), numProcs = 1 ∨ numProcs = 2 →
        F.FORCE3D.id ∉ [F.BOND_DAMAGE.id, F.DEVIATORIC_PLASTIC_EXTENSION.id,
          F.DEVIATORIC_BACK_EXTENSION.id] →
        ∃ checks, twoPointProblem F numProcs = some checks ∧ ∀ c ∈ checks, c = true)
    ∧ ∀ (F : StateTestFieldSpecs) (numProcs myPID : Nat),
        (numProcs = 1 ∧ myPID = 0) ∨ (numProcs = 2 ∧ (myPID = 0 ∨ myPID = 1)) →
        F.FORCE3D.id ∉ [F.BOND_DAMAGE.id, F.DEVIATORIC_PLASTIC_EXTENSION.id,
          F.DEVIATORIC_BACK_EXTENSION.id] →
        ∃ checks, threePointProblem F numProcs myPID = some checks ∧ ∀ c ∈ checks, c = true := by
  refine ⟨?_, State.valid_after_allocation, twoPointProblem_passes, threePointProblem_passes⟩
  obtain ⟨s2, h1, h2, h3, h4, h5, h6, h7, -⟩ :=
    State.setEntry_spec s fieldSpec data i value hv hdata
  exact ⟨s2, h1, h2, h3, h4, h5, h6, h7⟩

/-- C23, at an instance: in the state of the three-point unit test on one process, the value 1
written to entry 1 of the ID field is read back, and the force field still reads as nine
zeros. -/
theorem State.setEntry_getData_witness :
    ∃ s2,
      (((State.create.allocateScalarData
            [FieldSpec.make 1 0 1 0 0 "Volume", FieldSpec.make 2 0 1 0 0 "ID"]
            (BlockMap.mkUniform 3 [0, 1, 2] 1)).allocateVectorData
            [FieldSpec.make 3 0 3 0 0 "Coordinates", FieldSpec.make 4 0 3 0 0 "Force"]
            (BlockMap.mkUniform 3 [0, 1, 2] 3)).allocateBondData
            [FieldSpec.make 5 1 1 0 0 "Bond_Damage"]
            (BlockMap.mkVariable 3 [0, 1, 2] [1, 2, 1])).setEntry
          (FieldSpec.make 2 0 1 0 0 "ID") 1 1 = some s2
      ∧ s2.getData (FieldSpec.make 2 0 1 0 0 "ID") = some [0, 1, 0]
      ∧ s2.getData (FieldSpec.make 4 0 3 0 0 "Force") = some [0, 0, 0, 0, 0, 0, 0, 0, 0] := by
  obtain ⟨s2, h1, -, h3, -, -, h6, -⟩ := (State.setEntry_getData
    (((State.create.allocateScalarData
        [FieldSpec.make 1 0 1 0 0 "Volume", FieldSpec.make 2 0 1 0 0 "ID"]
        (BlockMap.mkUniform 3 [0, 1, 2] 1)).allocateVectorData
        [FieldSpec.make 3 0 3 0 0 "Coordinates", FieldSpec.make 4 0 3 0 0 "Force"]
        (BlockMap.mkUniform 3 [0, 1, 2] 3)).allocateBondData
        [FieldSpec.make 5 1 1 0 0 "Bond_Damage"]
        (BlockMap.mkVariable 3 [0, 1, 2] [1, 2, 1]))
    (FieldSpec.make 2 0 1 0 0 "ID") [0, 0, 0] 1 1
    (State.valid_after_allocation _ _ _ _ _ _) (by decide)).1
  refine ⟨s2, h1, h3, ?_⟩
  rw [h6 (FieldSpec.make 4 0 3 0 0 "Force") (by decide)]
  decide

/-! ## rebalance: the contact neighborhood data -/

end Peridigm
